import Mathlib

/-!
# Astron Client Agent: a shallow embedding of `src/clientagent/ClientAgent.cpp`

The per-connection session (`Client`), its client-facing handlers
(`network_datagram` and the `handle_client_*` functions), its MD-facing handler
(`handle_datagram`), the interest bookkeeping (`add_interest`, `remove_interest`,
`close_zones`) and the `ChannelTracker` are translated function by function. The
role `ClientAgent` is the tracker together with the sessions that exist.

Conventions of the embedding:

* machine integers are `Nat`; every value read from a datagram is reduced to its
  width by the reader, every value written is reduced by the writer;
* a `Datagram` is the list of its bytes, a `DatagramIterator` is the list of the
  bytes that are still unread;
* a function that can throw `DatagramIteratorEOF` returns the session as it is
  at the throw together with `none`;
* `std::set` / `std::unordered_set` are lists used as sets (insertion appends
  when absent, erasure removes every occurrence), `std::map` is an association
  list; the order of a list stands for the iteration order of the container,
  and the statements below fix no particular order;
* constants and collaborators that are declared outside the translated file
  (message numbers, disconnect codes, the DC registry, the uberdog table built
  from the configuration) are the fields of `Config`.
-/

namespace Astron

/-! ## Datagram codec -/

/-- Bytes of a datagram, least significant byte of every integer first. -/
abbrev Datagram := List Nat

/-- Unread bytes of a datagram. -/
abbrev DatagramIterator := List Nat

/-- Modelled from the spec: Datagram::add_uint8 (util/Datagram.h is not part of the
sources), a typed appender writing one byte. -/
def add_uint8 (v : Nat) : Datagram := [v % 256]

/-- Modelled from the spec: Datagram::add_uint16, a typed appender writing two bytes. -/
def add_uint16 (v : Nat) : Datagram := [v % 256, v / 256 % 256]

/-- Modelled from the spec: Datagram::add_uint32, a typed appender writing four bytes. -/
def add_uint32 (v : Nat) : Datagram :=
  [v % 256, v / 256 % 256, v / 65536 % 256, v / 16777216 % 256]

/-- Modelled from the spec: Datagram::add_uint64, a typed appender writing eight bytes. -/
def add_uint64 (v : Nat) : Datagram :=
  add_uint32 (v % 4294967296) ++ add_uint32 (v / 4294967296)

/-- Modelled from the spec: Datagram::add_string, a string is its 16-bit length
followed by its bytes. -/
def add_string (s : List Nat) : Datagram := add_uint16 s.length ++ s

/-- Modelled from the spec: Datagram::add_server_header, the single-recipient MD
envelope `u8 1; u64 recipient; u64 sender; u16 msgtype`. -/
def add_server_header (recipient sender msgtype : Nat) : Datagram :=
  add_uint8 1 ++ add_uint64 recipient ++ add_uint64 sender ++ add_uint16 msgtype

/-- Modelled from the spec: DatagramIterator::read_uint16, `none` is the truncated error. -/
def read_uint16 : DatagramIterator → Option (Nat × DatagramIterator)
  | b0 :: b1 :: r => some (b0 % 256 + 256 * (b1 % 256), r)
  | _ => none

/-- Modelled from the spec: DatagramIterator::read_uint32, `none` is the truncated error. -/
def read_uint32 : DatagramIterator → Option (Nat × DatagramIterator)
  | b0 :: b1 :: b2 :: b3 :: r =>
    some (b0 % 256 + 256 * (b1 % 256) + 65536 * (b2 % 256) + 16777216 * (b3 % 256), r)
  | _ => none

/-- Modelled from the spec: DatagramIterator::read_uint64, `none` is the truncated error. -/
def read_uint64 (dgi : DatagramIterator) : Option (Nat × DatagramIterator) :=
  match read_uint32 dgi with
  | none => none
  | some (lo, r) =>
    match read_uint32 r with
    | none => none
    | some (hi, r2) => some (lo + 4294967296 * hi, r2)

/-- Modelled from the spec: DatagramIterator::read_string, a 16-bit length and that
many bytes; `none` is the truncated error. -/
def read_string (dgi : DatagramIterator) : Option (List Nat × DatagramIterator) :=
  match read_uint16 dgi with
  | none => none
  | some (len, r) => if r.length < len then none else some (r.take len, r.drop len)

/-- Modelled from the spec: DatagramIterator::read_remainder, all unread bytes. -/
def read_remainder (dgi : DatagramIterator) : List Nat × DatagramIterator := (dgi, [])

/-- A `std::string` is the list of its bytes; this gives the bytes of a literal text. -/
def string_bytes (s : String) : List Nat := s.toList.map (fun ch => ch.toNat % 256)

/-- Text written by `ss << v` and by `std::to_string(v)`: the decimal digits. -/
def dec_text (v : Nat) : List Nat := (Nat.toDigits 10 v).map (fun ch => ch.toNat % 256)

/-- Text written by `ss << std::hex << v`: the hexadecimal digits. -/
def hex_text (v : Nat) : List Nat := (Nat.toDigits 16 v).map (fun ch => ch.toNat % 256)

/-! ## Containers -/

/-- The call `s.insert(a)` on a set. -/
def set_insert (s : List Nat) (a : Nat) : List Nat := if a ∈ s then s else s ++ [a]

/-- The call `s.erase(a)` on a set. -/
def set_erase (s : List Nat) (a : Nat) : List Nat := s.filter (fun x => x ≠ a)

/-- The lookup `m.find(key)` on a map. -/
def map_find {β : Type} : List (Nat × β) → Nat → Option β
  | [], _ => none
  | e :: m, key => if e.1 = key then some e.2 else map_find m key

/-- Keys of a map. -/
def map_keys {β : Type} (m : List (Nat × β)) : List Nat := m.map (fun e => e.1)

/-- The call `m.erase(key)` on a map. -/
def map_erase {β : Type} (m : List (Nat × β)) (key : Nat) : List (Nat × β) :=
  m.filter (fun e => e.1 ≠ key)

/-- The assignment `m[key] = v` on a map. -/
def map_assign {β : Type} (m : List (Nat × β)) (key : Nat) (v : β) : List (Nat × β) :=
  if key ∈ map_keys m then m.map (fun e => if e.1 = key then (key, v) else e)
  else m ++ [(key, v)]

/-- The call `m.insert(std::pair(key, v))` on a map: an existing entry is kept. -/
def map_insert {β : Type} (m : List (Nat × β)) (key : Nat) (v : β) : List (Nat × β) :=
  if key ∈ map_keys m then m else m ++ [(key, v)]

/-! ## DC registry, uberdogs, configuration -/

/-- The part of a `DCField` the agent consults. -/
structure DCField where
  name : String
  clsend : Bool
  ownsend : Bool
  deriving DecidableEq, Repr

/-- The part of a `DCClass` the agent consults: its name and its fields by index. -/
structure DCClass where
  name : String
  fields : List (Nat × DCField)
  deriving DecidableEq, Repr

/-- The call `dcc->get_field_by_index(field_id)`, `none` is the null pointer. -/
def DCClass.get_field_by_index (dcc : DCClass) (field_id : Nat) : Option DCField :=
  map_find dcc.fields field_id

/-- An entry of the process-wide uberdog table; the role constructor refuses to
start with a null class, so `dcc` is a class. -/
structure Uberdog where
  dcc : DCClass
  anonymous : Bool
  deriving DecidableEq, Repr

/-- Constants and collaborators declared outside `ClientAgent.cpp`. -/
structure Config where
  CLIENT_HELLO : Nat
  CLIENT_HELLO_RESP : Nat
  CLIENT_EJECT : Nat
  CLIENT_OBJECT_SET_FIELD : Nat
  CLIENT_OBJECT_LOCATION : Nat
  CLIENT_OBJECT_LEAVING : Nat
  CLIENT_OBJECT_LEAVING_OWNER : Nat
  CLIENT_ENTER_OBJECT_REQUIRED : Nat
  CLIENT_ENTER_OBJECT_REQUIRED_OTHER : Nat
  CLIENT_ENTER_OBJECT_REQUIRED_OTHER_OWNER : Nat
  CLIENT_ADD_INTEREST : Nat
  CLIENT_ADD_INTEREST_MULTIPLE : Nat
  CLIENT_REMOVE_INTEREST : Nat
  CLIENT_DONE_INTEREST_RESP : Nat
  CLIENTAGENT_EJECT : Nat
  CLIENTAGENT_DROP : Nat
  CLIENTAGENT_SET_STATE : Nat
  CLIENTAGENT_SET_CLIENT_ID : Nat
  CLIENTAGENT_SEND_DATAGRAM : Nat
  CLIENTAGENT_OPEN_CHANNEL : Nat
  CLIENTAGENT_CLOSE_CHANNEL : Nat
  CLIENTAGENT_ADD_POST_REMOVE : Nat
  CLIENTAGENT_CLEAR_POST_REMOVES : Nat
  STATESERVER_OBJECT_SET_FIELD : Nat
  STATESERVER_OBJECT_DELETE_RAM : Nat
  STATESERVER_OBJECT_ENTER_OWNER_WITH_REQUIRED_OTHER : Nat
  STATESERVER_OBJECT_ENTER_LOCATION_WITH_REQUIRED : Nat
  STATESERVER_OBJECT_ENTER_LOCATION_WITH_REQUIRED_OTHER : Nat
  STATESERVER_OBJECT_GET_ZONES_COUNT_RESP : Nat
  STATESERVER_OBJECT_GET_ZONES_OBJECTS : Nat
  STATESERVER_OBJECT_CHANGING_LOCATION : Nat
  STATESERVER_OBJECT_SET_LOCATION : Nat
  CLIENT_DISCONNECT_GENERIC : Nat
  CLIENT_DISCONNECT_NO_HELLO : Nat
  CLIENT_DISCONNECT_BAD_DCHASH : Nat
  CLIENT_DISCONNECT_BAD_VERSION : Nat
  CLIENT_DISCONNECT_INVALID_MSGTYPE : Nat
  CLIENT_DISCONNECT_ANONYMOUS_VIOLATION : Nat
  CLIENT_DISCONNECT_MISSING_OBJECT : Nat
  CLIENT_DISCONNECT_FORBIDDEN_FIELD : Nat
  CLIENT_DISCONNECT_FORBIDDEN_RELOCATE : Nat
  CLIENT_DISCONNECT_TRUNCATED_DATAGRAM : Nat
  CLIENT_DISCONNECT_OVERSIZED_DATAGRAM : Nat
  CLIENT_STATE_NEW : Nat
  CLIENT_STATE_ANONYMOUS : Nat
  CLIENT_STATE_ESTABLISHED : Nat
  BCHAN_CLIENTS : Nat
  /-- The value of `g_dcf->get_hash()`. -/
  expected_hash : Nat
  /-- The value of `server_version.get_rval(m_roleconfig)`. -/
  expected_version : List Nat
  /-- The call `g_dcf->get_class(dc_id)`, `none` is the null pointer. -/
  get_class : Nat → Option DCClass
  /-- The global `uberdogs` table. -/
  uberdogs : List (Nat × Uberdog)
  /-- The call `dgi.unpack_field(field, data)`: the bytes of one field and the
  iterator behind them, `none` is the truncated error. -/
  unpack_field : DCField → DatagramIterator → Option (List Nat × DatagramIterator)

/-- Modelled from the spec: the macro LOCATION2CHANNEL (core/global.h is not part of
the sources), `L(parent, zone) = (parent << 32) | zone`. -/
def LOCATION2CHANNEL (parent zone : Nat) : Nat := (parent <<< 32) ||| zone

/-! ## Session data -/

/-- The struct `DistributedObject`; `dcc` is a pointer that may be null. -/
structure DistributedObject where
  id : Nat
  parent : Nat
  zone : Nat
  dcc : Option DCClass
  deriving DecidableEq, Repr

/-- The struct `Interest`. -/
structure Interest where
  id : Nat
  parent : Nat
  zones : List Nat
  deriving DecidableEq, Repr

/-- Modelled from the spec: the class InterestOperation (ClientAgent.h is not part of
the sources): interest id, client context, parent, the zones that were newly
opened and the expected total once `GET_ZONES_COUNT_RESP` has delivered it. -/
structure InterestOperation where
  m_interest_id : Nat
  m_client_context : Nat
  m_parent : Nat
  m_zones : List Nat
  m_total : Option Nat
  deriving DecidableEq, Repr

/-- Modelled from the spec: the `arrived` count of an InterestOperation, the objects of
the projection located at `(parent, z)` for a zone `z` of the operation. -/
def InterestOperation.arrived (op : InterestOperation)
    (dist_objs : List (Nat × DistributedObject)) : Nat :=
  (dist_objs.filter (fun e => e.2.parent = op.m_parent ∧ e.2.zone ∈ op.m_zones)).length

/-- Modelled from the spec: InterestOperation::is_ready, the operation is ready when
`total_expected` is set and `arrived == total_expected`. -/
def InterestOperation.is_ready (op : InterestOperation)
    (dist_objs : List (Nat × DistributedObject)) : Bool :=
  match op.m_total with
  | none => false
  | some total => op.arrived dist_objs == total

/-- Modelled from the spec: InterestOperation::store_total, `total_expected = count`. -/
def InterestOperation.store_total (op : InterestOperation) (count : Nat) : InterestOperation :=
  { op with m_total := some count }

/-- The class `Client` together with what its base classes hold for it: the
socket (`connected`), the frames written to it (`net_out`), the MD
subscriptions, the datagrams sent on the MD bus (`md_out`), the post-remove
queue and the events handed to the event sender. -/
structure Client where
  m_state : Nat
  m_channel : Nat
  m_allocated_channel : Nat
  m_is_channel_allocated : Bool
  m_next_context : Nat
  m_owned_objects : List Nat
  m_seen_objects : List Nat
  m_dist_objs : List (Nat × DistributedObject)
  m_interests : List (Nat × Interest)
  m_pending_interests : List (Nat × InterestOperation)
  connected : Bool
  subscriptions : List Nat
  post_removes : List (List Nat)
  net_out : List Datagram
  md_out : List Datagram
  events : List (List (List Nat))
  deriving DecidableEq, Repr

/-- Modelled from the spec: NetworkClient::network_send, one frame to the client socket. -/
def network_send (c : Client) (dg : Datagram) : Client :=
  { c with net_out := c.net_out ++ [dg] }

/-- Modelled from the spec: MDParticipantInterface::send, one datagram to the MD bus. -/
def send (c : Client) (dg : Datagram) : Client :=
  { c with md_out := c.md_out ++ [dg] }

/-- Modelled from the spec: MDParticipantInterface::subscribe_channel. -/
def subscribe_channel (c : Client) (channel : Nat) : Client :=
  { c with subscriptions := set_insert c.subscriptions channel }

/-- Modelled from the spec: MDParticipantInterface::unsubscribe_channel. -/
def unsubscribe_channel (c : Client) (channel : Nat) : Client :=
  { c with subscriptions := set_erase c.subscriptions channel }

/-- Modelled from the spec: NetworkClient::do_disconnect, the socket is closed. -/
def do_disconnect (c : Client) : Client := { c with connected := false }

/-- The function `Client::send_event`. -/
def send_event (c : Client) (event : List (List Nat)) : Client :=
  { c with events :=
      c.events ++ [(string_bytes "Client:" ++ dec_text c.m_allocated_channel) :: event] }

/-- The function `Client::send_disconnect`. -/
def send_disconnect (k : Config) (c : Client) (reason : Nat) (error_string : List Nat)
    (security : Bool) : Client :=
  if c.connected then
    let c1 := send_event c
      [string_bytes (if security then "client-eject-security" else "client-eject"),
        dec_text (reason % 65536), error_string]
    let resp := add_uint16 k.CLIENT_EJECT ++ add_uint16 reason ++ add_string error_string
    do_disconnect (network_send c1 resp)
  else c

/-- The function `Client::lookup_object`, `none` is the null pointer. -/
def lookup_object (k : Config) (c : Client) (do_id : Nat) : Option DCClass :=
  match map_find k.uberdogs do_id with
  | some u => some u.dcc
  | none =>
    if do_id ∈ c.m_owned_objects ∨ do_id ∈ c.m_seen_objects then
      match map_find c.m_dist_objs do_id with
      | some obj => obj.dcc
      | none => none
    else none

/-- The function `Client::lookup_interests`. -/
def lookup_interests (c : Client) (parent_id zone_id : Nat) : List Interest :=
  (c.m_interests.filter (fun e => parent_id = e.2.parent ∧ zone_id ∈ e.2.zones)).map
    (fun e => e.2)

/-- The function `Client::handle_pre_hello`. -/
def handle_pre_hello (k : Config) (c : Client) (dgi : DatagramIterator) :
    Client × Option DatagramIterator :=
  match read_uint16 dgi with
  | none => (c, none)
  | some (msg_type, dgi1) =>
    if msg_type ≠ k.CLIENT_HELLO then
      (send_disconnect k c k.CLIENT_DISCONNECT_NO_HELLO
        (string_bytes "First packet is not CLIENT_HELLO") false,
        some dgi1)
    else
      match read_uint32 dgi1 with
      | none => (c, none)
      | some (dc_hash, dgi2) =>
        if dc_hash ≠ k.expected_hash then
          (send_disconnect k c k.CLIENT_DISCONNECT_BAD_DCHASH
            (string_bytes "Client DC hash mismatch: server=0x" ++ hex_text k.expected_hash ++
              string_bytes ", client=0x" ++ hex_text dc_hash) false, some dgi2)
        else
          match read_string dgi2 with
          | none => (c, none)
          | some (version, dgi3) =>
            if version ≠ k.expected_version then
              (send_disconnect k c k.CLIENT_DISCONNECT_BAD_VERSION
                (string_bytes "Client version mismatch: server=" ++ k.expected_version ++
                  string_bytes ", client=" ++ version) false, some dgi3)
            else
              ({ network_send c (add_uint16 k.CLIENT_HELLO_RESP) with
                  m_state := k.CLIENT_STATE_ANONYMOUS }, some dgi3)

/-- The function `Client::handle_client_object_update_field`; the boolean is the
returned `should_die`. -/
def handle_client_object_update_field (k : Config) (c : Client) (dgi : DatagramIterator) :
    Client × Option (Bool × DatagramIterator) :=
  match read_uint32 dgi with
  | none => (c, none)
  | some (do_id, dgi1) =>
    match read_uint16 dgi1 with
    | none => (c, none)
    | some (field_id, dgi2) =>
      match lookup_object k c do_id with
      | none =>
        (send_disconnect k c k.CLIENT_DISCONNECT_MISSING_OBJECT
          (string_bytes "Client tried to send update to nonexistent object " ++ dec_text do_id)
          true,
          some (true, dgi2))
      | some dcc =>
        let not_anonymous_uberdog : Bool :=
          match map_find k.uberdogs do_id with
          | none => true
          | some u => !u.anonymous
        if c.m_state ≠ k.CLIENT_STATE_ESTABLISHED ∧ not_anonymous_uberdog = true then
          (send_disconnect k c k.CLIENT_DISCONNECT_ANONYMOUS_VIOLATION
            (string_bytes "Client tried to send update to non-anonymous object " ++
              string_bytes dcc.name ++ string_bytes "(" ++ dec_text do_id ++ string_bytes ")")
            true, some (true, dgi2))
        else
          match dcc.get_field_by_index field_id with
          | none =>
            (send_disconnect k c k.CLIENT_DISCONNECT_FORBIDDEN_FIELD
              (string_bytes "Client tried to send update for nonexistent field " ++
                dec_text field_id ++ string_bytes " to object " ++ string_bytes dcc.name ++
                string_bytes "(" ++ dec_text do_id ++ string_bytes ")") true,
              some (true, dgi2))
          | some field =>
            let is_owned : Bool := decide (do_id ∈ c.m_owned_objects)
            if (!field.clsend && !(is_owned && field.ownsend)) = true then
              (send_disconnect k c k.CLIENT_DISCONNECT_FORBIDDEN_FIELD
                (string_bytes "Client tried to send update for non-sendable field: " ++
                  string_bytes dcc.name ++ string_bytes "(" ++ dec_text do_id ++
                  string_bytes ")." ++ string_bytes field.name) true, some (true, dgi2))
            else
              match k.unpack_field field dgi2 with
              | none => (c, none)
              | some (data, dgi3) =>
                let resp := add_server_header do_id c.m_channel k.STATESERVER_OBJECT_SET_FIELD ++
                  add_uint32 do_id ++ add_uint16 field_id
                if data.length > 65535 - resp.length then
                  (send_disconnect k c k.CLIENT_DISCONNECT_OVERSIZED_DATAGRAM
                    (string_bytes "Field update too large to be routed on MD.") true,
                    some (true, dgi3))
                else
                  (send c (resp ++ data), some (false, dgi3))

/-- The frame `CLIENT_DONE_INTEREST_RESP(context, interest_id)`. -/
def done_interest_resp (k : Config) (context interest_id : Nat) : Datagram :=
  add_uint16 k.CLIENT_DONE_INTEREST_RESP ++ add_uint32 context ++ add_uint16 interest_id

/-- The list `to_remove` of `Client::close_zones`: the ids of the projected objects
located at `(parent, z)` for a killed zone `z` that are not owned. -/
def close_zones_to_remove (c : Client) (parent : Nat) (killed_zones : List Nat) : List Nat :=
  (c.m_dist_objs.filter (fun e =>
    e.2.parent = parent ∧ e.2.zone ∈ killed_zones ∧ e.2.id ∉ c.m_owned_objects)).map
    (fun e => e.2.id)

/-- The function `Client::close_zones`: the first loop collects `to_remove`, sending a
leaving frame and erasing `m_seen_objects` for each id; the second loop erases
them from the projection; the third unsubscribes the killed location channels. -/
def close_zones (k : Config) (c : Client) (parent : Nat) (killed_zones : List Nat) : Client :=
  let to_remove : List Nat := close_zones_to_remove c parent killed_zones
  let c1 := to_remove.foldl (fun (acc : Client) id =>
    { network_send acc (add_uint16 k.CLIENT_OBJECT_LEAVING ++ add_uint32 id) with
      m_seen_objects := set_erase acc.m_seen_objects id }) c
  let c2 := to_remove.foldl (fun (acc : Client) id =>
    { acc with m_dist_objs := map_erase acc.m_dist_objs id }) c1
  killed_zones.foldl (fun (acc : Client) z =>
    unsubscribe_channel acc (LOCATION2CHANNEL parent z)) c2

/-- The set `new_zones` of `Client::add_interest`: the zones of the interest that no
stored interest covers under its parent (`zones` is a set, so is the result). -/
def add_interest_new_zones (c : Client) (i : Interest) : List Nat :=
  i.zones.filter (fun z => lookup_interests c i.parent z = [])

/-- The set `killed_zones` of `Client::add_interest` when the interest alters
`previous_interest`. -/
def add_interest_killed_zones (c : Client) (i previous_interest : Interest) : List Nat :=
  previous_interest.zones.filter (fun z =>
    ¬ ((lookup_interests c previous_interest.parent z).length > 1) ∧
      (i.parent ≠ previous_interest.parent ∨ z ∉ i.zones))

/-- The part of `Client::add_interest` that handles an alteration: the session after
`close_zones(previous_interest.parent, killed_zones)` when an interest with the id of
`i` is already stored, the session itself otherwise. -/
def add_interest_closed (k : Config) (c : Client) (i : Interest) : Client :=
  match map_find c.m_interests i.id with
  | none => c
  | some previous_interest =>
    close_zones k c previous_interest.parent (add_interest_killed_zones c i previous_interest)

/-- The function `Client::add_interest`. -/
def add_interest (k : Config) (c : Client) (i : Interest) (context : Nat) : Client :=
  let new_zones := add_interest_new_zones c i
  let c1 := add_interest_closed k c i
  let c2 := { c1 with m_interests := map_assign c1.m_interests i.id i }
  if new_zones = [] then
    network_send c2
      (add_uint16 k.CLIENT_DONE_INTEREST_RESP ++ add_uint32 context ++ add_uint16 i.id)
  else
    let iop : InterestOperation :=
      { m_interest_id := i.id, m_client_context := context, m_parent := i.parent,
        m_zones := new_zones, m_total := none }
    let request_context := c2.m_next_context
    let c3 := { c2 with
      m_next_context := (c2.m_next_context + 1) % 4294967296,
      m_pending_interests := map_insert c2.m_pending_interests request_context iop }
    let c4 := new_zones.foldl (fun (acc : Client) z =>
      subscribe_channel acc (LOCATION2CHANNEL i.parent z)) c3
    send c4
      (add_server_header i.parent c.m_channel k.STATESERVER_OBJECT_GET_ZONES_OBJECTS ++
        add_uint32 request_context ++ add_uint32 i.parent ++ add_uint16 new_zones.length ++
        new_zones.flatMap add_uint32)

/-- The set `killed_zones` of `Client::remove_interest`. -/
def remove_interest_killed_zones (c : Client) (i : Interest) : List Nat :=
  i.zones.filter (fun z => (lookup_interests c i.parent z).length = 1)

/-- The function `Client::remove_interest`. -/
def remove_interest (k : Config) (c : Client) (i : Interest) (context : Nat) : Client :=
  let c1 := close_zones k c i.parent (remove_interest_killed_zones c i)
  let c2 := network_send c1
    (add_uint16 k.CLIENT_DONE_INTEREST_RESP ++ add_uint32 context ++ add_uint16 i.id)
  { c2 with m_interests := map_erase c2.m_interests i.id }

/-- The function `Client::handle_client_object_location`. -/
def handle_client_object_location (k : Config) (c : Client) (dgi : DatagramIterator) :
    Client × Option (Bool × DatagramIterator) :=
  match read_uint32 dgi with
  | none => (c, none)
  | some (do_id, dgi1) =>
    if map_find c.m_dist_objs do_id = none then
      (send_disconnect k c k.CLIENT_DISCONNECT_MISSING_OBJECT
        (string_bytes "Client tried to manipulate unknown object " ++ dec_text do_id) true,
        some (true, dgi1))
    else
      let is_owned : Bool := decide (do_id ∈ c.m_owned_objects)
      if is_owned = false then
        (send_disconnect k c k.CLIENT_DISCONNECT_FORBIDDEN_RELOCATE
          (string_bytes "Can\x27t relocate an object the client doesn\x27t own") true,
          some (true, dgi1))
      else
        let dg := add_server_header do_id c.m_channel k.STATESERVER_OBJECT_SET_LOCATION
        match read_uint32 dgi1 with
        | none => (c, none)
        | some (parent, dgi2) =>
          match read_uint32 dgi2 with
          | none => (c, none)
          | some (zone, dgi3) =>
            (send c (dg ++ add_uint32 parent ++ add_uint32 zone), some (false, dgi3))

/-- The zone loop of `Client::handle_client_add_interest`: `count` zones are read and
inserted into the set `zones`. -/
def read_zones : Nat → List Nat → DatagramIterator → Option (List Nat × DatagramIterator)
  | 0, zones, dgi => some (zones, dgi)
  | count + 1, zones, dgi =>
    match read_uint32 dgi with
    | none => none
    | some (zone, dgi1) => read_zones count (set_insert zones zone) dgi1

/-- The function `Client::handle_client_add_interest`. -/
def handle_client_add_interest (k : Config) (c : Client) (dgi : DatagramIterator)
    (multiple : Bool) : Client × Option (Bool × DatagramIterator) :=
  match read_uint32 dgi with
  | none => (c, none)
  | some (context, dgi1) =>
    match read_uint16 dgi1 with
    | none => (c, none)
    | some (interest_id, dgi2) =>
      match read_uint32 dgi2 with
      | none => (c, none)
      | some (parent, dgi3) =>
        match (if multiple then read_uint16 dgi3 else some (1, dgi3)) with
        | none => (c, none)
        | some (count, dgi4) =>
          match read_zones count [] dgi4 with
          | none => (c, none)
          | some (zones, dgi5) =>
            (add_interest k c { id := interest_id, parent := parent, zones := zones } context,
              some (false, dgi5))

/-- The function `Client::handle_client_remove_interest`. -/
def handle_client_remove_interest (k : Config) (c : Client) (dgi : DatagramIterator) :
    Client × Option (Bool × DatagramIterator) :=
  match read_uint32 dgi with
  | none => (c, none)
  | some (context, dgi1) =>
    match read_uint16 dgi1 with
    | none => (c, none)
    | some (id, dgi2) =>
      match map_find c.m_interests id with
      | none =>
        (send_disconnect k c k.CLIENT_DISCONNECT_GENERIC
          (string_bytes "Tried to remove a non-existing intrest") true, some (true, dgi2))
      | some i => (remove_interest k c i context, some (false, dgi2))

/-- Forgets the returned `should_die`, which the callers only use to return. -/
def drop_should_die (r : Client × Option (Bool × DatagramIterator)) :
    Client × Option DatagramIterator :=
  (r.1, r.2.map (fun p => p.2))

/-- The function `Client::handle_pre_auth`. -/
def handle_pre_auth (k : Config) (c : Client) (dgi : DatagramIterator) :
    Client × Option DatagramIterator :=
  match read_uint16 dgi with
  | none => (c, none)
  | some (msg_type, dgi1) =>
    if msg_type = k.CLIENT_OBJECT_SET_FIELD then
      drop_should_die (handle_client_object_update_field k c dgi1)
    else
      (send_disconnect k c k.CLIENT_DISCONNECT_INVALID_MSGTYPE
        (string_bytes "Message type " ++ dec_text msg_type ++
          string_bytes " not allowed prior to authentication.") true, some dgi1)

/-- The function `Client::handle_authenticated`. -/
def handle_authenticated (k : Config) (c : Client) (dgi : DatagramIterator) :
    Client × Option DatagramIterator :=
  match read_uint16 dgi with
  | none => (c, none)
  | some (msg_type, dgi1) =>
    if msg_type = k.CLIENT_OBJECT_SET_FIELD then
      drop_should_die (handle_client_object_update_field k c dgi1)
    else if msg_type = k.CLIENT_OBJECT_LOCATION then
      drop_should_die (handle_client_object_location k c dgi1)
    else if msg_type = k.CLIENT_ADD_INTEREST then
      drop_should_die (handle_client_add_interest k c dgi1 false)
    else if msg_type = k.CLIENT_ADD_INTEREST_MULTIPLE then
      drop_should_die (handle_client_add_interest k c dgi1 true)
    else if msg_type = k.CLIENT_REMOVE_INTEREST then
      drop_should_die (handle_client_remove_interest k c dgi1)
    else
      (send_disconnect k c k.CLIENT_DISCONNECT_INVALID_MSGTYPE
        (string_bytes "Message type " ++ dec_text msg_type ++ string_bytes " not valid.") true,
        some dgi1)

/-- The function `Client::network_datagram`. -/
def network_datagram (k : Config) (c : Client) (dg : Datagram) : Client :=
  let r : Client × Option DatagramIterator :=
    if c.m_state = k.CLIENT_STATE_NEW then handle_pre_hello k c dg
    else if c.m_state = k.CLIENT_STATE_ANONYMOUS then handle_pre_auth k c dg
    else if c.m_state = k.CLIENT_STATE_ESTABLISHED then handle_authenticated k c dg
    else (c, some dg)
  match r.2 with
  | none =>
    send_disconnect k r.1 k.CLIENT_DISCONNECT_TRUNCATED_DATAGRAM
      (string_bytes "Datagram unexpectedly ended while iterating.") false
  | some dgi =>
    if dgi.length ≠ 0 then
      send_disconnect k r.1 k.CLIENT_DISCONNECT_OVERSIZED_DATAGRAM
        (string_bytes "Datagram contains excess data.") true
    else r.1

/-- Well-formed containers of a session: the keys of the projection map are distinct
(it is a `std::map`), and an object or an interest is stored under its own id (the
code only ever writes `m_dist_objs[do_id]` with `obj.id = do_id` and `m_interests[i.id]`). -/
def Client.WF (c : Client) : Prop :=
  (map_keys c.m_dist_objs).Nodup ∧ (∀ e ∈ c.m_dist_objs, e.2.id = e.1) ∧
    (∀ e ∈ c.m_interests, e.2.id = e.1)

instance (c : Client) : Decidable c.WF := by
  unfold Client.WF
  infer_instance

/-- The projection invariant: the ids of the projection map are the owned and the seen
ids. -/
def ProjectionInv (c : Client) : Prop :=
  ∀ id, id ∈ map_keys c.m_dist_objs ↔ id ∈ c.m_owned_objects ∨ id ∈ c.m_seen_objects

/-- The interest invariant: an interest is stored under its own id, its zones are 32-bit
values, and the location channel of every zone of every stored interest is subscribed. -/
def InterestInv (c : Client) : Prop :=
  ∀ e ∈ c.m_interests, e.2.id = e.1 ∧ ∀ z ∈ e.2.zones,
    z < 4294967296 ∧ LOCATION2CHANNEL e.2.parent z ∈ c.subscriptions

/-- The channel `ch` is the location channel of a zone of a stored interest. -/
def covered (c : Client) (ch : Nat) : Prop :=
  ∃ e ∈ c.m_interests, ∃ z ∈ e.2.zones, ch = LOCATION2CHANNEL e.2.parent z

/-- The bookkeeping of a session, the part of it the two invariants speak about:
interests, subscriptions, projection, owned and seen. -/
def bookkeeping (c : Client) :
    List (Nat × Interest) × List Nat × List (Nat × DistributedObject) × List Nat × List Nat :=
  (c.m_interests, c.subscriptions, c.m_dist_objs, c.m_owned_objects, c.m_seen_objects)

/-- Well-formedness of a projection map and an interest map: distinct projection keys,
every object and every interest stored under its own id, 32-bit zones. -/
def WFLists (objs : List (Nat × DistributedObject)) (ints : List (Nat × Interest)) : Prop :=
  (map_keys objs).Nodup ∧ (∀ e ∈ objs, e.2.id = e.1) ∧
    (∀ e ∈ ints, e.2.id = e.1 ∧ ∀ z ∈ e.2.zones, z < 4294967296)

/-- The well-formedness invariant of a session: `Client.WF` and 32-bit zones. -/
def WFInv (c : Client) : Prop := WFLists c.m_dist_objs c.m_interests

/-! ## MD-facing handler -/

/-- Case `CLIENTAGENT_EJECT` of `Client::handle_datagram`. -/
def handle_CLIENTAGENT_EJECT (k : Config) (c : Client) (dgi : DatagramIterator) :
    Client × Option DatagramIterator :=
  match read_uint16 dgi with
  | none => (c, none)
  | some (reason, dgi1) =>
    match read_string dgi1 with
    | none => (c, none)
    | some (error_string, dgi2) => (send_disconnect k c reason error_string false, some dgi2)

/-- Case `CLIENTAGENT_SET_STATE` of `Client::handle_datagram`. -/
def handle_CLIENTAGENT_SET_STATE (c : Client) (dgi : DatagramIterator) :
    Client × Option DatagramIterator :=
  match read_uint16 dgi with
  | none => (c, none)
  | some (state, dgi1) => ({ c with m_state := state }, some dgi1)

/-- Case `STATESERVER_OBJECT_SET_FIELD` of `Client::handle_datagram`. -/
def handle_STATESERVER_OBJECT_SET_FIELD (k : Config) (c : Client) (sender : Nat)
    (dgi : DatagramIterator) : Client × Option DatagramIterator :=
  match read_uint32 dgi with
  | none => (c, none)
  | some (do_id, dgi1) =>
    if lookup_object k c do_id = none then (c, some dgi1)
    else if sender ≠ c.m_channel then
      (network_send c
        (add_uint16 k.CLIENT_OBJECT_SET_FIELD ++ add_uint32 do_id ++ (read_remainder dgi1).1),
        some (read_remainder dgi1).2)
    else (c, some dgi1)

/-- Case `STATESERVER_OBJECT_DELETE_RAM` of `Client::handle_datagram`. -/
def handle_STATESERVER_OBJECT_DELETE_RAM (k : Config) (c : Client) (dgi : DatagramIterator) :
    Client × Option DatagramIterator :=
  match read_uint32 dgi with
  | none => (c, none)
  | some (do_id, dgi1) =>
    if lookup_object k c do_id = none then (c, some dgi1)
    else
      let c1 :=
        if do_id ∈ c.m_seen_objects then
          network_send { c with m_seen_objects := set_erase c.m_seen_objects do_id }
            (add_uint16 k.CLIENT_OBJECT_LEAVING ++ add_uint32 do_id)
        else c
      let c2 :=
        if do_id ∈ c1.m_owned_objects then
          network_send { c1 with m_owned_objects := set_erase c1.m_owned_objects do_id }
            (add_uint16 k.CLIENT_OBJECT_LEAVING_OWNER ++ add_uint32 do_id)
        else c1
      ({ c2 with m_dist_objs := map_erase c2.m_dist_objs do_id }, some dgi1)

/-- Case `STATESERVER_OBJECT_ENTER_OWNER_WITH_REQUIRED_OTHER` of `Client::handle_datagram`. -/
def handle_STATESERVER_OBJECT_ENTER_OWNER (k : Config) (c : Client) (dgi : DatagramIterator) :
    Client × Option DatagramIterator :=
  match read_uint32 dgi with
  | none => (c, none)
  | some (do_id, dgi1) =>
    match read_uint32 dgi1 with
    | none => (c, none)
    | some (parent, dgi2) =>
      match read_uint32 dgi2 with
      | none => (c, none)
      | some (zone, dgi3) =>
        match read_uint16 dgi3 with
        | none => (c, none)
        | some (dc_id, dgi4) =>
          let c1 := { c with m_owned_objects := set_insert c.m_owned_objects do_id }
          let c2 :=
            if map_find c1.m_dist_objs do_id = none then
              { c1 with m_dist_objs := map_assign c1.m_dist_objs do_id
                                        ⟨do_id, parent, zone, k.get_class dc_id⟩ }
            else c1
          (network_send c2
            (add_uint16 k.CLIENT_ENTER_OBJECT_REQUIRED_OTHER_OWNER ++ add_uint32 do_id ++
              add_uint32 parent ++ add_uint32 zone ++ add_uint16 dc_id ++
              (read_remainder dgi4).1), some (read_remainder dgi4).2)

/-- Case `CLIENTAGENT_SET_CLIENT_ID` of `Client::handle_datagram`. -/
def handle_CLIENTAGENT_SET_CLIENT_ID (c : Client) (dgi : DatagramIterator) :
    Client × Option DatagramIterator :=
  let c1 :=
    if c.m_is_channel_allocated then { c with m_is_channel_allocated := false }
    else unsubscribe_channel c c.m_channel
  match read_uint64 dgi with
  | none => (c1, none)
  | some (channel, dgi1) => (subscribe_channel { c1 with m_channel := channel } channel, some dgi1)

/-- Case `CLIENTAGENT_SEND_DATAGRAM` of `Client::handle_datagram`. -/
def handle_CLIENTAGENT_SEND_DATAGRAM (c : Client) (dgi : DatagramIterator) :
    Client × Option DatagramIterator :=
  match read_string dgi with
  | none => (c, none)
  | some (data, dgi1) => (network_send c data, some dgi1)

/-- Case `CLIENTAGENT_OPEN_CHANNEL` of `Client::handle_datagram`. -/
def handle_CLIENTAGENT_OPEN_CHANNEL (c : Client) (dgi : DatagramIterator) :
    Client × Option DatagramIterator :=
  match read_uint64 dgi with
  | none => (c, none)
  | some (channel, dgi1) => (subscribe_channel c channel, some dgi1)

/-- Case `CLIENTAGENT_CLOSE_CHANNEL` of `Client::handle_datagram`. -/
def handle_CLIENTAGENT_CLOSE_CHANNEL (c : Client) (dgi : DatagramIterator) :
    Client × Option DatagramIterator :=
  match read_uint64 dgi with
  | none => (c, none)
  | some (channel, dgi1) => (unsubscribe_channel c channel, some dgi1)

/-- Case `CLIENTAGENT_ADD_POST_REMOVE` of `Client::handle_datagram`;
modelled from the spec: MDParticipantInterface::add_post_remove appends to the queue. -/
def handle_CLIENTAGENT_ADD_POST_REMOVE (c : Client) (dgi : DatagramIterator) :
    Client × Option DatagramIterator :=
  match read_string dgi with
  | none => (c, none)
  | some (data, dgi1) => ({ c with post_removes := c.post_removes ++ [data] }, some dgi1)

/-- Cases `STATESERVER_OBJECT_ENTER_LOCATION_WITH_REQUIRED` and `..._OTHER` of
`Client::handle_datagram`. -/
def handle_STATESERVER_OBJECT_ENTER_LOCATION (k : Config) (c : Client) (msgtype : Nat)
    (dgi : DatagramIterator) : Client × Option DatagramIterator :=
  match read_uint32 dgi with
  | none => (c, none)
  | some (do_id, dgi1) =>
    match read_uint32 dgi1 with
    | none => (c, none)
    | some (parent, dgi2) =>
      match read_uint32 dgi2 with
      | none => (c, none)
      | some (zone, dgi3) =>
        match read_uint16 dgi3 with
        | none => (c, none)
        | some (dc_id, dgi4) =>
          if do_id ∈ c.m_owned_objects ∨ do_id ∈ c.m_seen_objects then (c, some dgi4)
          else
            let c1 :=
              if map_find c.m_dist_objs do_id = none then
                { c with m_dist_objs := map_assign c.m_dist_objs do_id
                                        ⟨do_id, parent, zone, k.get_class dc_id⟩ }
              else c
            let c2 := { c1 with m_seen_objects := set_insert c1.m_seen_objects do_id }
            let c3 := network_send c2
              (add_uint16 (if msgtype = k.STATESERVER_OBJECT_ENTER_LOCATION_WITH_REQUIRED
                  then k.CLIENT_ENTER_OBJECT_REQUIRED
                  else k.CLIENT_ENTER_OBJECT_REQUIRED_OTHER) ++
                add_uint32 do_id ++ add_uint32 parent ++ add_uint32 zone ++ add_uint16 dc_id ++
                (read_remainder dgi4).1)
            let ready := c3.m_pending_interests.filter (fun e => e.2.is_ready c3.m_dist_objs)
            let c4 := ready.foldl (fun (acc : Client) e =>
              network_send acc (done_interest_resp k e.2.m_client_context e.2.m_interest_id)) c3
            let deferred_deletes := ready.map (fun e => e.1)
            ({ c4 with m_pending_interests :=
                deferred_deletes.foldl map_erase c4.m_pending_interests },
              some (read_remainder dgi4).2)

/-- Case `STATESERVER_OBJECT_GET_ZONES_COUNT_RESP` of `Client::handle_datagram`. -/
def handle_STATESERVER_OBJECT_GET_ZONES_COUNT_RESP (k : Config) (c : Client)
    (dgi : DatagramIterator) : Client × Option DatagramIterator :=
  match read_uint32 dgi with
  | none => (c, none)
  | some (context, dgi1) =>
    match read_uint32 dgi1 with
    | none => (c, none)
    | some (count, dgi2) =>
      match map_find c.m_pending_interests context with
      | none => (c, some dgi2)
      | some op =>
        let op1 := op.store_total count
        let c1 := { c with m_pending_interests := map_assign c.m_pending_interests context op1 }
        if op1.is_ready c1.m_dist_objs = true then
          ({ network_send c1 (done_interest_resp k op1.m_client_context op1.m_interest_id) with
              m_pending_interests := map_erase c1.m_pending_interests context }, some dgi2)
        else (c1, some dgi2)

/-- Case `STATESERVER_OBJECT_CHANGING_LOCATION` of `Client::handle_datagram`. -/
def handle_STATESERVER_OBJECT_CHANGING_LOCATION (k : Config) (c : Client)
    (dgi : DatagramIterator) : Client × Option DatagramIterator :=
  match read_uint32 dgi with
  | none => (c, none)
  | some (do_id, dgi1) =>
    match read_uint32 dgi1 with
    | none => (c, none)
    | some (n_parent, dgi2) =>
      match read_uint32 dgi2 with
      | none => (c, none)
      | some (n_zone, dgi3) =>
        match read_uint32 dgi3 with
        | none => (c, none)
        | some (_, dgi4) =>
          match read_uint32 dgi4 with
          | none => (c, none)
          | some (_, dgi5) =>
            let disable : Bool := c.m_interests.all (fun e => decide (n_zone ∉ e.2.zones))
            let c1 :=
              match map_find c.m_dist_objs do_id with
              | some obj =>
                { c with m_dist_objs := map_assign c.m_dist_objs do_id
                                        ⟨obj.id, n_parent, n_zone, obj.dcc⟩ }
              | none => c
            if disable = true ∧ do_id ∉ c1.m_owned_objects then
              (network_send
                { c1 with m_seen_objects := set_erase c1.m_seen_objects do_id,
                          m_dist_objs := map_erase c1.m_dist_objs do_id }
                (add_uint16 k.CLIENT_OBJECT_LEAVING ++ add_uint32 do_id), some dgi5)
            else
              (network_send c1
                (add_uint16 k.CLIENT_OBJECT_LOCATION ++ add_uint32 do_id ++
                  add_uint32 n_parent ++ add_uint32 n_zone), some dgi5)

/-- The function `Client::handle_datagram` (participant interface). -/
def handle_datagram (k : Config) (c : Client) (dg : Datagram) :
    Client × Option DatagramIterator :=
  match read_uint64 dg with
  | none => (c, none)
  | some (sender, dgi0) =>
    match read_uint16 dgi0 with
    | none => (c, none)
    | some (msgtype, dgi) =>
      if msgtype = k.CLIENTAGENT_EJECT then handle_CLIENTAGENT_EJECT k c dgi
      else if msgtype = k.CLIENTAGENT_DROP then (do_disconnect c, some dgi)
      else if msgtype = k.CLIENTAGENT_SET_STATE then handle_CLIENTAGENT_SET_STATE c dgi
      else if msgtype = k.STATESERVER_OBJECT_SET_FIELD then
        handle_STATESERVER_OBJECT_SET_FIELD k c sender dgi
      else if msgtype = k.STATESERVER_OBJECT_DELETE_RAM then
        handle_STATESERVER_OBJECT_DELETE_RAM k c dgi
      else if msgtype = k.STATESERVER_OBJECT_ENTER_OWNER_WITH_REQUIRED_OTHER then
        handle_STATESERVER_OBJECT_ENTER_OWNER k c dgi
      else if msgtype = k.CLIENTAGENT_SET_CLIENT_ID then handle_CLIENTAGENT_SET_CLIENT_ID c dgi
      else if msgtype = k.CLIENTAGENT_SEND_DATAGRAM then handle_CLIENTAGENT_SEND_DATAGRAM c dgi
      else if msgtype = k.CLIENTAGENT_OPEN_CHANNEL then handle_CLIENTAGENT_OPEN_CHANNEL c dgi
      else if msgtype = k.CLIENTAGENT_CLOSE_CHANNEL then handle_CLIENTAGENT_CLOSE_CHANNEL c dgi
      else if msgtype = k.CLIENTAGENT_ADD_POST_REMOVE then
        handle_CLIENTAGENT_ADD_POST_REMOVE c dgi
      else if msgtype = k.CLIENTAGENT_CLEAR_POST_REMOVES then
        ({ c with post_removes := [] }, some dgi)
      else if msgtype = k.STATESERVER_OBJECT_ENTER_LOCATION_WITH_REQUIRED ∨
          msgtype = k.STATESERVER_OBJECT_ENTER_LOCATION_WITH_REQUIRED_OTHER then
        handle_STATESERVER_OBJECT_ENTER_LOCATION k c msgtype dgi
      else if msgtype = k.STATESERVER_OBJECT_GET_ZONES_COUNT_RESP then
        handle_STATESERVER_OBJECT_GET_ZONES_COUNT_RESP k c dgi
      else if msgtype = k.STATESERVER_OBJECT_CHANGING_LOCATION then
        handle_STATESERVER_OBJECT_CHANGING_LOCATION k c dgi
      else (c, some dgi)

/-! ## Channel allocator and session construction -/

/-- The class `ChannelTracker`. -/
structure ChannelTracker where
  m_next : Nat
  m_max : Nat
  m_unused_channels : List Nat
  deriving DecidableEq, Repr

/-- The constructor `ChannelTracker::ChannelTracker(min, max)`. -/
def ChannelTracker.mk_range (min max : Nat) : ChannelTracker :=
  { m_next := min, m_max := max, m_unused_channels := [] }

/-- The function `ChannelTracker::alloc_channel`: the channel and the tracker after. -/
def ChannelTracker.alloc_channel (ct : ChannelTracker) : Nat × ChannelTracker :=
  if ct.m_next ≤ ct.m_max then
    (ct.m_next, { ct with m_next := (ct.m_next + 1) % 18446744073709551616 })
  else
    match ct.m_unused_channels with
    | ch :: rest => (ch, { ct with m_unused_channels := rest })
    | [] => (0, ct)

/-- The function `ChannelTracker::free_channel`. -/
def ChannelTracker.free_channel (ct : ChannelTracker) (channel : Nat) : ChannelTracker :=
  { ct with m_unused_channels := ct.m_unused_channels ++ [channel] }

/-- The constructor `Client::Client`; `remote` and `local_addr` are the texts of the
socket endpoints. The socket is open when the session is constructed. -/
def Client.construct (k : Config) (ct : ChannelTracker) (remote local_addr : List Nat) :
    Client × ChannelTracker :=
  let c0 : Client :=
    { m_state := k.CLIENT_STATE_NEW, m_channel := 0, m_allocated_channel := 0,
      m_is_channel_allocated := true, m_next_context := 0, m_owned_objects := [],
      m_seen_objects := [], m_dist_objs := [], m_interests := [], m_pending_interests := [],
      connected := true, subscriptions := [], post_removes := [], net_out := [], md_out := [],
      events := [] }
  let a := ct.alloc_channel
  let c1 := { c0 with m_channel := a.1 }
  if c1.m_channel = 0 then
    (send_disconnect k c1 k.CLIENT_DISCONNECT_GENERIC (string_bytes "Client capacity reached")
      false, a.2)
  else
    let c2 := { c1 with m_allocated_channel := c1.m_channel }
    let c3 := subscribe_channel c2 c2.m_channel
    let c4 := subscribe_channel c3 k.BCHAN_CLIENTS
    (send_event c4 [string_bytes "client-connected", remote, local_addr], a.2)

/-- The destructor `Client::~Client`. -/
def Client.destruct (c : Client) (ct : ChannelTracker) : ChannelTracker :=
  ct.free_channel c.m_allocated_channel

/-- States of a session that a run can reach: a session is constructed, then
client datagrams (`network_datagram`) and MD messages (`handle_datagram`) are
handled in any order. The relation does not stop at a disconnect, so it contains
every state a live session can be in. -/
inductive Reachable (k : Config) : Client → Prop
  | construct (ct : ChannelTracker) (remote local_addr : List Nat) :
      Reachable k (Client.construct k ct remote local_addr).1
  | client (c : Client) (dg : Datagram) :
      Reachable k c → Reachable k (network_datagram k c dg)
  | md (c : Client) (dg : Datagram) :
      Reachable k c → Reachable k (handle_datagram k c dg).1

/-! ## A concrete configuration and concrete sessions, used to evaluate the model -/

/-- A class with a client-sendable field 7, an owner-sendable field 8 and a field 9
that no client may send. -/
def exampleClass : DCClass :=
  { name := "DistributedAvatar",
    fields := [(7, ⟨"setName", true, false⟩), (8, ⟨"setXYZ", false, true⟩),
      (9, ⟨"setHp", false, false⟩)] }

/-- A configuration: pairwise distinct message numbers, disconnect codes and
states, expected hash `0xDEADBEEF`, version `"v1"`, class 3, an anonymous
uberdog 100 and a non-anonymous uberdog 101; every field is packed as two bytes. -/
def exampleConfig : Config :=
  { CLIENT_HELLO := 1, CLIENT_HELLO_RESP := 2, CLIENT_EJECT := 4,
    CLIENT_OBJECT_SET_FIELD := 120, CLIENT_OBJECT_LOCATION := 140,
    CLIENT_OBJECT_LEAVING := 132, CLIENT_OBJECT_LEAVING_OWNER := 161,
    CLIENT_ENTER_OBJECT_REQUIRED := 142, CLIENT_ENTER_OBJECT_REQUIRED_OTHER := 143,
    CLIENT_ENTER_OBJECT_REQUIRED_OTHER_OWNER := 173, CLIENT_ADD_INTEREST := 200,
    CLIENT_ADD_INTEREST_MULTIPLE := 201, CLIENT_REMOVE_INTEREST := 203,
    CLIENT_DONE_INTEREST_RESP := 204,
    CLIENTAGENT_EJECT := 1004, CLIENTAGENT_DROP := 1005, CLIENTAGENT_SET_STATE := 1000,
    CLIENTAGENT_SET_CLIENT_ID := 1001, CLIENTAGENT_SEND_DATAGRAM := 1002,
    CLIENTAGENT_OPEN_CHANNEL := 1100, CLIENTAGENT_CLOSE_CHANNEL := 1101,
    CLIENTAGENT_ADD_POST_REMOVE := 1110, CLIENTAGENT_CLEAR_POST_REMOVES := 1111,
    STATESERVER_OBJECT_SET_FIELD := 2020, STATESERVER_OBJECT_DELETE_RAM := 2030,
    STATESERVER_OBJECT_ENTER_OWNER_WITH_REQUIRED_OTHER := 2069,
    STATESERVER_OBJECT_ENTER_LOCATION_WITH_REQUIRED := 2042,
    STATESERVER_OBJECT_ENTER_LOCATION_WITH_REQUIRED_OTHER := 2043,
    STATESERVER_OBJECT_GET_ZONES_COUNT_RESP := 2113,
    STATESERVER_OBJECT_GET_ZONES_OBJECTS := 2102,
    STATESERVER_OBJECT_CHANGING_LOCATION := 2040, STATESERVER_OBJECT_SET_LOCATION := 2041,
    CLIENT_DISCONNECT_GENERIC := 1, CLIENT_DISCONNECT_NO_HELLO := 107,
    CLIENT_DISCONNECT_BAD_DCHASH := 125, CLIENT_DISCONNECT_BAD_VERSION := 124,
    CLIENT_DISCONNECT_INVALID_MSGTYPE := 108, CLIENT_DISCONNECT_ANONYMOUS_VIOLATION := 113,
    CLIENT_DISCONNECT_MISSING_OBJECT := 117, CLIENT_DISCONNECT_FORBIDDEN_FIELD := 118,
    CLIENT_DISCONNECT_FORBIDDEN_RELOCATE := 119, CLIENT_DISCONNECT_TRUNCATED_DATAGRAM := 109,
    CLIENT_DISCONNECT_OVERSIZED_DATAGRAM := 106,
    CLIENT_STATE_NEW := 0, CLIENT_STATE_ANONYMOUS := 1, CLIENT_STATE_ESTABLISHED := 2,
    BCHAN_CLIENTS := 4014,
    expected_hash := 3735928559, expected_version := [118, 49],
    get_class := fun dc_id => if dc_id = 3 then some exampleClass else none,
    uberdogs := [(100, ⟨exampleClass, true⟩), (101, ⟨exampleClass, false⟩)],
    unpack_field := fun _ dgi =>
      match dgi with
      | b0 :: b1 :: r => some ([b0, b1], r)
      | _ => none }

/-- A session as `Client::Client` leaves it when channel 1000 was allocated, with
the given state. -/
def exampleClient (state : Nat) : Client :=
  { m_state := state, m_channel := 1000, m_allocated_channel := 1000,
    m_is_channel_allocated := true, m_next_context := 0, m_owned_objects := [],
    m_seen_objects := [], m_dist_objs := [], m_interests := [], m_pending_interests := [],
    connected := true, subscriptions := [1000, 4014], post_removes := [], net_out := [],
    md_out := [], events := [] }

/-- An MD datagram as the participant glue hands it to `handle_datagram`: sender,
message type, payload. -/
def md_datagram (sender msgtype : Nat) (payload : Datagram) : Datagram :=
  add_uint64 sender ++ add_uint16 msgtype ++ payload

/-- The session constructed with channel 1000 out of the range 1000..1001. -/
def exampleNew : Client :=
  (Client.construct exampleConfig (ChannelTracker.mk_range 1000 1001) [] []).1

/-- The session `exampleNew` after the MD message `CLIENTAGENT_SET_STATE(ESTABLISHED)`. -/
def exampleEstablished : Client :=
  (handle_datagram exampleConfig exampleNew (md_datagram 1 1000 (add_uint16 2))).1

/-- The session `exampleEstablished` after the client datagram
`CLIENT_ADD_INTEREST_MULTIPLE(context 1, id 1, parent 500, zones 9000 and 9001)` and the
MD message `STATESERVER_OBJECT_ENTER_LOCATION_WITH_REQUIRED(77, 500, 9001, dc 3)`. -/
def exampleTwoZones : Client :=
  (handle_datagram exampleConfig
    (network_datagram exampleConfig exampleEstablished
      (add_uint16 201 ++ add_uint32 1 ++ add_uint16 1 ++ add_uint32 500 ++ add_uint16 2 ++
        add_uint32 9000 ++ add_uint32 9001))
    (md_datagram 500 2042 (add_uint32 77 ++ add_uint32 500 ++ add_uint32 9001 ++
      add_uint16 3))).1

/-- A session whose 32-bit context counter has wrapped around to 0 while the operation
with request context 0 is still pending. -/
def exampleWrapped : Client :=
  { exampleClient 2 with
    m_interests := [(1, ⟨1, 500, [9000]⟩)],
    subscriptions := [1000, 4014, LOCATION2CHANNEL 500 9000],
    m_pending_interests := [(0, ⟨1, 42, 500, [9000], none⟩)] }

/-- The MD message `dg` closes no interest channel of the session `c`: if it is a
`CLIENTAGENT_CLOSE_CHANNEL` the channel it names is not the location channel of a zone
of a stored interest, and if it is a `CLIENTAGENT_SET_CLIENT_ID` that unsubscribes the
identity channel (the identity is no longer the allocated channel), the identity
channel is not one either. -/
def keeps_interest_channels (k : Config) (c : Client) (dg : Datagram) : Prop :=
  ∀ sender dgi0 dgi, read_uint64 dg = some (sender, dgi0) →
    (read_uint16 dgi0 = some (k.CLIENTAGENT_CLOSE_CHANNEL, dgi) →
      ∀ ch r, read_uint64 dgi = some (ch, r) → ¬ covered c ch) ∧
    (read_uint16 dgi0 = some (k.CLIENTAGENT_SET_CLIENT_ID, dgi) →
      c.m_is_channel_allocated = true ∨ ¬ covered c c.m_channel)

/-- States of a session that a run can reach when no MD message closes an interest
channel (`keeps_interest_channels`). -/
inductive ReachableKeepingChannels (k : Config) : Client → Prop
  | construct (ct : ChannelTracker) (remote local_addr : List Nat) :
      ReachableKeepingChannels k (Client.construct k ct remote local_addr).1
  | client (c : Client) (dg : Datagram) :
      ReachableKeepingChannels k c → ReachableKeepingChannels k (network_datagram k c dg)
  | md (c : Client) (dg : Datagram) :
      ReachableKeepingChannels k c → keeps_interest_channels k c dg →
      ReachableKeepingChannels k (handle_datagram k c dg).1

/-! ## Delivering MD messages: vocabulary of the interest-completion scenario -/

/-- The labels of the switch of `Client::handle_datagram` are pairwise distinct 16-bit
values, as the C++ compiler demands of the labels of a switch on a `uint16_t`. -/
def Config.md_switch_ok (k : Config) : Prop :=
  List.Pairwise (fun a b => a ≠ b)
    [k.CLIENTAGENT_EJECT, k.CLIENTAGENT_DROP, k.CLIENTAGENT_SET_STATE,
      k.STATESERVER_OBJECT_SET_FIELD, k.STATESERVER_OBJECT_DELETE_RAM,
      k.STATESERVER_OBJECT_ENTER_OWNER_WITH_REQUIRED_OTHER, k.CLIENTAGENT_SET_CLIENT_ID,
      k.CLIENTAGENT_SEND_DATAGRAM, k.CLIENTAGENT_OPEN_CHANNEL, k.CLIENTAGENT_CLOSE_CHANNEL,
      k.CLIENTAGENT_ADD_POST_REMOVE, k.CLIENTAGENT_CLEAR_POST_REMOVES,
      k.STATESERVER_OBJECT_ENTER_LOCATION_WITH_REQUIRED,
      k.STATESERVER_OBJECT_ENTER_LOCATION_WITH_REQUIRED_OTHER,
      k.STATESERVER_OBJECT_GET_ZONES_COUNT_RESP, k.STATESERVER_OBJECT_CHANGING_LOCATION] ∧
  k.STATESERVER_OBJECT_ENTER_LOCATION_WITH_REQUIRED < 65536 ∧
  k.STATESERVER_OBJECT_GET_ZONES_COUNT_RESP < 65536

instance (k : Config) : Decidable k.md_switch_ok := by
  unfold Config.md_switch_ok
  infer_instance

/-- The variable part of a `STATESERVER_OBJECT_ENTER_LOCATION_WITH_REQUIRED` message:
its sender, the object, its class number and the packed required fields. -/
structure EnterLocation where
  sender : Nat
  do_id : Nat
  dc_id : Nat
  payload : List Nat
  deriving DecidableEq, Repr

/-- The MD message `STATESERVER_OBJECT_ENTER_LOCATION_WITH_REQUIRED(do_id, parent, zone,
dc_id, payload)` as `handle_datagram` receives it. -/
def enter_location_datagram (k : Config) (parent zone : Nat) (e : EnterLocation) : Datagram :=
  md_datagram e.sender k.STATESERVER_OBJECT_ENTER_LOCATION_WITH_REQUIRED
    (add_uint32 e.do_id ++ add_uint32 parent ++ add_uint32 zone ++ add_uint16 e.dc_id ++
      e.payload)

/-- The frame `CLIENT_ENTER_OBJECT_REQUIRED(do_id, parent, zone, dc_id, payload)`. -/
def enter_object_frame (k : Config) (parent zone : Nat) (e : EnterLocation) : Datagram :=
  add_uint16 k.CLIENT_ENTER_OBJECT_REQUIRED ++ add_uint32 e.do_id ++ add_uint32 parent ++
    add_uint32 zone ++ add_uint16 e.dc_id ++ e.payload

/-- The MD message `STATESERVER_OBJECT_GET_ZONES_COUNT_RESP(context, count)` as
`handle_datagram` receives it. -/
def zones_count_resp_datagram (k : Config) (sender context count : Nat) : Datagram :=
  md_datagram sender k.STATESERVER_OBJECT_GET_ZONES_COUNT_RESP
    (add_uint32 context ++ add_uint32 count)

/-- The session after the MD messages `msgs` have been handled one after the other. -/
def deliver (k : Config) (c : Client) (msgs : List Datagram) : Client :=
  msgs.foldl (fun acc dg => (handle_datagram k acc dg).1) c

/-- The projection entry that an `ENTER_LOCATION` message creates. -/
def entered_object (k : Config) (parent zone : Nat) (e : EnterLocation) :
    Nat × DistributedObject :=
  (e.do_id, ⟨e.do_id, parent, zone, k.get_class e.dc_id⟩)

/-- The session `b` in which exactly the objects `es` have entered `(parent, zone)`: they
are the projection and the seen set, one frame was sent for each, followed by the
frames `done`; `pending` are the pending operations. -/
def entered (k : Config) (b : Client) (parent zone : Nat) (es : List EnterLocation)
    (pending : List (Nat × InterestOperation)) (done : List Datagram) : Client :=
  { b with
    m_dist_objs := es.map (entered_object k parent zone),
    m_seen_objects := es.map (fun e => e.do_id),
    m_pending_interests := pending,
    net_out := b.net_out ++ es.map (enter_object_frame k parent zone) ++ done }

/-- The session `exampleEstablished` after `CLIENT_ADD_INTEREST(42, 1, 500, 9000)`, the
MD message `STATESERVER_OBJECT_GET_ZONES_COUNT_RESP(0, 1)` announcing one object that
has not entered yet, and `CLIENT_REMOVE_INTEREST(5, 1)`: no interest, an empty
projection, and the operation with request context 0 still pending. -/
def exampleStale : Client :=
  network_datagram exampleConfig
    (handle_datagram exampleConfig
      (network_datagram exampleConfig exampleEstablished
        (add_uint16 200 ++ add_uint32 42 ++ add_uint16 1 ++ add_uint32 500 ++ add_uint32 9000))
      (zones_count_resp_datagram exampleConfig 500 0 1)).1
    (add_uint16 203 ++ add_uint32 5 ++ add_uint16 1)

/-- The enter of object 5001, class 3, without required fields. -/
def exampleEnterA : EnterLocation := ⟨500, 5001, 3, []⟩

/-- The enter of object 5002, class 3, with two bytes of required fields. -/
def exampleEnterB : EnterLocation := ⟨500, 5002, 3, [1, 2]⟩

/-- The enter of object 77, class 3, without required fields. -/
def exampleEnterC : EnterLocation := ⟨500, 77, 3, []⟩

/-- The session `exampleEstablished` after the client datagram
`CLIENT_ADD_INTEREST(42, 1, 500, 9000)`. -/
def exampleInterest : Client :=
  network_datagram exampleConfig exampleEstablished
    (add_uint16 200 ++ add_uint32 42 ++ add_uint16 1 ++ add_uint32 500 ++ add_uint32 9000)

/-- The session `exampleInterest` after the MD message
`CLIENTAGENT_CLOSE_CHANNEL(L(500, 9000))`. -/
def exampleClosed : Client :=
  (handle_datagram exampleConfig exampleInterest
    (md_datagram 1 1101 (add_uint64 (LOCATION2CHANNEL 500 9000)))).1

/-- The session `exampleEstablished` after the MD message
`STATESERVER_OBJECT_ENTER_LOCATION_WITH_REQUIRED(77, 500, 9000, dc 3)`: object 77 is
seen at `(500, 9000)` although no interest covers that location. -/
def exampleSeen : Client :=
  (handle_datagram exampleConfig exampleEstablished
    (enter_location_datagram exampleConfig 500 9000 exampleEnterC)).1

/-- The session `exampleEstablished` after the MD message
`CLIENTAGENT_OPEN_CHANNEL(L(500, 9000))`. -/
def exampleOpened : Client :=
  (handle_datagram exampleConfig exampleEstablished
    (md_datagram 1 1100 (add_uint64 (LOCATION2CHANNEL 500 9000)))).1

/-- The client datagram `CLIENT_ADD_INTEREST(42, 1, 500, 9000)`. -/
def exampleAddInterest : Datagram :=
  add_uint16 200 ++ add_uint32 42 ++ add_uint16 1 ++ add_uint32 500 ++ add_uint32 9000

/-- The client datagram `CLIENT_REMOVE_INTEREST(5, 1)`. -/
def exampleRemoveInterest : Datagram :=
  add_uint16 203 ++ add_uint32 5 ++ add_uint16 1

/-! ## Dispatch, messages and sessions: vocabulary of the statements about one message -/

/-- The labels of the switch of `Client::network_datagram` (the session states) and the
labels of the switch of `Client::handle_authenticated` (the client message types) are
pairwise distinct, as the C++ compiler demands of the labels of a switch. -/
def Config.client_switch_ok (k : Config) : Prop :=
  List.Pairwise (fun a b => a ≠ b)
    [k.CLIENT_STATE_NEW, k.CLIENT_STATE_ANONYMOUS, k.CLIENT_STATE_ESTABLISHED] ∧
  List.Pairwise (fun a b => a ≠ b)
    [k.CLIENT_OBJECT_SET_FIELD, k.CLIENT_OBJECT_LOCATION, k.CLIENT_ADD_INTEREST,
      k.CLIENT_ADD_INTEREST_MULTIPLE, k.CLIENT_REMOVE_INTEREST]

instance (k : Config) : Decidable k.client_switch_ok := by
  unfold Config.client_switch_ok
  infer_instance

/-- The handler that `Client::network_datagram` runs in the state of the session, for
the states NEW, ANONYMOUS and ESTABLISHED; the body of its `try` block. -/
def client_handler (k : Config) (c : Client) (dg : Datagram) :
    Client × Option DatagramIterator :=
  if c.m_state = k.CLIENT_STATE_NEW then handle_pre_hello k c dg
  else if c.m_state = k.CLIENT_STATE_ANONYMOUS then handle_pre_auth k c dg
  else if c.m_state = k.CLIENT_STATE_ESTABLISHED then handle_authenticated k c dg
  else (c, some dg)

/-- The session `exampleEstablished` after the MD message
`STATESERVER_OBJECT_ENTER_OWNER_WITH_REQUIRED_OTHER(5001, 500, 9000, dc 3)`: the object
5001 is owned and projected at `(500, 9000)`. -/
def exampleOwned : Client :=
  (handle_datagram exampleConfig exampleEstablished
    (md_datagram 1 2069 (add_uint32 5001 ++ add_uint32 500 ++ add_uint32 9000 ++
      add_uint16 3))).1

/-- Modelled from the spec: DatagramIterator::unpack_field (util/DatagramIterator.h is
not part of the sources) copies the wire-encoded bytes of exactly one field: the bytes it
returns are the front of the unread bytes, the iterator is left behind them, and the
bytes that follow the field have no influence on it. -/
def Config.unpack_field_ok (k : Config) : Prop :=
  ∀ (field : DCField) (dgi d rest : DatagramIterator),
    k.unpack_field field dgi = some (d, rest) →
      dgi = d ++ rest ∧
        ∀ extra : DatagramIterator, k.unpack_field field (dgi ++ extra) = some (d, rest ++ extra)

/-- The MD message `STATESERVER_OBJECT_CHANGING_LOCATION(do_id, new_parent, new_zone,
old_parent, old_zone)` as `handle_datagram` receives it. -/
def changing_location_datagram (k : Config)
    (sender do_id n_parent n_zone o_parent o_zone : Nat) : Datagram :=
  md_datagram sender k.STATESERVER_OBJECT_CHANGING_LOCATION
    (add_uint32 do_id ++ add_uint32 n_parent ++ add_uint32 n_zone ++ add_uint32 o_parent ++
      add_uint32 o_zone)

/-- The session `exampleInterest` (interest 1 on parent 500, zone 9000) after the MD message
`STATESERVER_OBJECT_ENTER_LOCATION_WITH_REQUIRED(5001, 500, 9000, dc 3)`: the object 5001
is seen at `(500, 9000)`. -/
def exampleViewed : Client :=
  (handle_datagram exampleConfig exampleInterest
    (enter_location_datagram exampleConfig 500 9000 exampleEnterA)).1

/-- The session `exampleInterest` after the MD message
`STATESERVER_OBJECT_ENTER_OWNER_WITH_REQUIRED_OTHER(5001, 500, 9000, dc 3)`: the object
5001 is owned and projected at `(500, 9000)`. -/
def exampleViewedOwned : Client :=
  (handle_datagram exampleConfig exampleInterest
    (md_datagram 1 2069 (add_uint32 5001 ++ add_uint32 500 ++ add_uint32 9000 ++
      add_uint16 3))).1

/-! ## Owned objects: vocabulary of the eviction statement -/

/-- The object `do_id` is owned and projected in the session `c`. -/
def owned_projected (c : Client) (do_id : Nat) : Prop :=
  do_id ∈ c.m_owned_objects ∧ do_id ∈ map_keys c.m_dist_objs

/-- What the session `r` has sent to the client behind what the session `c` had sent
contains neither the frame `CLIENT_OBJECT_LEAVING(do_id)` nor the frame
`CLIENT_OBJECT_LEAVING_OWNER(do_id)`. -/
def no_leaving_sent (k : Config) (do_id : Nat) (c r : Client) : Prop :=
  ∃ sent : List Datagram, r.net_out = c.net_out ++ sent ∧
    ∀ f ∈ sent, f ≠ add_uint16 k.CLIENT_OBJECT_LEAVING ++ add_uint32 do_id ∧
      f ≠ add_uint16 k.CLIENT_OBJECT_LEAVING_OWNER ++ add_uint32 do_id

/-- The MD message `dg` is a `STATESERVER_OBJECT_DELETE_RAM` whose object is `do_id`. -/
def is_delete_ram (k : Config) (dg : Datagram) (do_id : Nat) : Bool :=
  match read_uint64 dg with
  | none => false
  | some (_, dgi0) =>
    match read_uint16 dgi0 with
    | none => false
    | some (msgtype, dgi) =>
      match read_uint32 dgi with
      | none => false
      | some (id, _) => decide (msgtype = k.STATESERVER_OBJECT_DELETE_RAM ∧ id = do_id)

/-! ## Calls on the channel tracker -/

/-- A call on the channel tracker: `alloc_channel()` or `free_channel(channel)`. -/
inductive TrackerCall where
  | alloc
  | free (channel : Nat)
  deriving DecidableEq, Repr

/-- The tracker after the calls `calls`, made one after the other, and the channels
that the calls of `alloc_channel` among them returned, in order. -/
def ChannelTracker.run (ct : ChannelTracker) : List TrackerCall → ChannelTracker × List Nat
  | [] => (ct, [])
  | TrackerCall.alloc :: rest =>
    ((ChannelTracker.run ct.alloc_channel.2 rest).1,
      ct.alloc_channel.1 :: (ChannelTracker.run ct.alloc_channel.2 rest).2)
  | TrackerCall.free channel :: rest => ChannelTracker.run (ct.free_channel channel) rest

/-- The number of calls of `alloc_channel` among `calls`. -/
def alloc_count (calls : List TrackerCall) : Nat :=
  (calls.filter (fun x => x = TrackerCall.alloc)).length

/-! ## Runs of a session -/

/-- What a session handles: a datagram of its client or a message of the MD bus. -/
inductive Event where
  | client (dg : Datagram)
  | md (dg : Datagram)
  deriving DecidableEq, Repr

/-- The session after it has handled the event: `network_datagram` for a client
datagram, `handle_datagram` for an MD message. -/
def session_step (k : Config) (c : Client) : Event → Client
  | Event.client dg => network_datagram k c dg
  | Event.md dg => (handle_datagram k c dg).1

/-- The session after it has handled the events one after the other. -/
def session_run (k : Config) (c : Client) (events : List Event) : Client :=
  events.foldl (session_step k) c

/-- The session `exampleEstablished` after `CLIENT_ADD_INTEREST(42, 1, 500, 9000)` and the
MD message `STATESERVER_OBJECT_GET_ZONES_COUNT_RESP(0, 0)`: the operation with request
context 0 has been completed and `CLIENT_DONE_INTEREST_RESP(42, 1)` has been sent. -/
def exampleCompleted : Client :=
  session_run exampleConfig exampleEstablished
    [Event.client exampleAddInterest,
      Event.md (zones_count_resp_datagram exampleConfig 500 0 0)]

/-! ## Subscriptions and interests: vocabulary of the subscription statement -/

/-- The subscription invariant relative to the channels `base` that the session
subscribes apart from its interests (the identity and the broadcast channel): the
interests are stored under distinct ids (they are a `std::map`), and every subscribed
channel is in `base` or is the location channel of a zone of a stored interest. -/
def SubscriptionInv (base : List Nat) (c : Client) : Prop :=
  (map_keys c.m_interests).Nodup ∧ ∀ ch ∈ c.subscriptions, ch ∈ base ∨ covered c ch

/-- The session after the client datagrams `dgs` have been handled one after the other. -/
def network_datagrams (k : Config) (c : Client) (dgs : List Datagram) : Client :=
  dgs.foldl (network_datagram k) c

/-- The client datagram `CLIENT_ADD_INTEREST_MULTIPLE(context, id, parent, zones)`. -/
def add_interest_multiple_datagram (k : Config) (context id parent : Nat) (zones : List Nat) :
    Datagram :=
  add_uint16 k.CLIENT_ADD_INTEREST_MULTIPLE ++ add_uint32 context ++ add_uint16 id ++
    add_uint32 parent ++ add_uint16 zones.length ++ zones.flatMap add_uint32

/-- The client datagram `CLIENT_REMOVE_INTEREST(context, id)`. -/
def remove_interest_datagram (k : Config) (context id : Nat) : Datagram :=
  add_uint16 k.CLIENT_REMOVE_INTEREST ++ add_uint32 context ++ add_uint16 id

/-- A sequence of interest datagrams: interest 1 opens zones 9000 and 9001 of parent 500,
interest 2 opens zones 9001 and 9002, interest 1 is altered to zone 9002 of parent 600,
interest 2 is removed. -/
def exampleInterestDatagrams : List Datagram :=
  [add_interest_multiple_datagram exampleConfig 1 1 500 [9000, 9001],
    add_interest_multiple_datagram exampleConfig 2 2 500 [9001, 9002],
    add_interest_multiple_datagram exampleConfig 3 1 600 [9002],
    remove_interest_datagram exampleConfig 4 2]

/-! ## The role and its sessions -/

/-- The role `ClientAgent` together with the sessions it has created that exist: the
channel tracker `m_ct` and the `Client` objects, in the order of their construction. A
session that was rejected at its construction exists until it is destroyed. -/
structure ClientAgent where
  m_ct : ChannelTracker
  clients : List Client
  deriving DecidableEq, Repr

/-- The constructor `ClientAgent::ClientAgent`: `m_ct(min_channel, max_channel)`; no
session exists yet. -/
def ClientAgent.construct (min_channel max_channel : Nat) : ClientAgent :=
  { m_ct := ChannelTracker.mk_range min_channel max_channel, clients := [] }

/-- Modelled from the spec: ClientFactory::create (ClientFactory.h is not part of the
sources); the role constructs a session on the accepted socket with its allocator. -/
def ClientFactory.create (k : Config) (ct : ChannelTracker) (remote local_addr : List Nat) :
    Client × ChannelTracker :=
  Client.construct k ct remote local_addr

/-- The function `ClientAgent::handle_accept`: a session is created on the accepted
socket with the tracker `m_ct` of the role. -/
def ClientAgent.handle_accept (k : Config) (a : ClientAgent) (remote local_addr : List Nat) :
    ClientAgent :=
  { m_ct := (ClientFactory.create k a.m_ct remote local_addr).2,
    clients := a.clients ++ [(ClientFactory.create k a.m_ct remote local_addr).1] }

/-- The function `Client::network_disconnect` of the session at position `index`:
`delete this`, whose destructor hands the allocated channel to `free_channel`. -/
def ClientAgent.network_disconnect (a : ClientAgent) (index : Nat) : ClientAgent :=
  match a.clients[index]? with
  | none => a
  | some c => { m_ct := c.destruct a.m_ct, clients := a.clients.eraseIdx index }

/-- What happens to the sessions of a role: a connection is accepted and a session
constructed, or the session at a position is destroyed. -/
inductive AgentCall where
  | accept (remote local_addr : List Nat)
  | disconnect (index : Nat)
  deriving DecidableEq, Repr

/-- The role after one call. -/
def ClientAgent.step (k : Config) (a : ClientAgent) : AgentCall → ClientAgent
  | AgentCall.accept remote local_addr => a.handle_accept k remote local_addr
  | AgentCall.disconnect index => a.network_disconnect index

/-- The role after a history of constructions and destructions of sessions. -/
def ClientAgent.history (k : Config) (a : ClientAgent) (calls : List AgentCall) : ClientAgent :=
  calls.foldl (ClientAgent.step k) a

/-- The number of sessions constructed in a history. -/
def accept_count : List AgentCall → Nat
  | [] => 0
  | AgentCall.accept _ _ :: rest => accept_count rest + 1
  | AgentCall.disconnect _ :: rest => accept_count rest

/-- The non-zero channels that are in the free list or are the allocated channel of an
existing session. -/
def held_channels (a : ClientAgent) : List Nat :=
  (a.m_ct.m_unused_channels ++ a.clients.map (fun c => c.m_allocated_channel)).filter
    (fun ch => ch ≠ 0)

/-- The invariant of the role for the range `[min, max]`: the counter of the tracker is
in `[min, max + 1]`, and the non-zero channels that are in the free list or allocated to
an existing session are pairwise different and were handed out by the counter. -/
def ChannelInv (min max : Nat) (a : ClientAgent) : Prop :=
  a.m_ct.m_max = max ∧ min ≤ a.m_ct.m_next ∧ a.m_ct.m_next ≤ max + 1 ∧
    (held_channels a).Nodup ∧ ∀ ch ∈ held_channels a, min ≤ ch ∧ ch < a.m_ct.m_next

/-- An example history for the range `[1, 2]`: three connections are accepted (the third
is rejected), the first session is destroyed, and two more connections are accepted (the
second of them is rejected). -/
def exampleHistory : List AgentCall :=
  [AgentCall.accept [] [], AgentCall.accept [] [], AgentCall.accept [] [],
    AgentCall.disconnect 0, AgentCall.accept [] [], AgentCall.accept [] []]

/-- An example history for the range `[1, 2]`: two connections are accepted, which uses
up the range, and the older session is destroyed. -/
def exampleFifoHistory : List AgentCall :=
  [AgentCall.accept [] [], AgentCall.accept [] [], AgentCall.disconnect 0]

/-- An example history for the range `[1, 1]`: two connections are accepted (the second
is rejected), the rejected session is destroyed, then the other one, and a connection is
accepted. -/
def exampleSentinelHistory : List AgentCall :=
  [AgentCall.accept [] [], AgentCall.accept [] [], AgentCall.disconnect 1,
    AgentCall.disconnect 0, AgentCall.accept [] []]

/-- An example role for the range `[1, 2]` whose range is used up: two sessions exist,
with the channels 1 and 2, and the free list is empty. -/
def exampleFull : ClientAgent :=
  (ClientAgent.construct 1 2).history exampleConfig [AgentCall.accept [] [], AgentCall.accept [] []]

/-! # Theorems -/

/-! ## Basic facts about ejection -/

theorem send_disconnect_md_out (k : Config) (c : Client) (reason : Nat) (text : List Nat)
    (security : Bool) : (send_disconnect k c reason text security).md_out = c.md_out := by
  unfold send_disconnect
  split <;> rfl

theorem send_disconnect_m_state (k : Config) (c : Client) (reason : Nat) (text : List Nat)
    (security : Bool) : (send_disconnect k c reason text security).m_state = c.m_state := by
  unfold send_disconnect
  split <;> rfl

theorem send_disconnect_of_not_connected (k : Config) (c : Client) (reason : Nat)
    (text : List Nat) (security : Bool) (h : c.connected = false) :
    send_disconnect k c reason text security = c := by
  simp [send_disconnect, h]

theorem send_disconnect_connected (k : Config) (c : Client) (reason : Nat) (text : List Nat)
    (security : Bool) (h : c.connected = true) :
    (send_disconnect k c reason text security).connected = false := by
  simp [send_disconnect, h, do_disconnect]

/-- A second ejection of a session is without effect: the socket is closed. -/
theorem send_disconnect_twice (k : Config) (c : Client) (r1 r2 : Nat) (t1 t2 : List Nat)
    (s1 s2 : Bool) :
    send_disconnect k (send_disconnect k c r1 t1 s1) r2 t2 s2 = send_disconnect k c r1 t1 s1 := by
  cases h : c.connected
  · rw [send_disconnect_of_not_connected k c r1 t1 s1 h,
      send_disconnect_of_not_connected k c r2 t2 s2 h]
  · exact send_disconnect_of_not_connected k _ r2 t2 s2 (send_disconnect_connected k c r1 t1 s1 h)

/-- An ejection writes no two-byte frame: the count of any such frame is unchanged. -/
theorem send_disconnect_count_uint16 (k : Config) (c : Client) (reason : Nat) (text : List Nat)
    (security : Bool) (v : Nat) :
    List.count (add_uint16 v) (send_disconnect k c reason text security).net_out =
      List.count (add_uint16 v) c.net_out := by
  unfold send_disconnect
  split
  · simp [do_disconnect, network_send, send_event, add_uint16, add_string, List.count_append,
      List.count_cons]
  · rfl

/-! ## C1, C2: authorization of client field updates -/

/-- C1: for every session and every `CLIENT_OBJECT_SET_FIELD(do_id, field_id, ...)`,
`handle_client_object_update_field` sends something on the MD bus only if `field_id`
names a field of the resolved class that is `clsend`, or `ownsend` with `do_id`
owned, and what it sends is then one `STATESERVER_OBJECT_SET_FIELD`; when the class
resolves and the anonymity check passes but that condition fails, the session is
ejected with `FORBIDDEN_FIELD` (security) and nothing is sent on the bus. -/
theorem C1_update_field_authorization (k : Config) (c : Client)
    (dgi dgi1 dgi2 : DatagramIterator) (do_id field_id : Nat)
    (h1 : read_uint32 dgi = some (do_id, dgi1)) (h2 : read_uint16 dgi1 = some (field_id, dgi2)) :
    ((handle_client_object_update_field k c dgi).1.md_out ≠ c.md_out →
      ∃ dcc field, lookup_object k c do_id = some dcc ∧
        dcc.get_field_by_index field_id = some field ∧
        (field.clsend = true ∨ (do_id ∈ c.m_owned_objects ∧ field.ownsend = true)) ∧
        ∃ data, (handle_client_object_update_field k c dgi).1.md_out = c.md_out ++
          [add_server_header do_id c.m_channel k.STATESERVER_OBJECT_SET_FIELD ++
            add_uint32 do_id ++ add_uint16 field_id ++ data]) ∧
    (∀ dcc, lookup_object k c do_id = some dcc →
      (c.m_state = k.CLIENT_STATE_ESTABLISHED ∨
        ∃ u, map_find k.uberdogs do_id = some u ∧ u.anonymous = true) →
      (¬ ∃ field, dcc.get_field_by_index field_id = some field ∧
        (field.clsend = true ∨ (do_id ∈ c.m_owned_objects ∧ field.ownsend = true))) →
      (∃ text, handle_client_object_update_field k c dgi =
        (send_disconnect k c k.CLIENT_DISCONNECT_FORBIDDEN_FIELD text true, some (true, dgi2))) ∧
      (handle_client_object_update_field k c dgi).1.md_out = c.md_out) := by
  constructor
  · intro hne
    unfold handle_client_object_update_field at hne ⊢
    simp only [h1, h2] at hne ⊢
    cases hl : lookup_object k c do_id with
    | none => simp [hl, send_disconnect_md_out] at hne
    | some dcc =>
      simp only [hl] at hne ⊢
      split at hne
      · simp [send_disconnect_md_out] at hne
      · rename_i hanon
        rw [if_neg hanon]
        cases hf : dcc.get_field_by_index field_id with
        | none => simp [hf, send_disconnect_md_out] at hne
        | some field =>
          simp only [hf] at hne ⊢
          split at hne
          · simp [send_disconnect_md_out] at hne
          · rename_i hauth
            rw [if_neg hauth]
            refine ⟨dcc, field, rfl, hf, ?_, ?_⟩
            · cases hc : field.clsend <;> cases ho : field.ownsend <;>
                by_cases hm : do_id ∈ c.m_owned_objects <;> simp_all
            · cases hu : k.unpack_field field dgi2 with
              | none => simp [hu] at hne
              | some p =>
                obtain ⟨data, dgi3⟩ := p
                simp only [hu] at hne ⊢
                split at hne
                · simp [send_disconnect_md_out] at hne
                · rename_i hsz
                  rw [if_neg hsz]
                  exact ⟨data, by simp [send]⟩
  · intro dcc hl hanon hno
    have key : ∃ text, handle_client_object_update_field k c dgi =
        (send_disconnect k c k.CLIENT_DISCONNECT_FORBIDDEN_FIELD text true,
          some (true, dgi2)) := by
      unfold handle_client_object_update_field
      simp only [h1, h2, hl]
      have hanon2 : ¬ (c.m_state ≠ k.CLIENT_STATE_ESTABLISHED ∧
          (match map_find k.uberdogs do_id with
            | none => true
            | some u => !u.anonymous) = true) := by
        rintro ⟨hs, hu⟩
        rcases hanon with hs2 | ⟨u, hu1, hu2⟩
        · exact hs hs2
        · simp [hu1, hu2] at hu
      rw [if_neg hanon2]
      cases hf : dcc.get_field_by_index field_id with
      | none => exact ⟨_, rfl⟩
      | some field =>
        simp only []
        have hauth : (!field.clsend && !(decide (do_id ∈ c.m_owned_objects) && field.ownsend))
            = true := by
          have := fun h => hno ⟨field, hf, h⟩
          cases hc : field.clsend <;> cases ho : field.ownsend <;>
            by_cases hm : do_id ∈ c.m_owned_objects <;> simp_all
        rw [if_pos hauth]
        exact ⟨_, rfl⟩
    refine ⟨key, ?_⟩
    obtain ⟨text, ht⟩ := key
    rw [ht]
    exact send_disconnect_md_out _ _ _ _ _

/-- C1 at a concrete input: an ESTABLISHED session updating field 9 (neither `clsend`
nor `ownsend`) of uberdog 100 is ejected with `FORBIDDEN_FIELD`. -/
theorem C1_update_field_authorization_witness :
    (∃ text, handle_client_object_update_field exampleConfig (exampleClient 2)
        (add_uint32 100 ++ add_uint16 9 ++ [0, 0]) =
      (send_disconnect exampleConfig (exampleClient 2) 118 text true, some (true, [0, 0]))) ∧
    (handle_client_object_update_field exampleConfig (exampleClient 2)
        (add_uint32 100 ++ add_uint16 9 ++ [0, 0])).1.md_out = [] :=
  (C1_update_field_authorization exampleConfig (exampleClient 2)
    (add_uint32 100 ++ add_uint16 9 ++ [0, 0]) (add_uint16 9 ++ [0, 0]) [0, 0] 100 9
    (by decide) (by decide)).2 exampleClass (by decide) (Or.inl (by decide)) (by decide)

/-- C2: for every session whose state is not ESTABLISHED and every
`CLIENT_OBJECT_SET_FIELD(do_id, ...)`, something is sent on the MD bus only if
`do_id` is in the uberdog map with `anonymous = true`; if `do_id` resolves but is
not an anonymous uberdog the session is ejected with `ANONYMOUS_VIOLATION`
(security); if it does not resolve it is ejected with `MISSING_OBJECT` (security);
in both cases nothing is sent on the bus. -/
theorem C2_pre_auth_update_only_anonymous_uberdog (k : Config) (c : Client)
    (dgi dgi1 dgi2 : DatagramIterator) (do_id field_id : Nat)
    (hs : c.m_state ≠ k.CLIENT_STATE_ESTABLISHED)
    (h1 : read_uint32 dgi = some (do_id, dgi1)) (h2 : read_uint16 dgi1 = some (field_id, dgi2)) :
    ((handle_client_object_update_field k c dgi).1.md_out ≠ c.md_out →
      ∃ u, map_find k.uberdogs do_id = some u ∧ u.anonymous = true) ∧
    (∀ dcc, lookup_object k c do_id = some dcc →
      (¬ ∃ u, map_find k.uberdogs do_id = some u ∧ u.anonymous = true) →
      (∃ text, handle_client_object_update_field k c dgi =
        (send_disconnect k c k.CLIENT_DISCONNECT_ANONYMOUS_VIOLATION text true,
          some (true, dgi2))) ∧
      (handle_client_object_update_field k c dgi).1.md_out = c.md_out) ∧
    (lookup_object k c do_id = none →
      (∃ text, handle_client_object_update_field k c dgi =
        (send_disconnect k c k.CLIENT_DISCONNECT_MISSING_OBJECT text true,
          some (true, dgi2))) ∧
      (handle_client_object_update_field k c dgi).1.md_out = c.md_out) := by
  have hviol : (¬ ∃ u, map_find k.uberdogs do_id = some u ∧ u.anonymous = true) →
      (c.m_state ≠ k.CLIENT_STATE_ESTABLISHED ∧
        (match map_find k.uberdogs do_id with
          | none => true
          | some u => !u.anonymous) = true) := by
    intro hno
    refine ⟨hs, ?_⟩
    cases hu : map_find k.uberdogs do_id with
    | none => rfl
    | some u =>
      cases ha : u.anonymous
      · simp [ha]
      · exact absurd ⟨u, hu, ha⟩ hno
  refine ⟨?_, ?_, ?_⟩
  · intro hne
    by_contra hno
    apply hne
    unfold handle_client_object_update_field
    simp only [h1, h2]
    cases hl : lookup_object k c do_id with
    | none => exact send_disconnect_md_out _ _ _ _ _
    | some dcc =>
      simp only []
      rw [if_pos (hviol hno)]
      exact send_disconnect_md_out _ _ _ _ _
  · intro dcc hl hno
    have key : ∃ text, handle_client_object_update_field k c dgi =
        (send_disconnect k c k.CLIENT_DISCONNECT_ANONYMOUS_VIOLATION text true,
          some (true, dgi2)) := by
      unfold handle_client_object_update_field
      simp only [h1, h2, hl]
      rw [if_pos (hviol hno)]
      exact ⟨_, rfl⟩
    refine ⟨key, ?_⟩
    obtain ⟨text, ht⟩ := key
    rw [ht]
    exact send_disconnect_md_out _ _ _ _ _
  · intro hl
    have key : ∃ text, handle_client_object_update_field k c dgi =
        (send_disconnect k c k.CLIENT_DISCONNECT_MISSING_OBJECT text true,
          some (true, dgi2)) := by
      unfold handle_client_object_update_field
      simp only [h1, h2, hl]
      exact ⟨_, rfl⟩
    refine ⟨key, ?_⟩
    obtain ⟨text, ht⟩ := key
    rw [ht]
    exact send_disconnect_md_out _ _ _ _ _

/-- C2 at a concrete input: an ANONYMOUS session updating the non-anonymous uberdog
101 is ejected with `ANONYMOUS_VIOLATION`. -/
theorem C2_pre_auth_update_only_anonymous_uberdog_witness :
    (∃ text, handle_client_object_update_field exampleConfig (exampleClient 1)
        (add_uint32 101 ++ add_uint16 7 ++ [0, 0]) =
      (send_disconnect exampleConfig (exampleClient 1) 113 text true, some (true, [0, 0]))) ∧
    (handle_client_object_update_field exampleConfig (exampleClient 1)
        (add_uint32 101 ++ add_uint16 7 ++ [0, 0])).1.md_out = [] :=
  (C2_pre_auth_update_only_anonymous_uberdog exampleConfig (exampleClient 1)
    (add_uint32 101 ++ add_uint16 7 ++ [0, 0]) (add_uint16 7 ++ [0, 0]) [0, 0] 101 7
    (by decide) (by decide) (by decide)).2.1 exampleClass (by decide) (by decide)

/-! ## C3: the handshake -/

/-- C3: for a session in state NEW and a client datagram whose message type `m` can be
read: if `m` is not `CLIENT_HELLO` the session is ejected with `NO_HELLO`; otherwise,
the hash being readable, a hash other than the expected one ejects with `BAD_DCHASH`
whatever follows; otherwise, the version being readable, a version other than the
expected one ejects with `BAD_VERSION`; otherwise the state becomes ANONYMOUS and
exactly one `CLIENT_HELLO_RESP` frame is added to the frames sent. An ejection
leaves the state NEW and adds no `CLIENT_HELLO_RESP` frame. -/
theorem C3_handshake (k : Config) (c : Client) (dg r1 : Datagram) (m : Nat)
    (hs : c.m_state = k.CLIENT_STATE_NEW) (hm : read_uint16 dg = some (m, r1)) :
    (m ≠ k.CLIENT_HELLO → ∃ text, network_datagram k c dg =
      send_disconnect k c k.CLIENT_DISCONNECT_NO_HELLO text false) ∧
    (m = k.CLIENT_HELLO → ∀ dc_hash r2, read_uint32 r1 = some (dc_hash, r2) →
      (dc_hash ≠ k.expected_hash → ∃ text, network_datagram k c dg =
        send_disconnect k c k.CLIENT_DISCONNECT_BAD_DCHASH text false) ∧
      (dc_hash = k.expected_hash → ∀ version r3, read_string r2 = some (version, r3) →
        (version ≠ k.expected_version → ∃ text, network_datagram k c dg =
          send_disconnect k c k.CLIENT_DISCONNECT_BAD_VERSION text false) ∧
        (version = k.expected_version →
          (network_datagram k c dg).m_state = k.CLIENT_STATE_ANONYMOUS ∧
          List.count (add_uint16 k.CLIENT_HELLO_RESP) (network_datagram k c dg).net_out =
            List.count (add_uint16 k.CLIENT_HELLO_RESP) c.net_out + 1))) ∧
    (∀ reason text security,
      (send_disconnect k c reason text security).m_state = k.CLIENT_STATE_NEW ∧
      List.count (add_uint16 k.CLIENT_HELLO_RESP)
          (send_disconnect k c reason text security).net_out =
        List.count (add_uint16 k.CLIENT_HELLO_RESP) c.net_out) := by
  refine ⟨?_, ?_, ?_⟩
  · intro hne
    refine ⟨string_bytes "First packet is not CLIENT_HELLO", ?_⟩
    simp only [network_datagram, hs, if_true, handle_pre_hello, hm, if_pos hne]
    split
    · exact send_disconnect_twice _ _ _ _ _ _ _ _
    · rfl
  · intro he dc_hash r2 hh
    have hne : ¬ m ≠ k.CLIENT_HELLO := fun h => h he
    refine ⟨?_, ?_⟩
    · intro hd
      refine ⟨string_bytes "Client DC hash mismatch: server=0x" ++ hex_text k.expected_hash ++
        string_bytes ", client=0x" ++ hex_text dc_hash, ?_⟩
      simp only [network_datagram, hs, if_true, handle_pre_hello, hm, if_neg hne, hh, if_pos hd]
      split
      · exact send_disconnect_twice _ _ _ _ _ _ _ _
      · rfl
    · intro hd version r3 hv
      have hnd : ¬ dc_hash ≠ k.expected_hash := fun h => h hd
      refine ⟨?_, ?_⟩
      · intro hvne
        refine ⟨string_bytes "Client version mismatch: server=" ++ k.expected_version ++
          string_bytes ", client=" ++ version, ?_⟩
        simp only [network_datagram, hs, if_true, handle_pre_hello, hm, if_neg hne, hh,
          if_neg hnd, hv, if_pos hvne]
        split
        · exact send_disconnect_twice _ _ _ _ _ _ _ _
        · rfl
      · intro hve
        have hnv : ¬ version ≠ k.expected_version := fun h => h hve
        simp only [network_datagram, hs, if_true, handle_pre_hello, hm, if_neg hne, hh,
          if_neg hnd, hv, if_neg hnv]
        split
        · rw [send_disconnect_m_state, send_disconnect_count_uint16]
          simp [network_send]
        · simp [network_send]
  · intro reason text security
    rw [send_disconnect_m_state, send_disconnect_count_uint16]
    exact ⟨hs, rfl⟩

/-- C3 at the input of the spec: expected hash `0xDEADBEEF`, version `"v1"`; the session
that receives `CLIENT_HELLO(0xDEADBEEF, "v1")` becomes ANONYMOUS and is sent one
`CLIENT_HELLO_RESP`. -/
theorem C3_handshake_witness :
    (network_datagram exampleConfig (exampleClient 0)
        (add_uint16 1 ++ add_uint32 3735928559 ++ add_string [118, 49])).m_state = 1 ∧
    List.count (add_uint16 2) (network_datagram exampleConfig (exampleClient 0)
        (add_uint16 1 ++ add_uint32 3735928559 ++ add_string [118, 49])).net_out =
      List.count (add_uint16 2) (exampleClient 0).net_out + 1 :=
  ((((C3_handshake exampleConfig (exampleClient 0)
    (add_uint16 1 ++ add_uint32 3735928559 ++ add_string [118, 49])
    (add_uint32 3735928559 ++ add_string [118, 49]) 1 (by decide) (by decide)).2.1
    (by decide) 3735928559 (add_string [118, 49]) (by decide)).2
    (by decide) [118, 49] [] (by decide)).2 (by decide))

/-! ## Containers -/

theorem mem_set_insert (s : List Nat) (a x : Nat) : x ∈ set_insert s a ↔ x ∈ s ∨ x = a := by
  unfold set_insert
  split
  · constructor
    · exact Or.inl
    · rintro (h | rfl)
      · exact h
      · assumption
  · simp

theorem mem_set_erase (s : List Nat) (a x : Nat) : x ∈ set_erase s a ↔ x ∈ s ∧ x ≠ a := by
  simp [set_erase]

theorem foldl_set_erase (l s : List Nat) :
    l.foldl set_erase s = s.filter (fun x => decide (x ∉ l)) := by
  induction l generalizing s with
  | nil => simp
  | cons a l ih =>
    rw [List.foldl_cons, ih, set_erase, List.filter_filter]
    congr 1
    funext x
    by_cases h : x = a <;> simp [h]

theorem foldl_map_erase {β : Type} (l : List Nat) (m : List (Nat × β)) :
    l.foldl map_erase m = m.filter (fun e => decide (e.1 ∉ l)) := by
  induction l generalizing m with
  | nil => simp
  | cons a l ih =>
    rw [List.foldl_cons, ih, map_erase, List.filter_filter]
    congr 1
    funext x
    by_cases h : x.1 = a <;> simp [h]

theorem map_find_eq_none {β : Type} (m : List (Nat × β)) (key : Nat) :
    map_find m key = none ↔ key ∉ map_keys m := by
  induction m with
  | nil => simp [map_find, map_keys]
  | cons e m ih =>
    obtain ⟨a, b⟩ := e
    unfold map_find
    by_cases h : a = key
    · simp [h, map_keys]
    · simp only [if_neg h, ih]
      simp [map_keys, Ne.symm h]

theorem map_find_mem {β : Type} (m : List (Nat × β)) (key : Nat) (v : β)
    (h : map_find m key = some v) : (key, v) ∈ m := by
  induction m with
  | nil => simp [map_find] at h
  | cons e m ih =>
    obtain ⟨a, b⟩ := e
    unfold map_find at h
    by_cases hk : a = key
    · simp [hk] at h
      simp [hk, h]
    · simp only [if_neg hk] at h
      exact List.mem_cons_of_mem _ (ih h)

theorem map_find_map_replace {β : Type} (m : List (Nat × β)) (key : Nat) (v : β)
    (h : key ∈ map_keys m) :
    map_find (m.map (fun e => if e.1 = key then (key, v) else e)) key = some v := by
  induction m with
  | nil => simp [map_keys] at h
  | cons e m ih =>
    obtain ⟨a, b⟩ := e
    by_cases hk : a = key
    · subst hk
      simp [map_find]
    · have : key ∈ map_keys m := by
        simp only [map_keys, List.map_cons, List.mem_cons] at h
        rcases h with h | h
        · exact absurd h.symm hk
        · exact h
      simp only [List.map_cons, if_neg hk, map_find]
      exact ih this

theorem map_find_append_new {β : Type} (m : List (Nat × β)) (key : Nat) (v : β)
    (h : key ∉ map_keys m) : map_find (m ++ [(key, v)]) key = some v := by
  induction m with
  | nil => simp [map_find]
  | cons e m ih =>
    obtain ⟨a, b⟩ := e
    have hk : ¬ a = key := by
      intro hk
      apply h
      simp [map_keys, hk]
    have : key ∉ map_keys m := by
      intro hm
      apply h
      simp only [map_keys, List.map_cons, List.mem_cons]
      exact Or.inr hm
    simp only [List.cons_append, map_find, if_neg hk]
    exact ih this

theorem map_find_map_assign_self {β : Type} (m : List (Nat × β)) (key : Nat) (v : β) :
    map_find (map_assign m key v) key = some v := by
  unfold map_assign
  split
  · exact map_find_map_replace m key v (by assumption)
  · exact map_find_append_new m key v (by assumption)

/-! ## Closed forms of the loops of `close_zones` and `add_interest` -/

/-- The ids that `close_zones` collects in `to_remove`. -/
theorem close_zones_leaving_fold (k : Config) (l : List Nat) (acc : Client) :
    l.foldl (fun (acc : Client) id =>
      { network_send acc (add_uint16 k.CLIENT_OBJECT_LEAVING ++ add_uint32 id) with
        m_seen_objects := set_erase acc.m_seen_objects id }) acc =
    { acc with
      net_out := acc.net_out ++ l.map (fun id => add_uint16 k.CLIENT_OBJECT_LEAVING ++ add_uint32 id),
      m_seen_objects := l.foldl set_erase acc.m_seen_objects } := by
  induction l generalizing acc with
  | nil => simp
  | cons a l ih => rw [List.foldl_cons, ih]; simp [network_send]

theorem close_zones_erase_fold (l : List Nat) (acc : Client) :
    l.foldl (fun (acc : Client) id =>
      { acc with m_dist_objs := map_erase acc.m_dist_objs id }) acc =
    { acc with m_dist_objs := l.foldl map_erase acc.m_dist_objs } := by
  induction l generalizing acc with
  | nil => simp
  | cons a l ih => rw [List.foldl_cons, ih]; simp

theorem unsubscribe_fold (parent : Nat) (l : List Nat) (acc : Client) :
    l.foldl (fun (acc : Client) z => unsubscribe_channel acc (LOCATION2CHANNEL parent z)) acc =
    { acc with subscriptions :=
        (l.map (LOCATION2CHANNEL parent)).foldl set_erase acc.subscriptions } := by
  induction l generalizing acc with
  | nil => simp
  | cons a l ih => rw [List.foldl_cons, ih]; simp [unsubscribe_channel]

theorem subscribe_fold (parent : Nat) (l : List Nat) (acc : Client) :
    l.foldl (fun (acc : Client) z => subscribe_channel acc (LOCATION2CHANNEL parent z)) acc =
    { acc with subscriptions :=
        (l.map (LOCATION2CHANNEL parent)).foldl set_insert acc.subscriptions } := by
  induction l generalizing acc with
  | nil => simp
  | cons a l ih => rw [List.foldl_cons, ih]; simp [subscribe_channel]

theorem close_zones_eq (k : Config) (c : Client) (parent : Nat) (killed_zones : List Nat) :
    close_zones k c parent killed_zones =
    { c with
      net_out := c.net_out ++ (close_zones_to_remove c parent killed_zones).map
        (fun id => add_uint16 k.CLIENT_OBJECT_LEAVING ++ add_uint32 id),
      m_seen_objects := c.m_seen_objects.filter
        (fun x => decide (x ∉ close_zones_to_remove c parent killed_zones)),
      m_dist_objs := c.m_dist_objs.filter
        (fun e => decide (e.1 ∉ close_zones_to_remove c parent killed_zones)),
      subscriptions := c.subscriptions.filter
        (fun ch => decide (ch ∉ killed_zones.map (LOCATION2CHANNEL parent))) } := by
  unfold close_zones
  simp only [close_zones_leaving_fold, close_zones_erase_fold, unsubscribe_fold,
    foldl_set_erase, foldl_map_erase]

/-! ## C4: `add_interest` -/

theorem mem_foldl_set_insert (l s : List Nat) (x : Nat) :
    x ∈ l.foldl set_insert s ↔ x ∈ s ∨ x ∈ l := by
  induction l generalizing s with
  | nil => simp
  | cons a l ih =>
    rw [List.foldl_cons, ih, mem_set_insert, List.mem_cons]
    tauto

theorem mem_add_interest_new_zones (c : Client) (i : Interest) (z : Nat) :
    z ∈ add_interest_new_zones c i ↔
      z ∈ i.zones ∧ ∀ e ∈ c.m_interests, ¬ (e.2.parent = i.parent ∧ z ∈ e.2.zones) := by
  unfold add_interest_new_zones lookup_interests
  simp only [List.mem_filter, decide_eq_true_eq, List.map_eq_nil_iff, List.filter_eq_nil_iff]
  constructor
  · rintro ⟨hz, h⟩
    refine ⟨hz, fun e he hc => h e he ?_⟩
    simp [hc.1, hc.2]
  · rintro ⟨hz, h⟩
    refine ⟨hz, fun e he hc => h e he ?_⟩
    simp only [decide_eq_true_eq] at hc
    exact ⟨hc.1.symm, hc.2⟩

/-- The session after the `close_zones` that `add_interest` performs when the id of the
interest is already stored; the session itself otherwise. -/
theorem add_interest_closed_eq (k : Config) (c : Client) (i : Interest) (context : Nat) :
    add_interest k c i context =
      if add_interest_new_zones c i = [] then
        { add_interest_closed k c i with
          m_interests := map_assign c.m_interests i.id i,
          net_out := (add_interest_closed k c i).net_out ++
            [done_interest_resp k context i.id] }
      else
        { add_interest_closed k c i with
          m_interests := map_assign c.m_interests i.id i,
          m_next_context := (c.m_next_context + 1) % 4294967296,
          m_pending_interests := map_insert c.m_pending_interests c.m_next_context
            ⟨i.id, context, i.parent, add_interest_new_zones c i, none⟩,
          subscriptions := ((add_interest_new_zones c i).map (LOCATION2CHANNEL i.parent)).foldl
            set_insert (add_interest_closed k c i).subscriptions,
          md_out := c.md_out ++
            [add_server_header i.parent c.m_channel k.STATESERVER_OBJECT_GET_ZONES_OBJECTS ++
              add_uint32 c.m_next_context ++ add_uint32 i.parent ++
              add_uint16 (add_interest_new_zones c i).length ++
              (add_interest_new_zones c i).flatMap add_uint32] } := by
  unfold add_interest add_interest_closed
  cases hf : map_find c.m_interests i.id with
  | none =>
    simp only []
    split
    · simp [network_send, done_interest_resp]
    · simp [subscribe_fold, send]
  | some prev =>
    simp only []
    split
    · simp [network_send, done_interest_resp, close_zones_eq]
    · simp [subscribe_fold, send, close_zones_eq]

/-- C4 (amended): `new_zones` are the zones of `i` that no stored interest covers under
`i.parent`. Let `c1` be the session after the `close_zones` of an alteration (the
session itself when `i.id` is not stored). If `new_zones` is empty, `add_interest`
only stores `i` and sends `CLIENT_DONE_INTEREST_RESP(context, i.id)` after the frames
of `close_zones`: nothing goes to the bus, nothing is subscribed, no operation is
created. Otherwise it inserts an operation under the old `next_context` (kept out
when that key is already pending), increments `next_context` modulo 2^32,
subscribes `L(i.parent, z)` for exactly the new zones, sends one
`STATESERVER_OBJECT_GET_ZONES_OBJECTS` to `i.parent` and no `DONE`. In both cases
`interests[i.id] = i` afterwards. -/
theorem C4_add_interest (k : Config) (c : Client) (i : Interest) (context : Nat) :
    (∀ z, z ∈ add_interest_new_zones c i ↔
      z ∈ i.zones ∧ ∀ e ∈ c.m_interests, ¬ (e.2.parent = i.parent ∧ z ∈ e.2.zones)) ∧
    (map_find c.m_interests i.id = none → add_interest_closed k c i = c) ∧
    (add_interest_new_zones c i = [] →
      add_interest k c i context =
        { add_interest_closed k c i with
          m_interests := map_assign c.m_interests i.id i,
          net_out := (add_interest_closed k c i).net_out ++
            [done_interest_resp k context i.id] }) ∧
    (add_interest_new_zones c i ≠ [] →
      add_interest k c i context =
        { add_interest_closed k c i with
          m_interests := map_assign c.m_interests i.id i,
          m_next_context := (c.m_next_context + 1) % 4294967296,
          m_pending_interests := map_insert c.m_pending_interests c.m_next_context
            ⟨i.id, context, i.parent, add_interest_new_zones c i, none⟩,
          subscriptions := ((add_interest_new_zones c i).map (LOCATION2CHANNEL i.parent)).foldl
            set_insert (add_interest_closed k c i).subscriptions,
          md_out := c.md_out ++
            [add_server_header i.parent c.m_channel k.STATESERVER_OBJECT_GET_ZONES_OBJECTS ++
              add_uint32 c.m_next_context ++ add_uint32 i.parent ++
              add_uint16 (add_interest_new_zones c i).length ++
              (add_interest_new_zones c i).flatMap add_uint32] } ∧
      (∀ ch, ch ∈ (add_interest k c i context).subscriptions ↔
        ch ∈ (add_interest_closed k c i).subscriptions ∨
          ∃ z ∈ add_interest_new_zones c i, ch = LOCATION2CHANNEL i.parent z) ∧
      (c.m_next_context ∉ map_keys c.m_pending_interests →
        (add_interest k c i context).m_pending_interests = c.m_pending_interests ++
          [(c.m_next_context, ⟨i.id, context, i.parent, add_interest_new_zones c i, none⟩)]) ∧
      (c.m_next_context ∈ map_keys c.m_pending_interests →
        (add_interest k c i context).m_pending_interests = c.m_pending_interests)) ∧
    map_find (add_interest k c i context).m_interests i.id = some i := by
  refine ⟨mem_add_interest_new_zones c i, ?_, ?_, ?_, ?_⟩
  · intro h
    simp [add_interest_closed, h]
  · intro h
    rw [add_interest_closed_eq, if_pos h]
  · intro h
    have heq := add_interest_closed_eq k c i context
    rw [if_neg h] at heq
    refine ⟨heq, ?_, ?_, ?_⟩
    · intro ch
      rw [heq]
      simp only [mem_foldl_set_insert, List.mem_map]
      constructor
      · rintro (h1 | ⟨z, hz, rfl⟩)
        · exact Or.inl h1
        · exact Or.inr ⟨z, hz, rfl⟩
      · rintro (h1 | ⟨z, hz, rfl⟩)
        · exact Or.inl h1
        · exact Or.inr ⟨z, hz, rfl⟩
    · intro hk
      rw [heq]
      simp [map_insert, hk]
    · intro hk
      rw [heq]
      simp [map_insert, hk]
  · rw [add_interest_closed_eq]
    split <;> exact map_find_map_assign_self _ _ _

/-- C4 fails as stated. In the reachable ESTABLISHED session `exampleTwoZones`, interest 1
covers `(500, 9000)` and `(500, 9001)` and object 77 is seen at `(500, 9001)`; adding
interest 1 again with the single zone 9000 has no new zone, yet the client is sent
`CLIENT_OBJECT_LEAVING(77)` before `CLIENT_DONE_INTEREST_RESP(42, 1)`. In the session
`exampleWrapped` the key `next_context = 0` is already pending; adding interest 2
has a new zone, yet no operation is created. -/
theorem C4_add_interest_counterexample :
    Reachable exampleConfig exampleTwoZones ∧
    exampleTwoZones.m_state = exampleConfig.CLIENT_STATE_ESTABLISHED ∧
    add_interest_new_zones exampleTwoZones ⟨1, 500, [9000]⟩ = [] ∧
    (add_interest exampleConfig exampleTwoZones ⟨1, 500, [9000]⟩ 42).net_out =
      exampleTwoZones.net_out ++
        [add_uint16 exampleConfig.CLIENT_OBJECT_LEAVING ++ add_uint32 77,
          done_interest_resp exampleConfig 42 1] ∧
    (add_interest exampleConfig exampleTwoZones ⟨1, 500, [9000]⟩ 42).net_out ≠
      exampleTwoZones.net_out ++ [done_interest_resp exampleConfig 42 1] ∧
    add_interest_new_zones exampleWrapped ⟨2, 600, [1]⟩ ≠ [] ∧
    (add_interest exampleConfig exampleWrapped ⟨2, 600, [1]⟩ 43).m_pending_interests =
      exampleWrapped.m_pending_interests := by
  refine ⟨?_, by decide, by decide, by decide, by decide, by decide, by decide⟩
  exact Reachable.md _ _ (Reachable.client _ _ (Reachable.md _ _ (Reachable.construct _ _ _)))

/-! ## C6: `CLIENT_REMOVE_INTEREST` -/

theorem mem_lookup_interests (c : Client) (parent zone : Nat) (x : Interest) :
    x ∈ lookup_interests c parent zone ↔
      ∃ e ∈ c.m_interests, e.2 = x ∧ e.2.parent = parent ∧ zone ∈ e.2.zones := by
  unfold lookup_interests
  simp only [List.mem_map, List.mem_filter, decide_eq_true_eq]
  constructor
  · rintro ⟨e, ⟨he, hp, hz⟩, rfl⟩
    exact ⟨e, he, rfl, hp.symm, hz⟩
  · rintro ⟨e, he, rfl, hp, hz⟩
    exact ⟨e, ⟨he, hp.symm, hz⟩, rfl⟩

/-- A stored interest that covers a location is among the interests looked up for it. -/
theorem stored_mem_lookup_interests (c : Client) (id : Nat) (i : Interest) (z : Nat)
    (h : map_find c.m_interests id = some i) (hz : z ∈ i.zones) :
    i ∈ lookup_interests c i.parent z :=
  (mem_lookup_interests c i.parent z i).2 ⟨(id, i), map_find_mem _ _ _ h, rfl, rfl, hz⟩

theorem list_eq_singleton_of_mem_of_length_le {α : Type} (l : List α) (a : α) (h : a ∈ l)
    (hl : l.length ≤ 1) : l = [a] := by
  match l, h, hl with
  | [b], h, _ => simp at h; rw [h]
  | _ :: _ :: _, _, hl => simp at hl

theorem mem_remove_interest_killed_zones (c : Client) (id : Nat) (i : Interest) (z : Nat)
    (h : map_find c.m_interests id = some i) :
    z ∈ remove_interest_killed_zones c i ↔ z ∈ i.zones ∧ lookup_interests c i.parent z = [i] := by
  unfold remove_interest_killed_zones
  simp only [List.mem_filter, decide_eq_true_eq]
  constructor
  · rintro ⟨hz, hl⟩
    exact ⟨hz, list_eq_singleton_of_mem_of_length_le _ _
      (stored_mem_lookup_interests c id i z h hz) (le_of_eq hl)⟩
  · rintro ⟨hz, hl⟩
    exact ⟨hz, by rw [hl]; rfl⟩

theorem mem_close_zones_to_remove (c : Client) (parent : Nat) (killed : List Nat) (x : Nat) :
    x ∈ close_zones_to_remove c parent killed ↔
      ∃ e ∈ c.m_dist_objs, e.2.id = x ∧ e.2.parent = parent ∧ e.2.zone ∈ killed ∧
        e.2.id ∉ c.m_owned_objects := by
  unfold close_zones_to_remove
  simp only [List.mem_map, List.mem_filter, decide_eq_true_eq]
  constructor
  · rintro ⟨e, ⟨he, hp⟩, rfl⟩
    exact ⟨e, he, rfl, hp⟩
  · rintro ⟨e, he, rfl, hp⟩
    exact ⟨e, ⟨he, hp⟩, rfl⟩

theorem eq_of_mem_of_key_eq {β : Type} (m : List (Nat × β)) (h : (map_keys m).Nodup)
    (e1 e2 : Nat × β) (h1 : e1 ∈ m) (h2 : e2 ∈ m) (hk : e1.1 = e2.1) : e1 = e2 := by
  unfold map_keys at h
  exact List.inj_on_of_nodup_map h h1 h2 hk

/-- In a well-formed session the entries `close_zones` erases from the projection are
exactly the objects of a killed location that are not owned. -/
theorem close_zones_projection_filter (c : Client) (hwf : c.WF) (parent : Nat)
    (killed : List Nat) :
    c.m_dist_objs.filter (fun e => decide (e.1 ∉ close_zones_to_remove c parent killed)) =
    c.m_dist_objs.filter (fun e => decide (¬ (e.2.parent = parent ∧ e.2.zone ∈ killed ∧
      e.2.id ∉ c.m_owned_objects))) := by
  apply List.filter_congr
  intro e he
  simp only [decide_eq_decide, mem_close_zones_to_remove]
  constructor
  · intro h hp
    exact h ⟨e, he, hwf.2.1 e he, hp⟩
  · rintro h ⟨e2, he2, hid, hp⟩
    have : e2 = e := eq_of_mem_of_key_eq _ hwf.1 e2 e he2 he (by rw [← hwf.2.1 e2 he2, hid])
    exact h (this ▸ hp)

theorem remove_interest_eq (k : Config) (c : Client) (i : Interest) (context : Nat) :
    remove_interest k c i context =
    { c with
      net_out := c.net_out ++
        (close_zones_to_remove c i.parent (remove_interest_killed_zones c i)).map
          (fun id => add_uint16 k.CLIENT_OBJECT_LEAVING ++ add_uint32 id) ++
        [done_interest_resp k context i.id],
      m_seen_objects := c.m_seen_objects.filter (fun x =>
        decide (x ∉ close_zones_to_remove c i.parent (remove_interest_killed_zones c i))),
      m_dist_objs := c.m_dist_objs.filter (fun e =>
        decide (e.1 ∉ close_zones_to_remove c i.parent (remove_interest_killed_zones c i))),
      subscriptions := c.subscriptions.filter (fun ch =>
        decide (ch ∉ (remove_interest_killed_zones c i).map (LOCATION2CHANNEL i.parent))),
      m_interests := map_erase c.m_interests i.id } := by
  unfold remove_interest
  simp [close_zones_eq, network_send, done_interest_resp]

/-- C6: for every well-formed session and every `CLIENT_REMOVE_INTEREST(context, id)`: if
`id` is not stored the session is ejected with `GENERIC` (security) and interests,
projection (objects, seen, owned) and subscriptions are unchanged; otherwise, with
`i = interests[id]` and `killed` the zones `z` of `i` for which `i` is the only stored
interest of parent `i.parent` containing `z`, the handler removes from seen and from
the projection exactly the non-owned projected objects located at `(i.parent, z)`,
`z` killed, sends one `CLIENT_OBJECT_LEAVING` for each, unsubscribes exactly the
channels `L(i.parent, z)`, `z` killed, sends `CLIENT_DONE_INTEREST_RESP(context, id)`
after the leaving frames and erases `id` from the interests. -/
theorem C6_remove_interest (k : Config) (c : Client) (dgi dgi1 dgi2 : DatagramIterator)
    (context id : Nat) (hwf : c.WF)
    (h1 : read_uint32 dgi = some (context, dgi1)) (h2 : read_uint16 dgi1 = some (id, dgi2)) :
    (map_find c.m_interests id = none →
      (∃ text, handle_client_remove_interest k c dgi =
        (send_disconnect k c k.CLIENT_DISCONNECT_GENERIC text true, some (true, dgi2))) ∧
      (handle_client_remove_interest k c dgi).1.m_interests = c.m_interests ∧
      (handle_client_remove_interest k c dgi).1.m_dist_objs = c.m_dist_objs ∧
      (handle_client_remove_interest k c dgi).1.m_seen_objects = c.m_seen_objects ∧
      (handle_client_remove_interest k c dgi).1.m_owned_objects = c.m_owned_objects ∧
      (handle_client_remove_interest k c dgi).1.subscriptions = c.subscriptions) ∧
    (∀ i, map_find c.m_interests id = some i →
      (∀ z, z ∈ remove_interest_killed_zones c i ↔
        z ∈ i.zones ∧ lookup_interests c i.parent z = [i]) ∧
      (∀ x, x ∈ close_zones_to_remove c i.parent (remove_interest_killed_zones c i) ↔
        ∃ e ∈ c.m_dist_objs, e.2.id = x ∧ e.2.parent = i.parent ∧
          e.2.zone ∈ remove_interest_killed_zones c i ∧ e.2.id ∉ c.m_owned_objects) ∧
      handle_client_remove_interest k c dgi =
        ({ c with
          net_out := c.net_out ++
            (close_zones_to_remove c i.parent (remove_interest_killed_zones c i)).map
              (fun x => add_uint16 k.CLIENT_OBJECT_LEAVING ++ add_uint32 x) ++
            [done_interest_resp k context id],
          m_seen_objects := c.m_seen_objects.filter (fun x =>
            decide (x ∉ close_zones_to_remove c i.parent (remove_interest_killed_zones c i))),
          m_dist_objs := c.m_dist_objs.filter (fun e =>
            decide (¬ (e.2.parent = i.parent ∧ e.2.zone ∈ remove_interest_killed_zones c i ∧
              e.2.id ∉ c.m_owned_objects))),
          subscriptions := c.subscriptions.filter (fun ch =>
            decide (ch ∉ (remove_interest_killed_zones c i).map (LOCATION2CHANNEL i.parent))),
          m_interests := map_erase c.m_interests id }, some (false, dgi2))) := by
  constructor
  · intro hn
    have key : handle_client_remove_interest k c dgi =
        (send_disconnect k c k.CLIENT_DISCONNECT_GENERIC
          (string_bytes "Tried to remove a non-existing intrest") true, some (true, dgi2)) := by
      simp only [handle_client_remove_interest, h1, h2, hn]
    refine ⟨⟨_, key⟩, ?_⟩
    rw [key]
    unfold send_disconnect
    split <;> simp [do_disconnect, network_send, send_event]
  · intro i hi
    refine ⟨fun z => mem_remove_interest_killed_zones c id i z hi,
      mem_close_zones_to_remove c i.parent _, ?_⟩
    have hid : i.id = id := hwf.2.2 (id, i) (map_find_mem _ _ _ hi)
    simp only [handle_client_remove_interest, h1, h2, hi, remove_interest_eq,
      close_zones_projection_filter c hwf, hid]

/-- C6 at a concrete input: the well-formed session `exampleTwoZones` removes interest 1;
both zones are killed, object 77 leaves, the two location channels are unsubscribed. -/
theorem C6_remove_interest_witness :
    exampleTwoZones.WF ∧
    (handle_client_remove_interest exampleConfig exampleTwoZones
        (add_uint32 7 ++ add_uint16 1)).1.net_out =
      exampleTwoZones.net_out ++ [add_uint16 132 ++ add_uint32 77,
        done_interest_resp exampleConfig 7 1] ∧
    (handle_client_remove_interest exampleConfig exampleTwoZones
        (add_uint32 7 ++ add_uint16 1)).1.subscriptions = [1000, 4014] :=
  have h := ((C6_remove_interest exampleConfig exampleTwoZones
    (add_uint32 7 ++ add_uint16 1) (add_uint16 1) [] 7 1 (by decide) (by decide)
    (by decide)).2 ⟨1, 500, [9000, 9001]⟩ (by decide)).2.2
  ⟨by decide, by rw [h]; decide, by rw [h]; decide⟩

/-! ## C7: the zones closed by an alteration -/

theorem LOCATION2CHANNEL_eq (parent zone : Nat) (h : zone < 4294967296) :
    LOCATION2CHANNEL parent zone = 4294967296 * parent + zone := by
  unfold LOCATION2CHANNEL
  have h2 : zone < 2 ^ 32 := by norm_num; exact h
  rw [Nat.shiftLeft_eq, Nat.mul_comm, ← Nat.mul_add_lt_is_or h2]

/-- Location channels of 32-bit zones are distinct for distinct locations. -/
theorem LOCATION2CHANNEL_inj (p1 z1 p2 z2 : Nat) (h1 : z1 < 4294967296) (h2 : z2 < 4294967296)
    (h : LOCATION2CHANNEL p1 z1 = LOCATION2CHANNEL p2 z2) : p1 = p2 ∧ z1 = z2 := by
  rw [LOCATION2CHANNEL_eq p1 z1 h1, LOCATION2CHANNEL_eq p2 z2 h2] at h
  omega

/-- Two different stored entries that cover a location make the lookup longer than one. -/
theorem lookup_interests_length_two (c : Client) (parent zone : Nat) (e1 e2 : Nat × Interest)
    (h1 : e1 ∈ c.m_interests) (h2 : e2 ∈ c.m_interests) (hne : e1.1 ≠ e2.1)
    (hc1 : e1.2.parent = parent ∧ zone ∈ e1.2.zones)
    (hc2 : e2.2.parent = parent ∧ zone ∈ e2.2.zones) :
    1 < (lookup_interests c parent zone).length := by
  unfold lookup_interests
  rw [List.length_map, ← List.countP_eq_length_filter,
    List.countP_eq_countP_filter_add c.m_interests _ (fun e => decide (e.1 = e1.1))]
  have ha : 0 < List.countP (fun e => decide (parent = e.2.parent ∧ zone ∈ e.2.zones))
      (c.m_interests.filter (fun e => decide (e.1 = e1.1))) := by
    rw [List.countP_pos_iff]
    exact ⟨e1, by simp [h1], by simp [hc1.1, hc1.2]⟩
  have hb : 0 < List.countP (fun e => decide (parent = e.2.parent ∧ zone ∈ e.2.zones))
      (c.m_interests.filter (fun a => !decide (a.1 = e1.1))) := by
    rw [List.countP_pos_iff]
    exact ⟨e2, by simp [h2, Ne.symm hne], by simp [hc2.1, hc2.2]⟩
  omega

theorem mem_add_interest_killed_zones (c : Client) (i old : Interest) (z : Nat)
    (h : map_find c.m_interests i.id = some old) :
    z ∈ add_interest_killed_zones c i old ↔
      z ∈ old.zones ∧ lookup_interests c old.parent z = [old] ∧
        (i.parent ≠ old.parent ∨ z ∉ i.zones) := by
  unfold add_interest_killed_zones
  simp only [List.mem_filter, decide_eq_true_eq, not_lt]
  constructor
  · rintro ⟨hz, hl, hn⟩
    exact ⟨hz, list_eq_singleton_of_mem_of_length_le _ _
      (stored_mem_lookup_interests c i.id old z h hz) hl, hn⟩
  · rintro ⟨hz, hl, hn⟩
    exact ⟨hz, by rw [hl]; simp, hn⟩

/-- C7: when an interest `old` is stored under the id of the new interest `i`, the zones
`add_interest` passes to `close_zones` with parent `old.parent` are exactly the zones
`z` of `old` such that `old` is the only stored interest covering `(old.parent, z)` and
`i` has another parent or does not contain `z`. In particular a 32-bit zone that `i`
keeps under the same parent, or that another stored interest still covers, is not
closed: its location channel stays subscribed and the projected objects located
there stay in the projection and in seen. -/
theorem C7_alteration_killed_zones (k : Config) (c : Client) (i old : Interest) (context : Nat)
    (hwf : c.WF) (hb : ∀ z ∈ old.zones, z < 4294967296)
    (h : map_find c.m_interests i.id = some old) :
    add_interest_closed k c i =
      close_zones k c old.parent (add_interest_killed_zones c i old) ∧
    (∀ z, z ∈ add_interest_killed_zones c i old ↔
      z ∈ old.zones ∧ lookup_interests c old.parent z = [old] ∧
        (i.parent ≠ old.parent ∨ z ∉ i.zones)) ∧
    (∀ z, z < 4294967296 →
      ((i.parent = old.parent ∧ z ∈ i.zones) ∨
        ∃ e ∈ c.m_interests, e.1 ≠ i.id ∧ e.2.parent = old.parent ∧ z ∈ e.2.zones) →
      z ∉ add_interest_killed_zones c i old ∧
      (LOCATION2CHANNEL old.parent z ∈ c.subscriptions →
        LOCATION2CHANNEL old.parent z ∈ (add_interest k c i context).subscriptions) ∧
      (∀ e ∈ c.m_dist_objs, e.2.parent = old.parent → e.2.zone = z →
        e ∈ (add_interest k c i context).m_dist_objs ∧
        (e.2.id ∈ c.m_seen_objects → e.2.id ∈ (add_interest k c i context).m_seen_objects))) := by
  have hclosed : add_interest_closed k c i =
      close_zones k c old.parent (add_interest_killed_zones c i old) := by
    simp [add_interest_closed, h]
  refine ⟨hclosed, fun z => mem_add_interest_killed_zones c i old z h, ?_⟩
  intro z hz hkeep
  have hnk : z ∉ add_interest_killed_zones c i old := by
    intro hk
    rw [mem_add_interest_killed_zones c i old z h] at hk
    obtain ⟨hzo, hl, hn⟩ := hk
    rcases hkeep with ⟨hp, hzi⟩ | ⟨e, he, hne, hp, hze⟩
    · rcases hn with hn | hn
      · exact hn hp
      · exact hn hzi
    · have := lookup_interests_length_two c old.parent z (i.id, old) e
        (map_find_mem _ _ _ h) he (Ne.symm hne) ⟨rfl, hzo⟩ ⟨hp, hze⟩
      rw [hl] at this
      simp at this
  have hobjs : (add_interest k c i context).m_dist_objs =
      (close_zones k c old.parent (add_interest_killed_zones c i old)).m_dist_objs := by
    rw [add_interest_closed_eq, hclosed]
    split <;> rfl
  have hseen : (add_interest k c i context).m_seen_objects =
      (close_zones k c old.parent (add_interest_killed_zones c i old)).m_seen_objects := by
    rw [add_interest_closed_eq, hclosed]
    split <;> rfl
  have hsubs : ∀ ch, ch ∈ (close_zones k c old.parent
      (add_interest_killed_zones c i old)).subscriptions →
      ch ∈ (add_interest k c i context).subscriptions := by
    intro ch hch
    rw [add_interest_closed_eq, hclosed]
    split
    · exact hch
    · simp only [mem_foldl_set_insert]
      exact Or.inl hch
  have hnot : ∀ e ∈ c.m_dist_objs, e.2.parent = old.parent → e.2.zone = z →
      e.2.id ∉ close_zones_to_remove c old.parent (add_interest_killed_zones c i old) := by
    intro e he _ hez hmem
    rw [mem_close_zones_to_remove] at hmem
    obtain ⟨e2, he2, hid, _, hzk, _⟩ := hmem
    have : e2 = e := eq_of_mem_of_key_eq _ hwf.1 e2 e he2 he
      (by rw [← hwf.2.1 e2 he2, ← hwf.2.1 e he, hid])
    rw [this, hez] at hzk
    exact hnk hzk
  refine ⟨hnk, ?_, ?_⟩
  · intro hsub
    apply hsubs
    rw [close_zones_eq]
    simp only [List.mem_filter, decide_eq_true_eq, List.mem_map, not_exists, not_and]
    refine ⟨hsub, fun z2 hz2 heq => ?_⟩
    have hz2b : z2 < 4294967296 := hb z2 (List.mem_of_mem_filter hz2)
    have := (LOCATION2CHANNEL_inj _ _ _ _ hz2b hz heq).2
    exact hnk (this ▸ hz2)
  · intro e he hp hez
    have hn := hnot e he hp hez
    constructor
    · rw [hobjs, close_zones_eq]
      simp only [List.mem_filter, decide_eq_true_eq]
      exact ⟨he, by rw [← hwf.2.1 e he]; exact hn⟩
    · intro hs
      rw [hseen, close_zones_eq]
      simp only [List.mem_filter, decide_eq_true_eq]
      exact ⟨hs, hn⟩

/-- C7 at a concrete input: in `exampleTwoZones` interest 1 covers zones 9000 and 9001 of
parent 500; altering it to the single zone 9000 closes exactly zone 9001. -/
theorem C7_alteration_killed_zones_witness :
    exampleTwoZones.WF ∧
    add_interest_closed exampleConfig exampleTwoZones ⟨1, 500, [9000]⟩ =
      close_zones exampleConfig exampleTwoZones 500 [9001] :=
  ⟨by decide, (C7_alteration_killed_zones exampleConfig exampleTwoZones ⟨1, 500, [9000]⟩
    ⟨1, 500, [9000, 9001]⟩ 42 (by decide) (by decide) (by decide)).1⟩

/-! ## Reading what was written -/

theorem read_uint16_add_uint16 (v : Nat) (r : List Nat) :
    read_uint16 (add_uint16 v ++ r) = some (v % 65536, r) := by
  simp only [add_uint16, read_uint16, List.cons_append, List.nil_append, Option.some.injEq,
    Prod.mk.injEq, and_true]
  omega

theorem read_uint32_add_uint32 (v : Nat) (r : List Nat) :
    read_uint32 (add_uint32 v ++ r) = some (v % 4294967296, r) := by
  simp only [add_uint32, read_uint32, List.cons_append, List.nil_append, Option.some.injEq,
    Prod.mk.injEq, and_true]
  omega

theorem read_uint64_add_uint64 (v : Nat) (r : List Nat) :
    read_uint64 (add_uint64 v ++ r) = some (v % 18446744073709551616, r) := by
  simp only [add_uint64, read_uint64, List.append_assoc, read_uint32_add_uint32,
    Option.some.injEq, Prod.mk.injEq, and_true]
  omega

theorem add_uint16_mod (v : Nat) : add_uint16 (v % 65536) = add_uint16 v := by
  simp only [add_uint16, List.cons.injEq, and_true]
  omega

theorem add_uint32_mod (v : Nat) : add_uint32 (v % 4294967296) = add_uint32 v := by
  simp only [add_uint32, List.cons.injEq, and_true]
  omega

theorem read_uint16_lt (dgi r : DatagramIterator) (v : Nat) (h : read_uint16 dgi = some (v, r)) :
    v < 65536 := by
  match dgi, h with
  | b0 :: b1 :: r2, h =>
    simp only [read_uint16, Option.some.injEq, Prod.mk.injEq] at h
    omega

theorem read_uint32_lt (dgi r : DatagramIterator) (v : Nat) (h : read_uint32 dgi = some (v, r)) :
    v < 4294967296 := by
  match dgi, h with
  | b0 :: b1 :: b2 :: b3 :: r2, h =>
    simp only [read_uint32, Option.some.injEq, Prod.mk.injEq] at h
    omega

/-! ## C5: completion of an interest operation -/

theorem handle_datagram_enter_location (k : Config) (hk : k.md_switch_ok) (c : Client)
    (parent zone : Nat) (e : EnterLocation) :
    handle_datagram k c (enter_location_datagram k parent zone e) =
      handle_STATESERVER_OBJECT_ENTER_LOCATION k c
        k.STATESERVER_OBJECT_ENTER_LOCATION_WITH_REQUIRED
        (add_uint32 e.do_id ++ add_uint32 parent ++ add_uint32 zone ++ add_uint16 e.dc_id ++
          e.payload) := by
  obtain ⟨hp, hlt, _⟩ := hk
  simp only [List.pairwise_cons, List.mem_cons, List.mem_singleton, forall_eq_or_imp,
    forall_eq] at hp
  simp only [handle_datagram, enter_location_datagram, md_datagram, List.append_assoc,
    read_uint64_add_uint64, read_uint16_add_uint16, Nat.mod_eq_of_lt hlt]
  have h1 := hp.1.2.2.2.2.2.2.2.2.2.2.2.1
  have h2 := hp.2.1.2.2.2.2.2.2.2.2.2.2.1
  have h3 := hp.2.2.1.2.2.2.2.2.2.2.2.2.1
  have h4 := hp.2.2.2.1.2.2.2.2.2.2.2.2.1
  have h5 := hp.2.2.2.2.1.2.2.2.2.2.2.2.1
  have h6 := hp.2.2.2.2.2.1.2.2.2.2.2.2.1
  have h7 := hp.2.2.2.2.2.2.1.2.2.2.2.2.1
  have h8 := hp.2.2.2.2.2.2.2.1.2.2.2.2.1
  have h9 := hp.2.2.2.2.2.2.2.2.1.2.2.2.1
  have h10 := hp.2.2.2.2.2.2.2.2.2.1.2.2.1
  have h11 := hp.2.2.2.2.2.2.2.2.2.2.1.2.1
  have h12 := hp.2.2.2.2.2.2.2.2.2.2.2.1.1
  simp [Ne.symm h1, Ne.symm h2, Ne.symm h3, Ne.symm h4, Ne.symm h5, Ne.symm h6, Ne.symm h7,
    Ne.symm h8, Ne.symm h9, Ne.symm h10, Ne.symm h11, Ne.symm h12]

theorem handle_datagram_zones_count_resp (k : Config) (hk : k.md_switch_ok) (c : Client)
    (sender context count : Nat) :
    handle_datagram k c (zones_count_resp_datagram k sender context count) =
      handle_STATESERVER_OBJECT_GET_ZONES_COUNT_RESP k c
        (add_uint32 context ++ add_uint32 count) := by
  obtain ⟨hp, _, hlt⟩ := hk
  simp only [List.pairwise_cons, List.mem_cons, List.mem_singleton, forall_eq_or_imp,
    forall_eq] at hp
  simp only [handle_datagram, zones_count_resp_datagram, md_datagram, List.append_assoc,
    read_uint64_add_uint64, read_uint16_add_uint16, Nat.mod_eq_of_lt hlt]
  have h0 := hp.1.2.2.2.2.2.2.2.2.2.2.2.2.2.1
  have h1 := hp.2.1.2.2.2.2.2.2.2.2.2.2.2.2.1
  have h2 := hp.2.2.1.2.2.2.2.2.2.2.2.2.2.2.1
  have h3 := hp.2.2.2.1.2.2.2.2.2.2.2.2.2.2.1
  have h4 := hp.2.2.2.2.1.2.2.2.2.2.2.2.2.2.1
  have h5 := hp.2.2.2.2.2.1.2.2.2.2.2.2.2.2.1
  have h6 := hp.2.2.2.2.2.2.1.2.2.2.2.2.2.2.1
  have h7 := hp.2.2.2.2.2.2.2.1.2.2.2.2.2.2.1
  have h8 := hp.2.2.2.2.2.2.2.2.1.2.2.2.2.2.1
  have h9 := hp.2.2.2.2.2.2.2.2.2.1.2.2.2.2.1
  have h10 := hp.2.2.2.2.2.2.2.2.2.2.1.2.2.2.1
  have h11 := hp.2.2.2.2.2.2.2.2.2.2.2.1.2.2.1
  have h12 := hp.2.2.2.2.2.2.2.2.2.2.2.2.1.2.1
  have h13 := hp.2.2.2.2.2.2.2.2.2.2.2.2.2.1.1
  simp only [if_neg (Ne.symm h0), if_neg (Ne.symm h1), if_neg (Ne.symm h2), if_neg (Ne.symm h3), if_neg (Ne.symm h4), if_neg (Ne.symm h5), if_neg (Ne.symm h6), if_neg (Ne.symm h7), if_neg (Ne.symm h8), if_neg (Ne.symm h9), if_neg (Ne.symm h10), if_neg (Ne.symm h11),
    not_or.2 ⟨Ne.symm h12, Ne.symm h13⟩, if_false, if_true]

theorem map_keys_entered (k : Config) (parent zone : Nat) (es : List EnterLocation) :
    map_keys (es.map (entered_object k parent zone)) = es.map (fun e => e.do_id) := by
  simp [map_keys, entered_object, Function.comp_def]

theorem arrived_entered (k : Config) (op : InterestOperation) (zone : Nat)
    (es : List EnterLocation) (hoz : op.m_zones = [zone]) :
    op.arrived (es.map (entered_object k op.m_parent zone)) = es.length := by
  unfold InterestOperation.arrived
  rw [List.filter_eq_self.2, List.length_map]
  intro x hx
  simp only [List.mem_map] at hx
  obtain ⟨e, _, rfl⟩ := hx
  simp [entered_object, hoz]

theorem enter_step (k : Config) (hk : k.md_switch_ok) (b : Client) (zone : Nat)
    (es : List EnterLocation) (ctx : Nat) (op : InterestOperation) (e : EnterLocation)
    (hown : b.m_owned_objects = []) (hp : op.m_parent < 4294967296) (hz : zone < 4294967296)
    (he : e.do_id < 4294967296) (hdc : e.dc_id < 65536)
    (hnew : e.do_id ∉ es.map (fun x => x.do_id)) (hoz : op.m_zones = [zone]) :
    handle_datagram k (entered k b op.m_parent zone es [(ctx, op)] [])
        (enter_location_datagram k op.m_parent zone e) =
      (entered k b op.m_parent zone (es ++ [e])
        (if op.m_total = some (es.length + 1) then [] else [(ctx, op)])
        (if op.m_total = some (es.length + 1)
          then [done_interest_resp k op.m_client_context op.m_interest_id] else []),
        some []) := by
  rw [handle_datagram_enter_location k hk]
  have hfind : map_find (es.map (entered_object k op.m_parent zone)) e.do_id = none := by
    rw [map_find_eq_none, map_keys_entered]
    exact hnew
  have hkeys : e.do_id ∉ map_keys (es.map (entered_object k op.m_parent zone)) := by
    rw [map_keys_entered]
    exact hnew
  have harr : op.arrived (es.map (entered_object k op.m_parent zone) ++
      [entered_object k op.m_parent zone e]) = es.length + 1 := by
    have := arrived_entered k op zone (es ++ [e]) hoz
    simpa using this
  simp only [handle_STATESERVER_OBJECT_ENTER_LOCATION, List.append_assoc,
    read_uint32_add_uint32, read_uint16_add_uint16, Nat.mod_eq_of_lt hp, Nat.mod_eq_of_lt hz,
    Nat.mod_eq_of_lt he, Nat.mod_eq_of_lt hdc, entered, hown, List.not_mem_nil, false_or,
    if_neg hnew, hfind, if_true, map_assign, if_neg hkeys, set_insert, read_remainder,
    network_send]
  have hobj : (e.do_id, (⟨e.do_id, op.m_parent, zone, k.get_class e.dc_id⟩ : DistributedObject))
      = entered_object k op.m_parent zone e := rfl
  rw [hobj]
  by_cases ht : op.m_total = some (es.length + 1)
  · have hr : op.is_ready (es.map (entered_object k op.m_parent zone) ++
        [entered_object k op.m_parent zone e]) = true := by
      simp [InterestOperation.is_ready, ht, harr]
    simp [hr, ht, map_erase, enter_object_frame]
  · have hr : op.is_ready (es.map (entered_object k op.m_parent zone) ++
        [entered_object k op.m_parent zone e]) = false := by
      unfold InterestOperation.is_ready
      cases hto : op.m_total with
      | none => rfl
      | some t =>
        simp only [harr, beq_eq_false_iff_ne, ne_eq]
        intro h
        apply ht
        rw [hto, h]
    simp [hr, ht, enter_object_frame]

theorem read_uint32_add_uint32_nil (v : Nat) :
    read_uint32 (add_uint32 v) = some (v % 4294967296, []) := by
  have := read_uint32_add_uint32 v []
  simpa using this

theorem count_step (k : Config) (hk : k.md_switch_ok) (b : Client) (zone : Nat)
    (es : List EnterLocation) (ctx : Nat) (op : InterestOperation) (sender count : Nat)
    (hctx : ctx < 4294967296) (hcount : count < 4294967296) (hoz : op.m_zones = [zone]) :
    handle_datagram k (entered k b op.m_parent zone es [(ctx, op)] [])
        (zones_count_resp_datagram k sender ctx count) =
      (entered k b op.m_parent zone es
        (if es.length = count then [] else [(ctx, op.store_total count)])
        (if es.length = count
          then [done_interest_resp k op.m_client_context op.m_interest_id] else []),
        some []) := by
  rw [handle_datagram_zones_count_resp k hk]
  have harr : (op.store_total count).arrived (es.map (entered_object k op.m_parent zone)) =
      es.length := arrived_entered k (op.store_total count) zone es hoz
  simp only [handle_STATESERVER_OBJECT_GET_ZONES_COUNT_RESP, List.append_assoc,
    read_uint32_add_uint32, read_uint32_add_uint32_nil, Nat.mod_eq_of_lt hctx,
    Nat.mod_eq_of_lt hcount, entered,
    List.append_nil, map_find, if_true]
  by_cases ht : es.length = count
  · have hr : (op.store_total count).is_ready (es.map (entered_object k op.m_parent zone))
        = true := by
      simp [InterestOperation.is_ready, InterestOperation.store_total, ht] at harr ⊢
      exact harr
    rw [if_pos hr]
    simp [ht, network_send, map_erase, map_assign, map_keys, InterestOperation.store_total]
  · have hr : (op.store_total count).is_ready (es.map (entered_object k op.m_parent zone))
        = false := by
      simp [InterestOperation.is_ready, InterestOperation.store_total] at harr ⊢
      rw [harr]
      exact ht
    rw [if_neg (by rw [hr]; simp)]
    simp [ht, map_assign, map_keys, InterestOperation.store_total]

/-- Entering objects while the operation cannot become ready only grows the projection. -/
theorem deliver_enters_waiting (k : Config) (hk : k.md_switch_ok) (b : Client) (zone ctx : Nat)
    (op : InterestOperation) (hown : b.m_owned_objects = []) (hp : op.m_parent < 4294967296)
    (hz : zone < 4294967296) (hoz : op.m_zones = [zone]) (more es : List EnterLocation)
    (hids : ((es ++ more).map (fun e => e.do_id)).Nodup)
    (hwf : ∀ e ∈ more, e.do_id < 4294967296 ∧ e.dc_id < 65536)
    (hwait : ∀ j, es.length < j → j ≤ es.length + more.length → op.m_total ≠ some j) :
    deliver k (entered k b op.m_parent zone es [(ctx, op)] [])
        (more.map (enter_location_datagram k op.m_parent zone)) =
      entered k b op.m_parent zone (es ++ more) [(ctx, op)] [] := by
  induction more generalizing es with
  | nil => simp [deliver]
  | cons e more ih =>
    have hnew : e.do_id ∉ es.map (fun x => x.do_id) := by
      rw [List.map_append, List.map_cons] at hids
      have := (List.nodup_append.1 hids).2.2
      intro hmem
      exact this hmem (List.mem_cons_self _ _) 
    have hstep := enter_step k hk b zone es ctx op e hown hp hz (hwf e (List.mem_cons_self _ _)).1
      (hwf e (List.mem_cons_self _ _)).2 hnew hoz
    have hnr : op.m_total ≠ some (es.length + 1) :=
      hwait (es.length + 1) (by omega) (by simp)
    rw [if_neg hnr, if_neg hnr] at hstep
    simp only [deliver, List.map_cons, List.foldl_cons, hstep]
    have := ih (es ++ [e]) (by simpa using hids)
      (fun x hx => hwf x (List.mem_cons_of_mem _ hx))
      (fun j h1 h2 => hwait j (by simp at h1; omega) (by simp at h1 h2 ⊢; omega))
    simp only [deliver] at this
    rw [this]
    simp

theorem deliver_append (k : Config) (c : Client) (a b : List Datagram) :
    deliver k c (a ++ b) = deliver k (deliver k c a) b := by
  simp [deliver, List.foldl_append]

/-- The session after `ADD_INTEREST(ctx, id, parent, zone)` in a session without interests,
objects and pending operations: nothing has entered, one operation is pending. -/
theorem add_interest_fresh (k : Config) (c : Client) (ctx id parent zone : Nat)
    (hi : c.m_interests = []) (hobjs : c.m_dist_objs = []) (hseen : c.m_seen_objects = [])
    (hpend : c.m_pending_interests = []) :
    add_interest k c ⟨id, parent, [zone]⟩ ctx =
      entered k (add_interest k c ⟨id, parent, [zone]⟩ ctx) parent zone []
        [(c.m_next_context, ⟨id, ctx, parent, [zone], none⟩)] [] ∧
    (add_interest k c ⟨id, parent, [zone]⟩ ctx).m_owned_objects = c.m_owned_objects := by
  have hnz : add_interest_new_zones c ⟨id, parent, [zone]⟩ = [zone] := by
    simp [add_interest_new_zones, lookup_interests, hi]
  have hcl : add_interest_closed k c ⟨id, parent, [zone]⟩ = c := by
    simp [add_interest_closed, hi, map_find]
  rw [add_interest_closed_eq, hnz, hcl]
  simp [entered, hobjs, hseen, hpend, map_insert, map_keys]

/-- The scenario before the last step: the enters of `pre`, the count, the enters of
`post1`, with at least one enter still to come. -/
theorem deliver_before_last (k : Config) (hk : k.md_switch_ok) (b : Client)
    (parent zone ctx sender count : Nat) (op : InterestOperation)
    (hown : b.m_owned_objects = []) (hp : parent < 4294967296) (hz : zone < 4294967296)
    (hctx : ctx < 4294967296) (hcount : count < 4294967296)
    (hop : op = ⟨op.m_interest_id, op.m_client_context, parent, [zone], none⟩)
    (pre post1 : List EnterLocation)
    (hids : ((pre ++ post1).map (fun e => e.do_id)).Nodup)
    (hwf : ∀ e ∈ pre ++ post1, e.do_id < 4294967296 ∧ e.dc_id < 65536)
    (hlt : (pre ++ post1).length < count) :
    deliver k (entered k b parent zone [] [(ctx, op)] [])
        (pre.map (enter_location_datagram k parent zone) ++
          [zones_count_resp_datagram k sender ctx count] ++
          post1.map (enter_location_datagram k parent zone)) =
      entered k b parent zone (pre ++ post1) [(ctx, op.store_total count)] [] := by
  have hpar : op.m_parent = parent := by rw [hop]
  have hzs : op.m_zones = [zone] := by rw [hop]
  have htot : op.m_total = none := by rw [hop]
  subst hpar
  have h1 := deliver_enters_waiting k hk b zone ctx op hown hp hz hzs pre []
    (by
      rw [List.map_append] at hids
      simpa using (List.nodup_append.1 hids).1)
    (fun e he => hwf e (List.mem_append_left _ he))
    (fun j _ _ => by rw [htot]; simp)
  have h2 := count_step k hk b zone pre ctx op sender count hctx hcount hzs
  have hne : ¬ pre.length = count := by
    simp only [List.length_append] at hlt
    omega
  rw [if_neg hne, if_neg hne] at h2
  have h3 := deliver_enters_waiting k hk b zone ctx (op.store_total count) hown hp hz hzs
    post1 pre hids (fun e he => hwf e (List.mem_append_right _ he))
    (fun j _ hj => by
      simp only [List.length_append] at hlt
      simp only [InterestOperation.store_total, ne_eq, Option.some.injEq]
      omega)
  rw [deliver_append, deliver_append, h1]
  simp only [List.nil_append]
  have h2d : deliver k (entered k b op.m_parent zone pre [(ctx, op)] [])
      [zones_count_resp_datagram k sender ctx count] =
      entered k b op.m_parent zone pre [(ctx, op.store_total count)] [] := by
    simp [deliver, h2]
  rw [h2d]
  exact h3

theorem enter_object_frame_ne_done (k : Config) (parent zone : Nat) (e : EnterLocation)
    (ctx id : Nat) : enter_object_frame k parent zone e ≠ done_interest_resp k ctx id := by
  intro h
  have := congrArg List.length h
  simp [enter_object_frame, done_interest_resp, add_uint16, add_uint32] at this

/-- C5 (amended): in a session with no interest, an empty projection and no pending
operation, let `ADD_INTEREST(ctx, id, parent, zone)` create the operation with request
context `R = next_context`. For distinct 32-bit object ids split in any way into the
enters `pre` delivered before and the enters `post` delivered after
`STATESERVER_OBJECT_GET_ZONES_COUNT_RESP(R, n)`, `n` their number: the session sends one
`CLIENT_ENTER_OBJECT_REQUIRED` frame per enter and then one
`CLIENT_DONE_INTEREST_RESP(ctx, id)`, no operation is pending any more and seen is
exactly the entered ids; as long as the count or one of the enters is missing, only
enter frames have been sent, none of which is the `DONE` frame. -/
theorem C5_interest_completion (k : Config) (hk : k.md_switch_ok) (c : Client)
    (ctx id parent zone sender : Nat) (pre post : List EnterLocation)
    (hi : c.m_interests = []) (hobjs : c.m_dist_objs = []) (hseen : c.m_seen_objects = [])
    (hown : c.m_owned_objects = []) (hpend : c.m_pending_interests = [])
    (hR : c.m_next_context < 4294967296) (hp : parent < 4294967296) (hz : zone < 4294967296)
    (hn : (pre ++ post).length < 4294967296)
    (hids : ((pre ++ post).map (fun e => e.do_id)).Nodup)
    (hwf : ∀ e ∈ pre ++ post, e.do_id < 4294967296 ∧ e.dc_id < 65536) :
    (add_interest k c ⟨id, parent, [zone]⟩ ctx).m_pending_interests =
      [(c.m_next_context, ⟨id, ctx, parent, [zone], none⟩)] ∧
    (deliver k (add_interest k c ⟨id, parent, [zone]⟩ ctx)
      (pre.map (enter_location_datagram k parent zone) ++
        [zones_count_resp_datagram k sender c.m_next_context (pre ++ post).length] ++
        post.map (enter_location_datagram k parent zone))).net_out =
      (add_interest k c ⟨id, parent, [zone]⟩ ctx).net_out ++
        (pre ++ post).map (enter_object_frame k parent zone) ++
        [done_interest_resp k ctx id] ∧
    (deliver k (add_interest k c ⟨id, parent, [zone]⟩ ctx)
      (pre.map (enter_location_datagram k parent zone) ++
        [zones_count_resp_datagram k sender c.m_next_context (pre ++ post).length] ++
        post.map (enter_location_datagram k parent zone))).m_pending_interests = [] ∧
    (deliver k (add_interest k c ⟨id, parent, [zone]⟩ ctx)
      (pre.map (enter_location_datagram k parent zone) ++
        [zones_count_resp_datagram k sender c.m_next_context (pre ++ post).length] ++
        post.map (enter_location_datagram k parent zone))).m_seen_objects =
      (pre ++ post).map (fun e => e.do_id) ∧
    (∀ pre1 pre2, pre = pre1 ++ pre2 →
      (deliver k (add_interest k c ⟨id, parent, [zone]⟩ ctx)
        (pre1.map (enter_location_datagram k parent zone))).net_out =
        (add_interest k c ⟨id, parent, [zone]⟩ ctx).net_out ++
          pre1.map (enter_object_frame k parent zone)) ∧
    (∀ post1 post2, post = post1 ++ post2 → post2 ≠ [] →
      (deliver k (add_interest k c ⟨id, parent, [zone]⟩ ctx)
        (pre.map (enter_location_datagram k parent zone) ++
          [zones_count_resp_datagram k sender c.m_next_context (pre ++ post).length] ++
          post1.map (enter_location_datagram k parent zone))).net_out =
        (add_interest k c ⟨id, parent, [zone]⟩ ctx).net_out ++
          (pre ++ post1).map (enter_object_frame k parent zone)) ∧
    (∀ e, enter_object_frame k parent zone e ≠ done_interest_resp k ctx id) := by
  obtain ⟨hs1, hown1⟩ := add_interest_fresh k c ctx id parent zone hi hobjs hseen hpend
  rw [hown] at hown1
  generalize add_interest k c ⟨id, parent, [zone]⟩ ctx = s1 at hs1 hown1 ⊢
  have hbefore : ∀ post1 post2, post = post1 ++ post2 → post2 ≠ [] →
      deliver k s1 (pre.map (enter_location_datagram k parent zone) ++
          [zones_count_resp_datagram k sender c.m_next_context (pre ++ post).length] ++
          post1.map (enter_location_datagram k parent zone)) =
        entered k s1 parent zone (pre ++ post1)
          [(c.m_next_context, ⟨id, ctx, parent, [zone], some (pre ++ post).length⟩)] [] := by
    intro post1 post2 hsplit hne
    have hlen : (pre ++ post1).length < (pre ++ post).length := by
      rw [hsplit]
      have : 0 < post2.length := List.length_pos.2 hne
      simp only [List.length_append]
      omega
    have := deliver_before_last k hk s1 parent zone c.m_next_context sender
      (pre ++ post).length ⟨id, ctx, parent, [zone], none⟩ hown1 hp hz hR hn rfl pre post1
      (by
        rw [hsplit, ← List.append_assoc, List.map_append] at hids
        exact (List.nodup_append.1 hids).1)
      (fun e he => hwf e (by
        rw [hsplit, ← List.append_assoc]
        exact List.mem_append_left _ he))
      hlen
    rw [← hs1] at this
    exact this
  have hfinal : deliver k s1 (pre.map (enter_location_datagram k parent zone) ++
        [zones_count_resp_datagram k sender c.m_next_context (pre ++ post).length] ++
        post.map (enter_location_datagram k parent zone)) =
      entered k s1 parent zone (pre ++ post) [] [done_interest_resp k ctx id] := by
    rcases List.eq_nil_or_concat post with hnil | ⟨init, last, hcat⟩
    · subst hnil
      have h1 := deliver_enters_waiting k hk s1 zone c.m_next_context
        ⟨id, ctx, parent, [zone], none⟩ hown1 hp hz rfl pre []
        (by simpa using hids) (fun e he => hwf e (by simpa using he))
        (fun j _ _ => by simp)
      have h2 := count_step k hk s1 zone pre c.m_next_context
        ⟨id, ctx, parent, [zone], none⟩ sender pre.length hR (by simpa using hn) rfl
      simp only [if_true, List.nil_append] at h1 h2
      rw [← hs1] at h1
      simp only [List.map_nil, List.append_nil, deliver_append, h1]
      simp [deliver, h2]
    · have hb := hbefore init [last] (by simpa using hcat) (by simp)
      have hlen : (pre ++ init).length + 1 = (pre ++ post).length := by
        rw [hcat]
        simp only [List.length_append, List.length_singleton, List.concat_eq_append]
        omega
      have hlast := enter_step k hk s1 zone (pre ++ init) c.m_next_context
        ⟨id, ctx, parent, [zone], some (pre ++ post).length⟩ last hown1 hp hz
        (hwf last (by rw [hcat]; simp)).1 (hwf last (by rw [hcat]; simp)).2
        (by
          rw [hcat, List.concat_eq_append, ← List.append_assoc, List.map_append] at hids
          have := (List.nodup_append.1 hids).2.2
          intro hmem
          exact this hmem (by simp))
        rfl
      simp only [hlen, if_true] at hlast
      have hsplit : post.map (enter_location_datagram k parent zone) =
          init.map (enter_location_datagram k parent zone) ++
            [enter_location_datagram k parent zone last] := by
        rw [hcat]
        simp
      rw [hsplit, ← List.append_assoc, deliver_append, hb]
      have hpost : pre ++ post = pre ++ init ++ [last] := by
        rw [hcat]
        simp
      simp only [deliver, List.foldl_cons, List.foldl_nil, hlast]
      rw [hpost]
  refine ⟨?_, ?_, ?_, ?_, ?_, ?_, fun e => enter_object_frame_ne_done k parent zone e ctx id⟩
  · rw [hs1]
    rfl
  · rw [hfinal]
    simp [entered]
  · rw [hfinal]
    rfl
  · rw [hfinal]
    rfl
  · intro pre1 pre2 hsplit
    have h1 := deliver_enters_waiting k hk s1 zone c.m_next_context
      ⟨id, ctx, parent, [zone], none⟩ hown1 hp hz rfl pre1 []
      (by
        rw [hsplit, List.append_assoc, List.map_append] at hids
        simpa using (List.nodup_append.1 hids).1)
      (fun e he => hwf e (by
        rw [hsplit, List.append_assoc]
        exact List.mem_append_left _ (by simpa using he)))
      (fun j _ _ => by simp)
    simp only [List.nil_append] at h1
    rw [← hs1] at h1
    rw [h1]
    simp [entered]
  · intro post1 post2 hsplit hne
    rw [hbefore post1 post2 hsplit hne]
    simp [entered]

/-- C5 at the inputs of the spec, context 42, interest 1, parent 500, zone 9000, in the
session `exampleEstablished`: with no object the count alone completes the interest;
with two objects, one entering before and one after the count, the client is sent the
two enter frames and then `CLIENT_DONE_INTEREST_RESP(42, 1)`. -/
theorem C5_interest_completion_witness :
    (deliver exampleConfig (add_interest exampleConfig exampleEstablished ⟨1, 500, [9000]⟩ 42)
      (List.map (enter_location_datagram exampleConfig 500 9000) [] ++
        [zones_count_resp_datagram exampleConfig 500 exampleEstablished.m_next_context
          (([] : List EnterLocation) ++ []).length] ++
        List.map (enter_location_datagram exampleConfig 500 9000) [])).net_out =
      (add_interest exampleConfig exampleEstablished ⟨1, 500, [9000]⟩ 42).net_out ++
        List.map (enter_object_frame exampleConfig 500 9000) ([] ++ []) ++
        [done_interest_resp exampleConfig 42 1] ∧
    (deliver exampleConfig (add_interest exampleConfig exampleEstablished ⟨1, 500, [9000]⟩ 42)
      (List.map (enter_location_datagram exampleConfig 500 9000) [exampleEnterA] ++
        [zones_count_resp_datagram exampleConfig 500 exampleEstablished.m_next_context
          ([exampleEnterA] ++ [exampleEnterB]).length] ++
        List.map (enter_location_datagram exampleConfig 500 9000) [exampleEnterB])).net_out =
      (add_interest exampleConfig exampleEstablished ⟨1, 500, [9000]⟩ 42).net_out ++
        List.map (enter_object_frame exampleConfig 500 9000)
          ([exampleEnterA] ++ [exampleEnterB]) ++
        [done_interest_resp exampleConfig 42 1] :=
  ⟨(C5_interest_completion exampleConfig (by decide) exampleEstablished 42 1 500 9000 500 [] []
      (by decide) (by decide) (by decide) (by decide) (by decide) (by decide) (by decide)
      (by decide) (by decide) (by decide) (by decide)).2.1,
    (C5_interest_completion exampleConfig (by decide) exampleEstablished 42 1 500 9000 500
      [exampleEnterA] [exampleEnterB]
      (by decide) (by decide) (by decide) (by decide) (by decide) (by decide) (by decide)
      (by decide) (by decide) (by decide) (by decide)).2.1⟩

/-- C5 fails as stated. The reachable ESTABLISHED session `exampleStale` has no interest
and an empty projection, but the operation of an interest that was removed before
its completion is still pending, with one object announced. After
`ADD_INTEREST(42, 1, 500, 9000)` has created the operation with request context 1, the
enter of object 77 completes the stale operation: `CLIENT_DONE_INTEREST_RESP(42, 1)` is
sent before the count for context 1 has been processed, and once more when it is. -/
theorem C5_interest_completion_counterexample :
    Reachable exampleConfig exampleStale ∧
    exampleStale.m_state = exampleConfig.CLIENT_STATE_ESTABLISHED ∧
    exampleStale.m_interests = [] ∧ exampleStale.m_dist_objs = [] ∧
    exampleStale.m_seen_objects = [] ∧ exampleStale.m_owned_objects = [] ∧
    (add_interest exampleConfig exampleStale ⟨1, 500, [9000]⟩ 42).m_pending_interests =
      exampleStale.m_pending_interests ++ [(1, ⟨1, 42, 500, [9000], none⟩)] ∧
    (deliver exampleConfig (add_interest exampleConfig exampleStale ⟨1, 500, [9000]⟩ 42)
      [enter_location_datagram exampleConfig 500 9000 exampleEnterC]).net_out =
      (add_interest exampleConfig exampleStale ⟨1, 500, [9000]⟩ 42).net_out ++
        [enter_object_frame exampleConfig 500 9000 exampleEnterC,
          done_interest_resp exampleConfig 42 1] ∧
    (deliver exampleConfig (add_interest exampleConfig exampleStale ⟨1, 500, [9000]⟩ 42)
      [enter_location_datagram exampleConfig 500 9000 exampleEnterC,
        zones_count_resp_datagram exampleConfig 500 1 1]).net_out =
      (add_interest exampleConfig exampleStale ⟨1, 500, [9000]⟩ 42).net_out ++
        [enter_object_frame exampleConfig 500 9000 exampleEnterC,
          done_interest_resp exampleConfig 42 1, done_interest_resp exampleConfig 42 1] := by
  refine ⟨?_, by decide, by decide, by decide, by decide, by decide, by decide, by decide,
    by decide⟩
  exact Reachable.client _ _ (Reachable.md _ _ (Reachable.client _ _
    (Reachable.md _ _ (Reachable.construct _ _ _))))

/-! ## What an ejection leaves untouched -/

@[simp] theorem send_disconnect_m_interests (k : Config) (c : Client) (reason : Nat)
    (text : List Nat) (security : Bool) :
    (send_disconnect k c reason text security).m_interests = c.m_interests := by
  unfold send_disconnect
  split <;> rfl

@[simp] theorem send_disconnect_subscriptions (k : Config) (c : Client) (reason : Nat)
    (text : List Nat) (security : Bool) :
    (send_disconnect k c reason text security).subscriptions = c.subscriptions := by
  unfold send_disconnect
  split <;> rfl

@[simp] theorem send_disconnect_m_dist_objs (k : Config) (c : Client) (reason : Nat)
    (text : List Nat) (security : Bool) :
    (send_disconnect k c reason text security).m_dist_objs = c.m_dist_objs := by
  unfold send_disconnect
  split <;> rfl

@[simp] theorem send_disconnect_m_owned_objects (k : Config) (c : Client) (reason : Nat)
    (text : List Nat) (security : Bool) :
    (send_disconnect k c reason text security).m_owned_objects = c.m_owned_objects := by
  unfold send_disconnect
  split <;> rfl

@[simp] theorem send_disconnect_m_seen_objects (k : Config) (c : Client) (reason : Nat)
    (text : List Nat) (security : Bool) :
    (send_disconnect k c reason text security).m_seen_objects = c.m_seen_objects := by
  unfold send_disconnect
  split <;> rfl

theorem handle_pre_hello_bookkeeping (k : Config) (c : Client) (dgi : DatagramIterator) :
    bookkeeping (handle_pre_hello k c dgi).1 = bookkeeping c := by
  unfold handle_pre_hello
  repeat' split
  all_goals simp [bookkeeping, network_send]

theorem handle_client_object_update_field_bookkeeping (k : Config) (c : Client)
    (dgi : DatagramIterator) :
    bookkeeping (handle_client_object_update_field k c dgi).1 = bookkeeping c := by
  unfold handle_client_object_update_field
  repeat' split
  all_goals first
    | (simp only [bookkeeping]; split_ifs <;> simp [send])
    | simp [bookkeeping, send]

theorem handle_client_object_location_bookkeeping (k : Config) (c : Client)
    (dgi : DatagramIterator) :
    bookkeeping (handle_client_object_location k c dgi).1 = bookkeeping c := by
  unfold handle_client_object_location
  repeat' split
  all_goals first
    | (simp only [bookkeeping]; split_ifs <;> simp [send])
    | simp [bookkeeping, send]

/-! ## C9: the projection invariant -/

theorem ProjectionInv_of_bookkeeping (c d : Client) (h : bookkeeping d = bookkeeping c)
    (hc : ProjectionInv c) : ProjectionInv d := by
  simp only [bookkeeping, Prod.mk.injEq] at h
  obtain ⟨_, _, h1, h2, h3⟩ := h
  unfold ProjectionInv
  rw [h1, h2, h3]
  exact hc

theorem mem_map_keys {β : Type} (m : List (Nat × β)) (id : Nat) :
    id ∈ map_keys m ↔ ∃ e ∈ m, e.1 = id := by
  simp [map_keys]

theorem mem_map_keys_filter {β : Type} (m : List (Nat × β)) (l : List Nat) (id : Nat) :
    id ∈ map_keys (m.filter (fun e => decide (e.1 ∉ l))) ↔ id ∈ map_keys m ∧ id ∉ l := by
  simp only [mem_map_keys, List.mem_filter, decide_eq_true_eq]
  constructor
  · rintro ⟨e, ⟨he, hl⟩, rfl⟩
    exact ⟨⟨e, he, rfl⟩, hl⟩
  · rintro ⟨⟨e, he, rfl⟩, hl⟩
    exact ⟨e, ⟨he, hl⟩, rfl⟩

theorem mem_map_keys_map_erase {β : Type} (m : List (Nat × β)) (key id : Nat) :
    id ∈ map_keys (map_erase m key) ↔ id ∈ map_keys m ∧ id ≠ key := by
  simp only [map_erase, mem_map_keys, List.mem_filter, decide_eq_true_eq]
  constructor
  · rintro ⟨e, ⟨he, hl⟩, rfl⟩
    exact ⟨⟨e, he, rfl⟩, hl⟩
  · rintro ⟨⟨e, he, rfl⟩, hl⟩
    exact ⟨e, ⟨he, hl⟩, rfl⟩

theorem mem_map_keys_map_assign {β : Type} (m : List (Nat × β)) (key : Nat) (v : β) (id : Nat) :
    id ∈ map_keys (map_assign m key v) ↔ id ∈ map_keys m ∨ id = key := by
  unfold map_assign
  split
  · rename_i hk
    have : map_keys (m.map (fun e => if e.1 = key then (key, v) else e)) = map_keys m := by
      simp only [map_keys, List.map_map]
      apply List.map_congr_left
      intro e _
      simp only [Function.comp]
      split <;> simp_all
    rw [this]
    constructor
    · exact Or.inl
    · rintro (h | rfl)
      · exact h
      · exact hk
  · simp [map_keys]

theorem close_zones_ProjectionInv (k : Config) (c : Client) (parent : Nat) (killed : List Nat)
    (h : ProjectionInv c) : ProjectionInv (close_zones k c parent killed) := by
  rw [close_zones_eq]
  intro id
  simp only [mem_map_keys_filter, List.mem_filter, decide_eq_true_eq, h id]
  constructor
  · rintro ⟨ho | hs, hn⟩
    · exact Or.inl ho
    · exact Or.inr ⟨hs, hn⟩
  · rintro (ho | ⟨hs, hn⟩)
    · refine ⟨Or.inl ho, fun hmem => ?_⟩
      rw [mem_close_zones_to_remove] at hmem
      obtain ⟨e, _, hid, _, _, hno⟩ := hmem
      exact hno (hid ▸ ho)
    · exact ⟨Or.inr hs, hn⟩

theorem add_interest_ProjectionInv (k : Config) (c : Client) (i : Interest) (context : Nat)
    (h : ProjectionInv c) : ProjectionInv (add_interest k c i context) := by
  have hcl : ProjectionInv (add_interest_closed k c i) := by
    unfold add_interest_closed
    split
    · exact h
    · exact close_zones_ProjectionInv k c _ _ h
  rw [add_interest_closed_eq]
  split <;> exact hcl

theorem remove_interest_ProjectionInv (k : Config) (c : Client) (i : Interest) (context : Nat)
    (h : ProjectionInv c) : ProjectionInv (remove_interest k c i context) := by
  unfold remove_interest
  exact close_zones_ProjectionInv k c _ _ h

theorem handle_client_add_interest_ProjectionInv (k : Config) (c : Client)
    (dgi : DatagramIterator) (multiple : Bool) (h : ProjectionInv c) :
    ProjectionInv (handle_client_add_interest k c dgi multiple).1 := by
  unfold handle_client_add_interest
  repeat' split
  all_goals first
    | exact h
    | exact add_interest_ProjectionInv k c _ _ h

theorem handle_client_remove_interest_ProjectionInv (k : Config) (c : Client)
    (dgi : DatagramIterator) (h : ProjectionInv c) :
    ProjectionInv (handle_client_remove_interest k c dgi).1 := by
  unfold handle_client_remove_interest
  repeat' split
  all_goals first
    | exact h
    | exact remove_interest_ProjectionInv k c _ _ h
    | exact ProjectionInv_of_bookkeeping c _ (by simp [bookkeeping]) h

theorem send_disconnect_ProjectionInv (k : Config) (c : Client) (reason : Nat) (text : List Nat)
    (security : Bool) (h : ProjectionInv c) :
    ProjectionInv (send_disconnect k c reason text security) :=
  ProjectionInv_of_bookkeeping c _ (by simp [bookkeeping]) h

theorem network_datagram_ProjectionInv (k : Config) (c : Client) (dg : Datagram)
    (h : ProjectionInv c) : ProjectionInv (network_datagram k c dg) := by
  have hr : ProjectionInv (if c.m_state = k.CLIENT_STATE_NEW then handle_pre_hello k c dg
      else if c.m_state = k.CLIENT_STATE_ANONYMOUS then handle_pre_auth k c dg
      else if c.m_state = k.CLIENT_STATE_ESTABLISHED then handle_authenticated k c dg
      else (c, some dg)).1 := by
    split_ifs
    · exact ProjectionInv_of_bookkeeping c _ (handle_pre_hello_bookkeeping k c dg) h
    · unfold handle_pre_auth
      repeat' split
      · exact h
      · exact ProjectionInv_of_bookkeeping c _
          (handle_client_object_update_field_bookkeeping k c _) h
      · exact send_disconnect_ProjectionInv k c _ _ _ h
    · unfold handle_authenticated
      repeat' split
      · exact h
      · exact ProjectionInv_of_bookkeeping c _
          (handle_client_object_update_field_bookkeeping k c _) h
      · exact ProjectionInv_of_bookkeeping c _
          (handle_client_object_location_bookkeeping k c _) h
      · exact handle_client_add_interest_ProjectionInv k c _ _ h
      · exact handle_client_add_interest_ProjectionInv k c _ _ h
      · exact handle_client_remove_interest_ProjectionInv k c _ h
      · exact send_disconnect_ProjectionInv k c _ _ _ h
    · exact h
  unfold network_datagram
  simp only []
  split
  · exact send_disconnect_ProjectionInv k _ _ _ _ hr
  · split
    · exact send_disconnect_ProjectionInv k _ _ _ _ hr
    · exact hr

theorem set_erase_of_not_mem (s : List Nat) (a : Nat) (h : a ∉ s) : set_erase s a = s := by
  unfold set_erase
  rw [List.filter_eq_self]
  intro x hx
  simp only [ne_eq, decide_eq_true_eq]
  rintro rfl
  exact h hx

theorem handle_STATESERVER_OBJECT_DELETE_RAM_bookkeeping (k : Config) (c : Client)
    (dgi : DatagramIterator) :
    bookkeeping (handle_STATESERVER_OBJECT_DELETE_RAM k c dgi).1 = bookkeeping c ∨
    ∃ do_id, bookkeeping (handle_STATESERVER_OBJECT_DELETE_RAM k c dgi).1 =
      bookkeeping { c with
        m_seen_objects := set_erase c.m_seen_objects do_id,
        m_owned_objects := set_erase c.m_owned_objects do_id,
        m_dist_objs := map_erase c.m_dist_objs do_id } := by
  unfold handle_STATESERVER_OBJECT_DELETE_RAM
  split
  · exact Or.inl rfl
  · rename_i do_id dgi1 _
    split
    · exact Or.inl rfl
    · refine Or.inr ⟨do_id, ?_⟩
      by_cases hs : do_id ∈ c.m_seen_objects <;> by_cases ho : do_id ∈ c.m_owned_objects <;>
        simp [hs, ho, network_send, bookkeeping, set_erase_of_not_mem]

theorem handle_STATESERVER_OBJECT_DELETE_RAM_ProjectionInv (k : Config) (c : Client)
    (dgi : DatagramIterator) (h : ProjectionInv c) :
    ProjectionInv (handle_STATESERVER_OBJECT_DELETE_RAM k c dgi).1 := by
  rcases handle_STATESERVER_OBJECT_DELETE_RAM_bookkeeping k c dgi with hb | ⟨do_id, hb⟩
  · exact ProjectionInv_of_bookkeeping c _ hb h
  · apply ProjectionInv_of_bookkeeping _ _ hb
    intro id
    simp only [mem_map_keys_map_erase, mem_set_erase, h id]
    tauto

theorem handle_STATESERVER_OBJECT_ENTER_OWNER_bookkeeping (k : Config) (c : Client)
    (dgi : DatagramIterator) :
    bookkeeping (handle_STATESERVER_OBJECT_ENTER_OWNER k c dgi).1 = bookkeeping c ∨
    ∃ do_id obj, obj.id = do_id ∧ bookkeeping (handle_STATESERVER_OBJECT_ENTER_OWNER k c dgi).1 =
      bookkeeping { c with
        m_owned_objects := set_insert c.m_owned_objects do_id,
        m_dist_objs := if map_find c.m_dist_objs do_id = none
          then map_assign c.m_dist_objs do_id obj else c.m_dist_objs } := by
  unfold handle_STATESERVER_OBJECT_ENTER_OWNER
  cases h1 : read_uint32 dgi with
  | none => exact Or.inl rfl
  | some p1 =>
    obtain ⟨do_id, dgi1⟩ := p1
    dsimp only
    cases h2 : read_uint32 dgi1 with
    | none => exact Or.inl rfl
    | some p2 =>
      obtain ⟨parent, dgi2⟩ := p2
      dsimp only
      cases h3 : read_uint32 dgi2 with
      | none => exact Or.inl rfl
      | some p3 =>
        obtain ⟨zone, dgi3⟩ := p3
        dsimp only
        cases h4 : read_uint16 dgi3 with
        | none => exact Or.inl rfl
        | some p4 =>
          obtain ⟨dc_id, dgi4⟩ := p4
          refine Or.inr ⟨do_id, ⟨do_id, parent, zone, k.get_class dc_id⟩, rfl, ?_⟩
          simp only [network_send, bookkeeping]
          split <;> rfl

theorem ProjectionInv_enter (c : Client) (do_id : Nat) (obj : DistributedObject)
    (owned seen : List Nat) (h : ProjectionInv c)
    (ho : ∀ x, x ∈ owned ↔ x ∈ c.m_owned_objects ∨ (x = do_id ∧ do_id ∈ owned))
    (hs : ∀ x, x ∈ seen ↔ x ∈ c.m_seen_objects ∨ (x = do_id ∧ do_id ∈ seen))
    (hos : do_id ∈ owned ∨ do_id ∈ seen) :
    ProjectionInv { c with
      m_owned_objects := owned, m_seen_objects := seen,
      m_dist_objs := if map_find c.m_dist_objs do_id = none
        then map_assign c.m_dist_objs do_id obj else c.m_dist_objs } := by
  intro id
  simp only []
  have hkey : id ∈ map_keys (if map_find c.m_dist_objs do_id = none
      then map_assign c.m_dist_objs do_id obj else c.m_dist_objs) ↔
      id ∈ map_keys c.m_dist_objs ∨ id = do_id := by
    split
    · exact mem_map_keys_map_assign _ _ _ _
    · rename_i hf
      have hk := (not_iff_not.2 (map_find_eq_none c.m_dist_objs do_id)).1 hf
      simp only [not_not] at hk
      constructor
      · exact Or.inl
      · rintro (h1 | rfl)
        · exact h1
        · exact hk
  rw [hkey, h id, ho id, hs id]
  constructor
  · rintro ((h1 | h1) | rfl)
    · exact Or.inl (Or.inl h1)
    · exact Or.inr (Or.inl h1)
    · rcases hos with h1 | h1
      · exact Or.inl (Or.inr ⟨rfl, h1⟩)
      · exact Or.inr (Or.inr ⟨rfl, h1⟩)
  · rintro ((h1 | ⟨rfl, _⟩) | (h1 | ⟨rfl, _⟩))
    · exact Or.inl (Or.inl h1)
    · exact Or.inr rfl
    · exact Or.inl (Or.inr h1)
    · exact Or.inr rfl

theorem handle_STATESERVER_OBJECT_ENTER_OWNER_ProjectionInv (k : Config) (c : Client)
    (dgi : DatagramIterator) (h : ProjectionInv c) :
    ProjectionInv (handle_STATESERVER_OBJECT_ENTER_OWNER k c dgi).1 := by
  rcases handle_STATESERVER_OBJECT_ENTER_OWNER_bookkeeping k c dgi with
    hb | ⟨do_id, obj, _, hb⟩
  · exact ProjectionInv_of_bookkeeping c _ hb h
  · apply ProjectionInv_of_bookkeeping _ _ hb
    exact ProjectionInv_enter c do_id obj _ _ h
      (fun x => by
        rw [mem_set_insert, mem_set_insert]
        constructor
        · rintro (h1 | rfl)
          · exact Or.inl h1
          · exact Or.inr ⟨rfl, Or.inr rfl⟩
        · rintro (h1 | ⟨rfl, _⟩)
          · exact Or.inl h1
          · exact Or.inr rfl)
      (fun x => by
        constructor
        · exact Or.inl
        · rintro (h1 | ⟨rfl, h1⟩)
          · exact h1
          · exact h1)
      (Or.inl ((mem_set_insert _ _ _).2 (Or.inr rfl)))

theorem foldl_network_send_bookkeeping {α : Type} (f : α → Datagram) (l : List α) (c : Client) :
    bookkeeping (l.foldl (fun (acc : Client) e => network_send acc (f e)) c) = bookkeeping c := by
  induction l generalizing c with
  | nil => rfl
  | cons a l ih => rw [List.foldl_cons, ih]; rfl

theorem handle_STATESERVER_OBJECT_ENTER_LOCATION_bookkeeping (k : Config) (c : Client)
    (msgtype : Nat) (dgi : DatagramIterator) :
    bookkeeping (handle_STATESERVER_OBJECT_ENTER_LOCATION k c msgtype dgi).1 = bookkeeping c ∨
    ∃ do_id obj, obj.id = do_id ∧
      bookkeeping (handle_STATESERVER_OBJECT_ENTER_LOCATION k c msgtype dgi).1 =
      bookkeeping { c with
        m_seen_objects := set_insert c.m_seen_objects do_id,
        m_dist_objs := if map_find c.m_dist_objs do_id = none
          then map_assign c.m_dist_objs do_id obj else c.m_dist_objs } := by
  unfold handle_STATESERVER_OBJECT_ENTER_LOCATION
  cases h1 : read_uint32 dgi with
  | none => exact Or.inl rfl
  | some p1 =>
    obtain ⟨do_id, dgi1⟩ := p1
    dsimp only
    cases h2 : read_uint32 dgi1 with
    | none => exact Or.inl rfl
    | some p2 =>
      obtain ⟨parent, dgi2⟩ := p2
      dsimp only
      cases h3 : read_uint32 dgi2 with
      | none => exact Or.inl rfl
      | some p3 =>
        obtain ⟨zone, dgi3⟩ := p3
        dsimp only
        cases h4 : read_uint16 dgi3 with
        | none => exact Or.inl rfl
        | some p4 =>
          obtain ⟨dc_id, dgi4⟩ := p4
          simp only []
          split
          · exact Or.inl rfl
          · refine Or.inr ⟨do_id, ⟨do_id, parent, zone, k.get_class dc_id⟩, rfl, ?_⟩
            have := @foldl_network_send_bookkeeping (Nat × InterestOperation)
            simp only [bookkeeping, Prod.mk.injEq] at this ⊢
            refine ⟨?_, ?_, ?_, ?_, ?_⟩
            · rw [(this _ _ _).1]; simp only [network_send]; split <;> rfl
            · rw [(this _ _ _).2.1]; simp only [network_send]; split <;> rfl
            · rw [(this _ _ _).2.2.1]; simp only [network_send]; split <;> rfl
            · rw [(this _ _ _).2.2.2.1]; simp only [network_send]; split <;> rfl
            · rw [(this _ _ _).2.2.2.2]; simp only [network_send]; split <;> rfl

theorem handle_STATESERVER_OBJECT_ENTER_LOCATION_ProjectionInv (k : Config) (c : Client)
    (msgtype : Nat) (dgi : DatagramIterator) (h : ProjectionInv c) :
    ProjectionInv (handle_STATESERVER_OBJECT_ENTER_LOCATION k c msgtype dgi).1 := by
  rcases handle_STATESERVER_OBJECT_ENTER_LOCATION_bookkeeping k c msgtype dgi with
    hb | ⟨do_id, obj, _, hb⟩
  · exact ProjectionInv_of_bookkeeping c _ hb h
  · apply ProjectionInv_of_bookkeeping _ _ hb
    exact ProjectionInv_enter c do_id obj _ _ h
      (fun x => by
        constructor
        · exact Or.inl
        · rintro (h1 | ⟨rfl, h1⟩)
          · exact h1
          · exact h1)
      (fun x => by
        rw [mem_set_insert, mem_set_insert]
        constructor
        · rintro (h1 | rfl)
          · exact Or.inl h1
          · exact Or.inr ⟨rfl, Or.inr rfl⟩
        · rintro (h1 | ⟨rfl, _⟩)
          · exact Or.inl h1
          · exact Or.inr rfl)
      (Or.inr ((mem_set_insert _ _ _).2 (Or.inr rfl)))

theorem map_keys_map_assign_of_mem {β : Type} (m : List (Nat × β)) (key : Nat) (v : β)
    (h : key ∈ map_keys m) : map_keys (map_assign m key v) = map_keys m := by
  unfold map_assign
  rw [if_pos h]
  simp only [map_keys, List.map_map]
  apply List.map_congr_left
  intro e _
  simp only [Function.comp]
  split <;> simp_all

theorem handle_STATESERVER_OBJECT_CHANGING_LOCATION_bookkeeping (k : Config) (c : Client)
    (dgi : DatagramIterator) :
    ∃ objs, map_keys objs = map_keys c.m_dist_objs ∧
      (objs = c.m_dist_objs ∨ ∃ do_id obj n_parent n_zone,
        map_find c.m_dist_objs do_id = some obj ∧
        objs = map_assign c.m_dist_objs do_id ⟨obj.id, n_parent, n_zone, obj.dcc⟩) ∧
      (bookkeeping (handle_STATESERVER_OBJECT_CHANGING_LOCATION k c dgi).1 =
          bookkeeping { c with m_dist_objs := objs } ∨
        ∃ do_id, do_id ∉ c.m_owned_objects ∧
          bookkeeping (handle_STATESERVER_OBJECT_CHANGING_LOCATION k c dgi).1 =
            bookkeeping { c with
              m_dist_objs := map_erase objs do_id,
              m_seen_objects := set_erase c.m_seen_objects do_id }) := by
  unfold handle_STATESERVER_OBJECT_CHANGING_LOCATION
  cases h1 : read_uint32 dgi with
  | none => exact ⟨c.m_dist_objs, rfl, Or.inl rfl, Or.inl rfl⟩
  | some p1 =>
    obtain ⟨do_id, dgi1⟩ := p1
    dsimp only
    cases h2 : read_uint32 dgi1 with
    | none => exact ⟨c.m_dist_objs, rfl, Or.inl rfl, Or.inl rfl⟩
    | some p2 =>
      obtain ⟨n_parent, dgi2⟩ := p2
      dsimp only
      cases h3 : read_uint32 dgi2 with
      | none => exact ⟨c.m_dist_objs, rfl, Or.inl rfl, Or.inl rfl⟩
      | some p3 =>
        obtain ⟨n_zone, dgi3⟩ := p3
        dsimp only
        cases h4 : read_uint32 dgi3 with
        | none => exact ⟨c.m_dist_objs, rfl, Or.inl rfl, Or.inl rfl⟩
        | some p4 =>
          obtain ⟨o_parent, dgi4⟩ := p4
          dsimp only
          cases h5 : read_uint32 dgi4 with
          | none => exact ⟨c.m_dist_objs, rfl, Or.inl rfl, Or.inl rfl⟩
          | some p5 =>
            obtain ⟨o_zone, dgi5⟩ := p5
            dsimp only
            cases hf : map_find c.m_dist_objs do_id with
            | none =>
              refine ⟨c.m_dist_objs, rfl, Or.inl rfl, ?_⟩
              dsimp only
              split
              · rename_i hd
                exact Or.inr ⟨do_id, hd.2, rfl⟩
              · exact Or.inl rfl
            | some obj =>
              have hk : do_id ∈ map_keys c.m_dist_objs := by
                by_contra hn
                rw [(map_find_eq_none _ _).2 hn] at hf
                exact Option.noConfusion hf
              refine ⟨map_assign c.m_dist_objs do_id ⟨obj.id, n_parent, n_zone, obj.dcc⟩,
                map_keys_map_assign_of_mem _ _ _ hk,
                Or.inr ⟨do_id, obj, n_parent, n_zone, hf, rfl⟩, ?_⟩
              dsimp only
              split
              · rename_i hd
                exact Or.inr ⟨do_id, hd.2, rfl⟩
              · exact Or.inl rfl

theorem handle_STATESERVER_OBJECT_CHANGING_LOCATION_ProjectionInv (k : Config) (c : Client)
    (dgi : DatagramIterator) (h : ProjectionInv c) :
    ProjectionInv (handle_STATESERVER_OBJECT_CHANGING_LOCATION k c dgi).1 := by
  obtain ⟨objs, hkeys, _, hb | ⟨do_id, hno, hb⟩⟩ :=
    handle_STATESERVER_OBJECT_CHANGING_LOCATION_bookkeeping k c dgi
  · apply ProjectionInv_of_bookkeeping _ _ hb
    intro id
    simp only [hkeys]
    exact h id
  · apply ProjectionInv_of_bookkeeping _ _ hb
    intro id
    simp only [mem_map_keys_map_erase, mem_set_erase, hkeys, h id]
    constructor
    · rintro ⟨ho | hs, hne⟩
      · exact Or.inl ho
      · exact Or.inr ⟨hs, hne⟩
    · rintro (ho | ⟨hs, hne⟩)
      · exact ⟨Or.inl ho, fun heq => hno (heq ▸ ho)⟩
      · exact ⟨Or.inr hs, hne⟩

theorem handle_STATESERVER_OBJECT_GET_ZONES_COUNT_RESP_bookkeeping (k : Config) (c : Client)
    (dgi : DatagramIterator) :
    bookkeeping (handle_STATESERVER_OBJECT_GET_ZONES_COUNT_RESP k c dgi).1 = bookkeeping c := by
  unfold handle_STATESERVER_OBJECT_GET_ZONES_COUNT_RESP
  repeat' split
  all_goals first
    | rfl
    | (dsimp only; split <;> rfl)

theorem handle_CLIENTAGENT_EJECT_bookkeeping (k : Config) (c : Client)
    (dgi : DatagramIterator) :
    bookkeeping (handle_CLIENTAGENT_EJECT k c dgi).1 = bookkeeping c := by
  unfold handle_CLIENTAGENT_EJECT
  repeat' split
  all_goals simp [bookkeeping]

theorem handle_CLIENTAGENT_SET_STATE_bookkeeping (c : Client) (dgi : DatagramIterator) :
    bookkeeping (handle_CLIENTAGENT_SET_STATE c dgi).1 = bookkeeping c := by
  unfold handle_CLIENTAGENT_SET_STATE
  repeat' split
  all_goals rfl

theorem handle_STATESERVER_OBJECT_SET_FIELD_bookkeeping (k : Config) (c : Client)
    (sender : Nat) (dgi : DatagramIterator) :
    bookkeeping (handle_STATESERVER_OBJECT_SET_FIELD k c sender dgi).1 = bookkeeping c := by
  unfold handle_STATESERVER_OBJECT_SET_FIELD
  repeat' split
  all_goals rfl

theorem handle_CLIENTAGENT_SEND_DATAGRAM_bookkeeping (c : Client) (dgi : DatagramIterator) :
    bookkeeping (handle_CLIENTAGENT_SEND_DATAGRAM c dgi).1 = bookkeeping c := by
  unfold handle_CLIENTAGENT_SEND_DATAGRAM
  repeat' split
  all_goals rfl

theorem handle_CLIENTAGENT_ADD_POST_REMOVE_bookkeeping (c : Client) (dgi : DatagramIterator) :
    bookkeeping (handle_CLIENTAGENT_ADD_POST_REMOVE c dgi).1 = bookkeeping c := by
  unfold handle_CLIENTAGENT_ADD_POST_REMOVE
  repeat' split
  all_goals rfl

/-- `CLIENTAGENT_OPEN_CHANNEL` only adds a subscription. -/
theorem handle_CLIENTAGENT_OPEN_CHANNEL_bookkeeping (c : Client) (dgi : DatagramIterator) :
    ∃ subs, bookkeeping (handle_CLIENTAGENT_OPEN_CHANNEL c dgi).1 =
        bookkeeping { c with subscriptions := subs } ∧
      ∀ ch ∈ c.subscriptions, ch ∈ subs := by
  unfold handle_CLIENTAGENT_OPEN_CHANNEL
  split
  · exact ⟨c.subscriptions, rfl, fun _ h => h⟩
  · rename_i channel _ _
    exact ⟨set_insert c.subscriptions channel, rfl,
      fun ch h => (mem_set_insert _ _ _).2 (Or.inl h)⟩

/-- `CLIENTAGENT_CLOSE_CHANNEL` removes the one channel it names. -/
theorem handle_CLIENTAGENT_CLOSE_CHANNEL_bookkeeping (c : Client) (dgi : DatagramIterator) :
    ∃ subs, bookkeeping (handle_CLIENTAGENT_CLOSE_CHANNEL c dgi).1 =
        bookkeeping { c with subscriptions := subs } ∧
      ∀ ch ∈ c.subscriptions, (∀ closed r, read_uint64 dgi = some (closed, r) → ch ≠ closed) →
        ch ∈ subs := by
  unfold handle_CLIENTAGENT_CLOSE_CHANNEL
  split
  · exact ⟨c.subscriptions, rfl, fun _ h _ => h⟩
  · rename_i channel dgi1 heq
    exact ⟨set_erase c.subscriptions channel, rfl,
      fun ch h hne => (mem_set_erase _ _ _).2 ⟨h, hne channel dgi1 heq⟩⟩

/-- `CLIENTAGENT_SET_CLIENT_ID` removes at most the identity channel, and only when the
identity is no longer the allocated channel. -/
theorem handle_CLIENTAGENT_SET_CLIENT_ID_bookkeeping (c : Client) (dgi : DatagramIterator) :
    ∃ subs, bookkeeping (handle_CLIENTAGENT_SET_CLIENT_ID c dgi).1 =
        bookkeeping { c with subscriptions := subs } ∧
      ∀ ch ∈ c.subscriptions, (c.m_is_channel_allocated = true ∨ ch ≠ c.m_channel) →
        ch ∈ subs := by
  unfold handle_CLIENTAGENT_SET_CLIENT_ID
  cases ha : c.m_is_channel_allocated
  · cases hr : read_uint64 dgi with
    | none =>
      refine ⟨set_erase c.subscriptions c.m_channel, by simp [bookkeeping, unsubscribe_channel],
        fun ch h hg => (mem_set_erase _ _ _).2 ⟨h, ?_⟩⟩
      rcases hg with hg | hg
      · exact absurd hg (by simp)
      · exact hg
    | some p =>
      obtain ⟨channel, dgi1⟩ := p
      refine ⟨set_insert (set_erase c.subscriptions c.m_channel) channel,
        by simp [bookkeeping, unsubscribe_channel, subscribe_channel],
        fun ch h hg => (mem_set_insert _ _ _).2 (Or.inl ((mem_set_erase _ _ _).2 ⟨h, ?_⟩))⟩
      rcases hg with hg | hg
      · exact absurd hg (by simp)
      · exact hg
  · cases hr : read_uint64 dgi with
    | none => exact ⟨c.subscriptions, by simp [bookkeeping], fun _ h _ => h⟩
    | some p =>
      obtain ⟨channel, dgi1⟩ := p
      exact ⟨set_insert c.subscriptions channel, by simp [bookkeeping, subscribe_channel],
        fun ch h _ => (mem_set_insert _ _ _).2 (Or.inl h)⟩

theorem ProjectionInv_of_subscriptions (c d : Client) (subs : List Nat)
    (h : bookkeeping d = bookkeeping { c with subscriptions := subs })
    (hc : ProjectionInv c) : ProjectionInv d :=
  ProjectionInv_of_bookkeeping { c with subscriptions := subs } d h hc

theorem ite_fst_cases (P : Client → Prop) (cond : Prop) [Decidable cond]
    (a b : Client × Option DatagramIterator) (ha : cond → P a.1) (hb : ¬ cond → P b.1) :
    P (if cond then a else b).1 := by
  split
  · exact ha (by assumption)
  · exact hb (by assumption)

/-- Case analysis on the switch of `handle_datagram`: a property that holds of the
session before and of the result of every case holds of the result. For the cases
`CLIENTAGENT_SET_CLIENT_ID` and `CLIENTAGENT_CLOSE_CHANNEL` the message read is known. -/
theorem handle_datagram_cases (k : Config) (c : Client) (dg : Datagram) (P : Client → Prop)
    (h0 : P c)
    (h_eject : ∀ dgi, P (handle_CLIENTAGENT_EJECT k c dgi).1)
    (h_drop : P (do_disconnect c))
    (h_state : ∀ dgi, P (handle_CLIENTAGENT_SET_STATE c dgi).1)
    (h_field : ∀ sender dgi, P (handle_STATESERVER_OBJECT_SET_FIELD k c sender dgi).1)
    (h_delete : ∀ dgi, P (handle_STATESERVER_OBJECT_DELETE_RAM k c dgi).1)
    (h_owner : ∀ dgi, P (handle_STATESERVER_OBJECT_ENTER_OWNER k c dgi).1)
    (h_id : ∀ sender dgi0 dgi, read_uint64 dg = some (sender, dgi0) →
      read_uint16 dgi0 = some (k.CLIENTAGENT_SET_CLIENT_ID, dgi) →
      P (handle_CLIENTAGENT_SET_CLIENT_ID c dgi).1)
    (h_send : ∀ dgi, P (handle_CLIENTAGENT_SEND_DATAGRAM c dgi).1)
    (h_open : ∀ dgi, P (handle_CLIENTAGENT_OPEN_CHANNEL c dgi).1)
    (h_close : ∀ sender dgi0 dgi, read_uint64 dg = some (sender, dgi0) →
      read_uint16 dgi0 = some (k.CLIENTAGENT_CLOSE_CHANNEL, dgi) →
      P (handle_CLIENTAGENT_CLOSE_CHANNEL c dgi).1)
    (h_post : ∀ dgi, P (handle_CLIENTAGENT_ADD_POST_REMOVE c dgi).1)
    (h_clear : P { c with post_removes := [] })
    (h_enter : ∀ msgtype dgi, P (handle_STATESERVER_OBJECT_ENTER_LOCATION k c msgtype dgi).1)
    (h_count : ∀ dgi, P (handle_STATESERVER_OBJECT_GET_ZONES_COUNT_RESP k c dgi).1)
    (h_moved : ∀ dgi, P (handle_STATESERVER_OBJECT_CHANGING_LOCATION k c dgi).1) :
    P (handle_datagram k c dg).1 := by
  unfold handle_datagram
  cases h1 : read_uint64 dg with
  | none => exact h0
  | some p1 =>
    obtain ⟨sender, dgi0⟩ := p1
    dsimp only
    cases h2 : read_uint16 dgi0 with
    | none => exact h0
    | some p2 =>
      obtain ⟨msgtype, dgi⟩ := p2
      dsimp only
      refine ite_fst_cases P _ _ _ (fun heq => ?_) (fun _ => ?_)
      · exact h_eject _
      refine ite_fst_cases P _ _ _ (fun heq => ?_) (fun _ => ?_)
      · exact h_drop
      refine ite_fst_cases P _ _ _ (fun heq => ?_) (fun _ => ?_)
      · exact h_state _
      refine ite_fst_cases P _ _ _ (fun heq => ?_) (fun _ => ?_)
      · exact h_field _ _
      refine ite_fst_cases P _ _ _ (fun heq => ?_) (fun _ => ?_)
      · exact h_delete _
      refine ite_fst_cases P _ _ _ (fun heq => ?_) (fun _ => ?_)
      · exact h_owner _
      refine ite_fst_cases P _ _ _ (fun heq => ?_) (fun _ => ?_)
      · exact h_id _ _ _ h1 (heq ▸ h2)
      refine ite_fst_cases P _ _ _ (fun heq => ?_) (fun _ => ?_)
      · exact h_send _
      refine ite_fst_cases P _ _ _ (fun heq => ?_) (fun _ => ?_)
      · exact h_open _
      refine ite_fst_cases P _ _ _ (fun heq => ?_) (fun _ => ?_)
      · exact h_close _ _ _ h1 (heq ▸ h2)
      refine ite_fst_cases P _ _ _ (fun heq => ?_) (fun _ => ?_)
      · exact h_post _
      refine ite_fst_cases P _ _ _ (fun heq => ?_) (fun _ => ?_)
      · exact h_clear
      refine ite_fst_cases P _ _ _ (fun heq => ?_) (fun _ => ?_)
      · exact h_enter _ _
      refine ite_fst_cases P _ _ _ (fun heq => ?_) (fun _ => ?_)
      · exact h_count _
      refine ite_fst_cases P _ _ _ (fun heq => ?_) (fun _ => ?_)
      · exact h_moved _
      exact h0

theorem handle_datagram_ProjectionInv (k : Config) (c : Client) (dg : Datagram)
    (h : ProjectionInv c) : ProjectionInv (handle_datagram k c dg).1 := by
  apply handle_datagram_cases k c dg ProjectionInv h
  · exact fun dgi =>
      ProjectionInv_of_bookkeeping c _ (handle_CLIENTAGENT_EJECT_bookkeeping k c dgi) h
  · exact h
  · exact fun dgi =>
      ProjectionInv_of_bookkeeping c _ (handle_CLIENTAGENT_SET_STATE_bookkeeping c dgi) h
  · exact fun sender dgi => ProjectionInv_of_bookkeeping c _
      (handle_STATESERVER_OBJECT_SET_FIELD_bookkeeping k c sender dgi) h
  · exact fun dgi => handle_STATESERVER_OBJECT_DELETE_RAM_ProjectionInv k c dgi h
  · exact fun dgi => handle_STATESERVER_OBJECT_ENTER_OWNER_ProjectionInv k c dgi h
  · intro _ _ dgi _ _
    obtain ⟨subs, hb, _⟩ := handle_CLIENTAGENT_SET_CLIENT_ID_bookkeeping c dgi
    exact ProjectionInv_of_subscriptions c _ subs hb h
  · exact fun dgi => ProjectionInv_of_bookkeeping c _
      (handle_CLIENTAGENT_SEND_DATAGRAM_bookkeeping c dgi) h
  · intro dgi
    obtain ⟨subs, hb, _⟩ := handle_CLIENTAGENT_OPEN_CHANNEL_bookkeeping c dgi
    exact ProjectionInv_of_subscriptions c _ subs hb h
  · intro _ _ dgi _ _
    obtain ⟨subs, hb, _⟩ := handle_CLIENTAGENT_CLOSE_CHANNEL_bookkeeping c dgi
    exact ProjectionInv_of_subscriptions c _ subs hb h
  · exact fun dgi => ProjectionInv_of_bookkeeping c _
      (handle_CLIENTAGENT_ADD_POST_REMOVE_bookkeeping c dgi) h
  · exact h
  · exact fun msgtype dgi =>
      handle_STATESERVER_OBJECT_ENTER_LOCATION_ProjectionInv k c msgtype dgi h
  · exact fun dgi => ProjectionInv_of_bookkeeping c _
      (handle_STATESERVER_OBJECT_GET_ZONES_COUNT_RESP_bookkeeping k c dgi) h
  · exact fun dgi => handle_STATESERVER_OBJECT_CHANGING_LOCATION_ProjectionInv k c dgi h

theorem construct_bookkeeping (k : Config) (ct : ChannelTracker) (remote local_addr : List Nat) :
    (Client.construct k ct remote local_addr).1.m_interests = [] ∧
    (Client.construct k ct remote local_addr).1.m_dist_objs = [] ∧
    (Client.construct k ct remote local_addr).1.m_owned_objects = [] ∧
    (Client.construct k ct remote local_addr).1.m_seen_objects = [] := by
  unfold Client.construct
  dsimp only
  split
  · simp
  · simp [send_event, subscribe_channel]

/-- C9: in every state reachable from a freshly constructed session by client datagrams
and MD messages, the object ids of the projection `m_dist_objs` are exactly the owned
and the seen ids: every projected id is owned or seen, and an id that is owned or
seen has a projection entry. -/
theorem C9_projection_is_owned_or_seen (k : Config) (c : Client) (h : Reachable k c) :
    ∀ id, id ∈ map_keys c.m_dist_objs ↔ id ∈ c.m_owned_objects ∨ id ∈ c.m_seen_objects := by
  induction h with
  | construct ct remote local_addr =>
    obtain ⟨_, h1, h2, h3⟩ := construct_bookkeeping k ct remote local_addr
    intro id
    rw [h1, h2, h3]
    simp [map_keys]
  | client c dg _ ih => exact network_datagram_ProjectionInv k c dg ih
  | md c dg _ ih => exact handle_datagram_ProjectionInv k c dg ih

/-- C9 at a concrete input: in the reachable session `exampleTwoZones` object 77 is
projected and seen. -/
theorem C9_projection_is_owned_or_seen_witness :
    77 ∈ map_keys exampleTwoZones.m_dist_objs ↔
      77 ∈ exampleTwoZones.m_owned_objects ∨ 77 ∈ exampleTwoZones.m_seen_objects :=
  C9_projection_is_owned_or_seen exampleConfig exampleTwoZones
    (Reachable.md _ _ (Reachable.client _ _ (Reachable.md _ _ (Reachable.construct _ _ _)))) 77

/-! ## C8: the interest invariant -/

/-- The interest invariant only speaks about the interests and about the subscription of
the channels they cover. -/
theorem InterestInv_mono (c d : Client) (hi : d.m_interests = c.m_interests)
    (hs : ∀ ch, covered c ch → ch ∈ c.subscriptions → ch ∈ d.subscriptions)
    (h : InterestInv c) : InterestInv d := by
  intro e he
  rw [hi] at he
  refine ⟨(h e he).1, fun z hz => ⟨((h e he).2 z hz).1, ?_⟩⟩
  exact hs _ ⟨e, he, z, hz, rfl⟩ ((h e he).2 z hz).2

theorem InterestInv_of_bookkeeping (c d : Client) (hb : bookkeeping d = bookkeeping c)
    (h : InterestInv c) : InterestInv d := by
  simp only [bookkeeping, Prod.mk.injEq] at hb
  exact InterestInv_mono c d hb.1 (fun ch _ hc => by rw [hb.2.1]; exact hc) h

theorem mem_map_assign {β : Type} (m : List (Nat × β)) (key : Nat) (v : β) (e : Nat × β)
    (h : e ∈ map_assign m key v) : e = (key, v) ∨ (e ∈ m ∧ e.1 ≠ key) := by
  unfold map_assign at h
  split at h
  · simp only [List.mem_map] at h
    obtain ⟨e0, he0, rfl⟩ := h
    split
    · exact Or.inl rfl
    · rename_i hne
      exact Or.inr ⟨he0, hne⟩
  · rename_i hk
    simp only [List.mem_append, List.mem_singleton] at h
    rcases h with h | h
    · refine Or.inr ⟨h, fun heq => hk ?_⟩
      rw [← heq]
      exact (mem_map_keys m e.1).2 ⟨e, h, rfl⟩
    · exact Or.inl h

theorem add_interest_closed_subscriptions (k : Config) (c : Client) (i : Interest) (ch : Nat)
    (h : ch ∈ c.subscriptions)
    (hn : ∀ old, map_find c.m_interests i.id = some old →
      ∀ z ∈ add_interest_killed_zones c i old, ch ≠ LOCATION2CHANNEL old.parent z) :
    ch ∈ (add_interest_closed k c i).subscriptions := by
  unfold add_interest_closed
  cases hf : map_find c.m_interests i.id with
  | none => exact h
  | some old =>
    dsimp only
    rw [close_zones_eq]
    simp only [List.mem_filter, decide_eq_true_eq, List.mem_map, not_exists, not_and]
    exact ⟨h, fun z hz heq => hn old hf z hz heq.symm⟩

theorem add_interest_subscriptions_of_closed (k : Config) (c : Client) (i : Interest)
    (context ch : Nat) (h : ch ∈ (add_interest_closed k c i).subscriptions) :
    ch ∈ (add_interest k c i context).subscriptions := by
  rw [add_interest_closed_eq]
  split
  · exact h
  · simp only [mem_foldl_set_insert]
    exact Or.inl h

theorem add_interest_InterestInv (k : Config) (c : Client) (i : Interest) (context : Nat)
    (hz : ∀ z ∈ i.zones, z < 4294967296) (h : InterestInv c) :
    InterestInv (add_interest k c i context) := by
  have hint : (add_interest k c i context).m_interests = map_assign c.m_interests i.id i := by
    rw [add_interest_closed_eq]
    split <;> rfl
  intro e he
  rw [hint] at he
  rcases mem_map_assign _ _ _ _ he with rfl | ⟨hem, hne⟩
  · refine ⟨rfl, fun z hzi => ⟨hz z hzi, ?_⟩⟩
    by_cases hnew : z ∈ add_interest_new_zones c i
    · have hne : add_interest_new_zones c i ≠ [] := List.ne_nil_of_mem hnew
      rw [add_interest_closed_eq, if_neg hne]
      simp only [mem_foldl_set_insert, List.mem_map]
      exact Or.inr ⟨z, hnew, rfl⟩
    · apply add_interest_subscriptions_of_closed
      rw [mem_add_interest_new_zones] at hnew
      simp only [not_and, not_forall, not_not] at hnew
      obtain ⟨e0, he0, hp0, hz0⟩ := hnew hzi
      have hsub := ((h e0 he0).2 z hz0).2
      rw [hp0] at hsub
      apply add_interest_closed_subscriptions k c i _ hsub
      intro old hold z2 hz2 heq
      have hz2b : z2 < 4294967296 :=
        ((h (i.id, old) (map_find_mem _ _ _ hold)).2 z2 (List.mem_of_mem_filter hz2)).1
      obtain ⟨hp, hzz⟩ := LOCATION2CHANNEL_inj _ _ _ _ (hz z hzi) hz2b heq
      rw [mem_add_interest_killed_zones c i old z2 hold] at hz2
      rcases hz2.2.2 with hk | hk
      · exact hk hp
      · exact hk (hzz ▸ hzi)
  · refine ⟨(h e hem).1, fun z hze => ⟨((h e hem).2 z hze).1, ?_⟩⟩
    apply add_interest_subscriptions_of_closed
    apply add_interest_closed_subscriptions k c i _ ((h e hem).2 z hze).2
    intro old hold z2 hz2 heq
    have hz2b : z2 < 4294967296 :=
      ((h (i.id, old) (map_find_mem _ _ _ hold)).2 z2 (List.mem_of_mem_filter hz2)).1
    obtain ⟨hp, hzz⟩ := LOCATION2CHANNEL_inj _ _ _ _ ((h e hem).2 z hze).1 hz2b heq
    rw [mem_add_interest_killed_zones c i old z2 hold] at hz2
    have := lookup_interests_length_two c old.parent z2 (i.id, old) e
      (map_find_mem _ _ _ hold) hem (Ne.symm hne) ⟨rfl, hz2.1⟩ ⟨hp, hzz ▸ hze⟩
    rw [hz2.2.1] at this
    simp at this

theorem remove_interest_InterestInv (k : Config) (c : Client) (id : Nat) (i : Interest)
    (context : Nat) (hf : map_find c.m_interests id = some i) (h : InterestInv c) :
    InterestInv (remove_interest k c i context) := by
  rw [remove_interest_eq]
  have hmem := map_find_mem _ _ _ hf
  have hid : i.id = id := (h (id, i) hmem).1
  intro e he
  simp only [map_erase, List.mem_filter, decide_eq_true_eq] at he
  obtain ⟨hem, hne⟩ := he
  refine ⟨(h e hem).1, fun z hze => ⟨((h e hem).2 z hze).1, ?_⟩⟩
  simp only [List.mem_filter, decide_eq_true_eq, List.mem_map, not_exists, not_and]
  refine ⟨((h e hem).2 z hze).2, fun z2 hz2 heq => ?_⟩
  have hz2b : z2 < 4294967296 := ((h (id, i) hmem).2 z2 (List.mem_of_mem_filter hz2)).1
  obtain ⟨hp, hzz⟩ := LOCATION2CHANNEL_inj _ _ _ _ hz2b ((h e hem).2 z hze).1 heq
  rw [mem_remove_interest_killed_zones c id i z2 hf] at hz2
  have := lookup_interests_length_two c i.parent z2 (id, i) e hmem hem
    (by rw [← hid]; exact Ne.symm hne) ⟨rfl, hz2.1⟩ ⟨hp.symm, hzz ▸ hze⟩
  rw [hz2.2] at this
  simp at this

theorem read_zones_lt (count : Nat) (acc : List Nat) (dgi r : DatagramIterator)
    (zones : List Nat) (h : read_zones count acc dgi = some (zones, r))
    (hacc : ∀ z ∈ acc, z < 4294967296) : ∀ z ∈ zones, z < 4294967296 := by
  induction count generalizing acc dgi with
  | zero =>
    simp only [read_zones, Option.some.injEq, Prod.mk.injEq] at h
    rw [← h.1]
    exact hacc
  | succ n ih =>
    unfold read_zones at h
    cases hr : read_uint32 dgi with
    | none => simp [hr] at h
    | some p =>
      obtain ⟨zone, dgi1⟩ := p
      simp only [hr] at h
      apply ih _ _ h
      intro z hz
      rcases (mem_set_insert _ _ _).1 hz with hz | rfl
      · exact hacc z hz
      · exact read_uint32_lt _ _ _ hr

theorem handle_client_add_interest_InterestInv (k : Config) (c : Client)
    (dgi : DatagramIterator) (multiple : Bool) (h : InterestInv c) :
    InterestInv (handle_client_add_interest k c dgi multiple).1 := by
  unfold handle_client_add_interest
  cases h1 : read_uint32 dgi with
  | none => exact h
  | some p1 =>
    obtain ⟨context, dgi1⟩ := p1
    dsimp only
    cases h2 : read_uint16 dgi1 with
    | none => exact h
    | some p2 =>
      obtain ⟨interest_id, dgi2⟩ := p2
      dsimp only
      cases h3 : read_uint32 dgi2 with
      | none => exact h
      | some p3 =>
        obtain ⟨parent, dgi3⟩ := p3
        dsimp only
        cases h4 : (if multiple = true then read_uint16 dgi3 else some (1, dgi3)) with
        | none => exact h
        | some p4 =>
          obtain ⟨count, dgi4⟩ := p4
          dsimp only
          cases h5 : read_zones count [] dgi4 with
          | none => exact h
          | some p5 =>
            obtain ⟨zones, dgi5⟩ := p5
            exact add_interest_InterestInv k c _ context
              (read_zones_lt count [] dgi4 dgi5 zones h5 (by simp)) h

theorem handle_client_remove_interest_InterestInv (k : Config) (c : Client)
    (dgi : DatagramIterator) (h : InterestInv c) :
    InterestInv (handle_client_remove_interest k c dgi).1 := by
  unfold handle_client_remove_interest
  cases h1 : read_uint32 dgi with
  | none => exact h
  | some p1 =>
    obtain ⟨context, dgi1⟩ := p1
    dsimp only
    cases h2 : read_uint16 dgi1 with
    | none => exact h
    | some p2 =>
      obtain ⟨id, dgi2⟩ := p2
      dsimp only
      cases hf : map_find c.m_interests id with
      | none => exact InterestInv_of_bookkeeping c _ (by simp [bookkeeping]) h
      | some i => exact remove_interest_InterestInv k c id i context hf h

theorem send_disconnect_InterestInv (k : Config) (c : Client) (reason : Nat) (text : List Nat)
    (security : Bool) (h : InterestInv c) :
    InterestInv (send_disconnect k c reason text security) :=
  InterestInv_of_bookkeeping c _ (by simp [bookkeeping]) h

theorem network_datagram_InterestInv (k : Config) (c : Client) (dg : Datagram)
    (h : InterestInv c) : InterestInv (network_datagram k c dg) := by
  have hr : InterestInv (if c.m_state = k.CLIENT_STATE_NEW then handle_pre_hello k c dg
      else if c.m_state = k.CLIENT_STATE_ANONYMOUS then handle_pre_auth k c dg
      else if c.m_state = k.CLIENT_STATE_ESTABLISHED then handle_authenticated k c dg
      else (c, some dg)).1 := by
    split_ifs
    · exact InterestInv_of_bookkeeping c _ (handle_pre_hello_bookkeeping k c dg) h
    · unfold handle_pre_auth
      repeat' split
      · exact h
      · exact InterestInv_of_bookkeeping c _
          (handle_client_object_update_field_bookkeeping k c _) h
      · exact send_disconnect_InterestInv k c _ _ _ h
    · unfold handle_authenticated
      repeat' split
      · exact h
      · exact InterestInv_of_bookkeeping c _
          (handle_client_object_update_field_bookkeeping k c _) h
      · exact InterestInv_of_bookkeeping c _
          (handle_client_object_location_bookkeeping k c _) h
      · exact handle_client_add_interest_InterestInv k c _ _ h
      · exact handle_client_add_interest_InterestInv k c _ _ h
      · exact handle_client_remove_interest_InterestInv k c _ h
      · exact send_disconnect_InterestInv k c _ _ _ h
    · exact h
  unfold network_datagram
  simp only []
  split
  · exact send_disconnect_InterestInv k _ _ _ _ hr
  · split
    · exact send_disconnect_InterestInv k _ _ _ _ hr
    · exact hr

theorem InterestInv_of_projection (c d e : Client) (hb : bookkeeping e = bookkeeping d)
    (hi : d.m_interests = c.m_interests) (hs : d.subscriptions = c.subscriptions)
    (h : InterestInv c) : InterestInv e :=
  InterestInv_of_bookkeeping d e hb
    (InterestInv_mono c d hi (fun ch _ hc => by rw [hs]; exact hc) h)

theorem handle_datagram_InterestInv (k : Config) (c : Client) (dg : Datagram)
    (hg : keeps_interest_channels k c dg) (h : InterestInv c) :
    InterestInv (handle_datagram k c dg).1 := by
  apply handle_datagram_cases k c dg InterestInv h
  · exact fun dgi =>
      InterestInv_of_bookkeeping c _ (handle_CLIENTAGENT_EJECT_bookkeeping k c dgi) h
  · exact h
  · exact fun dgi =>
      InterestInv_of_bookkeeping c _ (handle_CLIENTAGENT_SET_STATE_bookkeeping c dgi) h
  · exact fun sender dgi => InterestInv_of_bookkeeping c _
      (handle_STATESERVER_OBJECT_SET_FIELD_bookkeeping k c sender dgi) h
  · intro dgi
    rcases handle_STATESERVER_OBJECT_DELETE_RAM_bookkeeping k c dgi with hb | ⟨_, hb⟩
    · exact InterestInv_of_bookkeeping c _ hb h
    · exact InterestInv_of_projection c _ _ hb rfl rfl h
  · intro dgi
    rcases handle_STATESERVER_OBJECT_ENTER_OWNER_bookkeeping k c dgi with hb | ⟨_, _, _, hb⟩
    · exact InterestInv_of_bookkeeping c _ hb h
    · exact InterestInv_of_projection c _ _ hb rfl rfl h
  · intro sender dgi0 dgi h1 h2
    obtain ⟨subs, hb, hsub⟩ := handle_CLIENTAGENT_SET_CLIENT_ID_bookkeeping c dgi
    apply InterestInv_of_bookkeeping _ _ hb
    refine InterestInv_mono c _ rfl ?_ h
    intro ch hcov hch
    apply hsub ch hch
    rcases (hg sender dgi0 dgi h1).2 h2 with ha | hn
    · exact Or.inl ha
    · exact Or.inr (fun heq => hn (heq ▸ hcov))
  · exact fun dgi => InterestInv_of_bookkeeping c _
      (handle_CLIENTAGENT_SEND_DATAGRAM_bookkeeping c dgi) h
  · intro dgi
    obtain ⟨subs, hb, hsub⟩ := handle_CLIENTAGENT_OPEN_CHANNEL_bookkeeping c dgi
    apply InterestInv_of_bookkeeping _ _ hb
    exact InterestInv_mono c _ rfl (fun ch _ hch => hsub ch hch) h
  · intro sender dgi0 dgi h1 h2
    obtain ⟨subs, hb, hsub⟩ := handle_CLIENTAGENT_CLOSE_CHANNEL_bookkeeping c dgi
    apply InterestInv_of_bookkeeping _ _ hb
    refine InterestInv_mono c _ rfl ?_ h
    intro ch hcov hch
    apply hsub ch hch
    intro closed r hr heq
    exact (hg sender dgi0 dgi h1).1 h2 closed r hr (heq ▸ hcov)
  · exact fun dgi => InterestInv_of_bookkeeping c _
      (handle_CLIENTAGENT_ADD_POST_REMOVE_bookkeeping c dgi) h
  · exact h
  · intro msgtype dgi
    rcases handle_STATESERVER_OBJECT_ENTER_LOCATION_bookkeeping k c msgtype dgi with
      hb | ⟨_, _, _, hb⟩
    · exact InterestInv_of_bookkeeping c _ hb h
    · exact InterestInv_of_projection c _ _ hb rfl rfl h
  · exact fun dgi => InterestInv_of_bookkeeping c _
      (handle_STATESERVER_OBJECT_GET_ZONES_COUNT_RESP_bookkeeping k c dgi) h
  · intro dgi
    obtain ⟨objs, _, _, hb | ⟨_, _, hb⟩⟩ :=
      handle_STATESERVER_OBJECT_CHANGING_LOCATION_bookkeeping k c dgi
    · exact InterestInv_of_projection c _ _ hb rfl rfl h
    · exact InterestInv_of_projection c _ _ hb rfl rfl h

/-- C8 (amended): in every state reachable from a freshly constructed session by client
datagrams and by MD messages that close no interest channel (no
`CLIENTAGENT_CLOSE_CHANNEL` names, and no `CLIENTAGENT_SET_CLIENT_ID` unsubscribes, the
location channel of a zone of a stored interest), for every stored interest `i` and
every zone `z` of `i` the location channel `L(i.parent, z)` is subscribed. -/
theorem C8_interest_channels_subscribed (k : Config) (c : Client)
    (h : ReachableKeepingChannels k c) :
    ∀ e ∈ c.m_interests, ∀ z ∈ e.2.zones,
      LOCATION2CHANNEL e.2.parent z ∈ c.subscriptions := by
  have hinv : InterestInv c := by
    induction h with
    | construct ct remote local_addr =>
      intro e he
      rw [(construct_bookkeeping k ct remote local_addr).1] at he
      simp at he
    | client c dg _ ih => exact network_datagram_InterestInv k c dg ih
    | md c dg _ hg ih => exact handle_datagram_InterestInv k c dg hg ih
  exact fun e he z hz => ((hinv e he).2 z hz).2

/-- C8 at a concrete input: the session `exampleInterest` is reached without closing an
interest channel, and the channel of its interest `(500, 9000)` is subscribed. -/
theorem C8_interest_channels_subscribed_witness :
    LOCATION2CHANNEL 500 9000 ∈ exampleInterest.subscriptions :=
  C8_interest_channels_subscribed exampleConfig exampleInterest
    (ReachableKeepingChannels.client _ _ (ReachableKeepingChannels.md _ _
      (ReachableKeepingChannels.construct _ _ _)
      (fun sender dgi0 dgi h1 => by
        have hs : dgi0 = add_uint16 1000 ++ add_uint16 2 := by
          have : read_uint64 (md_datagram 1 1000 (add_uint16 2)) =
              some (1, add_uint16 1000 ++ add_uint16 2) := by decide
          rw [this] at h1
          exact (Prod.mk.inj (Option.some.inj h1)).2.symm
        subst hs
        constructor
        · intro h2
          exact absurd (Prod.mk.inj (Option.some.inj h2)).1 (by decide)
        · intro h2
          exact absurd (Prod.mk.inj (Option.some.inj h2)).1 (by decide))))
    (1, ⟨1, 500, [9000]⟩) (by decide) 9000 (by decide)

/-- C8 fails as stated. The session `exampleClosed` is reached from a constructed session
by `CLIENTAGENT_SET_STATE(ESTABLISHED)`, `CLIENT_ADD_INTEREST(42, 1, 500, 9000)` and
`CLIENTAGENT_CLOSE_CHANNEL(L(500, 9000))`: interest 1 with zone 9000 of parent 500 is
still stored, and its location channel is no longer subscribed. -/
theorem C8_interest_channels_subscribed_counterexample :
    Reachable exampleConfig exampleClosed ∧
    (1, (⟨1, 500, [9000]⟩ : Interest)) ∈ exampleClosed.m_interests ∧
    LOCATION2CHANNEL 500 9000 ∉ exampleClosed.subscriptions := by
  refine ⟨?_, by decide, by decide⟩
  exact Reachable.md _ _ (Reachable.client _ _ (Reachable.md _ _
    (Reachable.construct _ _ _)))

/-! ## C10: adding an interest and removing it again -/

theorem filter_foldl_set_insert (l s : List Nat) (hl : ∀ x ∈ s, x ∉ l) :
    (l.foldl set_insert s).filter (fun ch => decide (ch ∉ l)) = s := by
  have key : ∀ (l2 s2 : List Nat), (∀ x ∈ l2, x ∈ l) →
      (l2.foldl set_insert s2).filter (fun ch => decide (ch ∉ l)) =
        s2.filter (fun ch => decide (ch ∉ l)) := by
    intro l2
    induction l2 with
    | nil => intro s2 _; rfl
    | cons a l2 ih =>
      intro s2 h2
      rw [List.foldl_cons, ih _ (fun x hx => h2 x (List.mem_cons_of_mem _ hx))]
      unfold set_insert
      split
      · rfl
      · rw [List.filter_append]
        simp [h2 a (List.mem_cons_self _ _)]
  rw [key l s (fun x hx => hx), List.filter_eq_self]
  intro x hx
  simpa using hl x hx

theorem map_erase_append_new {β : Type} (m : List (Nat × β)) (key : Nat) (v : β)
    (h : key ∉ map_keys m) : map_erase (m ++ [(key, v)]) key = m := by
  unfold map_erase
  rw [List.filter_append, List.filter_eq_self.2]
  · simp
  · intro e he
    simp only [ne_eq, decide_eq_true_eq]
    intro heq
    exact h ((mem_map_keys m key).2 ⟨e, he, heq⟩)

/-- After a fresh interest `i` has been stored, the zones of `i` that `remove_interest`
kills are the zones that were new when `i` was added. -/
theorem remove_interest_killed_zones_after_add (c d : Client) (i : Interest)
    (hd : d.m_interests = c.m_interests ++ [(i.id, i)]) :
    remove_interest_killed_zones d i = add_interest_new_zones c i := by
  unfold remove_interest_killed_zones add_interest_new_zones
  apply List.filter_congr
  intro z hz
  have hlen : (lookup_interests d i.parent z).length =
      (lookup_interests c i.parent z).length + 1 := by
    simp [lookup_interests, hd, List.filter_append, hz]
  rw [hlen]
  simp [List.length_eq_zero]

/-- C10 (amended): let the id of the interest `i` not be stored, and let every zone `z` of
`i` that no stored interest covers under `i.parent` have its location channel
unsubscribed and no non-owned projected object located at `(i.parent, z)`. Then
`add_interest` for `i` immediately followed by `CLIENT_REMOVE_INTEREST` of the same id
leaves the subscription set, the interests map and the projection (objects, seen,
owned) as they were before the add. -/
theorem C10_add_then_remove (k : Config) (c : Client) (i : Interest) (context : Nat)
    (dgi dgi1 dgi2 : DatagramIterator) (context2 : Nat)
    (hnew : map_find c.m_interests i.id = none)
    (hsub : ∀ z ∈ add_interest_new_zones c i, LOCATION2CHANNEL i.parent z ∉ c.subscriptions)
    (hobj : ∀ e ∈ c.m_dist_objs, e.2.parent = i.parent → e.2.zone ∈ add_interest_new_zones c i →
      e.2.id ∈ c.m_owned_objects)
    (h1 : read_uint32 dgi = some (context2, dgi1)) (h2 : read_uint16 dgi1 = some (i.id, dgi2)) :
    (handle_client_remove_interest k (add_interest k c i context) dgi).1.subscriptions =
      c.subscriptions ∧
    (handle_client_remove_interest k (add_interest k c i context) dgi).1.m_interests =
      c.m_interests ∧
    (handle_client_remove_interest k (add_interest k c i context) dgi).1.m_dist_objs =
      c.m_dist_objs ∧
    (handle_client_remove_interest k (add_interest k c i context) dgi).1.m_seen_objects =
      c.m_seen_objects ∧
    (handle_client_remove_interest k (add_interest k c i context) dgi).1.m_owned_objects =
      c.m_owned_objects := by
  have hkey : i.id ∉ map_keys c.m_interests := (map_find_eq_none _ _).1 hnew
  have hcl : add_interest_closed k c i = c := by simp [add_interest_closed, hnew]
  have hint : (add_interest k c i context).m_interests = c.m_interests ++ [(i.id, i)] := by
    rw [add_interest_closed_eq, hcl]
    split <;> simp [map_assign, hkey]
  have hobjs : (add_interest k c i context).m_dist_objs = c.m_dist_objs := by
    rw [add_interest_closed_eq, hcl]
    split <;> rfl
  have hseen : (add_interest k c i context).m_seen_objects = c.m_seen_objects := by
    rw [add_interest_closed_eq, hcl]
    split <;> rfl
  have hown : (add_interest k c i context).m_owned_objects = c.m_owned_objects := by
    rw [add_interest_closed_eq, hcl]
    split <;> rfl
  have hsubs : (add_interest k c i context).subscriptions =
      ((add_interest_new_zones c i).map (LOCATION2CHANNEL i.parent)).foldl set_insert
        c.subscriptions := by
    rw [add_interest_closed_eq, hcl]
    split
    · rename_i hnz
      rw [hnz]
      rfl
    · rfl
  have hfind : map_find (add_interest k c i context).m_interests i.id = some i := by
    rw [hint]
    exact map_find_append_new _ _ _ hkey
  have hkilled := remove_interest_killed_zones_after_add c (add_interest k c i context) i hint
  have hrem : close_zones_to_remove (add_interest k c i context) i.parent
      (add_interest_new_zones c i) = [] := by
    unfold close_zones_to_remove
    rw [hobjs, hown, List.map_eq_nil_iff, List.filter_eq_nil_iff]
    intro e he
    simp only [decide_eq_true_eq, not_and, not_not]
    exact fun hp hz => hobj e he hp hz
  simp only [handle_client_remove_interest, h1, h2, hfind, remove_interest_eq, hkilled, hrem]
  refine ⟨?_, ?_, ?_, ?_, ?_⟩
  · simp only [hsubs]
    apply filter_foldl_set_insert
    intro x hx hmem
    simp only [List.mem_map] at hmem
    obtain ⟨z, hz, rfl⟩ := hmem
    exact hsub z hz hx
  · simp only [hint]
    exact map_erase_append_new _ _ _ hkey
  · simp [hobjs]
  · simp [hseen]
  · exact hown

/-- C10 at a concrete input: in the session `exampleEstablished` the interest
`(1, 500, {9000})` is added and removed again. -/
theorem C10_add_then_remove_witness :
    (handle_client_remove_interest exampleConfig
      (add_interest exampleConfig exampleEstablished ⟨1, 500, [9000]⟩ 42)
      (add_uint32 5 ++ add_uint16 1)).1.subscriptions = exampleEstablished.subscriptions :=
  (C10_add_then_remove exampleConfig exampleEstablished ⟨1, 500, [9000]⟩ 42
    (add_uint32 5 ++ add_uint16 1) (add_uint16 1) [] 5 (by decide) (by decide) (by decide)
    (by decide) (by decide)).1

/-- C10 fails as stated. In the reachable ESTABLISHED session `exampleSeen` object 77 is
seen at `(500, 9000)`, a location no interest covers; `CLIENT_ADD_INTEREST(42, 1, 500,
9000)` immediately followed by `CLIENT_REMOVE_INTEREST(5, 1)` removes it from the
projection and from seen. In the reachable ESTABLISHED session `exampleOpened` the
channel `L(500, 9000)` is subscribed; the same two datagrams unsubscribe it. -/
theorem C10_add_then_remove_counterexample :
    Reachable exampleConfig exampleSeen ∧
    exampleSeen.m_state = exampleConfig.CLIENT_STATE_ESTABLISHED ∧
    map_find exampleSeen.m_interests 1 = none ∧
    map_keys exampleSeen.m_dist_objs = [77] ∧ exampleSeen.m_seen_objects = [77] ∧
    (network_datagram exampleConfig (network_datagram exampleConfig exampleSeen
      exampleAddInterest) exampleRemoveInterest).m_dist_objs = [] ∧
    (network_datagram exampleConfig (network_datagram exampleConfig exampleSeen
      exampleAddInterest) exampleRemoveInterest).m_seen_objects = [] ∧
    Reachable exampleConfig exampleOpened ∧
    exampleOpened.m_state = exampleConfig.CLIENT_STATE_ESTABLISHED ∧
    LOCATION2CHANNEL 500 9000 ∈ exampleOpened.subscriptions ∧
    LOCATION2CHANNEL 500 9000 ∉ (network_datagram exampleConfig
      (network_datagram exampleConfig exampleOpened exampleAddInterest)
      exampleRemoveInterest).subscriptions := by
  refine ⟨?_, by decide, by decide, by decide, by decide, by decide, by decide, ?_, by decide,
    by decide, by decide⟩
  · exact Reachable.md _ _ (Reachable.md _ _ (Reachable.construct _ _ _))
  · exact Reachable.md _ _ (Reachable.md _ _ (Reachable.construct _ _ _))

/-! ## Reachable sessions are well formed

The hypotheses of C6 and C7 (`Client.WF`, 32-bit zones) hold in every reachable state. -/

theorem WFInv_WF (c : Client) (h : WFInv c) :
    c.WF ∧ ∀ e ∈ c.m_interests, ∀ z ∈ e.2.zones, z < 4294967296 :=
  ⟨⟨h.1, h.2.1, fun e he => (h.2.2 e he).1⟩, fun e he => (h.2.2 e he).2⟩

theorem WFInv_of_bookkeeping (c d : Client) (hb : bookkeeping d = bookkeeping c)
    (h : WFInv c) : WFInv d := by
  simp only [bookkeeping, Prod.mk.injEq] at hb
  obtain ⟨h1, _, h2, _, _⟩ := hb
  unfold WFInv
  rw [h1, h2]
  exact h

theorem WFLists_filter_objs (objs : List (Nat × DistributedObject)) (ints : List (Nat × Interest))
    (p : Nat × DistributedObject → Bool) (h : WFLists objs ints) :
    WFLists (objs.filter p) ints := by
  refine ⟨?_, fun e he => h.2.1 e (List.mem_of_mem_filter he), h.2.2⟩
  have := h.1
  unfold map_keys at this ⊢
  exact List.Nodup.sublist (List.Sublist.map _ (List.filter_sublist objs)) this

theorem WFLists_enter (objs : List (Nat × DistributedObject)) (ints : List (Nat × Interest))
    (do_id : Nat) (obj : DistributedObject) (hid : obj.id = do_id) (h : WFLists objs ints) :
    WFLists (if map_find objs do_id = none then map_assign objs do_id obj else objs) ints := by
  split
  · rename_i hf
    have hk : do_id ∉ map_keys objs := (map_find_eq_none _ _).1 hf
    have hform : map_assign objs do_id obj = objs ++ [(do_id, obj)] := by
      simp [map_assign, hk]
    rw [hform]
    refine ⟨?_, fun e he => ?_, h.2.2⟩
    · have hkeys : map_keys (objs ++ [(do_id, obj)]) = map_keys objs ++ [do_id] := by
        simp [map_keys]
      rw [hkeys, List.nodup_append]
      refine ⟨h.1, by simp, ?_⟩
      intro a ha hb
      simp only [List.mem_singleton] at hb
      exact hk (hb ▸ ha)
    · simp only [List.mem_append, List.mem_singleton] at he
      rcases he with he | rfl
      · exact h.2.1 e he
      · exact hid
  · exact h

theorem WFLists_moved (objs : List (Nat × DistributedObject)) (ints : List (Nat × Interest))
    (do_id : Nat) (obj : DistributedObject) (n_parent n_zone : Nat)
    (hf : map_find objs do_id = some obj) (h : WFLists objs ints) :
    WFLists (map_assign objs do_id ⟨obj.id, n_parent, n_zone, obj.dcc⟩) ints := by
  have hk : do_id ∈ map_keys objs := by
    by_contra hn
    rw [(map_find_eq_none _ _).2 hn] at hf
    exact Option.noConfusion hf
  refine ⟨?_, fun e he => ?_, h.2.2⟩
  · rw [map_keys_map_assign_of_mem _ _ _ hk]
    exact h.1
  · rcases mem_map_assign _ _ _ _ he with rfl | ⟨hem, _⟩
    · exact h.2.1 (do_id, obj) (map_find_mem _ _ _ hf)
    · exact h.2.1 e hem

theorem WFLists_assign_interest (objs : List (Nat × DistributedObject))
    (ints : List (Nat × Interest)) (i : Interest) (hz : ∀ z ∈ i.zones, z < 4294967296)
    (h : WFLists objs ints) : WFLists objs (map_assign ints i.id i) := by
  refine ⟨h.1, h.2.1, fun e he => ?_⟩
  rcases mem_map_assign _ _ _ _ he with rfl | ⟨hem, _⟩
  · exact ⟨rfl, hz⟩
  · exact h.2.2 e hem

theorem WFLists_erase_interest (objs : List (Nat × DistributedObject))
    (ints : List (Nat × Interest)) (key : Nat) (h : WFLists objs ints) :
    WFLists objs (map_erase ints key) :=
  ⟨h.1, h.2.1, fun e he => h.2.2 e (List.mem_of_mem_filter he)⟩

theorem close_zones_WFInv (k : Config) (c : Client) (parent : Nat) (killed : List Nat)
    (h : WFInv c) : WFInv (close_zones k c parent killed) := by
  rw [close_zones_eq]
  exact WFLists_filter_objs _ _ _ h

theorem add_interest_WFInv (k : Config) (c : Client) (i : Interest) (context : Nat)
    (hz : ∀ z ∈ i.zones, z < 4294967296) (h : WFInv c) :
    WFInv (add_interest k c i context) := by
  have hcl : WFInv (add_interest_closed k c i) := by
    unfold add_interest_closed
    split
    · exact h
    · exact close_zones_WFInv k c _ _ h
  have hci : (add_interest_closed k c i).m_interests = c.m_interests := by
    unfold add_interest_closed
    split
    · rfl
    · rw [close_zones_eq]
  have := WFLists_assign_interest _ _ i hz hcl
  rw [hci] at this
  rw [add_interest_closed_eq]
  split <;> exact this

theorem remove_interest_WFInv (k : Config) (c : Client) (i : Interest) (context : Nat)
    (h : WFInv c) : WFInv (remove_interest k c i context) := by
  rw [remove_interest_eq]
  exact WFLists_erase_interest _ _ _ (WFLists_filter_objs _ _ _ h)

theorem send_disconnect_WFInv (k : Config) (c : Client) (reason : Nat) (text : List Nat)
    (security : Bool) (h : WFInv c) : WFInv (send_disconnect k c reason text security) :=
  WFInv_of_bookkeeping c _ (by simp [bookkeeping]) h

theorem handle_client_add_interest_WFInv (k : Config) (c : Client)
    (dgi : DatagramIterator) (multiple : Bool) (h : WFInv c) :
    WFInv (handle_client_add_interest k c dgi multiple).1 := by
  unfold handle_client_add_interest
  cases h1 : read_uint32 dgi with
  | none => exact h
  | some p1 =>
    obtain ⟨context, dgi1⟩ := p1
    dsimp only
    cases h2 : read_uint16 dgi1 with
    | none => exact h
    | some p2 =>
      obtain ⟨interest_id, dgi2⟩ := p2
      dsimp only
      cases h3 : read_uint32 dgi2 with
      | none => exact h
      | some p3 =>
        obtain ⟨parent, dgi3⟩ := p3
        dsimp only
        cases h4 : (if multiple = true then read_uint16 dgi3 else some (1, dgi3)) with
        | none => exact h
        | some p4 =>
          obtain ⟨count, dgi4⟩ := p4
          dsimp only
          cases h5 : read_zones count [] dgi4 with
          | none => exact h
          | some p5 =>
            obtain ⟨zones, dgi5⟩ := p5
            exact add_interest_WFInv k c _ context
              (read_zones_lt count [] dgi4 dgi5 zones h5 (by simp)) h

theorem handle_client_remove_interest_WFInv (k : Config) (c : Client)
    (dgi : DatagramIterator) (h : WFInv c) :
    WFInv (handle_client_remove_interest k c dgi).1 := by
  unfold handle_client_remove_interest
  repeat' split
  all_goals first
    | exact h
    | exact remove_interest_WFInv k c _ _ h
    | exact send_disconnect_WFInv k c _ _ _ h

theorem network_datagram_WFInv (k : Config) (c : Client) (dg : Datagram)
    (h : WFInv c) : WFInv (network_datagram k c dg) := by
  have hr : WFInv (if c.m_state = k.CLIENT_STATE_NEW then handle_pre_hello k c dg
      else if c.m_state = k.CLIENT_STATE_ANONYMOUS then handle_pre_auth k c dg
      else if c.m_state = k.CLIENT_STATE_ESTABLISHED then handle_authenticated k c dg
      else (c, some dg)).1 := by
    split_ifs
    · exact WFInv_of_bookkeeping c _ (handle_pre_hello_bookkeeping k c dg) h
    · unfold handle_pre_auth
      repeat' split
      · exact h
      · exact WFInv_of_bookkeeping c _ (handle_client_object_update_field_bookkeeping k c _) h
      · exact send_disconnect_WFInv k c _ _ _ h
    · unfold handle_authenticated
      repeat' split
      · exact h
      · exact WFInv_of_bookkeeping c _ (handle_client_object_update_field_bookkeeping k c _) h
      · exact WFInv_of_bookkeeping c _ (handle_client_object_location_bookkeeping k c _) h
      · exact handle_client_add_interest_WFInv k c _ _ h
      · exact handle_client_add_interest_WFInv k c _ _ h
      · exact handle_client_remove_interest_WFInv k c _ h
      · exact send_disconnect_WFInv k c _ _ _ h
    · exact h
  unfold network_datagram
  simp only []
  split
  · exact send_disconnect_WFInv k _ _ _ _ hr
  · split
    · exact send_disconnect_WFInv k _ _ _ _ hr
    · exact hr

theorem handle_STATESERVER_OBJECT_ENTER_OWNER_WFInv (k : Config) (c : Client)
    (dgi : DatagramIterator) (h : WFInv c) :
    WFInv (handle_STATESERVER_OBJECT_ENTER_OWNER k c dgi).1 := by
  rcases handle_STATESERVER_OBJECT_ENTER_OWNER_bookkeeping k c dgi with
    hb | ⟨do_id, obj, hid, hb⟩
  · exact WFInv_of_bookkeeping c _ hb h
  · exact WFInv_of_bookkeeping _ _ hb (WFLists_enter _ _ do_id obj hid h)

theorem handle_STATESERVER_OBJECT_ENTER_LOCATION_WFInv (k : Config) (c : Client)
    (msgtype : Nat) (dgi : DatagramIterator) (h : WFInv c) :
    WFInv (handle_STATESERVER_OBJECT_ENTER_LOCATION k c msgtype dgi).1 := by
  rcases handle_STATESERVER_OBJECT_ENTER_LOCATION_bookkeeping k c msgtype dgi with
    hb | ⟨do_id, obj, hid, hb⟩
  · exact WFInv_of_bookkeeping c _ hb h
  · exact WFInv_of_bookkeeping _ _ hb (WFLists_enter _ _ do_id obj hid h)

theorem handle_STATESERVER_OBJECT_DELETE_RAM_WFInv (k : Config) (c : Client)
    (dgi : DatagramIterator) (h : WFInv c) :
    WFInv (handle_STATESERVER_OBJECT_DELETE_RAM k c dgi).1 := by
  rcases handle_STATESERVER_OBJECT_DELETE_RAM_bookkeeping k c dgi with hb | ⟨do_id, hb⟩
  · exact WFInv_of_bookkeeping c _ hb h
  · exact WFInv_of_bookkeeping _ _ hb (WFLists_filter_objs _ _ _ h)

theorem handle_STATESERVER_OBJECT_CHANGING_LOCATION_WFInv (k : Config) (c : Client)
    (dgi : DatagramIterator) (h : WFInv c) :
    WFInv (handle_STATESERVER_OBJECT_CHANGING_LOCATION k c dgi).1 := by
  obtain ⟨objs, _, hobjs, hb⟩ := handle_STATESERVER_OBJECT_CHANGING_LOCATION_bookkeeping k c dgi
  have hw : WFLists objs c.m_interests := by
    rcases hobjs with rfl | ⟨do_id, obj, n_parent, n_zone, hf, rfl⟩
    · exact h
    · exact WFLists_moved _ _ do_id obj n_parent n_zone hf h
  rcases hb with hb | ⟨do_id, _, hb⟩
  · exact WFInv_of_bookkeeping _ _ hb hw
  · exact WFInv_of_bookkeeping _ _ hb (WFLists_filter_objs _ _ _ hw)

theorem handle_datagram_WFInv (k : Config) (c : Client) (dg : Datagram)
    (h : WFInv c) : WFInv (handle_datagram k c dg).1 := by
  apply handle_datagram_cases k c dg WFInv h
  · exact fun dgi => WFInv_of_bookkeeping c _ (handle_CLIENTAGENT_EJECT_bookkeeping k c dgi) h
  · exact h
  · exact fun dgi => WFInv_of_bookkeeping c _ (handle_CLIENTAGENT_SET_STATE_bookkeeping c dgi) h
  · exact fun sender dgi => WFInv_of_bookkeeping c _
      (handle_STATESERVER_OBJECT_SET_FIELD_bookkeeping k c sender dgi) h
  · exact fun dgi => handle_STATESERVER_OBJECT_DELETE_RAM_WFInv k c dgi h
  · exact fun dgi => handle_STATESERVER_OBJECT_ENTER_OWNER_WFInv k c dgi h
  · intro _ _ dgi _ _
    obtain ⟨subs, hb, _⟩ := handle_CLIENTAGENT_SET_CLIENT_ID_bookkeeping c dgi
    exact WFInv_of_bookkeeping { c with subscriptions := subs } _ hb h
  · exact fun dgi => WFInv_of_bookkeeping c _
      (handle_CLIENTAGENT_SEND_DATAGRAM_bookkeeping c dgi) h
  · intro dgi
    obtain ⟨subs, hb, _⟩ := handle_CLIENTAGENT_OPEN_CHANNEL_bookkeeping c dgi
    exact WFInv_of_bookkeeping { c with subscriptions := subs } _ hb h
  · intro _ _ dgi _ _
    obtain ⟨subs, hb, _⟩ := handle_CLIENTAGENT_CLOSE_CHANNEL_bookkeeping c dgi
    exact WFInv_of_bookkeeping { c with subscriptions := subs } _ hb h
  · exact fun dgi => WFInv_of_bookkeeping c _
      (handle_CLIENTAGENT_ADD_POST_REMOVE_bookkeeping c dgi) h
  · exact h
  · exact fun msgtype dgi => handle_STATESERVER_OBJECT_ENTER_LOCATION_WFInv k c msgtype dgi h
  · exact fun dgi => WFInv_of_bookkeeping c _
      (handle_STATESERVER_OBJECT_GET_ZONES_COUNT_RESP_bookkeeping k c dgi) h
  · exact fun dgi => handle_STATESERVER_OBJECT_CHANGING_LOCATION_WFInv k c dgi h

/-- Every reachable session is well formed (`Client.WF`) and the zones of its interests are
32-bit values: the hypotheses of C6 and C7 hold in all reachable states. -/
theorem reachable_WF (k : Config) (c : Client) (h : Reachable k c) :
    c.WF ∧ ∀ e ∈ c.m_interests, ∀ z ∈ e.2.zones, z < 4294967296 := by
  apply WFInv_WF
  induction h with
  | construct ct remote local_addr =>
    obtain ⟨h1, h2, _, _⟩ := construct_bookkeeping k ct remote local_addr
    unfold WFInv WFLists
    rw [h1, h2]
    simp [map_keys]
  | client c dg _ ih => exact network_datagram_WFInv k c dg ih
  | md c dg _ ih => exact handle_datagram_WFInv k c dg ih

/-! ## C16: the size of a routed field update -/

/-- The envelope that `handle_client_object_update_field` writes before the field bytes
is 25 bytes long, whatever the values. -/
theorem update_field_header_length (recipient sender msgtype do_id field_id : Nat) :
    (add_server_header recipient sender msgtype ++ add_uint32 do_id ++
      add_uint16 field_id).length = 25 := by
  simp [add_server_header, add_uint8, add_uint64, add_uint32, add_uint16]

/-- C16: for every `CLIENT_OBJECT_SET_FIELD(do_id, field_id, ...)` that passes the
resolution, anonymity and authorization checks and whose field unpacks to the bytes `d`:
the header written before the payload (`u8` recipient count 1, `u64` recipient `do_id`,
`u64` sender identity channel, `u16` `STATESERVER_OBJECT_SET_FIELD`, `u32 do_id`,
`u16 field_id`) is 25 bytes, so the subtraction `65535 - resp.size()` of the check does
not underflow; if `25 + |d| <= 65535` exactly one bus datagram, that header followed
by `d`, is sent and nothing else changes; if `25 + |d| > 65535` the session is ejected
with `OVERSIZED_DATAGRAM` (security) and nothing is sent on the bus. -/
theorem C16_update_field_size (k : Config) (c : Client)
    (dgi dgi1 dgi2 dgi3 : DatagramIterator) (do_id field_id : Nat) (dcc : DCClass)
    (field : DCField) (d : List Nat)
    (h1 : read_uint32 dgi = some (do_id, dgi1)) (h2 : read_uint16 dgi1 = some (field_id, dgi2))
    (hres : lookup_object k c do_id = some dcc)
    (hanon : c.m_state = k.CLIENT_STATE_ESTABLISHED ∨
      ∃ u, map_find k.uberdogs do_id = some u ∧ u.anonymous = true)
    (hfield : dcc.get_field_by_index field_id = some field)
    (hauth : field.clsend = true ∨ (do_id ∈ c.m_owned_objects ∧ field.ownsend = true))
    (hd : k.unpack_field field dgi2 = some (d, dgi3)) :
    (add_uint8 1 ++ add_uint64 do_id ++ add_uint64 c.m_channel ++
      add_uint16 k.STATESERVER_OBJECT_SET_FIELD ++ add_uint32 do_id ++
      add_uint16 field_id).length = 25 ∧
    (add_uint8 1 ++ add_uint64 do_id ++ add_uint64 c.m_channel ++
      add_uint16 k.STATESERVER_OBJECT_SET_FIELD ++ add_uint32 do_id ++
      add_uint16 field_id).length ≤ 65535 ∧
    (25 + d.length ≤ 65535 →
      handle_client_object_update_field k c dgi =
        ({ c with md_out := c.md_out ++
            [add_uint8 1 ++ add_uint64 do_id ++ add_uint64 c.m_channel ++
              add_uint16 k.STATESERVER_OBJECT_SET_FIELD ++ add_uint32 do_id ++
              add_uint16 field_id ++ d] }, some (false, dgi3))) ∧
    (25 + d.length > 65535 →
      handle_client_object_update_field k c dgi =
        (send_disconnect k c k.CLIENT_DISCONNECT_OVERSIZED_DATAGRAM
          (string_bytes "Field update too large to be routed on MD.") true,
          some (true, dgi3)) ∧
      (handle_client_object_update_field k c dgi).1.md_out = c.md_out) := by
  have hlen := update_field_header_length do_id c.m_channel k.STATESERVER_OBJECT_SET_FIELD
    do_id field_id
  have hanon2 : ¬ (c.m_state ≠ k.CLIENT_STATE_ESTABLISHED ∧
      (match map_find k.uberdogs do_id with
        | none => true
        | some u => !u.anonymous) = true) := by
    rintro ⟨hne, hm⟩
    rcases hanon with hs | ⟨u, hu, ha⟩
    · exact hne hs
    · simp [hu, ha] at hm
  have hauth2 : ¬ ((!field.clsend && !(decide (do_id ∈ c.m_owned_objects) && field.ownsend))
      = true) := by
    rcases hauth with hcl | ⟨ho, hos⟩
    · simp [hcl]
    · simp [ho, hos]
  have hh : handle_client_object_update_field k c dgi =
      (if d.length > 65535 - (add_server_header do_id c.m_channel
            k.STATESERVER_OBJECT_SET_FIELD ++ add_uint32 do_id ++ add_uint16 field_id).length
        then (send_disconnect k c k.CLIENT_DISCONNECT_OVERSIZED_DATAGRAM
          (string_bytes "Field update too large to be routed on MD.") true, some (true, dgi3))
        else (send c (add_server_header do_id c.m_channel k.STATESERVER_OBJECT_SET_FIELD ++
          add_uint32 do_id ++ add_uint16 field_id ++ d), some (false, dgi3))) := by
    unfold handle_client_object_update_field
    simp only [h1, h2, hres, hfield, hd]
    rw [if_neg hanon2, if_neg hauth2]
  rw [hh, hlen]
  refine ⟨?_, ?_, ?_, ?_⟩
  · simpa [add_server_header, List.append_assoc] using hlen
  · have : (add_uint8 1 ++ add_uint64 do_id ++ add_uint64 c.m_channel ++
      add_uint16 k.STATESERVER_OBJECT_SET_FIELD ++ add_uint32 do_id ++
      add_uint16 field_id).length = 25 := by
      simpa [add_server_header, List.append_assoc] using hlen
    omega
  · intro hle
    rw [if_neg (by omega)]
    simp [send, add_server_header, List.append_assoc]
  · intro hgt
    rw [if_pos (by omega)]
    exact ⟨rfl, send_disconnect_md_out _ _ _ _ _⟩

/-- C16 at the input of the spec: an ESTABLISHED session sends `setName` (field 7, two
bytes `[1, 2]`) to the uberdog 100; one datagram of 27 bytes goes to the bus. -/
theorem C16_update_field_size_witness :
    handle_client_object_update_field exampleConfig (exampleClient 2)
        (add_uint32 100 ++ add_uint16 7 ++ [1, 2]) =
      ({ exampleClient 2 with md_out := (exampleClient 2).md_out ++
          [add_uint8 1 ++ add_uint64 100 ++ add_uint64 (exampleClient 2).m_channel ++
            add_uint16 exampleConfig.STATESERVER_OBJECT_SET_FIELD ++ add_uint32 100 ++
            add_uint16 7 ++ [1, 2]] }, some (false, [])) :=
  (C16_update_field_size exampleConfig (exampleClient 2)
    (add_uint32 100 ++ add_uint16 7 ++ [1, 2]) (add_uint16 7 ++ [1, 2]) [1, 2] [] 100 7
    exampleClass ⟨"setName", true, false⟩ [1, 2] (by decide) (by decide) (by decide)
    (Or.inl (by decide)) (by decide) (Or.inl rfl) (by decide)).2.2.1 (by decide)

/-! ## C15, C19: relocation requests and invalid message types -/

theorem network_datagram_eq (k : Config) (c : Client) (dg : Datagram) :
    network_datagram k c dg =
      match (client_handler k c dg).2 with
      | none =>
        send_disconnect k (client_handler k c dg).1 k.CLIENT_DISCONNECT_TRUNCATED_DATAGRAM
          (string_bytes "Datagram unexpectedly ended while iterating.") false
      | some dgi =>
        if dgi.length ≠ 0 then
          send_disconnect k (client_handler k c dg).1 k.CLIENT_DISCONNECT_OVERSIZED_DATAGRAM
            (string_bytes "Datagram contains excess data.") true
        else (client_handler k c dg).1 := rfl

/-- When the handler ejects, the check for excess data is without effect. -/
theorem network_datagram_of_eject (k : Config) (c : Client) (dg : Datagram) (reason : Nat)
    (text : List Nat) (security : Bool) (rest : DatagramIterator)
    (h : client_handler k c dg = (send_disconnect k c reason text security, some rest)) :
    network_datagram k c dg = send_disconnect k c reason text security := by
  rw [network_datagram_eq, h]
  dsimp only
  split
  · exact send_disconnect_twice _ _ _ _ _ _ _ _
  · rfl

theorem client_handler_established (k : Config) (hk : k.client_switch_ok) (c : Client)
    (dg : Datagram) (hs : c.m_state = k.CLIENT_STATE_ESTABLISHED) :
    client_handler k c dg = handle_authenticated k c dg := by
  obtain ⟨hp, _⟩ := hk
  simp only [List.pairwise_cons, List.mem_cons, List.mem_singleton, forall_eq_or_imp,
    forall_eq] at hp
  unfold client_handler
  rw [hs, if_neg (Ne.symm hp.1.2.1), if_neg (Ne.symm hp.2.1.1), if_pos rfl]

theorem client_handler_anonymous (k : Config) (hk : k.client_switch_ok) (c : Client)
    (dg : Datagram) (hs : c.m_state = k.CLIENT_STATE_ANONYMOUS) :
    client_handler k c dg = handle_pre_auth k c dg := by
  obtain ⟨hp, _⟩ := hk
  simp only [List.pairwise_cons, List.mem_cons, List.mem_singleton, forall_eq_or_imp,
    forall_eq] at hp
  unfold client_handler
  rw [hs, if_neg (Ne.symm hp.1.1), if_pos rfl]

theorem client_handler_new (k : Config) (c : Client) (dg : Datagram)
    (hs : c.m_state = k.CLIENT_STATE_NEW) :
    client_handler k c dg = handle_pre_hello k c dg := by
  unfold client_handler
  rw [if_pos hs]

theorem handle_authenticated_object_location (k : Config) (hk : k.client_switch_ok)
    (c : Client) (dg dgi1 : DatagramIterator)
    (hm : read_uint16 dg = some (k.CLIENT_OBJECT_LOCATION, dgi1)) :
    handle_authenticated k c dg = drop_should_die (handle_client_object_location k c dgi1) := by
  obtain ⟨_, hp⟩ := hk
  simp only [List.pairwise_cons, List.mem_cons, List.mem_singleton, forall_eq_or_imp,
    forall_eq] at hp
  unfold handle_authenticated
  simp only [hm, if_neg (Ne.symm hp.1.1), if_true]

/-- C15: for every ESTABLISHED session and every complete
`CLIENT_OBJECT_LOCATION(do_id, parent, zone)`: if `do_id` is not in the projection the
session is ejected with `MISSING_OBJECT` (security); otherwise if `do_id` is not owned it
is ejected with `FORBIDDEN_RELOCATE` (security); otherwise exactly one
`STATESERVER_OBJECT_SET_LOCATION` datagram with recipient `do_id`, sender the identity
channel and payload `(parent, zone)` is sent on the bus and nothing else changes.
Something is sent on the bus only in the last case, and the projection is the same
afterwards in every case. -/
theorem C15_object_location (k : Config) (hk : k.client_switch_ok) (c : Client)
    (dg : Datagram) (do_id parent zone : Nat)
    (hs : c.m_state = k.CLIENT_STATE_ESTABLISHED)
    (hm : read_uint16 dg = some (k.CLIENT_OBJECT_LOCATION,
      add_uint32 do_id ++ add_uint32 parent ++ add_uint32 zone))
    (hd : do_id < 4294967296) (hp : parent < 4294967296) (hz : zone < 4294967296) :
    (do_id ∉ map_keys c.m_dist_objs →
      network_datagram k c dg = send_disconnect k c k.CLIENT_DISCONNECT_MISSING_OBJECT
        (string_bytes "Client tried to manipulate unknown object " ++ dec_text do_id) true) ∧
    (do_id ∈ map_keys c.m_dist_objs → do_id ∉ c.m_owned_objects →
      network_datagram k c dg = send_disconnect k c k.CLIENT_DISCONNECT_FORBIDDEN_RELOCATE
        (string_bytes "Can\x27t relocate an object the client doesn\x27t own") true) ∧
    (do_id ∈ map_keys c.m_dist_objs → do_id ∈ c.m_owned_objects →
      network_datagram k c dg = { c with md_out := c.md_out ++
        [add_uint8 1 ++ add_uint64 do_id ++ add_uint64 c.m_channel ++
          add_uint16 k.STATESERVER_OBJECT_SET_LOCATION ++ add_uint32 parent ++
          add_uint32 zone] }) ∧
    ((network_datagram k c dg).md_out ≠ c.md_out →
      do_id ∈ map_keys c.m_dist_objs ∧ do_id ∈ c.m_owned_objects) ∧
    (network_datagram k c dg).m_dist_objs = c.m_dist_objs := by
  have hh : client_handler k c dg =
      drop_should_die (handle_client_object_location k c
        (add_uint32 do_id ++ add_uint32 parent ++ add_uint32 zone)) := by
    rw [client_handler_established k hk c dg hs, handle_authenticated_object_location k hk c dg _ hm]
  have hfind : map_find c.m_dist_objs do_id = none ↔ do_id ∉ map_keys c.m_dist_objs :=
    map_find_eq_none c.m_dist_objs do_id
  have hmissing : do_id ∉ map_keys c.m_dist_objs →
      network_datagram k c dg = send_disconnect k c k.CLIENT_DISCONNECT_MISSING_OBJECT
        (string_bytes "Client tried to manipulate unknown object " ++ dec_text do_id) true := by
    intro hn
    refine network_datagram_of_eject k c dg _ _ _ (add_uint32 parent ++ add_uint32 zone) ?_
    rw [hh]
    simp [handle_client_object_location, List.append_assoc, read_uint32_add_uint32,
      Nat.mod_eq_of_lt hd, hfind.2 hn, drop_should_die]
  have hforbidden : do_id ∈ map_keys c.m_dist_objs → do_id ∉ c.m_owned_objects →
      network_datagram k c dg = send_disconnect k c k.CLIENT_DISCONNECT_FORBIDDEN_RELOCATE
        (string_bytes "Can\x27t relocate an object the client doesn\x27t own") true := by
    intro hin hno
    refine network_datagram_of_eject k c dg _ _ _ (add_uint32 parent ++ add_uint32 zone) ?_
    rw [hh]
    have hf : ¬ map_find c.m_dist_objs do_id = none := fun h => hfind.1 h hin
    simp [handle_client_object_location, List.append_assoc, read_uint32_add_uint32,
      Nat.mod_eq_of_lt hd, hf, hno, drop_should_die]
  have hsent : do_id ∈ map_keys c.m_dist_objs → do_id ∈ c.m_owned_objects →
      network_datagram k c dg = { c with md_out := c.md_out ++
        [add_uint8 1 ++ add_uint64 do_id ++ add_uint64 c.m_channel ++
          add_uint16 k.STATESERVER_OBJECT_SET_LOCATION ++ add_uint32 parent ++
          add_uint32 zone] } := by
    intro hin hown
    have hf : ¬ map_find c.m_dist_objs do_id = none := fun h => hfind.1 h hin
    rw [network_datagram_eq, hh]
    simp [handle_client_object_location, List.append_assoc, read_uint32_add_uint32,
      read_uint32_add_uint32_nil, Nat.mod_eq_of_lt hd, Nat.mod_eq_of_lt hp, Nat.mod_eq_of_lt hz,
      hf, hown, drop_should_die, send, add_server_header]
  refine ⟨hmissing, hforbidden, hsent, ?_, ?_⟩
  · intro hne
    by_cases hin : do_id ∈ map_keys c.m_dist_objs
    · by_cases hown : do_id ∈ c.m_owned_objects
      · exact ⟨hin, hown⟩
      · rw [hforbidden hin hown, send_disconnect_md_out] at hne
        exact absurd rfl hne
    · rw [hmissing hin, send_disconnect_md_out] at hne
      exact absurd rfl hne
  · by_cases hin : do_id ∈ map_keys c.m_dist_objs
    · by_cases hown : do_id ∈ c.m_owned_objects
      · rw [hsent hin hown]
      · rw [hforbidden hin hown, send_disconnect_m_dist_objs]
    · rw [hmissing hin, send_disconnect_m_dist_objs]
/-- C15 at a concrete input: the session that owns object 5001 sends
`CLIENT_OBJECT_LOCATION(5001, 500, 9001)`; one `STATESERVER_OBJECT_SET_LOCATION` datagram
for recipient 5001 with payload `(500, 9001)` goes to the bus. -/
theorem C15_object_location_witness :
    network_datagram exampleConfig exampleOwned
        (add_uint16 140 ++ add_uint32 5001 ++ add_uint32 500 ++ add_uint32 9001) =
      { exampleOwned with md_out := exampleOwned.md_out ++
        [add_uint8 1 ++ add_uint64 5001 ++ add_uint64 exampleOwned.m_channel ++
          add_uint16 exampleConfig.STATESERVER_OBJECT_SET_LOCATION ++ add_uint32 500 ++
          add_uint32 9001] } :=
  (C15_object_location exampleConfig (by decide) exampleOwned
    (add_uint16 140 ++ add_uint32 5001 ++ add_uint32 500 ++ add_uint32 9001) 5001 500 9001
    (by decide) (by decide) (by decide) (by decide) (by decide)).2.2.1 (by decide) (by decide)

/-- C19: for every session in state ANONYMOUS and every client datagram whose message
type is not `CLIENT_OBJECT_SET_FIELD`, and for every session in state ESTABLISHED and
every client datagram whose message type is none of `CLIENT_OBJECT_SET_FIELD`,
`CLIENT_OBJECT_LOCATION`, `CLIENT_ADD_INTEREST`, `CLIENT_ADD_INTEREST_MULTIPLE`,
`CLIENT_REMOVE_INTEREST`, the session is ejected with `INVALID_MSGTYPE` (security),
whatever follows the message type; nothing is sent on the MD bus, and interests,
projection and subscriptions are unchanged. -/
theorem C19_invalid_msgtype (k : Config) (hk : k.client_switch_ok) (c : Client)
    (dg dgi1 : Datagram) (m : Nat) (hm : read_uint16 dg = some (m, dgi1)) :
    (c.m_state = k.CLIENT_STATE_ANONYMOUS → m ≠ k.CLIENT_OBJECT_SET_FIELD →
      network_datagram k c dg = send_disconnect k c k.CLIENT_DISCONNECT_INVALID_MSGTYPE
        (string_bytes "Message type " ++ dec_text m ++
          string_bytes " not allowed prior to authentication.") true) ∧
    (c.m_state = k.CLIENT_STATE_ESTABLISHED → m ≠ k.CLIENT_OBJECT_SET_FIELD →
      m ≠ k.CLIENT_OBJECT_LOCATION → m ≠ k.CLIENT_ADD_INTEREST →
      m ≠ k.CLIENT_ADD_INTEREST_MULTIPLE → m ≠ k.CLIENT_REMOVE_INTEREST →
      network_datagram k c dg = send_disconnect k c k.CLIENT_DISCONNECT_INVALID_MSGTYPE
        (string_bytes "Message type " ++ dec_text m ++ string_bytes " not valid.") true) ∧
    (∀ text, (send_disconnect k c k.CLIENT_DISCONNECT_INVALID_MSGTYPE text true).md_out =
        c.md_out ∧
      (send_disconnect k c k.CLIENT_DISCONNECT_INVALID_MSGTYPE text true).m_interests =
        c.m_interests ∧
      (send_disconnect k c k.CLIENT_DISCONNECT_INVALID_MSGTYPE text true).m_dist_objs =
        c.m_dist_objs ∧
      (send_disconnect k c k.CLIENT_DISCONNECT_INVALID_MSGTYPE text true).subscriptions =
        c.subscriptions ∧
      (c.connected = true →
        send_disconnect k c k.CLIENT_DISCONNECT_INVALID_MSGTYPE text true =
          { c with
            connected := false,
            net_out := c.net_out ++ [add_uint16 k.CLIENT_EJECT ++
              add_uint16 k.CLIENT_DISCONNECT_INVALID_MSGTYPE ++ add_string text],
            events := c.events ++ [[string_bytes "Client:" ++ dec_text c.m_allocated_channel,
              string_bytes "client-eject-security",
              dec_text (k.CLIENT_DISCONNECT_INVALID_MSGTYPE % 65536), text]] })) := by
  refine ⟨?_, ?_, ?_⟩
  · intro hs hne
    refine network_datagram_of_eject k c dg _ _ _ dgi1 ?_
    rw [client_handler_anonymous k hk c dg hs]
    unfold handle_pre_auth
    simp only [hm]
    rw [if_neg hne]
  · intro hs h1 h2 h3 h4 h5
    refine network_datagram_of_eject k c dg _ _ _ dgi1 ?_
    rw [client_handler_established k hk c dg hs]
    unfold handle_authenticated
    simp only [hm]
    rw [if_neg h1, if_neg h2, if_neg h3, if_neg h4, if_neg h5]
  · intro text
    refine ⟨send_disconnect_md_out _ _ _ _ _, send_disconnect_m_interests _ _ _ _ _,
      send_disconnect_m_dist_objs _ _ _ _ _, send_disconnect_subscriptions _ _ _ _ _, ?_⟩
    intro hc
    simp [send_disconnect, hc, do_disconnect, network_send, send_event]

/-- C19 at a concrete input: an ANONYMOUS session that sends `CLIENT_ADD_INTEREST` is
ejected with `INVALID_MSGTYPE`; its interests stay empty. -/
theorem C19_invalid_msgtype_witness :
    network_datagram exampleConfig (exampleClient 1) exampleAddInterest =
      send_disconnect exampleConfig (exampleClient 1) 108
        (string_bytes "Message type " ++ dec_text 200 ++
          string_bytes " not allowed prior to authentication.") true :=
  (C19_invalid_msgtype exampleConfig (by decide) (exampleClient 1) exampleAddInterest
    (add_uint32 42 ++ add_uint16 1 ++ add_uint32 500 ++ add_uint32 9000) 200
    (by decide)).1 (by decide) (by decide)

/-! ## C17: a truncated client datagram -/

theorem handle_pre_hello_of_eof (k : Config) (c : Client) (dgi : DatagramIterator) :
    (handle_pre_hello k c dgi).2 = none → (handle_pre_hello k c dgi).1 = c := by
  unfold handle_pre_hello
  repeat' split
  all_goals simp

theorem handle_client_object_update_field_of_eof (k : Config) (c : Client)
    (dgi : DatagramIterator) :
    (handle_client_object_update_field k c dgi).2 = none →
      (handle_client_object_update_field k c dgi).1 = c := by
  unfold handle_client_object_update_field
  repeat' split
  all_goals first
    | (simp; done)
    | (simp; split_ifs <;> simp)

theorem handle_client_object_location_of_eof (k : Config) (c : Client)
    (dgi : DatagramIterator) :
    (handle_client_object_location k c dgi).2 = none →
      (handle_client_object_location k c dgi).1 = c := by
  unfold handle_client_object_location
  repeat' split
  all_goals first
    | (simp; done)
    | (simp; split_ifs <;> simp)

theorem handle_client_add_interest_of_eof (k : Config) (c : Client) (dgi : DatagramIterator)
    (multiple : Bool) :
    (handle_client_add_interest k c dgi multiple).2 = none →
      (handle_client_add_interest k c dgi multiple).1 = c := by
  unfold handle_client_add_interest
  repeat' split
  all_goals simp

theorem handle_client_remove_interest_of_eof (k : Config) (c : Client)
    (dgi : DatagramIterator) :
    (handle_client_remove_interest k c dgi).2 = none →
      (handle_client_remove_interest k c dgi).1 = c := by
  unfold handle_client_remove_interest
  repeat' split
  all_goals simp

theorem drop_should_die_of_eof (c : Client) (r : Client × Option (Bool × DatagramIterator))
    (h : r.2 = none → r.1 = c) : (drop_should_die r).2 = none → (drop_should_die r).1 = c := by
  intro hn
  apply h
  simpa [drop_should_die] using hn

theorem handle_pre_auth_of_eof (k : Config) (c : Client) (dgi : DatagramIterator) :
    (handle_pre_auth k c dgi).2 = none → (handle_pre_auth k c dgi).1 = c := by
  unfold handle_pre_auth
  split
  · simp
  · split
    · exact drop_should_die_of_eof c _ (handle_client_object_update_field_of_eof k c _)
    · simp

theorem handle_authenticated_of_eof (k : Config) (c : Client) (dgi : DatagramIterator) :
    (handle_authenticated k c dgi).2 = none → (handle_authenticated k c dgi).1 = c := by
  unfold handle_authenticated
  split
  · simp
  · split
    · exact drop_should_die_of_eof c _ (handle_client_object_update_field_of_eof k c _)
    split
    · exact drop_should_die_of_eof c _ (handle_client_object_location_of_eof k c _)
    split
    · exact drop_should_die_of_eof c _ (handle_client_add_interest_of_eof k c _ _)
    split
    · exact drop_should_die_of_eof c _ (handle_client_add_interest_of_eof k c _ _)
    split
    · exact drop_should_die_of_eof c _ (handle_client_remove_interest_of_eof k c _)
    · simp

/-- Every handler of a client datagram reads all it needs before it changes the
session: when it runs out of bytes the session is as it was. -/
theorem client_handler_of_eof (k : Config) (c : Client) (dg : Datagram) :
    (client_handler k c dg).2 = none → (client_handler k c dg).1 = c := by
  unfold client_handler
  split
  · exact handle_pre_hello_of_eof k c dg
  split
  · exact handle_pre_auth_of_eof k c dg
  split
  · exact handle_authenticated_of_eof k c dg
  · simp

theorem send_disconnect_m_pending_interests (k : Config) (c : Client) (reason : Nat)
    (text : List Nat) (security : Bool) :
    (send_disconnect k c reason text security).m_pending_interests = c.m_pending_interests := by
  unfold send_disconnect
  split <;> rfl

/-- C17: for every session, in particular in state NEW, ANONYMOUS or ESTABLISHED, and
every client datagram whose handler runs out of bytes while reading (`client_handler`
yields no iterator), the session is ejected with `TRUNCATED_DATAGRAM` (not security), and the
handling is atomic: the outcome is the ejection of the session as it was before the
datagram, so nothing is sent on the MD bus, no channel is subscribed or unsubscribed,
and state, owned, seen, projection, interests and pending operations are as before. -/
theorem C17_truncated_datagram (k : Config) (c : Client) (dg : Datagram)
    (hu : (client_handler k c dg).2 = none) :
    network_datagram k c dg = send_disconnect k c k.CLIENT_DISCONNECT_TRUNCATED_DATAGRAM
      (string_bytes "Datagram unexpectedly ended while iterating.") false ∧
    (c.connected = true → network_datagram k c dg =
      { c with
        connected := false,
        net_out := c.net_out ++ [add_uint16 k.CLIENT_EJECT ++
          add_uint16 k.CLIENT_DISCONNECT_TRUNCATED_DATAGRAM ++
          add_string (string_bytes "Datagram unexpectedly ended while iterating.")],
        events := c.events ++ [[string_bytes "Client:" ++ dec_text c.m_allocated_channel,
          string_bytes "client-eject",
          dec_text (k.CLIENT_DISCONNECT_TRUNCATED_DATAGRAM % 65536),
          string_bytes "Datagram unexpectedly ended while iterating."]] }) ∧
    (network_datagram k c dg).md_out = c.md_out ∧
    (network_datagram k c dg).subscriptions = c.subscriptions ∧
    (network_datagram k c dg).m_state = c.m_state ∧
    (network_datagram k c dg).m_owned_objects = c.m_owned_objects ∧
    (network_datagram k c dg).m_seen_objects = c.m_seen_objects ∧
    (network_datagram k c dg).m_dist_objs = c.m_dist_objs ∧
    (network_datagram k c dg).m_interests = c.m_interests ∧
    (network_datagram k c dg).m_pending_interests = c.m_pending_interests := by
  have h : network_datagram k c dg =
      send_disconnect k c k.CLIENT_DISCONNECT_TRUNCATED_DATAGRAM
        (string_bytes "Datagram unexpectedly ended while iterating.") false := by
    rw [network_datagram_eq, hu]
    dsimp only
    rw [client_handler_of_eof k c dg hu]
  rw [h]
  refine ⟨rfl, ?_, send_disconnect_md_out _ _ _ _ _, send_disconnect_subscriptions _ _ _ _ _,
    send_disconnect_m_state _ _ _ _ _, send_disconnect_m_owned_objects _ _ _ _ _,
    send_disconnect_m_seen_objects _ _ _ _ _, send_disconnect_m_dist_objs _ _ _ _ _,
    send_disconnect_m_interests _ _ _ _ _, send_disconnect_m_pending_interests _ _ _ _ _⟩
  intro hc
  simp [send_disconnect, hc, do_disconnect, network_send, send_event]

/-- C17 at a concrete input: `CLIENT_ADD_INTEREST_MULTIPLE(1, 1, 500, count 2, 9000)`
carries one zone where two are announced; the session `exampleEstablished` is ejected
with `TRUNCATED_DATAGRAM` and holds no interest. -/
theorem C17_truncated_datagram_witness :
    network_datagram exampleConfig exampleEstablished
        (add_uint16 201 ++ add_uint32 1 ++ add_uint16 1 ++ add_uint32 500 ++ add_uint16 2 ++
          add_uint32 9000) =
      send_disconnect exampleConfig exampleEstablished 109
        (string_bytes "Datagram unexpectedly ended while iterating.") false :=
  (C17_truncated_datagram exampleConfig exampleEstablished
    (add_uint16 201 ++ add_uint32 1 ++ add_uint16 1 ++ add_uint32 500 ++ add_uint16 2 ++
      add_uint32 9000) (by decide)).1

/-! ## C18: excess data behind a complete message -/

theorem read_uint16_append (d e : DatagramIterator) (v : Nat) (r : DatagramIterator)
    (h : read_uint16 d = some (v, r)) : read_uint16 (d ++ e) = some (v, r ++ e) := by
  match d, h with
  | b0 :: b1 :: r0, h =>
    simp only [read_uint16, Option.some.injEq, Prod.mk.injEq] at h
    simp [read_uint16, h.1, ← h.2]

theorem read_uint32_append (d e : DatagramIterator) (v : Nat) (r : DatagramIterator)
    (h : read_uint32 d = some (v, r)) : read_uint32 (d ++ e) = some (v, r ++ e) := by
  match d, h with
  | b0 :: b1 :: b2 :: b3 :: r0, h =>
    simp only [read_uint32, Option.some.injEq, Prod.mk.injEq] at h
    simp [read_uint32, h.1, ← h.2]

theorem read_string_append (d e : DatagramIterator) (s : List Nat) (r : DatagramIterator)
    (h : read_string d = some (s, r)) : read_string (d ++ e) = some (s, r ++ e) := by
  unfold read_string at h ⊢
  cases h1 : read_uint16 d with
  | none => simp [h1] at h
  | some p =>
    obtain ⟨len, d1⟩ := p
    rw [read_uint16_append d e len d1 h1]
    simp only [h1] at h
    dsimp only at h ⊢
    split at h
    · simp at h
    · rename_i hlen
      simp only [Option.some.injEq, Prod.mk.injEq] at h
      have hle : len ≤ d1.length := by omega
      rw [if_neg (by simp only [List.length_append]; omega)]
      simp only [Option.some.injEq, Prod.mk.injEq]
      refine ⟨?_, ?_⟩
      · rw [List.take_append_of_le_length hle, h.1]
      · rw [List.drop_append_of_le_length hle, h.2]

theorem read_zones_append (count : Nat) (zones : List Nat) (d e : DatagramIterator)
    (zs : List Nat) (r : DatagramIterator) (h : read_zones count zones d = some (zs, r)) :
    read_zones count zones (d ++ e) = some (zs, r ++ e) := by
  induction count generalizing zones d with
  | zero =>
    simp only [read_zones, Option.some.injEq, Prod.mk.injEq] at h ⊢
    exact ⟨h.1, by rw [h.2]⟩
  | succ n ih =>
    unfold read_zones at h ⊢
    cases h1 : read_uint32 d with
    | none => simp [h1] at h
    | some p =>
      obtain ⟨zone, d1⟩ := p
      rw [read_uint32_append d e zone d1 h1]
      simp only [h1] at h
      exact ih _ _ h
theorem handle_pre_hello_append (k : Config) (c c1 : Client) (d e r : DatagramIterator)
    (h : handle_pre_hello k c d = (c1, some r)) :
    handle_pre_hello k c (d ++ e) = (c1, some (r ++ e)) := by
  unfold handle_pre_hello at h ⊢
  cases h1 : read_uint16 d with
  | none => simp [h1] at h
  | some p1 =>
    obtain ⟨m, d1⟩ := p1
    rw [read_uint16_append d e m d1 h1]
    simp only [h1] at h
    dsimp only at h ⊢
    split_ifs at h ⊢ with hm
    · simp only [Prod.mk.injEq, Option.some.injEq] at h ⊢
      exact ⟨h.1, by rw [h.2]⟩
    · cases h2 : read_uint32 d1 with
      | none => simp [h2] at h
      | some p2 =>
        obtain ⟨dc_hash, d2⟩ := p2
        rw [read_uint32_append d1 e dc_hash d2 h2]
        simp only [h2] at h
        dsimp only at h ⊢
        split_ifs at h ⊢ with hh
        · simp only [Prod.mk.injEq, Option.some.injEq] at h ⊢
          exact ⟨h.1, by rw [h.2]⟩
        · cases h3 : read_string d2 with
          | none => simp [h3] at h
          | some p3 =>
            obtain ⟨version, d3⟩ := p3
            rw [read_string_append d2 e version d3 h3]
            simp only [h3] at h
            dsimp only at h ⊢
            split_ifs at h ⊢ with hv
            · simp only [Prod.mk.injEq, Option.some.injEq] at h ⊢
              exact ⟨h.1, by rw [h.2]⟩
            · simp only [Prod.mk.injEq, Option.some.injEq] at h ⊢
              exact ⟨h.1, by rw [h.2]⟩

theorem handle_client_object_update_field_append (k : Config) (hu : k.unpack_field_ok)
    (c c1 : Client) (d e r : DatagramIterator) (b : Bool)
    (h : handle_client_object_update_field k c d = (c1, some (b, r))) :
    handle_client_object_update_field k c (d ++ e) = (c1, some (b, r ++ e)) := by
  unfold handle_client_object_update_field at h ⊢
  cases h1 : read_uint32 d with
  | none => simp [h1] at h
  | some p1 =>
    obtain ⟨do_id, d1⟩ := p1
    rw [read_uint32_append d e do_id d1 h1]
    simp only [h1] at h
    dsimp only at h ⊢
    cases h2 : read_uint16 d1 with
    | none => simp [h2] at h
    | some p2 =>
      obtain ⟨field_id, d2⟩ := p2
      rw [read_uint16_append d1 e field_id d2 h2]
      simp only [h2] at h
      dsimp only at h ⊢
      cases h3 : lookup_object k c do_id with
      | none =>
        simp only [h3, Prod.mk.injEq, Option.some.injEq] at h ⊢
        exact ⟨h.1, h.2.1, by rw [h.2.2]⟩
      | some dcc =>
        simp only [h3] at h ⊢
        split_ifs at h ⊢ with ha
        · simp only [Prod.mk.injEq, Option.some.injEq] at h ⊢
          exact ⟨h.1, h.2.1, by rw [h.2.2]⟩
        · cases h4 : dcc.get_field_by_index field_id with
          | none =>
            simp only [h4, Prod.mk.injEq, Option.some.injEq] at h ⊢
            exact ⟨h.1, h.2.1, by rw [h.2.2]⟩
          | some field =>
            simp only [h4] at h ⊢
            split_ifs at h ⊢ with hf
            · simp only [Prod.mk.injEq, Option.some.injEq] at h ⊢
              exact ⟨h.1, h.2.1, by rw [h.2.2]⟩
            · cases h5 : k.unpack_field field d2 with
              | none => simp [h5] at h
              | some p5 =>
                obtain ⟨data, d3⟩ := p5
                rw [(hu field d2 data d3 h5).2 e]
                simp only [h5] at h
                dsimp only at h ⊢
                split_ifs at h ⊢ with hs
                · simp only [Prod.mk.injEq, Option.some.injEq] at h ⊢
                  exact ⟨h.1, h.2.1, by rw [h.2.2]⟩
                · simp only [Prod.mk.injEq, Option.some.injEq] at h ⊢
                  exact ⟨h.1, h.2.1, by rw [h.2.2]⟩

theorem handle_client_object_location_append (k : Config) (c c1 : Client)
    (d e r : DatagramIterator) (b : Bool)
    (h : handle_client_object_location k c d = (c1, some (b, r))) :
    handle_client_object_location k c (d ++ e) = (c1, some (b, r ++ e)) := by
  unfold handle_client_object_location at h ⊢
  cases h1 : read_uint32 d with
  | none => simp [h1] at h
  | some p1 =>
    obtain ⟨do_id, d1⟩ := p1
    rw [read_uint32_append d e do_id d1 h1]
    simp only [h1] at h
    dsimp only at h ⊢
    split_ifs at h ⊢ with hm ho
    · simp only [Prod.mk.injEq, Option.some.injEq] at h ⊢
      exact ⟨h.1, h.2.1, by rw [h.2.2]⟩
    · simp only [Prod.mk.injEq, Option.some.injEq] at h ⊢
      exact ⟨h.1, h.2.1, by rw [h.2.2]⟩
    · cases h2 : read_uint32 d1 with
      | none => simp [h2] at h
      | some p2 =>
        obtain ⟨parent, d2⟩ := p2
        rw [read_uint32_append d1 e parent d2 h2]
        simp only [h2] at h
        dsimp only at h ⊢
        cases h3 : read_uint32 d2 with
        | none => simp [h3] at h
        | some p3 =>
          obtain ⟨zone, d3⟩ := p3
          rw [read_uint32_append d2 e zone d3 h3]
          simp only [h3, Prod.mk.injEq, Option.some.injEq] at h ⊢
          exact ⟨h.1, h.2.1, by rw [h.2.2]⟩

theorem handle_client_add_interest_append (k : Config) (c c1 : Client)
    (d e r : DatagramIterator) (multiple b : Bool)
    (h : handle_client_add_interest k c d multiple = (c1, some (b, r))) :
    handle_client_add_interest k c (d ++ e) multiple = (c1, some (b, r ++ e)) := by
  unfold handle_client_add_interest at h ⊢
  cases h1 : read_uint32 d with
  | none => simp [h1] at h
  | some p1 =>
    obtain ⟨context, d1⟩ := p1
    rw [read_uint32_append d e context d1 h1]
    simp only [h1] at h
    dsimp only at h ⊢
    cases h2 : read_uint16 d1 with
    | none => simp [h2] at h
    | some p2 =>
      obtain ⟨interest_id, d2⟩ := p2
      rw [read_uint16_append d1 e interest_id d2 h2]
      simp only [h2] at h
      dsimp only at h ⊢
      cases h3 : read_uint32 d2 with
      | none => simp [h3] at h
      | some p3 =>
        obtain ⟨parent, d3⟩ := p3
        rw [read_uint32_append d2 e parent d3 h3]
        simp only [h3] at h
        dsimp only at h ⊢
        cases h4 : (if multiple then read_uint16 d3 else some (1, d3)) with
        | none => simp [h4] at h
        | some p4 =>
          obtain ⟨count, d4⟩ := p4
          have h4e : (if multiple then read_uint16 (d3 ++ e) else some (1, d3 ++ e)) =
              some (count, d4 ++ e) := by
            cases multiple
            · simp only [Bool.false_eq_true, if_false, Option.some.injEq, Prod.mk.injEq] at h4 ⊢
              exact ⟨h4.1, by rw [h4.2]⟩
            · simp only [if_true] at h4 ⊢
              exact read_uint16_append d3 e count d4 h4
          rw [h4e]
          simp only [h4] at h
          dsimp only at h ⊢
          cases h5 : read_zones count [] d4 with
          | none => simp [h5] at h
          | some p5 =>
            obtain ⟨zones, d5⟩ := p5
            rw [read_zones_append count [] d4 e zones d5 h5]
            simp only [h5, Prod.mk.injEq, Option.some.injEq] at h ⊢
            exact ⟨h.1, h.2.1, by rw [h.2.2]⟩

theorem handle_client_remove_interest_append (k : Config) (c c1 : Client)
    (d e r : DatagramIterator) (b : Bool)
    (h : handle_client_remove_interest k c d = (c1, some (b, r))) :
    handle_client_remove_interest k c (d ++ e) = (c1, some (b, r ++ e)) := by
  unfold handle_client_remove_interest at h ⊢
  cases h1 : read_uint32 d with
  | none => simp [h1] at h
  | some p1 =>
    obtain ⟨context, d1⟩ := p1
    rw [read_uint32_append d e context d1 h1]
    simp only [h1] at h
    dsimp only at h ⊢
    cases h2 : read_uint16 d1 with
    | none => simp [h2] at h
    | some p2 =>
      obtain ⟨id, d2⟩ := p2
      rw [read_uint16_append d1 e id d2 h2]
      simp only [h2] at h
      dsimp only at h ⊢
      cases h3 : map_find c.m_interests id with
      | none =>
        simp only [h3, Prod.mk.injEq, Option.some.injEq] at h ⊢
        exact ⟨h.1, h.2.1, by rw [h.2.2]⟩
      | some i =>
        simp only [h3, Prod.mk.injEq, Option.some.injEq] at h ⊢
        exact ⟨h.1, h.2.1, by rw [h.2.2]⟩
theorem drop_should_die_append (r1 r2 : Client × Option (Bool × DatagramIterator))
    (c1 : Client) (r e : DatagramIterator)
    (happ : ∀ b, r1 = (c1, some (b, r)) → r2 = (c1, some (b, r ++ e)))
    (h : drop_should_die r1 = (c1, some r)) : drop_should_die r2 = (c1, some (r ++ e)) := by
  obtain ⟨a, o⟩ := r1
  cases o with
  | none => simp [drop_should_die] at h
  | some p =>
    obtain ⟨b, r0⟩ := p
    simp only [drop_should_die, Option.map_some', Prod.mk.injEq, Option.some.injEq] at h
    rw [happ b (by rw [h.1, h.2])]
    simp [drop_should_die]

theorem handle_pre_auth_append (k : Config) (hu : k.unpack_field_ok) (c c1 : Client)
    (d e r : DatagramIterator) (h : handle_pre_auth k c d = (c1, some r)) :
    handle_pre_auth k c (d ++ e) = (c1, some (r ++ e)) := by
  unfold handle_pre_auth at h ⊢
  cases h1 : read_uint16 d with
  | none => simp [h1] at h
  | some p1 =>
    obtain ⟨m, d1⟩ := p1
    rw [read_uint16_append d e m d1 h1]
    simp only [h1] at h
    dsimp only at h ⊢
    split_ifs at h ⊢ with hm
    · exact drop_should_die_append _ _ c1 r e
        (fun b => handle_client_object_update_field_append k hu c c1 d1 e r b) h
    · simp only [Prod.mk.injEq, Option.some.injEq] at h ⊢
      exact ⟨h.1, by rw [h.2]⟩

theorem handle_authenticated_append (k : Config) (hu : k.unpack_field_ok) (c c1 : Client)
    (d e r : DatagramIterator) (h : handle_authenticated k c d = (c1, some r)) :
    handle_authenticated k c (d ++ e) = (c1, some (r ++ e)) := by
  unfold handle_authenticated at h ⊢
  cases h1 : read_uint16 d with
  | none => simp [h1] at h
  | some p1 =>
    obtain ⟨m, d1⟩ := p1
    rw [read_uint16_append d e m d1 h1]
    simp only [h1] at h
    dsimp only at h ⊢
    split_ifs at h ⊢
    · exact drop_should_die_append _ _ c1 r e
        (fun b => handle_client_object_update_field_append k hu c c1 d1 e r b) h
    · exact drop_should_die_append _ _ c1 r e
        (fun b => handle_client_object_location_append k c c1 d1 e r b) h
    · exact drop_should_die_append _ _ c1 r e
        (fun b => handle_client_add_interest_append k c c1 d1 e r false b) h
    · exact drop_should_die_append _ _ c1 r e
        (fun b => handle_client_add_interest_append k c c1 d1 e r true b) h
    · exact drop_should_die_append _ _ c1 r e
        (fun b => handle_client_remove_interest_append k c c1 d1 e r b) h
    · simp only [Prod.mk.injEq, Option.some.injEq] at h ⊢
      exact ⟨h.1, by rw [h.2]⟩

/-- A handler of a client datagram that has read a message does the same, and leaves the
added bytes unread, when bytes are added behind the datagram. -/
theorem client_handler_append (k : Config) (hu : k.unpack_field_ok) (c c1 : Client)
    (d e r : DatagramIterator) (h : client_handler k c d = (c1, some r)) :
    client_handler k c (d ++ e) = (c1, some (r ++ e)) := by
  unfold client_handler at h ⊢
  split_ifs at h ⊢
  · exact handle_pre_hello_append k c c1 d e r h
  · exact handle_pre_auth_append k hu c c1 d e r h
  · exact handle_authenticated_append k hu c c1 d e r h
  · simp only [Prod.mk.injEq, Option.some.injEq] at h ⊢
    exact ⟨h.1, by rw [h.2]⟩

theorem exampleConfig_unpack_field_ok : exampleConfig.unpack_field_ok := by
  intro field dgi d rest h
  match dgi, h with
  | b0 :: b1 :: r0, h =>
    simp only [exampleConfig, Option.some.injEq, Prod.mk.injEq] at h
    obtain ⟨rfl, rfl⟩ := h
    exact ⟨rfl, fun extra => rfl⟩

/-- C18: for every session, in particular in state NEW, ANONYMOUS or ESTABLISHED, and
every client datagram `dg ++ extra` that consists of a complete message `dg` accepted in
that state (its handler reads all of `dg` and leaves the session `c1` connected, so `dg`
alone causes no eject) followed by at least one extra byte, `network_datagram` applies
the message and then ejects the session with `OVERSIZED_DATAGRAM` (security). -/
theorem C18_excess_data (k : Config) (hu : k.unpack_field_ok) (c c1 : Client)
    (dg extra : Datagram) (hacc : client_handler k c dg = (c1, some []))
    (hconn : c1.connected = true) (hextra : extra ≠ []) :
    network_datagram k c dg = c1 ∧
    network_datagram k c (dg ++ extra) =
      send_disconnect k c1 k.CLIENT_DISCONNECT_OVERSIZED_DATAGRAM
        (string_bytes "Datagram contains excess data.") true ∧
    network_datagram k c (dg ++ extra) =
      { c1 with
        connected := false,
        net_out := c1.net_out ++ [add_uint16 k.CLIENT_EJECT ++
          add_uint16 k.CLIENT_DISCONNECT_OVERSIZED_DATAGRAM ++
          add_string (string_bytes "Datagram contains excess data.")],
        events := c1.events ++ [[string_bytes "Client:" ++ dec_text c1.m_allocated_channel,
          string_bytes "client-eject-security",
          dec_text (k.CLIENT_DISCONNECT_OVERSIZED_DATAGRAM % 65536),
          string_bytes "Datagram contains excess data."]] } := by
  have h1 : network_datagram k c dg = c1 := by
    rw [network_datagram_eq, hacc]
    simp
  have h2 : network_datagram k c (dg ++ extra) =
      send_disconnect k c1 k.CLIENT_DISCONNECT_OVERSIZED_DATAGRAM
        (string_bytes "Datagram contains excess data.") true := by
    rw [network_datagram_eq, client_handler_append k hu c c1 dg extra [] hacc]
    have hlen : ([] ++ extra : List Nat).length ≠ 0 := by
      simpa using hextra
    dsimp only
    rw [if_pos hlen]
  refine ⟨h1, h2, ?_⟩
  rw [h2]
  simp [send_disconnect, hconn, do_disconnect, network_send, send_event]

/-- C18 at the input of the spec: `CLIENT_ADD_INTEREST(42, 1, 500, 9000)` followed by one
byte; the interest is opened and the session `exampleEstablished` is ejected with
`OVERSIZED_DATAGRAM`. -/
theorem C18_excess_data_witness :
    network_datagram exampleConfig exampleEstablished (exampleAddInterest ++ [0]) =
      send_disconnect exampleConfig exampleInterest 106
        (string_bytes "Datagram contains excess data.") true :=
  (C18_excess_data exampleConfig exampleConfig_unpack_field_ok exampleEstablished
    exampleInterest exampleAddInterest [0] (by decide) (by decide) (by decide)).2.1

/-! ## C12: `ENTER_LOCATION` for a known object -/

theorem handle_datagram_of_enter_location (k : Config) (hk : k.md_switch_ok) (c : Client)
    (dg : Datagram) (sender msgtype : Nat) (dgi0 dgi : DatagramIterator)
    (h1 : read_uint64 dg = some (sender, dgi0)) (h2 : read_uint16 dgi0 = some (msgtype, dgi))
    (hm : msgtype = k.STATESERVER_OBJECT_ENTER_LOCATION_WITH_REQUIRED ∨
      msgtype = k.STATESERVER_OBJECT_ENTER_LOCATION_WITH_REQUIRED_OTHER) :
    handle_datagram k c dg = handle_STATESERVER_OBJECT_ENTER_LOCATION k c msgtype dgi := by
  obtain ⟨hp, _, _⟩ := hk
  simp only [List.pairwise_cons, List.mem_cons, List.mem_singleton, forall_eq_or_imp,
    forall_eq] at hp
  unfold handle_datagram
  simp only [h1, h2]
  rcases hm with hm | hm
  · rw [hm]
    simp only [if_neg (Ne.symm hp.1.2.2.2.2.2.2.2.2.2.2.2.1),
      if_neg (Ne.symm hp.2.1.2.2.2.2.2.2.2.2.2.2.1),
      if_neg (Ne.symm hp.2.2.1.2.2.2.2.2.2.2.2.2.1),
      if_neg (Ne.symm hp.2.2.2.1.2.2.2.2.2.2.2.2.1),
      if_neg (Ne.symm hp.2.2.2.2.1.2.2.2.2.2.2.2.1),
      if_neg (Ne.symm hp.2.2.2.2.2.1.2.2.2.2.2.2.1),
      if_neg (Ne.symm hp.2.2.2.2.2.2.1.2.2.2.2.2.1),
      if_neg (Ne.symm hp.2.2.2.2.2.2.2.1.2.2.2.2.1),
      if_neg (Ne.symm hp.2.2.2.2.2.2.2.2.1.2.2.2.1),
      if_neg (Ne.symm hp.2.2.2.2.2.2.2.2.2.1.2.2.1),
      if_neg (Ne.symm hp.2.2.2.2.2.2.2.2.2.2.1.2.1),
      if_neg (Ne.symm hp.2.2.2.2.2.2.2.2.2.2.2.1.1),
      true_or, if_true]
  · rw [hm]
    simp only [if_neg (Ne.symm hp.1.2.2.2.2.2.2.2.2.2.2.2.2.1),
      if_neg (Ne.symm hp.2.1.2.2.2.2.2.2.2.2.2.2.2.1),
      if_neg (Ne.symm hp.2.2.1.2.2.2.2.2.2.2.2.2.2.1),
      if_neg (Ne.symm hp.2.2.2.1.2.2.2.2.2.2.2.2.2.1),
      if_neg (Ne.symm hp.2.2.2.2.1.2.2.2.2.2.2.2.2.1),
      if_neg (Ne.symm hp.2.2.2.2.2.1.2.2.2.2.2.2.2.1),
      if_neg (Ne.symm hp.2.2.2.2.2.2.1.2.2.2.2.2.2.1),
      if_neg (Ne.symm hp.2.2.2.2.2.2.2.1.2.2.2.2.2.1),
      if_neg (Ne.symm hp.2.2.2.2.2.2.2.2.1.2.2.2.2.1),
      if_neg (Ne.symm hp.2.2.2.2.2.2.2.2.2.1.2.2.2.1),
      if_neg (Ne.symm hp.2.2.2.2.2.2.2.2.2.2.1.2.2.1),
      if_neg (Ne.symm hp.2.2.2.2.2.2.2.2.2.2.2.1.2.1),
      or_true, if_true]

/-- The early return of the `ENTER_LOCATION` case: a known object changes nothing. -/
theorem enter_location_of_known (k : Config) (c : Client) (msgtype : Nat)
    (dgi dgi1 : DatagramIterator) (do_id : Nat) (h1 : read_uint32 dgi = some (do_id, dgi1))
    (hknown : do_id ∈ c.m_owned_objects ∨ do_id ∈ c.m_seen_objects) :
    (handle_STATESERVER_OBJECT_ENTER_LOCATION k c msgtype dgi).1 = c := by
  unfold handle_STATESERVER_OBJECT_ENTER_LOCATION
  simp only [h1]
  cases h2 : read_uint32 dgi1 with
  | none => rfl
  | some p2 =>
    obtain ⟨parent, dgi2⟩ := p2
    dsimp only
    cases h3 : read_uint32 dgi2 with
    | none => rfl
    | some p3 =>
      obtain ⟨zone, dgi3⟩ := p3
      dsimp only
      cases h4 : read_uint16 dgi3 with
      | none => rfl
      | some p4 =>
        obtain ⟨dc_id, dgi4⟩ := p4
        dsimp only
        rw [if_pos hknown]

theorem enter_location_seen_after (k : Config) (c : Client) (msgtype : Nat)
    (dgi : DatagramIterator) :
    (handle_STATESERVER_OBJECT_ENTER_LOCATION k c msgtype dgi).1 = c ∨
    ∃ do_id dgi1, read_uint32 dgi = some (do_id, dgi1) ∧
      do_id ∈ (handle_STATESERVER_OBJECT_ENTER_LOCATION k c msgtype dgi).1.m_seen_objects := by
  unfold handle_STATESERVER_OBJECT_ENTER_LOCATION
  cases h1 : read_uint32 dgi with
  | none => exact Or.inl rfl
  | some p1 =>
    obtain ⟨do_id, dgi1⟩ := p1
    dsimp only
    cases h2 : read_uint32 dgi1 with
    | none => exact Or.inl rfl
    | some p2 =>
      obtain ⟨parent, dgi2⟩ := p2
      dsimp only
      cases h3 : read_uint32 dgi2 with
      | none => exact Or.inl rfl
      | some p3 =>
        obtain ⟨zone, dgi3⟩ := p3
        dsimp only
        cases h4 : read_uint16 dgi3 with
        | none => exact Or.inl rfl
        | some p4 =>
          obtain ⟨dc_id, dgi4⟩ := p4
          simp only []
          split
          · exact Or.inl rfl
          · refine Or.inr ⟨do_id, dgi1, rfl, ?_⟩
            have := @foldl_network_send_bookkeeping (Nat × InterestOperation)
            simp only [bookkeeping, Prod.mk.injEq] at this
            dsimp only
            rw [(this _ _ _).2.2.2.2]
            simp only [network_send]
            exact (mem_set_insert _ _ _).2 (Or.inr rfl)

/-- C12: for every session and every `STATESERVER_OBJECT_ENTER_LOCATION_WITH_REQUIRED` or
`..._WITH_REQUIRED_OTHER` message: if its `do_id` is already owned or seen, handling it
leaves the whole session as it was (projection, owned, seen, interests, pending
operations, subscriptions, and what was sent to the client and to the bus);
consequently handling the same message twice leaves the session that handling it once
leaves. -/
theorem C12_enter_location_known (k : Config) (hk : k.md_switch_ok) (c : Client)
    (dg : Datagram) (sender msgtype : Nat) (dgi0 dgi : DatagramIterator)
    (h1 : read_uint64 dg = some (sender, dgi0)) (h2 : read_uint16 dgi0 = some (msgtype, dgi))
    (hm : msgtype = k.STATESERVER_OBJECT_ENTER_LOCATION_WITH_REQUIRED ∨
      msgtype = k.STATESERVER_OBJECT_ENTER_LOCATION_WITH_REQUIRED_OTHER) :
    (∀ do_id dgi1, read_uint32 dgi = some (do_id, dgi1) →
      do_id ∈ c.m_owned_objects ∨ do_id ∈ c.m_seen_objects →
      (handle_datagram k c dg).1 = c) ∧
    (handle_datagram k (handle_datagram k c dg).1 dg).1 = (handle_datagram k c dg).1 := by
  have hd : ∀ c0 : Client, handle_datagram k c0 dg =
      handle_STATESERVER_OBJECT_ENTER_LOCATION k c0 msgtype dgi :=
    fun c0 => handle_datagram_of_enter_location k hk c0 dg sender msgtype dgi0 dgi h1 h2 hm
  refine ⟨?_, ?_⟩
  · intro do_id dgi1 hr hknown
    rw [hd]
    exact enter_location_of_known k c msgtype dgi dgi1 do_id hr hknown
  · rw [hd, hd]
    rcases enter_location_seen_after k c msgtype dgi with h | ⟨do_id, dgi1, hr, hseen⟩
    · rw [h, h]
    · exact enter_location_of_known k _ msgtype dgi dgi1 do_id hr (Or.inr hseen)

/-- C12 at a concrete input: the session `exampleSeen` has seen object 77; the message
`STATESERVER_OBJECT_ENTER_LOCATION_WITH_REQUIRED(77, 500, 9001, dc 3)`, which names
another zone, leaves it as it is. -/
theorem C12_enter_location_known_witness :
    (handle_datagram exampleConfig exampleSeen
      (enter_location_datagram exampleConfig 500 9001 exampleEnterC)).1 = exampleSeen :=
  (C12_enter_location_known exampleConfig (by decide) exampleSeen
    (enter_location_datagram exampleConfig 500 9001 exampleEnterC) 500 2042
    (add_uint16 2042 ++ add_uint32 77 ++ add_uint32 500 ++ add_uint32 9001 ++ add_uint16 3)
    (add_uint32 77 ++ add_uint32 500 ++ add_uint32 9001 ++ add_uint16 3)
    (by decide) (by decide) (Or.inl (by decide))).1 77
    (add_uint32 500 ++ add_uint32 9001 ++ add_uint16 3) (by decide) (Or.inr (by decide))

/-! ## C11: `STATESERVER_OBJECT_CHANGING_LOCATION` -/

theorem handle_datagram_changing_location (k : Config) (hk : k.md_switch_ok)
    (hlt : k.STATESERVER_OBJECT_CHANGING_LOCATION < 65536) (c : Client)
    (sender do_id n_parent n_zone o_parent o_zone : Nat) :
    handle_datagram k c
        (changing_location_datagram k sender do_id n_parent n_zone o_parent o_zone) =
      handle_STATESERVER_OBJECT_CHANGING_LOCATION k c
        (add_uint32 do_id ++ add_uint32 n_parent ++ add_uint32 n_zone ++ add_uint32 o_parent ++
          add_uint32 o_zone) := by
  obtain ⟨hp, _, _⟩ := hk
  simp only [List.pairwise_cons, List.mem_cons, List.mem_singleton, forall_eq_or_imp,
    forall_eq] at hp
  simp only [handle_datagram, changing_location_datagram, md_datagram, List.append_assoc,
    read_uint64_add_uint64, read_uint16_add_uint16, Nat.mod_eq_of_lt hlt]
  simp only [if_neg (Ne.symm hp.1.2.2.2.2.2.2.2.2.2.2.2.2.2.2.1),
      if_neg (Ne.symm hp.2.1.2.2.2.2.2.2.2.2.2.2.2.2.2.1),
      if_neg (Ne.symm hp.2.2.1.2.2.2.2.2.2.2.2.2.2.2.2.1),
      if_neg (Ne.symm hp.2.2.2.1.2.2.2.2.2.2.2.2.2.2.2.1),
      if_neg (Ne.symm hp.2.2.2.2.1.2.2.2.2.2.2.2.2.2.2.1),
      if_neg (Ne.symm hp.2.2.2.2.2.1.2.2.2.2.2.2.2.2.2.1),
      if_neg (Ne.symm hp.2.2.2.2.2.2.1.2.2.2.2.2.2.2.2.1),
      if_neg (Ne.symm hp.2.2.2.2.2.2.2.1.2.2.2.2.2.2.2.1),
      if_neg (Ne.symm hp.2.2.2.2.2.2.2.2.1.2.2.2.2.2.2.1),
      if_neg (Ne.symm hp.2.2.2.2.2.2.2.2.2.1.2.2.2.2.2.1),
      if_neg (Ne.symm hp.2.2.2.2.2.2.2.2.2.2.1.2.2.2.2.1),
      if_neg (Ne.symm hp.2.2.2.2.2.2.2.2.2.2.2.1.2.2.2.1),
      not_or.2 ⟨Ne.symm hp.2.2.2.2.2.2.2.2.2.2.2.2.1.2.2.1, Ne.symm hp.2.2.2.2.2.2.2.2.2.2.2.2.2.1.2.1⟩,
      if_neg (Ne.symm hp.2.2.2.2.2.2.2.2.2.2.2.2.2.2.1.1), if_false, if_true]

theorem map_erase_map_assign {β : Type} (m : List (Nat × β)) (key : Nat) (v : β) :
    map_erase (map_assign m key v) key = map_erase m key := by
  unfold map_assign
  split
  · unfold map_erase
    rw [List.filter_map]
    rw [List.map_congr_left (g := id)]
    · simp only [List.map_id]
      apply List.filter_congr
      intro e _
      simp only [Function.comp]
      split <;> simp_all
    · intro e he
      simp only [List.mem_filter, Function.comp] at he
      have h2 := he.2
      split at h2
      · simp at h2
      · rename_i hne
        simp [hne]
  · simp [map_erase, List.filter_append]

/-- The `STATESERVER_OBJECT_CHANGING_LOCATION` case for a complete message, in closed
form. -/
theorem changing_location_eq (k : Config) (c : Client)
    (do_id n_parent n_zone o_parent o_zone : Nat)
    (hd : do_id < 4294967296) (hp : n_parent < 4294967296) (hz : n_zone < 4294967296) :
    (handle_STATESERVER_OBJECT_CHANGING_LOCATION k c
        (add_uint32 do_id ++ add_uint32 n_parent ++ add_uint32 n_zone ++ add_uint32 o_parent ++
          add_uint32 o_zone)).1 =
      if (∀ e ∈ c.m_interests, n_zone ∉ e.2.zones) ∧ do_id ∉ c.m_owned_objects then
        { c with
          net_out := c.net_out ++ [add_uint16 k.CLIENT_OBJECT_LEAVING ++ add_uint32 do_id],
          m_seen_objects := set_erase c.m_seen_objects do_id,
          m_dist_objs := map_erase c.m_dist_objs do_id }
      else
        { c with
          net_out := c.net_out ++ [add_uint16 k.CLIENT_OBJECT_LOCATION ++ add_uint32 do_id ++
            add_uint32 n_parent ++ add_uint32 n_zone],
          m_dist_objs :=
            match map_find c.m_dist_objs do_id with
            | some obj => map_assign c.m_dist_objs do_id ⟨obj.id, n_parent, n_zone, obj.dcc⟩
            | none => c.m_dist_objs } := by
  have hall : (c.m_interests.all (fun e => decide (n_zone ∉ e.2.zones)) = true) ↔
      ∀ e ∈ c.m_interests, n_zone ∉ e.2.zones := by
    simp [List.all_eq_true]
  simp only [handle_STATESERVER_OBJECT_CHANGING_LOCATION, List.append_assoc,
    read_uint32_add_uint32, read_uint32_add_uint32_nil, Nat.mod_eq_of_lt hd,
    Nat.mod_eq_of_lt hp, Nat.mod_eq_of_lt hz]
  cases hf : map_find c.m_dist_objs do_id with
  | none =>
    dsimp only
    by_cases hl : (∀ e ∈ c.m_interests, n_zone ∉ e.2.zones) ∧ do_id ∉ c.m_owned_objects
    · rw [if_pos hl, if_pos ⟨hall.2 hl.1, hl.2⟩]
      simp [network_send]
    · rw [if_neg hl, if_neg (fun h => hl ⟨hall.1 h.1, h.2⟩)]
      simp [network_send]
  | some obj =>
    dsimp only
    by_cases hl : (∀ e ∈ c.m_interests, n_zone ∉ e.2.zones) ∧ do_id ∉ c.m_owned_objects
    · rw [if_pos hl, if_pos ⟨hall.2 hl.1, hl.2⟩]
      simp [network_send, map_erase_map_assign]
    · rw [if_neg hl, if_neg (fun h => hl ⟨hall.1 h.1, h.2⟩)]
      simp [network_send]
/-- C11: for every session and every complete `STATESERVER_OBJECT_CHANGING_LOCATION(do_id,
new_parent, new_zone, old_parent, old_zone)`: if no stored interest (of any parent) has
`new_zone` in its zones and `do_id` is not owned, the session sends
`CLIENT_OBJECT_LEAVING(do_id)` and erases `do_id` from seen and from the projection, and
nothing else changes; otherwise it sends `CLIENT_OBJECT_LOCATION(do_id, new_parent,
new_zone)`, owned and seen are unchanged, the keys of the projection are unchanged and,
if `do_id` is projected, its entry has the new parent and zone (id and class kept). The
leaving frame is what was sent if and only if the first condition holds. -/
theorem C11_changing_location (k : Config) (hk : k.md_switch_ok)
    (hlt : k.STATESERVER_OBJECT_CHANGING_LOCATION < 65536) (c r : Client)
    (sender do_id n_parent n_zone o_parent o_zone : Nat)
    (hd : do_id < 4294967296) (hp : n_parent < 4294967296) (hz : n_zone < 4294967296)
    (hr : (handle_datagram k c
      (changing_location_datagram k sender do_id n_parent n_zone o_parent o_zone)).1 = r) :
    ((∀ e ∈ c.m_interests, n_zone ∉ e.2.zones) ∧ do_id ∉ c.m_owned_objects →
      r = { c with
        net_out := c.net_out ++ [add_uint16 k.CLIENT_OBJECT_LEAVING ++ add_uint32 do_id],
        m_seen_objects := set_erase c.m_seen_objects do_id,
        m_dist_objs := map_erase c.m_dist_objs do_id } ∧
      do_id ∉ r.m_seen_objects ∧ do_id ∉ map_keys r.m_dist_objs) ∧
    (¬ ((∀ e ∈ c.m_interests, n_zone ∉ e.2.zones) ∧ do_id ∉ c.m_owned_objects) →
      r = { c with
        net_out := c.net_out ++ [add_uint16 k.CLIENT_OBJECT_LOCATION ++ add_uint32 do_id ++
          add_uint32 n_parent ++ add_uint32 n_zone],
        m_dist_objs := r.m_dist_objs } ∧
      r.m_owned_objects = c.m_owned_objects ∧ r.m_seen_objects = c.m_seen_objects ∧
      map_keys r.m_dist_objs = map_keys c.m_dist_objs ∧
      (∀ obj, map_find c.m_dist_objs do_id = some obj →
        map_find r.m_dist_objs do_id = some ⟨obj.id, n_parent, n_zone, obj.dcc⟩) ∧
      (do_id ∉ map_keys c.m_dist_objs → r.m_dist_objs = c.m_dist_objs)) ∧
    (r.net_out = c.net_out ++ [add_uint16 k.CLIENT_OBJECT_LEAVING ++ add_uint32 do_id] ↔
      (∀ e ∈ c.m_interests, n_zone ∉ e.2.zones) ∧ do_id ∉ c.m_owned_objects) := by
  rw [handle_datagram_changing_location k hk hlt, changing_location_eq k c do_id n_parent
    n_zone o_parent o_zone hd hp hz] at hr
  have hleave : (∀ e ∈ c.m_interests, n_zone ∉ e.2.zones) ∧ do_id ∉ c.m_owned_objects →
      r = { c with
        net_out := c.net_out ++ [add_uint16 k.CLIENT_OBJECT_LEAVING ++ add_uint32 do_id],
        m_seen_objects := set_erase c.m_seen_objects do_id,
        m_dist_objs := map_erase c.m_dist_objs do_id } := by
    intro hl
    rw [if_pos hl] at hr
    exact hr.symm
  have hstay : ¬ ((∀ e ∈ c.m_interests, n_zone ∉ e.2.zones) ∧ do_id ∉ c.m_owned_objects) →
      r = { c with
        net_out := c.net_out ++ [add_uint16 k.CLIENT_OBJECT_LOCATION ++ add_uint32 do_id ++
          add_uint32 n_parent ++ add_uint32 n_zone],
        m_dist_objs :=
          match map_find c.m_dist_objs do_id with
          | some obj => map_assign c.m_dist_objs do_id ⟨obj.id, n_parent, n_zone, obj.dcc⟩
          | none => c.m_dist_objs } := by
    intro hl
    rw [if_neg hl] at hr
    exact hr.symm
  refine ⟨?_, ?_, ?_⟩
  · intro hl
    refine ⟨hleave hl, ?_, ?_⟩
    · rw [hleave hl]
      simp [mem_set_erase]
    · rw [hleave hl]
      simp [mem_map_keys_map_erase]
  · intro hl
    have h := hstay hl
    refine ⟨?_, ?_, ?_, ?_, ?_, ?_⟩
    · rw [h]
    · rw [h]
    · rw [h]
    · rw [h]
      dsimp only
      cases hf : map_find c.m_dist_objs do_id with
      | none => rfl
      | some obj =>
        dsimp only
        refine map_keys_map_assign_of_mem _ _ _ ?_
        by_contra hn
        rw [(map_find_eq_none _ _).2 hn] at hf
        exact Option.noConfusion hf
    · intro obj hf
      rw [h]
      simp only [hf]
      exact map_find_map_assign_self _ _ _
    · intro hn
      rw [h]
      simp only [(map_find_eq_none _ _).2 hn]
  · constructor
    · intro hout
      by_contra hl
      rw [hstay hl] at hout
      have := congrArg (fun l => l.map List.length) (List.append_cancel_left hout)
      simp [add_uint16, add_uint32] at this
    · intro hl
      rw [hleave hl]

/-- C11 at the inputs of the spec: with the interest `(500, {9000})` and the object 5001
seen at `(500, 9000)`, `CHANGING_LOCATION(5001, 500, 9001, 500, 9000)` sends
`CLIENT_OBJECT_LEAVING(5001)` and forgets the object; when 5001 is owned instead, it sends
`CLIENT_OBJECT_LOCATION(5001, 500, 9001)` and the projection entry is at `(500, 9001)`. -/
theorem C11_changing_location_witness :
    ((handle_datagram exampleConfig exampleViewed
        (changing_location_datagram exampleConfig 500 5001 500 9001 500 9000)).1 =
      { exampleViewed with
        net_out := exampleViewed.net_out ++ [add_uint16 132 ++ add_uint32 5001],
        m_seen_objects := set_erase exampleViewed.m_seen_objects 5001,
        m_dist_objs := map_erase exampleViewed.m_dist_objs 5001 }) ∧
    map_find (handle_datagram exampleConfig exampleViewedOwned
        (changing_location_datagram exampleConfig 500 5001 500 9001 500 9000)).1.m_dist_objs
        5001 = some ⟨5001, 500, 9001, some exampleClass⟩ :=
  ⟨((C11_changing_location exampleConfig (by decide) (by decide) exampleViewed _ 500 5001 500
      9001 500 9000 (by decide) (by decide) (by decide) rfl).1 (by decide)).1,
    ((C11_changing_location exampleConfig (by decide) (by decide) exampleViewedOwned _ 500 5001
      500 9001 500 9000 (by decide) (by decide) (by decide) rfl).2.1 (by decide)).2.2.2.2.1
      ⟨5001, 500, 9000, some exampleClass⟩ (by decide)⟩

/-! ## C13: an owned object is not evicted -/

theorem owned_projected_of_bookkeeping (c r : Client) (do_id : Nat)
    (h : bookkeeping r = bookkeeping c) (ho : owned_projected c do_id) :
    owned_projected r do_id := by
  simp only [bookkeeping, Prod.mk.injEq] at h
  unfold owned_projected
  rw [h.2.2.2.1, h.2.2.1]
  exact ho

theorem owned_projected_of_subscriptions (c r : Client) (subs : List Nat) (do_id : Nat)
    (h : bookkeeping r = bookkeeping { c with subscriptions := subs })
    (ho : owned_projected c do_id) : owned_projected r do_id := by
  simp only [bookkeeping, Prod.mk.injEq] at h
  unfold owned_projected
  rw [h.2.2.2.1, h.2.2.1]
  exact ho

theorem no_leaving_sent_refl (k : Config) (do_id : Nat) (c r : Client)
    (h : r.net_out = c.net_out) : no_leaving_sent k do_id c r :=
  ⟨[], by simp [h], by simp⟩

theorem no_leaving_sent_trans (k : Config) (do_id : Nat) (a b c : Client)
    (h1 : no_leaving_sent k do_id a b) (h2 : no_leaving_sent k do_id b c) :
    no_leaving_sent k do_id a c := by
  obtain ⟨s1, e1, q1⟩ := h1
  obtain ⟨s2, e2, q2⟩ := h2
  refine ⟨s1 ++ s2, by rw [e2, e1, List.append_assoc], ?_⟩
  intro f hf
  rcases List.mem_append.1 hf with hf | hf
  · exact q1 f hf
  · exact q2 f hf

/-- A frame whose length is not 6 is no leaving frame. -/
theorem no_leaving_sent_of_length (k : Config) (do_id : Nat) (c r : Client) (f : Datagram)
    (h : r.net_out = c.net_out ++ [f]) (hlen : f.length ≠ 6) : no_leaving_sent k do_id c r := by
  refine ⟨[f], h, ?_⟩
  intro g hg
  rw [List.mem_singleton] at hg
  subst hg
  constructor <;>
  · intro he
    rw [he] at hlen
    simp [add_uint16, add_uint32] at hlen

/-- An ejection with a non-empty text sends no leaving frame. -/
theorem send_disconnect_no_leaving_sent (k : Config) (do_id : Nat) (c : Client) (reason : Nat)
    (text : List Nat) (security : Bool) (ht : text ≠ []) :
    no_leaving_sent k do_id c (send_disconnect k c reason text security) := by
  unfold send_disconnect
  split
  · refine no_leaving_sent_of_length k do_id c _
      (add_uint16 k.CLIENT_EJECT ++ add_uint16 reason ++ add_string text) rfl ?_
    have : 0 < text.length := List.length_pos.2 ht
    simp only [add_uint16, add_string, List.length_append, List.length_cons, List.length_nil]
    omega
  · exact no_leaving_sent_refl k do_id c c rfl

theorem add_uint32_inj (a b : Nat) (ha : a < 4294967296) (hb : b < 4294967296)
    (h : add_uint32 a = add_uint32 b) : a = b := by
  have h1 := read_uint32_add_uint32_nil a
  rw [h, read_uint32_add_uint32_nil] at h1
  simp only [Option.some.injEq, Prod.mk.injEq, and_true] at h1
  rw [Nat.mod_eq_of_lt ha, Nat.mod_eq_of_lt hb] at h1
  exact h1.symm

/-- A leaving frame for another object is not a leaving frame for `do_id`. -/
theorem leaving_frame_ne (m1 m2 id do_id : Nat) (hi : id < 4294967296)
    (hd : do_id < 4294967296) (hne : id ≠ do_id) :
    add_uint16 m1 ++ add_uint32 id ≠ add_uint16 m2 ++ add_uint32 do_id := by
  intro h
  apply hne
  apply add_uint32_inj id do_id hi hd
  have := congrArg (List.drop 2) h
  simpa [add_uint16] using this
theorem close_zones_keeps (k : Config) (c : Client) (parent : Nat) (killed : List Nat)
    (do_id : Nat) (hd : do_id < 4294967296)
    (hids : ∀ e ∈ c.m_dist_objs, e.2.id < 4294967296) (ho : owned_projected c do_id) :
    owned_projected (close_zones k c parent killed) do_id ∧
      no_leaving_sent k do_id c (close_zones k c parent killed) := by
  have hnot : do_id ∉ close_zones_to_remove c parent killed := by
    rw [mem_close_zones_to_remove]
    rintro ⟨e, _, hid, _, _, hno⟩
    exact hno (hid ▸ ho.1)
  rw [close_zones_eq]
  refine ⟨⟨ho.1, ?_⟩, ?_⟩
  · exact (mem_map_keys_filter _ _ _).2 ⟨ho.2, hnot⟩
  · refine ⟨_, rfl, ?_⟩
    intro f hf
    obtain ⟨id, hid, rfl⟩ := List.mem_map.1 hf
    have hne : id ≠ do_id := fun h => hnot (h ▸ hid)
    obtain ⟨e, he, hide, _⟩ := (mem_close_zones_to_remove _ _ _ _).1 hid
    have hlt : id < 4294967296 := hide ▸ hids e he
    exact ⟨leaving_frame_ne _ _ id do_id hlt hd hne, leaving_frame_ne _ _ id do_id hlt hd hne⟩

theorem add_interest_keeps (k : Config) (c : Client) (i : Interest) (context do_id : Nat)
    (hd : do_id < 4294967296) (hids : ∀ e ∈ c.m_dist_objs, e.2.id < 4294967296)
    (ho : owned_projected c do_id) :
    owned_projected (add_interest k c i context) do_id ∧
      no_leaving_sent k do_id c (add_interest k c i context) := by
  have hc : owned_projected (add_interest_closed k c i) do_id ∧
      no_leaving_sent k do_id c (add_interest_closed k c i) := by
    unfold add_interest_closed
    split
    · exact ⟨ho, no_leaving_sent_refl k do_id c c rfl⟩
    · exact close_zones_keeps k c _ _ do_id hd hids ho
  rw [add_interest_closed_eq]
  split
  · refine ⟨hc.1, no_leaving_sent_trans k do_id c _ _ hc.2 ?_⟩
    exact no_leaving_sent_of_length k do_id _ _ (done_interest_resp k context i.id) rfl
      (by simp [done_interest_resp, add_uint16, add_uint32])
  · exact ⟨hc.1, no_leaving_sent_trans k do_id c _ _ hc.2
      (no_leaving_sent_refl k do_id _ _ rfl)⟩

theorem remove_interest_keeps (k : Config) (c : Client) (i : Interest) (context do_id : Nat)
    (hd : do_id < 4294967296) (hids : ∀ e ∈ c.m_dist_objs, e.2.id < 4294967296)
    (ho : owned_projected c do_id) :
    owned_projected (remove_interest k c i context) do_id ∧
      no_leaving_sent k do_id c (remove_interest k c i context) := by
  have hc := close_zones_keeps k c i.parent (remove_interest_killed_zones c i) do_id hd hids ho
  unfold remove_interest
  refine ⟨hc.1, no_leaving_sent_trans k do_id c _ _ hc.2 ?_⟩
  exact no_leaving_sent_of_length k do_id _ _
    (add_uint16 k.CLIENT_DONE_INTEREST_RESP ++ add_uint32 context ++ add_uint16 i.id) rfl
    (by simp [add_uint16, add_uint32])

theorem string_bytes_append_ne_nil (s : String) (l : List Nat) (h : s.toList ≠ []) :
    string_bytes s ++ l ≠ [] := by
  intro he
  have := (List.append_eq_nil.1 he).1
  simp only [string_bytes, List.map_eq_nil_iff] at this
  exact h this

theorem string_bytes_ne_nil (s : String) (h : s.toList ≠ []) : string_bytes s ≠ [] := by
  simpa using string_bytes_append_ne_nil s [] h

theorem handle_pre_hello_no_leaving_sent (k : Config) (c : Client) (dgi : DatagramIterator)
    (do_id : Nat) : no_leaving_sent k do_id c (handle_pre_hello k c dgi).1 := by
  unfold handle_pre_hello
  repeat' split
  all_goals (try simp only [List.append_assoc])
  all_goals first
    | exact no_leaving_sent_refl k do_id c c rfl
    | exact send_disconnect_no_leaving_sent k do_id c _ _ _ (string_bytes_ne_nil _ (by decide))
    | exact send_disconnect_no_leaving_sent k do_id c _ _ _
        (string_bytes_append_ne_nil _ _ (by decide))
    | exact no_leaving_sent_of_length k do_id c _ (add_uint16 k.CLIENT_HELLO_RESP) rfl
        (by simp [add_uint16])

theorem handle_client_object_update_field_no_leaving_sent (k : Config) (c : Client)
    (dgi : DatagramIterator) (do_id : Nat) :
    no_leaving_sent k do_id c (handle_client_object_update_field k c dgi).1 := by
  unfold handle_client_object_update_field
  repeat' split
  all_goals (try dsimp only)
  all_goals (try split_ifs)
  all_goals (try simp only [List.append_assoc])
  all_goals first
    | exact no_leaving_sent_refl k do_id c _ rfl
    | exact send_disconnect_no_leaving_sent k do_id c _ _ _ (string_bytes_ne_nil _ (by decide))
    | exact send_disconnect_no_leaving_sent k do_id c _ _ _
        (string_bytes_append_ne_nil _ _ (by decide))

theorem handle_client_object_location_no_leaving_sent (k : Config) (c : Client)
    (dgi : DatagramIterator) (do_id : Nat) :
    no_leaving_sent k do_id c (handle_client_object_location k c dgi).1 := by
  unfold handle_client_object_location
  repeat' split
  all_goals (try dsimp only)
  all_goals (try split_ifs)
  all_goals (try simp only [List.append_assoc])
  all_goals first
    | exact no_leaving_sent_refl k do_id c _ rfl
    | exact send_disconnect_no_leaving_sent k do_id c _ _ _ (string_bytes_ne_nil _ (by decide))
    | exact send_disconnect_no_leaving_sent k do_id c _ _ _
        (string_bytes_append_ne_nil _ _ (by decide))
theorem handle_client_add_interest_keeps (k : Config) (c : Client) (dgi : DatagramIterator)
    (multiple : Bool) (do_id : Nat) (hd : do_id < 4294967296)
    (hids : ∀ e ∈ c.m_dist_objs, e.2.id < 4294967296) (ho : owned_projected c do_id) :
    owned_projected (handle_client_add_interest k c dgi multiple).1 do_id ∧
      no_leaving_sent k do_id c (handle_client_add_interest k c dgi multiple).1 := by
  unfold handle_client_add_interest
  repeat' split
  all_goals first
    | exact ⟨ho, no_leaving_sent_refl k do_id c c rfl⟩
    | exact add_interest_keeps k c _ _ do_id hd hids ho

theorem handle_client_remove_interest_keeps (k : Config) (c : Client) (dgi : DatagramIterator)
    (do_id : Nat) (hd : do_id < 4294967296)
    (hids : ∀ e ∈ c.m_dist_objs, e.2.id < 4294967296) (ho : owned_projected c do_id) :
    owned_projected (handle_client_remove_interest k c dgi).1 do_id ∧
      no_leaving_sent k do_id c (handle_client_remove_interest k c dgi).1 := by
  unfold handle_client_remove_interest
  repeat' split
  all_goals first
    | exact ⟨ho, no_leaving_sent_refl k do_id c c rfl⟩
    | exact remove_interest_keeps k c _ _ do_id hd hids ho
    | exact ⟨owned_projected_of_bookkeeping c _ do_id (by simp [bookkeeping]) ho,
        send_disconnect_no_leaving_sent k do_id c _ _ _ (string_bytes_ne_nil _ (by decide))⟩

theorem send_disconnect_keeps (k : Config) (c : Client) (reason : Nat) (text : List Nat)
    (security : Bool) (do_id : Nat) (ht : text ≠ []) (ho : owned_projected c do_id) :
    owned_projected (send_disconnect k c reason text security) do_id ∧
      no_leaving_sent k do_id c (send_disconnect k c reason text security) :=
  ⟨owned_projected_of_bookkeeping c _ do_id (by simp [bookkeeping]) ho,
    send_disconnect_no_leaving_sent k do_id c _ _ _ ht⟩

theorem client_handler_keeps (k : Config) (c : Client) (dg : Datagram) (do_id : Nat)
    (hd : do_id < 4294967296) (hids : ∀ e ∈ c.m_dist_objs, e.2.id < 4294967296)
    (ho : owned_projected c do_id) :
    owned_projected (client_handler k c dg).1 do_id ∧
      no_leaving_sent k do_id c (client_handler k c dg).1 := by
  have hfield : ∀ dgi, owned_projected (handle_client_object_update_field k c dgi).1 do_id ∧
      no_leaving_sent k do_id c (handle_client_object_update_field k c dgi).1 := fun dgi =>
    ⟨owned_projected_of_bookkeeping c _ do_id
      (handle_client_object_update_field_bookkeeping k c dgi) ho,
      handle_client_object_update_field_no_leaving_sent k c dgi do_id⟩
  unfold client_handler
  split
  · exact ⟨owned_projected_of_bookkeeping c _ do_id (handle_pre_hello_bookkeeping k c dg) ho,
      handle_pre_hello_no_leaving_sent k c dg do_id⟩
  split
  · unfold handle_pre_auth
    repeat' split
    · exact ⟨ho, no_leaving_sent_refl k do_id c c rfl⟩
    · exact hfield _
    · simp only [List.append_assoc]
      exact send_disconnect_keeps k c _ _ _ do_id (string_bytes_append_ne_nil _ _ (by decide)) ho
  split
  · unfold handle_authenticated
    repeat' split
    · exact ⟨ho, no_leaving_sent_refl k do_id c c rfl⟩
    · exact hfield _
    · exact ⟨owned_projected_of_bookkeeping c _ do_id
        (handle_client_object_location_bookkeeping k c _) ho,
        handle_client_object_location_no_leaving_sent k c _ do_id⟩
    · exact handle_client_add_interest_keeps k c _ _ do_id hd hids ho
    · exact handle_client_add_interest_keeps k c _ _ do_id hd hids ho
    · exact handle_client_remove_interest_keeps k c _ do_id hd hids ho
    · simp only [List.append_assoc]
      exact send_disconnect_keeps k c _ _ _ do_id (string_bytes_append_ne_nil _ _ (by decide)) ho
  · exact ⟨ho, no_leaving_sent_refl k do_id c c rfl⟩

theorem network_datagram_keeps (k : Config) (c : Client) (dg : Datagram) (do_id : Nat)
    (hd : do_id < 4294967296) (hids : ∀ e ∈ c.m_dist_objs, e.2.id < 4294967296)
    (ho : owned_projected c do_id) :
    owned_projected (network_datagram k c dg) do_id ∧
      no_leaving_sent k do_id c (network_datagram k c dg) := by
  have hh := client_handler_keeps k c dg do_id hd hids ho
  rw [network_datagram_eq]
  split
  · have := send_disconnect_keeps k (client_handler k c dg).1
      k.CLIENT_DISCONNECT_TRUNCATED_DATAGRAM
      (string_bytes "Datagram unexpectedly ended while iterating.") false do_id
      (string_bytes_ne_nil _ (by decide)) hh.1
    exact ⟨this.1, no_leaving_sent_trans k do_id c _ _ hh.2 this.2⟩
  · split
    · have := send_disconnect_keeps k (client_handler k c dg).1
        k.CLIENT_DISCONNECT_OVERSIZED_DATAGRAM
        (string_bytes "Datagram contains excess data.") true do_id
        (string_bytes_ne_nil _ (by decide)) hh.1
      exact ⟨this.1, no_leaving_sent_trans k do_id c _ _ hh.2 this.2⟩
    · exact hh
/-- Case analysis on the switch of `handle_datagram` as `handle_datagram_cases`, the
message read being known in the case `STATESERVER_OBJECT_DELETE_RAM`. -/
theorem handle_datagram_cases_delete (k : Config) (c : Client) (dg : Datagram)
    (P : Client → Prop) (h0 : P c)
    (h_eject : ∀ dgi, P (handle_CLIENTAGENT_EJECT k c dgi).1)
    (h_drop : P (do_disconnect c))
    (h_state : ∀ dgi, P (handle_CLIENTAGENT_SET_STATE c dgi).1)
    (h_field : ∀ sender dgi, P (handle_STATESERVER_OBJECT_SET_FIELD k c sender dgi).1)
    (h_delete : ∀ sender dgi0 dgi, read_uint64 dg = some (sender, dgi0) →
      read_uint16 dgi0 = some (k.STATESERVER_OBJECT_DELETE_RAM, dgi) →
      P (handle_STATESERVER_OBJECT_DELETE_RAM k c dgi).1)
    (h_owner : ∀ dgi, P (handle_STATESERVER_OBJECT_ENTER_OWNER k c dgi).1)
    (h_id : ∀ dgi, P (handle_CLIENTAGENT_SET_CLIENT_ID c dgi).1)
    (h_send : ∀ dgi, P (handle_CLIENTAGENT_SEND_DATAGRAM c dgi).1)
    (h_open : ∀ dgi, P (handle_CLIENTAGENT_OPEN_CHANNEL c dgi).1)
    (h_close : ∀ dgi, P (handle_CLIENTAGENT_CLOSE_CHANNEL c dgi).1)
    (h_post : ∀ dgi, P (handle_CLIENTAGENT_ADD_POST_REMOVE c dgi).1)
    (h_clear : P { c with post_removes := [] })
    (h_enter : ∀ msgtype dgi, P (handle_STATESERVER_OBJECT_ENTER_LOCATION k c msgtype dgi).1)
    (h_count : ∀ dgi, P (handle_STATESERVER_OBJECT_GET_ZONES_COUNT_RESP k c dgi).1)
    (h_moved : ∀ dgi, P (handle_STATESERVER_OBJECT_CHANGING_LOCATION k c dgi).1) :
    P (handle_datagram k c dg).1 := by
  unfold handle_datagram
  cases h1 : read_uint64 dg with
  | none => exact h0
  | some p1 =>
    obtain ⟨sender, dgi0⟩ := p1
    dsimp only
    cases h2 : read_uint16 dgi0 with
    | none => exact h0
    | some p2 =>
      obtain ⟨msgtype, dgi⟩ := p2
      dsimp only
      refine ite_fst_cases P _ _ _ (fun heq => ?_) (fun _ => ?_)
      · exact h_eject _
      refine ite_fst_cases P _ _ _ (fun heq => ?_) (fun _ => ?_)
      · exact h_drop
      refine ite_fst_cases P _ _ _ (fun heq => ?_) (fun _ => ?_)
      · exact h_state _
      refine ite_fst_cases P _ _ _ (fun heq => ?_) (fun _ => ?_)
      · exact h_field _ _
      refine ite_fst_cases P _ _ _ (fun heq => ?_) (fun _ => ?_)
      · exact h_delete _ _ _ h1 (heq ▸ h2)
      refine ite_fst_cases P _ _ _ (fun heq => ?_) (fun _ => ?_)
      · exact h_owner _
      refine ite_fst_cases P _ _ _ (fun heq => ?_) (fun _ => ?_)
      · exact h_id _
      refine ite_fst_cases P _ _ _ (fun heq => ?_) (fun _ => ?_)
      · exact h_send _
      refine ite_fst_cases P _ _ _ (fun heq => ?_) (fun _ => ?_)
      · exact h_open _
      refine ite_fst_cases P _ _ _ (fun heq => ?_) (fun _ => ?_)
      · exact h_close _
      refine ite_fst_cases P _ _ _ (fun heq => ?_) (fun _ => ?_)
      · exact h_post _
      refine ite_fst_cases P _ _ _ (fun heq => ?_) (fun _ => ?_)
      · exact h_clear
      refine ite_fst_cases P _ _ _ (fun heq => ?_) (fun _ => ?_)
      · exact h_enter _ _
      refine ite_fst_cases P _ _ _ (fun heq => ?_) (fun _ => ?_)
      · exact h_count _
      refine ite_fst_cases P _ _ _ (fun heq => ?_) (fun _ => ?_)
      · exact h_moved _
      exact h0

theorem delete_ram_owned_projected (k : Config) (c : Client) (dgi : DatagramIterator)
    (do_id : Nat) (hother : ∀ id rest, read_uint32 dgi = some (id, rest) → id ≠ do_id)
    (ho : owned_projected c do_id) :
    owned_projected (handle_STATESERVER_OBJECT_DELETE_RAM k c dgi).1 do_id := by
  unfold handle_STATESERVER_OBJECT_DELETE_RAM
  cases h1 : read_uint32 dgi with
  | none => exact ho
  | some p1 =>
    obtain ⟨id, dgi1⟩ := p1
    have hne : do_id ≠ id := fun h => hother id dgi1 h1 h.symm
    dsimp only
    split
    · exact ho
    · unfold owned_projected
      by_cases hs : id ∈ c.m_seen_objects <;> by_cases hw : id ∈ c.m_owned_objects <;>
        simp [hs, hw, network_send, mem_set_erase, mem_map_keys_map_erase, ho.1, ho.2, hne]

theorem enter_owner_owned_projected (k : Config) (c : Client) (dgi : DatagramIterator)
    (do_id : Nat) (ho : owned_projected c do_id) :
    owned_projected (handle_STATESERVER_OBJECT_ENTER_OWNER k c dgi).1 do_id := by
  rcases handle_STATESERVER_OBJECT_ENTER_OWNER_bookkeeping k c dgi with h | ⟨id, obj, _, h⟩
  · exact owned_projected_of_bookkeeping c _ do_id h ho
  · simp only [bookkeeping, Prod.mk.injEq] at h
    unfold owned_projected
    rw [h.2.2.2.1, h.2.2.1]
    refine ⟨(mem_set_insert _ _ _).2 (Or.inl ho.1), ?_⟩
    split
    · exact (mem_map_keys_map_assign _ _ _ _).2 (Or.inl ho.2)
    · exact ho.2

theorem enter_location_owned_projected (k : Config) (c : Client) (msgtype : Nat)
    (dgi : DatagramIterator) (do_id : Nat) (ho : owned_projected c do_id) :
    owned_projected (handle_STATESERVER_OBJECT_ENTER_LOCATION k c msgtype dgi).1 do_id := by
  rcases handle_STATESERVER_OBJECT_ENTER_LOCATION_bookkeeping k c msgtype dgi with
    h | ⟨id, obj, _, h⟩
  · exact owned_projected_of_bookkeeping c _ do_id h ho
  · simp only [bookkeeping, Prod.mk.injEq] at h
    unfold owned_projected
    rw [h.2.2.2.1, h.2.2.1]
    refine ⟨ho.1, ?_⟩
    split
    · exact (mem_map_keys_map_assign _ _ _ _).2 (Or.inl ho.2)
    · exact ho.2

theorem changing_location_owned_projected (k : Config) (c : Client) (dgi : DatagramIterator)
    (do_id : Nat) (ho : owned_projected c do_id) :
    owned_projected (handle_STATESERVER_OBJECT_CHANGING_LOCATION k c dgi).1 do_id := by
  obtain ⟨objs, hkeys, _, h | ⟨id, hid, h⟩⟩ :=
    handle_STATESERVER_OBJECT_CHANGING_LOCATION_bookkeeping k c dgi
  · simp only [bookkeeping, Prod.mk.injEq] at h
    unfold owned_projected
    rw [h.2.2.2.1, h.2.2.1, hkeys]
    exact ho
  · simp only [bookkeeping, Prod.mk.injEq] at h
    unfold owned_projected
    rw [h.2.2.2.1, h.2.2.1]
    refine ⟨ho.1, (mem_map_keys_map_erase _ _ _).2 ⟨hkeys ▸ ho.2, ?_⟩⟩
    rintro rfl
    exact hid ho.1

theorem changing_location_no_leaving_sent (k : Config) (c : Client) (dgi : DatagramIterator)
    (do_id : Nat) (hd : do_id < 4294967296) (ho : do_id ∈ c.m_owned_objects) :
    no_leaving_sent k do_id c (handle_STATESERVER_OBJECT_CHANGING_LOCATION k c dgi).1 := by
  unfold handle_STATESERVER_OBJECT_CHANGING_LOCATION
  cases h1 : read_uint32 dgi with
  | none => exact no_leaving_sent_refl k do_id c c rfl
  | some p1 =>
    obtain ⟨id, dgi1⟩ := p1
    dsimp only
    cases h2 : read_uint32 dgi1 with
    | none => exact no_leaving_sent_refl k do_id c c rfl
    | some p2 =>
      obtain ⟨n_parent, dgi2⟩ := p2
      dsimp only
      cases h3 : read_uint32 dgi2 with
      | none => exact no_leaving_sent_refl k do_id c c rfl
      | some p3 =>
        obtain ⟨n_zone, dgi3⟩ := p3
        dsimp only
        cases h4 : read_uint32 dgi3 with
        | none => exact no_leaving_sent_refl k do_id c c rfl
        | some p4 =>
          obtain ⟨o_parent, dgi4⟩ := p4
          dsimp only
          cases h5 : read_uint32 dgi4 with
          | none => exact no_leaving_sent_refl k do_id c c rfl
          | some p5 =>
            obtain ⟨o_zone, dgi5⟩ := p5
            dsimp only
            have hlt : id < 4294967296 := read_uint32_lt dgi dgi1 id h1
            cases hf : map_find c.m_dist_objs id with
            | none =>
              dsimp only
              split
              · rename_i hl
                have hne : id ≠ do_id := fun h => hl.2 (h ▸ ho)
                refine ⟨[_], rfl, ?_⟩
                intro f hf2
                rw [List.mem_singleton] at hf2
                subst hf2
                exact ⟨leaving_frame_ne _ _ id do_id hlt hd hne,
                  leaving_frame_ne _ _ id do_id hlt hd hne⟩
              · exact no_leaving_sent_of_length k do_id c _ _ rfl
                  (by simp [add_uint16, add_uint32])
            | some obj =>
              dsimp only
              split
              · rename_i hl
                have hne : id ≠ do_id := fun h => hl.2 (h ▸ ho)
                refine ⟨[_], rfl, ?_⟩
                intro f hf2
                rw [List.mem_singleton] at hf2
                subst hf2
                exact ⟨leaving_frame_ne _ _ id do_id hlt hd hne,
                  leaving_frame_ne _ _ id do_id hlt hd hne⟩
              · exact no_leaving_sent_of_length k do_id c _ _ rfl
                  (by simp [add_uint16, add_uint32])
theorem handle_datagram_owned_projected (k : Config) (c : Client) (dg : Datagram)
    (do_id : Nat) (hnd : is_delete_ram k dg do_id = false) (ho : owned_projected c do_id) :
    owned_projected (handle_datagram k c dg).1 do_id := by
  apply handle_datagram_cases_delete k c dg (fun r => owned_projected r do_id) ho
  · exact fun dgi =>
      owned_projected_of_bookkeeping c _ do_id (handle_CLIENTAGENT_EJECT_bookkeeping k c dgi) ho
  · exact ho
  · exact fun dgi =>
      owned_projected_of_bookkeeping c _ do_id (handle_CLIENTAGENT_SET_STATE_bookkeeping c dgi) ho
  · exact fun sender dgi => owned_projected_of_bookkeeping c _ do_id
      (handle_STATESERVER_OBJECT_SET_FIELD_bookkeeping k c sender dgi) ho
  · intro sender dgi0 dgi h1 h2
    refine delete_ram_owned_projected k c dgi do_id ?_ ho
    intro id rest h3 heq
    unfold is_delete_ram at hnd
    simp [h1, h2, h3, heq] at hnd
  · exact fun dgi => enter_owner_owned_projected k c dgi do_id ho
  · intro dgi
    obtain ⟨subs, hb, _⟩ := handle_CLIENTAGENT_SET_CLIENT_ID_bookkeeping c dgi
    exact owned_projected_of_subscriptions c _ subs do_id hb ho
  · exact fun dgi => owned_projected_of_bookkeeping c _ do_id
      (handle_CLIENTAGENT_SEND_DATAGRAM_bookkeeping c dgi) ho
  · intro dgi
    obtain ⟨subs, hb, _⟩ := handle_CLIENTAGENT_OPEN_CHANNEL_bookkeeping c dgi
    exact owned_projected_of_subscriptions c _ subs do_id hb ho
  · intro dgi
    obtain ⟨subs, hb, _⟩ := handle_CLIENTAGENT_CLOSE_CHANNEL_bookkeeping c dgi
    exact owned_projected_of_subscriptions c _ subs do_id hb ho
  · exact fun dgi => owned_projected_of_bookkeeping c _ do_id
      (handle_CLIENTAGENT_ADD_POST_REMOVE_bookkeeping c dgi) ho
  · exact ho
  · exact fun msgtype dgi => enter_location_owned_projected k c msgtype dgi do_id ho
  · exact fun dgi => owned_projected_of_bookkeeping c _ do_id
      (handle_STATESERVER_OBJECT_GET_ZONES_COUNT_RESP_bookkeeping k c dgi) ho
  · exact fun dgi => changing_location_owned_projected k c dgi do_id ho

/-- C13: an owned object is not evicted by zone changes. For every session (object ids
being 32-bit values) and every object `do_id` that is owned and projected before:
after every client datagram it is still owned and projected, and no
`CLIENT_OBJECT_LEAVING(do_id)` or `CLIENT_OBJECT_LEAVING_OWNER(do_id)` frame was sent;
after every MD message other than a `STATESERVER_OBJECT_DELETE_RAM` for `do_id` it is
still owned and projected; the `STATESERVER_OBJECT_CHANGING_LOCATION` case sends no such
frame, whatever the message; and `close_zones`, whatever the parent and the killed
zones, keeps it owned and projected and sends no such frame. -/
theorem C13_owned_not_evicted (k : Config) (c : Client) (do_id : Nat)
    (hd : do_id < 4294967296) (hids : ∀ e ∈ c.m_dist_objs, e.2.id < 4294967296)
    (ho : owned_projected c do_id) :
    (∀ dg, owned_projected (network_datagram k c dg) do_id ∧
      no_leaving_sent k do_id c (network_datagram k c dg)) ∧
    (∀ dg, is_delete_ram k dg do_id = false →
      owned_projected (handle_datagram k c dg).1 do_id) ∧
    (∀ dgi, no_leaving_sent k do_id c
      (handle_STATESERVER_OBJECT_CHANGING_LOCATION k c dgi).1) ∧
    (∀ parent killed_zones, owned_projected (close_zones k c parent killed_zones) do_id ∧
      no_leaving_sent k do_id c (close_zones k c parent killed_zones)) :=
  ⟨fun dg => network_datagram_keeps k c dg do_id hd hids ho,
    fun dg hnd => handle_datagram_owned_projected k c dg do_id hnd ho,
    fun dgi => changing_location_no_leaving_sent k c dgi do_id hd ho.1,
    fun parent killed_zones => close_zones_keeps k c parent killed_zones do_id hd hids ho⟩

/-- C13 at the inputs of the spec: the session `exampleViewedOwned` owns object 5001 at
`(500, 9000)` under the interest `(500, {9000})`; after `CLIENT_REMOVE_INTEREST(5, 1)`,
which closes zone 9000, and after `CHANGING_LOCATION(5001, 500, 9001, 500, 9000)`, the
object is still owned and projected. -/
theorem C13_owned_not_evicted_witness :
    owned_projected (network_datagram exampleConfig exampleViewedOwned exampleRemoveInterest)
      5001 ∧
    owned_projected (handle_datagram exampleConfig exampleViewedOwned
      (changing_location_datagram exampleConfig 500 5001 500 9001 500 9000)).1 5001 :=
  ⟨((C13_owned_not_evicted exampleConfig exampleViewedOwned 5001 (by decide) (by decide)
      ⟨by decide, by decide⟩).1 exampleRemoveInterest).1,
    (C13_owned_not_evicted exampleConfig exampleViewedOwned 5001 (by decide) (by decide)
      ⟨by decide, by decide⟩).2.1
      (changing_location_datagram exampleConfig 500 5001 500 9001 500 9000) (by decide)⟩

/-! ## C20: the channel tracker -/

/-- While the range is not used up, `alloc_channel` returns the counter and does not
look at the free list. -/
theorem alloc_channel_of_le (ct : ChannelTracker) (h : ct.m_next ≤ ct.m_max) :
    ct.alloc_channel =
      (ct.m_next, { ct with m_next := (ct.m_next + 1) % 18446744073709551616 }) := by
  unfold ChannelTracker.alloc_channel
  rw [if_pos h]

/-- Once the counter is above the maximum, `alloc_channel` takes the oldest entry of the
free list, or returns 0 and changes nothing when the list is empty. -/
theorem alloc_channel_of_gt (ct : ChannelTracker) (h : ct.m_max < ct.m_next) :
    (∀ ch rest, ct.m_unused_channels = ch :: rest →
      ct.alloc_channel = (ch, { ct with m_unused_channels := rest })) ∧
    (ct.m_unused_channels = [] → ct.alloc_channel = (0, ct)) := by
  unfold ChannelTracker.alloc_channel
  rw [if_neg (by omega)]
  constructor
  · intro ch rest he
    rw [he]
  · intro he
    rw [he]

/-- Once the counter is above the maximum it stays there, whatever is called: the range
is not handed out a second time. -/
theorem run_of_gt (calls : List TrackerCall) (ct : ChannelTracker) (h : ct.m_max < ct.m_next) :
    (ct.run calls).1.m_max < (ct.run calls).1.m_next := by
  induction calls generalizing ct with
  | nil => exact h
  | cons call rest ih =>
    cases call with
    | alloc =>
      simp only [ChannelTracker.run]
      apply ih
      unfold ChannelTracker.alloc_channel
      rw [if_neg (by omega)]
      split <;> exact h
    | free ch =>
      simp only [ChannelTracker.run]
      exact ih _ h

/-- The first `m_max - m_next + 1` calls of `alloc_channel` return the counter values
`m_next, m_next + 1, ..., m_max` in that order, whatever is freed in between. -/
theorem run_range (calls : List TrackerCall) (ct : ChannelTracker)
    (hmax : ct.m_max < 18446744073709551616) :
    (ct.run calls).2.take (ct.m_max + 1 - ct.m_next) =
      (List.range' ct.m_next (ct.m_max + 1 - ct.m_next)).take (alloc_count calls) := by
  induction calls generalizing ct with
  | nil => simp [ChannelTracker.run, alloc_count]
  | cons call rest ih =>
    cases call with
    | free ch =>
      have := ih (ct.free_channel ch) hmax
      simpa [ChannelTracker.run, alloc_count, ChannelTracker.free_channel] using this
    | alloc =>
      by_cases hle : ct.m_next ≤ ct.m_max
      · have hj : ct.m_max + 1 - ct.m_next = (ct.m_max - ct.m_next) + 1 := by omega
        have hc : alloc_count (TrackerCall.alloc :: rest) = alloc_count rest + 1 := by
          simp [alloc_count]
        rw [hj, hc]
        simp only [ChannelTracker.run, alloc_channel_of_le ct hle, List.take_succ_cons,
          List.range'_succ]
        congr 1
        by_cases hw : ct.m_next + 1 < 18446744073709551616
        · have := ih { ct with m_next := (ct.m_next + 1) % 18446744073709551616 } hmax
          simp only [Nat.mod_eq_of_lt hw] at this ⊢
          have hj2 : ct.m_max + 1 - (ct.m_next + 1) = ct.m_max - ct.m_next := by omega
          rw [hj2] at this
          exact this
        · have hz : ct.m_max - ct.m_next = 0 := by omega
          rw [hz]
          simp
      · have hj : ct.m_max + 1 - ct.m_next = 0 := by omega
        rw [hj]
        simp

theorem run_m_max (calls : List TrackerCall) (ct : ChannelTracker) :
    (ct.run calls).1.m_max = ct.m_max := by
  induction calls generalizing ct with
  | nil => rfl
  | cons call rest ih =>
    cases call with
    | alloc =>
      simp only [ChannelTracker.run]
      rw [ih]
      unfold ChannelTracker.alloc_channel
      split
      · rfl
      · split <;> rfl
    | free ch =>
      simp only [ChannelTracker.run]
      rw [ih]
      rfl

/-- When the maximum is below `2^64 - 1`, the counter is above the maximum as soon as
`alloc_channel` has been called `m_max - m_next + 1` times: from then on the tracker only
serves the free list. -/
theorem run_exhausted (calls : List TrackerCall) (ct : ChannelTracker)
    (hmax : ct.m_max < 18446744073709551615)
    (hcount : ct.m_max + 1 - ct.m_next ≤ alloc_count calls) :
    (ct.run calls).1.m_max < (ct.run calls).1.m_next := by
  induction calls generalizing ct with
  | nil =>
    simp only [alloc_count, List.filter_nil, List.length_nil, Nat.le_zero_eq] at hcount
    simp only [ChannelTracker.run]
    omega
  | cons call rest ih =>
    cases call with
    | free ch =>
      simp only [ChannelTracker.run]
      apply ih (ct.free_channel ch) hmax
      simpa [alloc_count, ChannelTracker.free_channel] using hcount
    | alloc =>
      have hc : alloc_count (TrackerCall.alloc :: rest) = alloc_count rest + 1 := by
        simp [alloc_count]
      rw [hc] at hcount
      simp only [ChannelTracker.run]
      by_cases hle : ct.m_next ≤ ct.m_max
      · rw [alloc_channel_of_le ct hle]
        have hw : (ct.m_next + 1) % 18446744073709551616 = ct.m_next + 1 :=
          Nat.mod_eq_of_lt (by omega)
        dsimp only
        refine ih _ hmax ?_
        simp only [hw]
        omega
      · apply run_of_gt
        unfold ChannelTracker.alloc_channel
        rw [if_neg hle]
        split <;> simp only <;> omega

/-- C20 at the failing input `ChannelTracker(2^64 - 1, 2^64 - 1)`: the calls
`alloc_channel`, `free_channel(2^64 - 1)`, `alloc_channel`, `alloc_channel` return
`2^64 - 1`, then 0 and 1: the counter has wrapped around to 0, so the second call
returns neither the freed channel nor, the free list being ignored, the sentinel with
an unchanged tracker, and the freed channel stays in the free list. -/
theorem C20_alloc_channel_wraps :
    ((ChannelTracker.mk_range 18446744073709551615 18446744073709551615).run
      [TrackerCall.alloc, TrackerCall.free 18446744073709551615, TrackerCall.alloc,
        TrackerCall.alloc]) =
      ({ m_next := 2, m_max := 18446744073709551615,
         m_unused_channels := [18446744073709551615] },
        [18446744073709551615, 0, 1]) := by
  decide

/-! ## C14: at most one completion for an interest operation -/

theorem foldl_network_send_eq {α : Type} (f : α → Datagram) (l : List α) (c : Client) :
    l.foldl (fun (acc : Client) e => network_send acc (f e)) c =
      { c with net_out := c.net_out ++ l.map f } := by
  induction l generalizing c with
  | nil => simp
  | cons a l ih =>
    rw [List.foldl_cons, ih]
    simp [network_send]

/-- The `ENTER_LOCATION` case in terms of the pending operations: behind at most one
other frame, one `CLIENT_DONE_INTEREST_RESP` is sent for each operation of a sublist
`ready` of the pending operations, and exactly the operations stored under the request
contexts of `ready` are erased. -/
theorem enter_location_completions (k : Config) (c : Client) (msgtype : Nat)
    (dgi : DatagramIterator) :
    ∃ (pre : List Datagram) (ready : List (Nat × InterestOperation)),
      pre.length ≤ 1 ∧ ready.Sublist c.m_pending_interests ∧
      (handle_STATESERVER_OBJECT_ENTER_LOCATION k c msgtype dgi).1.net_out =
        c.net_out ++ pre ++
          ready.map (fun e => done_interest_resp k e.2.m_client_context e.2.m_interest_id) ∧
      (handle_STATESERVER_OBJECT_ENTER_LOCATION k c msgtype dgi).1.m_pending_interests =
        c.m_pending_interests.filter (fun e => decide (e.1 ∉ ready.map (fun e => e.1))) ∧
      (handle_STATESERVER_OBJECT_ENTER_LOCATION k c msgtype dgi).1.m_next_context =
        c.m_next_context := by
  have hnone : ∃ (pre : List Datagram) (ready : List (Nat × InterestOperation)),
      pre.length ≤ 1 ∧ ready.Sublist c.m_pending_interests ∧
      c.net_out = c.net_out ++ pre ++
          ready.map (fun e => done_interest_resp k e.2.m_client_context e.2.m_interest_id) ∧
      c.m_pending_interests =
        c.m_pending_interests.filter (fun e => decide (e.1 ∉ ready.map (fun e => e.1))) ∧
      c.m_next_context = c.m_next_context :=
    ⟨[], [], by simp, List.nil_sublist _, by simp, by simp, rfl⟩
  unfold handle_STATESERVER_OBJECT_ENTER_LOCATION
  cases h1 : read_uint32 dgi with
  | none => exact hnone
  | some p1 =>
    obtain ⟨do_id, dgi1⟩ := p1
    dsimp only
    cases h2 : read_uint32 dgi1 with
    | none => exact hnone
    | some p2 =>
      obtain ⟨parent, dgi2⟩ := p2
      dsimp only
      cases h3 : read_uint32 dgi2 with
      | none => exact hnone
      | some p3 =>
        obtain ⟨zone, dgi3⟩ := p3
        dsimp only
        cases h4 : read_uint16 dgi3 with
        | none => exact hnone
        | some p4 =>
          obtain ⟨dc_id, dgi4⟩ := p4
          simp only []
          split
          · exact hnone
          · simp only [foldl_network_send_eq, foldl_map_erase]
            by_cases hf : map_find c.m_dist_objs do_id = none
            · simp only [hf, if_true]
              exact ⟨[add_uint16 (if msgtype = k.STATESERVER_OBJECT_ENTER_LOCATION_WITH_REQUIRED
                  then k.CLIENT_ENTER_OBJECT_REQUIRED
                  else k.CLIENT_ENTER_OBJECT_REQUIRED_OTHER) ++
                add_uint32 do_id ++ add_uint32 parent ++ add_uint32 zone ++ add_uint16 dc_id ++
                (read_remainder dgi4).1],
                c.m_pending_interests.filter (fun e => e.2.is_ready
                  (map_assign c.m_dist_objs do_id ⟨do_id, parent, zone, k.get_class dc_id⟩)),
                by simp, List.filter_sublist _, by simp [network_send], by simp [network_send],
                rfl⟩
            · simp only [hf, if_false]
              exact ⟨[add_uint16 (if msgtype = k.STATESERVER_OBJECT_ENTER_LOCATION_WITH_REQUIRED
                  then k.CLIENT_ENTER_OBJECT_REQUIRED
                  else k.CLIENT_ENTER_OBJECT_REQUIRED_OTHER) ++
                add_uint32 do_id ++ add_uint32 parent ++ add_uint32 zone ++ add_uint16 dc_id ++
                (read_remainder dgi4).1],
                c.m_pending_interests.filter (fun e => e.2.is_ready c.m_dist_objs),
                by simp, List.filter_sublist _, by simp [network_send], by simp [network_send],
                rfl⟩

/-- The `GET_ZONES_COUNT_RESP` case in terms of the pending operations: for an unknown
context, or a truncated message, the session is unchanged; otherwise either nothing is
sent and the request contexts that are pending stay the same, or one
`CLIENT_DONE_INTEREST_RESP` is sent for the operation stored under the context and that
operation is erased. -/
theorem zones_count_resp_completions (k : Config) (c : Client) (dgi : DatagramIterator) :
    ((∀ context dgi1, read_uint32 dgi = some (context, dgi1) →
        context ∉ map_keys c.m_pending_interests) →
      (handle_STATESERVER_OBJECT_GET_ZONES_COUNT_RESP k c dgi).1 = c) ∧
    (handle_STATESERVER_OBJECT_GET_ZONES_COUNT_RESP k c dgi).1.m_next_context =
      c.m_next_context ∧
    (((handle_STATESERVER_OBJECT_GET_ZONES_COUNT_RESP k c dgi).1.net_out = c.net_out ∧
        map_keys (handle_STATESERVER_OBJECT_GET_ZONES_COUNT_RESP k c dgi).1.m_pending_interests
          = map_keys c.m_pending_interests) ∨
      ∃ context op, map_find c.m_pending_interests context = some op ∧
        (handle_STATESERVER_OBJECT_GET_ZONES_COUNT_RESP k c dgi).1.net_out =
          c.net_out ++ [done_interest_resp k op.m_client_context op.m_interest_id] ∧
        (handle_STATESERVER_OBJECT_GET_ZONES_COUNT_RESP k c dgi).1.m_pending_interests =
          map_erase c.m_pending_interests context) := by
  unfold handle_STATESERVER_OBJECT_GET_ZONES_COUNT_RESP
  cases h1 : read_uint32 dgi with
  | none => exact ⟨fun _ => rfl, rfl, Or.inl ⟨rfl, rfl⟩⟩
  | some p1 =>
    obtain ⟨context, dgi1⟩ := p1
    dsimp only
    cases h2 : read_uint32 dgi1 with
    | none => exact ⟨fun _ => rfl, rfl, Or.inl ⟨rfl, rfl⟩⟩
    | some p2 =>
      obtain ⟨count, dgi2⟩ := p2
      dsimp only
      cases hf : map_find c.m_pending_interests context with
      | none => exact ⟨fun _ => rfl, rfl, Or.inl ⟨rfl, rfl⟩⟩
      | some op =>
        have hmem : context ∈ map_keys c.m_pending_interests := by
          by_contra hn
          rw [(map_find_eq_none _ _).2 hn] at hf
          exact Option.noConfusion hf
        dsimp only
        refine ⟨fun h => absurd hmem (h context dgi1 rfl), ?_, ?_⟩
        · split <;> rfl
        · split
          · refine Or.inr ⟨context, op, hf, ?_, ?_⟩
            · simp [network_send, InterestOperation.store_total]
            · simp [network_send, map_erase_map_assign]
          · exact Or.inl ⟨rfl, map_keys_map_assign_of_mem _ _ _ hmem⟩
theorem add_interest_closed_pending (k : Config) (c : Client) (i : Interest) :
    ∃ ids : List Nat,
      (add_interest_closed k c i).net_out = c.net_out ++
        ids.map (fun id => add_uint16 k.CLIENT_OBJECT_LEAVING ++ add_uint32 id) ∧
      (add_interest_closed k c i).m_pending_interests = c.m_pending_interests ∧
      (add_interest_closed k c i).m_next_context = c.m_next_context := by
  unfold add_interest_closed
  split
  · exact ⟨[], by simp, rfl, rfl⟩
  · rw [close_zones_eq]
    exact ⟨_, rfl, rfl, rfl⟩

/-- What `add_interest` does for the request: behind the leaving frames of an
alteration, either it sends the `CLIENT_DONE_INTEREST_RESP` of the request at once and
stores no operation, or it sends none and stores one operation under the next request
context (`std::map::insert`, which keeps an operation already stored under it). -/
theorem add_interest_completion (k : Config) (c : Client) (i : Interest) (context : Nat) :
    ∃ ids : List Nat,
      (add_interest_new_zones c i = [] ∧
        (add_interest k c i context).net_out = c.net_out ++
          ids.map (fun id => add_uint16 k.CLIENT_OBJECT_LEAVING ++ add_uint32 id) ++
          [done_interest_resp k context i.id] ∧
        (add_interest k c i context).m_pending_interests = c.m_pending_interests ∧
        (add_interest k c i context).m_next_context = c.m_next_context) ∨
      (add_interest_new_zones c i ≠ [] ∧
        (add_interest k c i context).net_out = c.net_out ++
          ids.map (fun id => add_uint16 k.CLIENT_OBJECT_LEAVING ++ add_uint32 id) ∧
        (add_interest k c i context).m_pending_interests =
          map_insert c.m_pending_interests c.m_next_context
            ⟨i.id, context, i.parent, add_interest_new_zones c i, none⟩ ∧
        (add_interest k c i context).m_next_context =
          (c.m_next_context + 1) % 4294967296) := by
  obtain ⟨ids, hn, hp, hx⟩ := add_interest_closed_pending k c i
  refine ⟨ids, ?_⟩
  rw [add_interest_closed_eq]
  by_cases hz : add_interest_new_zones c i = []
  · rw [if_pos hz]
    exact Or.inl ⟨hz, by simp only [hn], hp, hx⟩
  · rw [if_neg hz]
    exact Or.inr ⟨hz, hn, rfl, rfl⟩

theorem send_disconnect_m_next_context (k : Config) (c : Client) (reason : Nat)
    (text : List Nat) (security : Bool) :
    (send_disconnect k c reason text security).m_next_context = c.m_next_context := by
  unfold send_disconnect
  split <;> rfl

theorem remove_interest_pending (k : Config) (c : Client) (i : Interest) (context : Nat) :
    (remove_interest k c i context).m_next_context = c.m_next_context ∧
      (remove_interest k c i context).m_pending_interests = c.m_pending_interests := by
  rw [remove_interest_eq]
  exact ⟨rfl, rfl⟩

/-- A client datagram leaves the pending operations and the counter of request contexts
as they are, or inserts one operation under the next request context and advances the
counter. -/
theorem client_handler_pending (k : Config) (c : Client) (dg : Datagram) :
    ((client_handler k c dg).1.m_next_context = c.m_next_context ∧
      (client_handler k c dg).1.m_pending_interests = c.m_pending_interests) ∨
    ∃ op, (client_handler k c dg).1.m_next_context = (c.m_next_context + 1) % 4294967296 ∧
      (client_handler k c dg).1.m_pending_interests =
        map_insert c.m_pending_interests c.m_next_context op := by
  have hsame : ∀ r : Client, r.m_next_context = c.m_next_context →
      r.m_pending_interests = c.m_pending_interests →
      (r.m_next_context = c.m_next_context ∧
        r.m_pending_interests = c.m_pending_interests) ∨
      ∃ op, r.m_next_context = (c.m_next_context + 1) % 4294967296 ∧
        r.m_pending_interests = map_insert c.m_pending_interests c.m_next_context op :=
    fun r h1 h2 => Or.inl ⟨h1, h2⟩
  have hfield : ∀ dgi, (handle_client_object_update_field k c dgi).1.m_next_context =
        c.m_next_context ∧
      (handle_client_object_update_field k c dgi).1.m_pending_interests =
        c.m_pending_interests := by
    intro dgi
    unfold handle_client_object_update_field
    repeat' split
    all_goals (try dsimp only)
    all_goals (try split_ifs)
    all_goals first
      | exact ⟨rfl, rfl⟩
      | exact ⟨send_disconnect_m_next_context _ _ _ _ _,
          send_disconnect_m_pending_interests _ _ _ _ _⟩
  have hloc : ∀ dgi, (handle_client_object_location k c dgi).1.m_next_context =
        c.m_next_context ∧
      (handle_client_object_location k c dgi).1.m_pending_interests =
        c.m_pending_interests := by
    intro dgi
    unfold handle_client_object_location
    repeat' split
    all_goals (try dsimp only)
    all_goals (try split_ifs)
    all_goals first
      | exact ⟨rfl, rfl⟩
      | exact ⟨send_disconnect_m_next_context _ _ _ _ _,
          send_disconnect_m_pending_interests _ _ _ _ _⟩
  have hadd : ∀ dgi multiple,
      ((handle_client_add_interest k c dgi multiple).1.m_next_context = c.m_next_context ∧
        (handle_client_add_interest k c dgi multiple).1.m_pending_interests =
          c.m_pending_interests) ∨
      ∃ op, (handle_client_add_interest k c dgi multiple).1.m_next_context =
          (c.m_next_context + 1) % 4294967296 ∧
        (handle_client_add_interest k c dgi multiple).1.m_pending_interests =
          map_insert c.m_pending_interests c.m_next_context op := by
    intro dgi multiple
    unfold handle_client_add_interest
    repeat' split
    all_goals first
      | exact Or.inl ⟨rfl, rfl⟩
      | (obtain ⟨ids, h | h⟩ := add_interest_completion k c _ _
         · exact Or.inl ⟨h.2.2.2, h.2.2.1⟩
         · exact Or.inr ⟨_, h.2.2.2, h.2.2.1⟩)
  have hrem : ∀ dgi, (handle_client_remove_interest k c dgi).1.m_next_context =
        c.m_next_context ∧
      (handle_client_remove_interest k c dgi).1.m_pending_interests =
        c.m_pending_interests := by
    intro dgi
    unfold handle_client_remove_interest
    repeat' split
    all_goals first
      | exact ⟨rfl, rfl⟩
      | exact ⟨send_disconnect_m_next_context _ _ _ _ _,
          send_disconnect_m_pending_interests _ _ _ _ _⟩
      | exact remove_interest_pending k c _ _
  unfold client_handler
  split
  · apply hsame
    · unfold handle_pre_hello
      repeat' split
      all_goals first
        | rfl
        | exact send_disconnect_m_next_context _ _ _ _ _
    · unfold handle_pre_hello
      repeat' split
      all_goals first
        | rfl
        | exact send_disconnect_m_pending_interests _ _ _ _ _
  split
  · unfold handle_pre_auth
    repeat' split
    · exact Or.inl ⟨rfl, rfl⟩
    · exact Or.inl (hfield _)
    · exact Or.inl ⟨send_disconnect_m_next_context _ _ _ _ _,
        send_disconnect_m_pending_interests _ _ _ _ _⟩
  split
  · unfold handle_authenticated
    repeat' split
    · exact Or.inl ⟨rfl, rfl⟩
    · exact Or.inl (hfield _)
    · exact Or.inl (hloc _)
    · exact hadd _ _
    · exact hadd _ _
    · exact Or.inl (hrem _)
    · exact Or.inl ⟨send_disconnect_m_next_context _ _ _ _ _,
        send_disconnect_m_pending_interests _ _ _ _ _⟩
  · exact Or.inl ⟨rfl, rfl⟩

theorem network_datagram_pending (k : Config) (c : Client) (dg : Datagram) :
    ((network_datagram k c dg).m_next_context = c.m_next_context ∧
      (network_datagram k c dg).m_pending_interests = c.m_pending_interests) ∨
    ∃ op, (network_datagram k c dg).m_next_context = (c.m_next_context + 1) % 4294967296 ∧
      (network_datagram k c dg).m_pending_interests =
        map_insert c.m_pending_interests c.m_next_context op := by
  have h := client_handler_pending k c dg
  rw [network_datagram_eq]
  split
  · rw [send_disconnect_m_next_context, send_disconnect_m_pending_interests]
    exact h
  · split
    · rw [send_disconnect_m_next_context, send_disconnect_m_pending_interests]
      exact h
    · exact h
/-- An MD message stores no operation: the request contexts that are pending afterwards
were pending before, and the counter of request contexts is unchanged. -/
theorem handle_datagram_pending (k : Config) (c : Client) (dg : Datagram) :
    (handle_datagram k c dg).1.m_next_context = c.m_next_context ∧
      (map_keys (handle_datagram k c dg).1.m_pending_interests).Sublist
        (map_keys c.m_pending_interests) := by
  have hrefl : c.m_next_context = c.m_next_context ∧
      (map_keys c.m_pending_interests).Sublist (map_keys c.m_pending_interests) :=
    ⟨rfl, List.Sublist.refl _⟩
  apply handle_datagram_cases k c dg (fun r => r.m_next_context = c.m_next_context ∧
    (map_keys r.m_pending_interests).Sublist (map_keys c.m_pending_interests)) hrefl
  · intro dgi
    unfold handle_CLIENTAGENT_EJECT
    repeat' split
    all_goals first
      | exact hrefl
      | (rw [send_disconnect_m_next_context, send_disconnect_m_pending_interests]; exact hrefl)
  · exact hrefl
  · intro dgi
    unfold handle_CLIENTAGENT_SET_STATE
    split <;> exact hrefl
  · intro sender dgi
    unfold handle_STATESERVER_OBJECT_SET_FIELD
    repeat' split
    all_goals exact hrefl
  · intro dgi
    unfold handle_STATESERVER_OBJECT_DELETE_RAM
    repeat' split
    all_goals first
      | exact hrefl
      | (dsimp only [network_send]; repeat' split)
    all_goals exact hrefl
  · intro dgi
    unfold handle_STATESERVER_OBJECT_ENTER_OWNER
    repeat' split
    all_goals first
      | exact hrefl
      | (dsimp only [network_send]; repeat' split)
    all_goals exact hrefl
  · intro sender dgi0 dgi _ _
    unfold handle_CLIENTAGENT_SET_CLIENT_ID
    repeat' split
    all_goals exact hrefl
  · intro dgi
    unfold handle_CLIENTAGENT_SEND_DATAGRAM
    split <;> exact hrefl
  · intro dgi
    unfold handle_CLIENTAGENT_OPEN_CHANNEL
    split <;> exact hrefl
  · intro sender dgi0 dgi _ _
    unfold handle_CLIENTAGENT_CLOSE_CHANNEL
    split <;> exact hrefl
  · intro dgi
    unfold handle_CLIENTAGENT_ADD_POST_REMOVE
    split <;> exact hrefl
  · exact hrefl
  · intro msgtype dgi
    obtain ⟨pre, ready, _, _, _, hp, hn⟩ := enter_location_completions k c msgtype dgi
    refine ⟨hn, ?_⟩
    rw [hp]
    exact List.Sublist.map _ (List.filter_sublist _)
  · intro dgi
    obtain ⟨_, hn, h | ⟨context, op, _, _, hp⟩⟩ := zones_count_resp_completions k c dgi
    · exact ⟨hn, h.2 ▸ List.Sublist.refl _⟩
    · refine ⟨hn, ?_⟩
      rw [hp]
      exact List.Sublist.map _ (List.filter_sublist _)
  · intro dgi
    unfold handle_STATESERVER_OBJECT_CHANGING_LOCATION
    repeat' split
    all_goals first
      | exact hrefl
      | (dsimp only [network_send]; repeat' split)
    all_goals exact hrefl
theorem mem_map_keys_map_insert {β : Type} (m : List (Nat × β)) (key : Nat) (v : β)
    (id : Nat) (h : id ∈ map_keys (map_insert m key v)) : id ∈ map_keys m ∨ id = key := by
  unfold map_insert at h
  split at h
  · exact Or.inl h
  · simpa [map_keys] using h

/-- A step of a session: the counter of request contexts stays or advances by one, and a
request context that is pending afterwards was pending before or is the one a client
request has just been given. -/
theorem session_step_pending (k : Config) (c : Client) (ev : Event) :
    ((session_step k c ev).m_next_context = c.m_next_context ∨
      (session_step k c ev).m_next_context = (c.m_next_context + 1) % 4294967296) ∧
    ∀ ctx ∈ map_keys (session_step k c ev).m_pending_interests,
      ctx ∈ map_keys c.m_pending_interests ∨
        ((∃ dg, ev = Event.client dg) ∧ ctx = c.m_next_context ∧
          (session_step k c ev).m_next_context = (c.m_next_context + 1) % 4294967296) := by
  cases ev with
  | md dg =>
    obtain ⟨hn, hs⟩ := handle_datagram_pending k c dg
    exact ⟨Or.inl hn, fun ctx h => Or.inl (hs.subset h)⟩
  | client dg =>
    rcases network_datagram_pending k c dg with ⟨hn, hp⟩ | ⟨op, hn, hp⟩
    · refine ⟨Or.inl hn, fun ctx h => Or.inl ?_⟩
      simp only [session_step] at h
      rw [hp] at h
      exact h
    · refine ⟨Or.inr hn, fun ctx h => ?_⟩
      simp only [session_step] at h
      rw [hp] at h
      rcases mem_map_keys_map_insert _ _ _ _ h with h | h
      · exact Or.inl h
      · exact Or.inr ⟨⟨dg, rfl⟩, h, hn⟩

/-- A request context that has been issued and is not pending is not pending again
before the 32-bit counter of request contexts wraps. -/
theorem session_run_not_pending (k : Config) (events : List Event) (c : Client) (ctx : Nat)
    (hissued : ctx < c.m_next_context) (hnot : ctx ∉ map_keys c.m_pending_interests)
    (hwrap : c.m_next_context + events.length < 4294967296) :
    ctx ∉ map_keys (session_run k c events).m_pending_interests := by
  induction events generalizing c with
  | nil => exact hnot
  | cons ev rest ih =>
    simp only [List.length_cons] at hwrap
    obtain ⟨hn, hp⟩ := session_step_pending k c ev
    have hnext : c.m_next_context ≤ (session_step k c ev).m_next_context ∧
        (session_step k c ev).m_next_context ≤ c.m_next_context + 1 := by
      rcases hn with hn | hn
      · omega
      · rw [hn, Nat.mod_eq_of_lt (by omega)]
        omega
    simp only [session_run, List.foldl_cons]
    refine ih (session_step k c ev) (by omega) ?_ (by omega)
    intro h
    rcases hp ctx h with h | ⟨_, h, _⟩
    · exact hnot h
    · omega

/-- Until the counter wraps, every pending request context has been issued: it is below
the counter. -/
theorem session_run_issued (k : Config) (events : List Event) (c : Client)
    (hinv : ∀ key ∈ map_keys c.m_pending_interests, key < c.m_next_context)
    (hwrap : c.m_next_context + events.length < 4294967296) :
    ∀ key ∈ map_keys (session_run k c events).m_pending_interests,
      key < (session_run k c events).m_next_context := by
  induction events generalizing c with
  | nil => exact hinv
  | cons ev rest ih =>
    simp only [List.length_cons] at hwrap
    obtain ⟨hn, hp⟩ := session_step_pending k c ev
    have hnext : c.m_next_context ≤ (session_step k c ev).m_next_context ∧
        (session_step k c ev).m_next_context ≤ c.m_next_context + 1 := by
      rcases hn with hn | hn
      · omega
      · rw [hn, Nat.mod_eq_of_lt (by omega)]
        omega
    simp only [session_run, List.foldl_cons]
    refine ih (session_step k c ev) ?_ (by omega)
    intro key hkey
    rcases hp key hkey with h | ⟨_, h, hx⟩
    · have := hinv key h
      omega
    · rw [hx, Nat.mod_eq_of_lt (by omega), h]
      omega
/-- C14: each `ADD_INTEREST` / `ADD_INTEREST_MULTIPLE` request receives at most one
`CLIENT_DONE_INTEREST_RESP`. For every session `c`:
(1) `add_interest` either sends the response of the request at once and stores no
operation, or sends none and stores at most one operation, under the next request
context;
(2) the `ENTER_LOCATION` re-evaluation sends one response for each operation of a
sublist `ready` of the pending operations and nothing else but the enter frame, and
none of the request contexts of `ready` is pending afterwards;
(3) `GET_ZONES_COUNT_RESP` leaves the session unchanged when its context is not
pending (or the message is truncated); otherwise it sends nothing and keeps the pending
contexts, or sends the one response of the operation stored under the context, which
is not pending afterwards;
(4) a request context that is not pending becomes pending by no MD message, and by a
client datagram only if it is the context that a new request is given;
(5) so a request context that has been issued and is no longer pending is not pending
again, whatever is handled, before the 32-bit counter of request contexts wraps: no
further response is sent for its operation. -/
theorem C14_done_at_most_once (k : Config) (c : Client) :
    (∀ (i : Interest) (context : Nat), ∃ ids : List Nat,
      (add_interest_new_zones c i = [] ∧
        (add_interest k c i context).net_out = c.net_out ++
          ids.map (fun id => add_uint16 k.CLIENT_OBJECT_LEAVING ++ add_uint32 id) ++
          [done_interest_resp k context i.id] ∧
        (add_interest k c i context).m_pending_interests = c.m_pending_interests ∧
        (add_interest k c i context).m_next_context = c.m_next_context) ∨
      (add_interest_new_zones c i ≠ [] ∧
        (add_interest k c i context).net_out = c.net_out ++
          ids.map (fun id => add_uint16 k.CLIENT_OBJECT_LEAVING ++ add_uint32 id) ∧
        (add_interest k c i context).m_pending_interests =
          map_insert c.m_pending_interests c.m_next_context
            ⟨i.id, context, i.parent, add_interest_new_zones c i, none⟩ ∧
        (add_interest k c i context).m_next_context =
          (c.m_next_context + 1) % 4294967296)) ∧
    (∀ (msgtype : Nat) (dgi : DatagramIterator),
      ∃ (pre : List Datagram) (ready : List (Nat × InterestOperation)),
        pre.length ≤ 1 ∧ ready.Sublist c.m_pending_interests ∧
        (handle_STATESERVER_OBJECT_ENTER_LOCATION k c msgtype dgi).1.net_out =
          c.net_out ++ pre ++
            ready.map (fun e => done_interest_resp k e.2.m_client_context e.2.m_interest_id) ∧
        (handle_STATESERVER_OBJECT_ENTER_LOCATION k c msgtype dgi).1.m_pending_interests =
          c.m_pending_interests.filter (fun e => decide (e.1 ∉ ready.map (fun e => e.1))) ∧
        ∀ e ∈ ready, e.1 ∉ map_keys
          (handle_STATESERVER_OBJECT_ENTER_LOCATION k c msgtype dgi).1.m_pending_interests) ∧
    (∀ dgi : DatagramIterator,
      ((∀ context dgi1, read_uint32 dgi = some (context, dgi1) →
          context ∉ map_keys c.m_pending_interests) →
        (handle_STATESERVER_OBJECT_GET_ZONES_COUNT_RESP k c dgi).1 = c) ∧
      (((handle_STATESERVER_OBJECT_GET_ZONES_COUNT_RESP k c dgi).1.net_out = c.net_out ∧
          map_keys
            (handle_STATESERVER_OBJECT_GET_ZONES_COUNT_RESP k c dgi).1.m_pending_interests =
              map_keys c.m_pending_interests) ∨
        ∃ context op, map_find c.m_pending_interests context = some op ∧
          (handle_STATESERVER_OBJECT_GET_ZONES_COUNT_RESP k c dgi).1.net_out =
            c.net_out ++ [done_interest_resp k op.m_client_context op.m_interest_id] ∧
          (handle_STATESERVER_OBJECT_GET_ZONES_COUNT_RESP k c dgi).1.m_pending_interests =
            map_erase c.m_pending_interests context ∧
          context ∉ map_keys
            (handle_STATESERVER_OBJECT_GET_ZONES_COUNT_RESP k c dgi).1.m_pending_interests)) ∧
    (∀ (ev : Event) (ctx : Nat), ctx ∉ map_keys c.m_pending_interests →
      ctx ∈ map_keys (session_step k c ev).m_pending_interests →
      (∃ dg, ev = Event.client dg) ∧ ctx = c.m_next_context) ∧
    (∀ (events : List Event) (ctx : Nat), ctx < c.m_next_context →
      ctx ∉ map_keys c.m_pending_interests →
      c.m_next_context + events.length < 4294967296 →
      ctx ∉ map_keys (session_run k c events).m_pending_interests) := by
  refine ⟨add_interest_completion k c, ?_, ?_, ?_, ?_⟩
  · intro msgtype dgi
    obtain ⟨pre, ready, hl, hs, hn, hp, _⟩ := enter_location_completions k c msgtype dgi
    refine ⟨pre, ready, hl, hs, hn, hp, ?_⟩
    intro e he hmem
    rw [hp, mem_map_keys] at hmem
    obtain ⟨e2, he2, hk⟩ := hmem
    simp only [List.mem_filter, decide_eq_true_eq] at he2
    exact he2.2 (hk ▸ List.mem_map_of_mem (fun e => e.1) he)
  · intro dgi
    obtain ⟨h1, _, h | ⟨context, op, hf, hn, hp⟩⟩ := zones_count_resp_completions k c dgi
    · exact ⟨h1, Or.inl h⟩
    · refine ⟨h1, Or.inr ⟨context, op, hf, hn, hp, ?_⟩⟩
      rw [hp, mem_map_keys_map_erase]
      exact fun h => h.2 rfl
  · intro ev ctx hnot hin
    rcases (session_step_pending k c ev).2 ctx hin with h | ⟨hd, hc, _⟩
    · exact absurd h hnot
    · exact ⟨hd, hc⟩
  · exact fun events ctx hi hn hw => session_run_not_pending k events c ctx hi hn hw

/-- C14 at the input of the spec: in the session `exampleCompleted` the operation with
request context 0 has been completed; a second `GET_ZONES_COUNT_RESP(0, 0)` and the enter
of object 5001 into `(500, 9000)` do not make it pending again, and
`CLIENT_DONE_INTEREST_RESP(42, 1)` has still been sent exactly once. -/
theorem C14_done_at_most_once_witness :
    0 ∉ map_keys (session_run exampleConfig exampleCompleted
      [Event.md (zones_count_resp_datagram exampleConfig 500 0 0),
        Event.md (enter_location_datagram exampleConfig 500 9000 exampleEnterA)]
      ).m_pending_interests ∧
    List.count (done_interest_resp exampleConfig 42 1) exampleCompleted.net_out = 1 ∧
    List.count (done_interest_resp exampleConfig 42 1)
      (session_run exampleConfig exampleCompleted
        [Event.md (zones_count_resp_datagram exampleConfig 500 0 0),
          Event.md (enter_location_datagram exampleConfig 500 9000 exampleEnterA)]
        ).net_out = 1 :=
  ⟨(C14_done_at_most_once exampleConfig exampleCompleted).2.2.2.2
      [Event.md (zones_count_resp_datagram exampleConfig 500 0 0),
        Event.md (enter_location_datagram exampleConfig 500 9000 exampleEnterA)] 0
      (by decide) (by decide) (by decide),
    by decide, by decide⟩

/-! ## C24: no client datagram authenticates the session -/

theorem close_zones_m_state (k : Config) (c : Client) (parent : Nat) (killed : List Nat) :
    (close_zones k c parent killed).m_state = c.m_state := by
  rw [close_zones_eq]

theorem add_interest_m_state (k : Config) (c : Client) (i : Interest) (context : Nat) :
    (add_interest k c i context).m_state = c.m_state := by
  have hc : (add_interest_closed k c i).m_state = c.m_state := by
    unfold add_interest_closed
    split
    · rfl
    · exact close_zones_m_state k c _ _
  rw [add_interest_closed_eq]
  split <;> exact hc

theorem remove_interest_m_state (k : Config) (c : Client) (i : Interest) (context : Nat) :
    (remove_interest k c i context).m_state = c.m_state := by
  rw [remove_interest_eq]

theorem handle_client_object_update_field_m_state (k : Config) (c : Client)
    (dgi : DatagramIterator) :
    (handle_client_object_update_field k c dgi).1.m_state = c.m_state := by
  unfold handle_client_object_update_field
  repeat' split
  all_goals (try dsimp only)
  all_goals (try split_ifs)
  all_goals first
    | rfl
    | exact send_disconnect_m_state _ _ _ _ _

theorem handle_client_object_location_m_state (k : Config) (c : Client)
    (dgi : DatagramIterator) :
    (handle_client_object_location k c dgi).1.m_state = c.m_state := by
  unfold handle_client_object_location
  repeat' split
  all_goals (try dsimp only)
  all_goals (try split_ifs)
  all_goals first
    | rfl
    | exact send_disconnect_m_state _ _ _ _ _

theorem handle_client_add_interest_m_state (k : Config) (c : Client) (dgi : DatagramIterator)
    (multiple : Bool) : (handle_client_add_interest k c dgi multiple).1.m_state = c.m_state := by
  unfold handle_client_add_interest
  repeat' split
  all_goals first
    | rfl
    | exact add_interest_m_state k c _ _

theorem handle_client_remove_interest_m_state (k : Config) (c : Client)
    (dgi : DatagramIterator) :
    (handle_client_remove_interest k c dgi).1.m_state = c.m_state := by
  unfold handle_client_remove_interest
  repeat' split
  all_goals first
    | rfl
    | exact send_disconnect_m_state _ _ _ _ _
    | exact remove_interest_m_state k c _ _

theorem handle_pre_auth_m_state (k : Config) (c : Client) (dgi : DatagramIterator) :
    (handle_pre_auth k c dgi).1.m_state = c.m_state := by
  unfold handle_pre_auth
  repeat' split
  · rfl
  · exact handle_client_object_update_field_m_state k c _
  · exact send_disconnect_m_state _ _ _ _ _

theorem handle_authenticated_m_state (k : Config) (c : Client) (dgi : DatagramIterator) :
    (handle_authenticated k c dgi).1.m_state = c.m_state := by
  unfold handle_authenticated
  repeat' split
  · rfl
  · exact handle_client_object_update_field_m_state k c _
  · exact handle_client_object_location_m_state k c _
  · exact handle_client_add_interest_m_state k c _ _
  · exact handle_client_add_interest_m_state k c _ _
  · exact handle_client_remove_interest_m_state k c _
  · exact send_disconnect_m_state _ _ _ _ _

/-- The handshake is the only place where a client handler writes the state: the state
after `handle_pre_hello` is the state before, or it is ANONYMOUS and the datagram is a
`CLIENT_HELLO` with the expected hash and version. -/
theorem handle_pre_hello_m_state (k : Config) (c : Client) (dg : DatagramIterator) :
    (handle_pre_hello k c dg).1.m_state = c.m_state ∨
    ((handle_pre_hello k c dg).1.m_state = k.CLIENT_STATE_ANONYMOUS ∧
      ∃ r1 r2 r3, read_uint16 dg = some (k.CLIENT_HELLO, r1) ∧
        read_uint32 r1 = some (k.expected_hash, r2) ∧
        read_string r2 = some (k.expected_version, r3)) := by
  unfold handle_pre_hello
  cases h1 : read_uint16 dg with
  | none => exact Or.inl rfl
  | some p1 =>
    obtain ⟨m, r1⟩ := p1
    dsimp only
    split
    · exact Or.inl (send_disconnect_m_state _ _ _ _ _)
    · rename_i hm
      cases h2 : read_uint32 r1 with
      | none => exact Or.inl rfl
      | some p2 =>
        obtain ⟨dc_hash, r2⟩ := p2
        dsimp only
        split
        · exact Or.inl (send_disconnect_m_state _ _ _ _ _)
        · rename_i hh
          cases h3 : read_string r2 with
          | none => exact Or.inl rfl
          | some p3 =>
            obtain ⟨version, r3⟩ := p3
            dsimp only
            split
            · exact Or.inl (send_disconnect_m_state _ _ _ _ _)
            · rename_i hv
              refine Or.inr ⟨rfl, r1, r2, r3, ?_, ?_, ?_⟩
              · rw [not_not.1 hm]
              · rw [h2, not_not.1 hh]
              · rw [h3, not_not.1 hv]

theorem handle_pre_hello_md_out (k : Config) (c : Client) (dg : DatagramIterator) :
    (handle_pre_hello k c dg).1.md_out = c.md_out := by
  unfold handle_pre_hello
  repeat' split
  all_goals first
    | rfl
    | exact send_disconnect_md_out _ _ _ _ _
/-- Case analysis on the switch of `handle_datagram` as `handle_datagram_cases`, with the
sender and the message type that were read known in every case. -/
theorem handle_datagram_cases_read (k : Config) (c : Client) (dg : Datagram)
    (P : Client → Prop) (h0 : P c)
    (h_eject : ∀ sender dgi0 dgi, read_uint64 dg = some (sender, dgi0) →
      read_uint16 dgi0 = some (k.CLIENTAGENT_EJECT, dgi) →
      P (handle_CLIENTAGENT_EJECT k c dgi).1)
    (h_drop : ∀ sender dgi0 dgi, read_uint64 dg = some (sender, dgi0) →
      read_uint16 dgi0 = some (k.CLIENTAGENT_DROP, dgi) →
      P (do_disconnect c))
    (h_state : ∀ sender dgi0 dgi, read_uint64 dg = some (sender, dgi0) →
      read_uint16 dgi0 = some (k.CLIENTAGENT_SET_STATE, dgi) →
      P (handle_CLIENTAGENT_SET_STATE c dgi).1)
    (h_field : ∀ sender dgi0 dgi, read_uint64 dg = some (sender, dgi0) →
      read_uint16 dgi0 = some (k.STATESERVER_OBJECT_SET_FIELD, dgi) →
      P (handle_STATESERVER_OBJECT_SET_FIELD k c sender dgi).1)
    (h_delete : ∀ sender dgi0 dgi, read_uint64 dg = some (sender, dgi0) →
      read_uint16 dgi0 = some (k.STATESERVER_OBJECT_DELETE_RAM, dgi) →
      P (handle_STATESERVER_OBJECT_DELETE_RAM k c dgi).1)
    (h_owner : ∀ sender dgi0 dgi, read_uint64 dg = some (sender, dgi0) →
      read_uint16 dgi0 = some (k.STATESERVER_OBJECT_ENTER_OWNER_WITH_REQUIRED_OTHER, dgi) →
      P (handle_STATESERVER_OBJECT_ENTER_OWNER k c dgi).1)
    (h_id : ∀ sender dgi0 dgi, read_uint64 dg = some (sender, dgi0) →
      read_uint16 dgi0 = some (k.CLIENTAGENT_SET_CLIENT_ID, dgi) →
      P (handle_CLIENTAGENT_SET_CLIENT_ID c dgi).1)
    (h_send : ∀ sender dgi0 dgi, read_uint64 dg = some (sender, dgi0) →
      read_uint16 dgi0 = some (k.CLIENTAGENT_SEND_DATAGRAM, dgi) →
      P (handle_CLIENTAGENT_SEND_DATAGRAM c dgi).1)
    (h_open : ∀ sender dgi0 dgi, read_uint64 dg = some (sender, dgi0) →
      read_uint16 dgi0 = some (k.CLIENTAGENT_OPEN_CHANNEL, dgi) →
      P (handle_CLIENTAGENT_OPEN_CHANNEL c dgi).1)
    (h_close : ∀ sender dgi0 dgi, read_uint64 dg = some (sender, dgi0) →
      read_uint16 dgi0 = some (k.CLIENTAGENT_CLOSE_CHANNEL, dgi) →
      P (handle_CLIENTAGENT_CLOSE_CHANNEL c dgi).1)
    (h_post : ∀ sender dgi0 dgi, read_uint64 dg = some (sender, dgi0) →
      read_uint16 dgi0 = some (k.CLIENTAGENT_ADD_POST_REMOVE, dgi) →
      P (handle_CLIENTAGENT_ADD_POST_REMOVE c dgi).1)
    (h_clear : ∀ sender dgi0 dgi, read_uint64 dg = some (sender, dgi0) →
      read_uint16 dgi0 = some (k.CLIENTAGENT_CLEAR_POST_REMOVES, dgi) →
      P { c with post_removes := [] })
    (h_enter : ∀ sender dgi0 msgtype dgi, read_uint64 dg = some (sender, dgi0) →
      read_uint16 dgi0 = some (msgtype, dgi) →
      (msgtype = k.STATESERVER_OBJECT_ENTER_LOCATION_WITH_REQUIRED ∨
        msgtype = k.STATESERVER_OBJECT_ENTER_LOCATION_WITH_REQUIRED_OTHER) →
      P (handle_STATESERVER_OBJECT_ENTER_LOCATION k c msgtype dgi).1)
    (h_count : ∀ sender dgi0 dgi, read_uint64 dg = some (sender, dgi0) →
      read_uint16 dgi0 = some (k.STATESERVER_OBJECT_GET_ZONES_COUNT_RESP, dgi) →
      P (handle_STATESERVER_OBJECT_GET_ZONES_COUNT_RESP k c dgi).1)
    (h_moved : ∀ sender dgi0 dgi, read_uint64 dg = some (sender, dgi0) →
      read_uint16 dgi0 = some (k.STATESERVER_OBJECT_CHANGING_LOCATION, dgi) →
      P (handle_STATESERVER_OBJECT_CHANGING_LOCATION k c dgi).1) :
    P (handle_datagram k c dg).1 := by
  unfold handle_datagram
  cases h1 : read_uint64 dg with
  | none => exact h0
  | some p1 =>
    obtain ⟨sender, dgi0⟩ := p1
    dsimp only
    cases h2 : read_uint16 dgi0 with
    | none => exact h0
    | some p2 =>
      obtain ⟨msgtype, dgi⟩ := p2
      dsimp only
      refine ite_fst_cases P _ _ _ (fun heq => ?_) (fun _ => ?_)
      · exact h_eject _ _ _ h1 (heq ▸ h2)
      refine ite_fst_cases P _ _ _ (fun heq => ?_) (fun _ => ?_)
      · exact h_drop _ _ _ h1 (heq ▸ h2)
      refine ite_fst_cases P _ _ _ (fun heq => ?_) (fun _ => ?_)
      · exact h_state _ _ _ h1 (heq ▸ h2)
      refine ite_fst_cases P _ _ _ (fun heq => ?_) (fun _ => ?_)
      · exact h_field _ _ _ h1 (heq ▸ h2)
      refine ite_fst_cases P _ _ _ (fun heq => ?_) (fun _ => ?_)
      · exact h_delete _ _ _ h1 (heq ▸ h2)
      refine ite_fst_cases P _ _ _ (fun heq => ?_) (fun _ => ?_)
      · exact h_owner _ _ _ h1 (heq ▸ h2)
      refine ite_fst_cases P _ _ _ (fun heq => ?_) (fun _ => ?_)
      · exact h_id _ _ _ h1 (heq ▸ h2)
      refine ite_fst_cases P _ _ _ (fun heq => ?_) (fun _ => ?_)
      · exact h_send _ _ _ h1 (heq ▸ h2)
      refine ite_fst_cases P _ _ _ (fun heq => ?_) (fun _ => ?_)
      · exact h_open _ _ _ h1 (heq ▸ h2)
      refine ite_fst_cases P _ _ _ (fun heq => ?_) (fun _ => ?_)
      · exact h_close _ _ _ h1 (heq ▸ h2)
      refine ite_fst_cases P _ _ _ (fun heq => ?_) (fun _ => ?_)
      · exact h_post _ _ _ h1 (heq ▸ h2)
      refine ite_fst_cases P _ _ _ (fun heq => ?_) (fun _ => ?_)
      · exact h_clear _ _ _ h1 (heq ▸ h2)
      refine ite_fst_cases P _ _ _ (fun heq => ?_) (fun _ => ?_)
      · exact h_enter _ _ _ _ h1 h2 heq
      refine ite_fst_cases P _ _ _ (fun heq => ?_) (fun _ => ?_)
      · exact h_count _ _ _ h1 (heq ▸ h2)
      refine ite_fst_cases P _ _ _ (fun heq => ?_) (fun _ => ?_)
      · exact h_moved _ _ _ h1 (heq ▸ h2)
      exact h0

/-- Among the cases of `handle_datagram` only `CLIENTAGENT_SET_STATE` writes the state. -/
theorem handle_datagram_m_state (k : Config) (c : Client) (dg : Datagram) :
    (handle_datagram k c dg).1.m_state = c.m_state ∨
    ∃ sender dgi0 dgi, read_uint64 dg = some (sender, dgi0) ∧
      read_uint16 dgi0 = some (k.CLIENTAGENT_SET_STATE, dgi) := by
  apply handle_datagram_cases_read k c dg (fun r => r.m_state = c.m_state ∨
    ∃ sender dgi0 dgi, read_uint64 dg = some (sender, dgi0) ∧
      read_uint16 dgi0 = some (k.CLIENTAGENT_SET_STATE, dgi)) (Or.inl rfl)
  · intro _ _ dgi _ _
    refine Or.inl ?_
    unfold handle_CLIENTAGENT_EJECT
    repeat' split
    all_goals first
      | rfl
      | exact send_disconnect_m_state _ _ _ _ _
  · exact fun _ _ _ _ _ => Or.inl rfl
  · exact fun sender dgi0 dgi h1 h2 => Or.inr ⟨sender, dgi0, dgi, h1, h2⟩
  · intro sender _ dgi _ _
    refine Or.inl ?_
    unfold handle_STATESERVER_OBJECT_SET_FIELD
    repeat' split
    all_goals rfl
  · intro _ _ dgi _ _
    refine Or.inl ?_
    unfold handle_STATESERVER_OBJECT_DELETE_RAM
    repeat' split
    all_goals first
      | rfl
      | (dsimp only [network_send]; repeat' split)
    all_goals rfl
  · intro _ _ dgi _ _
    refine Or.inl ?_
    unfold handle_STATESERVER_OBJECT_ENTER_OWNER
    repeat' split
    all_goals first
      | rfl
      | (dsimp only [network_send]; repeat' split)
    all_goals rfl
  · intro _ _ dgi _ _
    refine Or.inl ?_
    unfold handle_CLIENTAGENT_SET_CLIENT_ID
    repeat' split
    all_goals rfl
  · intro _ _ dgi _ _
    refine Or.inl ?_
    unfold handle_CLIENTAGENT_SEND_DATAGRAM
    split <;> rfl
  · intro _ _ dgi _ _
    refine Or.inl ?_
    unfold handle_CLIENTAGENT_OPEN_CHANNEL
    split <;> rfl
  · intro _ _ dgi _ _
    refine Or.inl ?_
    unfold handle_CLIENTAGENT_CLOSE_CHANNEL
    split <;> rfl
  · intro _ _ dgi _ _
    refine Or.inl ?_
    unfold handle_CLIENTAGENT_ADD_POST_REMOVE
    split <;> rfl
  · exact fun _ _ _ _ _ => Or.inl rfl
  · intro _ _ msgtype dgi _ _ _
    refine Or.inl ?_
    unfold handle_STATESERVER_OBJECT_ENTER_LOCATION
    repeat' split
    all_goals first
      | rfl
      | (simp only [foldl_network_send_eq]; rfl)
  · intro _ _ dgi _ _
    refine Or.inl ?_
    unfold handle_STATESERVER_OBJECT_GET_ZONES_COUNT_RESP
    repeat' split
    all_goals first
      | rfl
      | (dsimp only; split <;> rfl)
  · intro _ _ dgi _ _
    refine Or.inl ?_
    unfold handle_STATESERVER_OBJECT_CHANGING_LOCATION
    repeat' split
    all_goals first
      | rfl
      | (dsimp only [network_send]; repeat' split)
    all_goals rfl
theorem network_datagram_m_state (k : Config) (c : Client) (dg : Datagram) :
    (network_datagram k c dg).m_state = (client_handler k c dg).1.m_state := by
  rw [network_datagram_eq]
  split
  · exact send_disconnect_m_state _ _ _ _ _
  · split
    · exact send_disconnect_m_state _ _ _ _ _
    · rfl

theorem client_handler_m_state (k : Config) (c : Client) (dg : Datagram) :
    (client_handler k c dg).1.m_state = c.m_state ∨
    (c.m_state = k.CLIENT_STATE_NEW ∧
      (client_handler k c dg).1.m_state = k.CLIENT_STATE_ANONYMOUS ∧
      ∃ r1 r2 r3, read_uint16 dg = some (k.CLIENT_HELLO, r1) ∧
        read_uint32 r1 = some (k.expected_hash, r2) ∧
        read_string r2 = some (k.expected_version, r3)) := by
  unfold client_handler
  split
  · rename_i hs
    rcases handle_pre_hello_m_state k c dg with h | ⟨h, hr⟩
    · exact Or.inl h
    · exact Or.inr ⟨hs, h, hr⟩
  split
  · exact Or.inl (handle_pre_auth_m_state k c dg)
  split
  · exact Or.inl (handle_authenticated_m_state k c dg)
  · exact Or.inl rfl

/-- C24: no client datagram authenticates the session. For every session and every client
datagram, `network_datagram` leaves `m_state` as it is, except for the transition from
NEW to ANONYMOUS on a `CLIENT_HELLO` with the expected hash and version; a session that
is not ESTABLISHED is not ESTABLISHED afterwards; while the state is NEW nothing is sent
on the MD bus and the subscriptions stay the same; and an MD message that changes the
state is a `CLIENTAGENT_SET_STATE`. -/
theorem C24_no_client_authentication (k : Config) (hk : k.client_switch_ok) (c : Client)
    (dg : Datagram) :
    ((network_datagram k c dg).m_state = c.m_state ∨
      (c.m_state = k.CLIENT_STATE_NEW ∧
        (network_datagram k c dg).m_state = k.CLIENT_STATE_ANONYMOUS ∧
        ∃ r1 r2 r3, read_uint16 dg = some (k.CLIENT_HELLO, r1) ∧
          read_uint32 r1 = some (k.expected_hash, r2) ∧
          read_string r2 = some (k.expected_version, r3))) ∧
    (c.m_state ≠ k.CLIENT_STATE_ESTABLISHED →
      (network_datagram k c dg).m_state ≠ k.CLIENT_STATE_ESTABLISHED) ∧
    (c.m_state = k.CLIENT_STATE_NEW →
      (network_datagram k c dg).md_out = c.md_out ∧
      (network_datagram k c dg).subscriptions = c.subscriptions) ∧
    (∀ md : Datagram, (handle_datagram k c md).1.m_state ≠ c.m_state →
      ∃ sender dgi0 dgi, read_uint64 md = some (sender, dgi0) ∧
        read_uint16 dgi0 = some (k.CLIENTAGENT_SET_STATE, dgi)) := by
  have h1 : (network_datagram k c dg).m_state = c.m_state ∨
      (c.m_state = k.CLIENT_STATE_NEW ∧
        (network_datagram k c dg).m_state = k.CLIENT_STATE_ANONYMOUS ∧
        ∃ r1 r2 r3, read_uint16 dg = some (k.CLIENT_HELLO, r1) ∧
          read_uint32 r1 = some (k.expected_hash, r2) ∧
          read_string r2 = some (k.expected_version, r3)) := by
    rw [network_datagram_m_state]
    exact client_handler_m_state k c dg
  refine ⟨h1, ?_, ?_, ?_⟩
  · intro hne
    obtain ⟨hp, _⟩ := hk
    simp only [List.pairwise_cons, List.mem_cons, List.mem_singleton, forall_eq_or_imp,
      forall_eq] at hp
    rcases h1 with h | ⟨_, h, _⟩
    · rw [h]
      exact hne
    · rw [h]
      exact hp.2.1.1
  · intro hs
    have hh : client_handler k c dg = handle_pre_hello k c dg := client_handler_new k c dg hs
    have hmd : (client_handler k c dg).1.md_out = c.md_out := by
      rw [hh]
      exact handle_pre_hello_md_out k c dg
    have hsub : (client_handler k c dg).1.subscriptions = c.subscriptions := by
      rw [hh]
      have := handle_pre_hello_bookkeeping k c dg
      simp only [bookkeeping, Prod.mk.injEq] at this
      exact this.2.1
    rw [network_datagram_eq]
    split
    · rw [send_disconnect_md_out, send_disconnect_subscriptions]
      exact ⟨hmd, hsub⟩
    · split
      · rw [send_disconnect_md_out, send_disconnect_subscriptions]
        exact ⟨hmd, hsub⟩
      · exact ⟨hmd, hsub⟩
  · intro md hne
    rcases handle_datagram_m_state k c md with h | h
    · exact absurd h hne
    · exact h

/-- C24 at the input of the spec: the NEW session that receives
`CLIENT_HELLO(0xDEADBEEF, "v1")` is not ESTABLISHED afterwards (it is ANONYMOUS), and the
ANONYMOUS session that sends `CLIENT_ADD_INTEREST` is not ESTABLISHED afterwards. -/
theorem C24_no_client_authentication_witness :
    (network_datagram exampleConfig (exampleClient 0)
      (add_uint16 1 ++ add_uint32 3735928559 ++ add_string [118, 49])).m_state ≠ 2 ∧
    (network_datagram exampleConfig (exampleClient 1) exampleAddInterest).m_state ≠ 2 :=
  ⟨(C24_no_client_authentication exampleConfig (by decide) (exampleClient 0)
      (add_uint16 1 ++ add_uint32 3735928559 ++ add_string [118, 49])).2.1 (by decide),
    (C24_no_client_authentication exampleConfig (by decide) (exampleClient 1)
      exampleAddInterest).2.1 (by decide)⟩

/-! ## C22: the subscribed location channels are the covered ones -/

theorem mem_map_assign_self {β : Type} (m : List (Nat × β)) (key : Nat) (v : β) :
    (key, v) ∈ map_assign m key v := by
  unfold map_assign
  split
  · rename_i hk
    obtain ⟨e, he, hke⟩ := (mem_map_keys m key).1 hk
    exact List.mem_map.2 ⟨e, he, by simp [hke]⟩
  · simp

theorem mem_map_assign_of_ne {β : Type} (m : List (Nat × β)) (key : Nat) (v : β)
    (e : Nat × β) (he : e ∈ m) (hne : e.1 ≠ key) : e ∈ map_assign m key v := by
  unfold map_assign
  split
  · exact List.mem_map.2 ⟨e, he, by simp [hne]⟩
  · exact List.mem_append_left _ he

theorem map_keys_map_assign_nodup {β : Type} (m : List (Nat × β)) (key : Nat) (v : β)
    (h : (map_keys m).Nodup) : (map_keys (map_assign m key v)).Nodup := by
  by_cases hk : key ∈ map_keys m
  · rw [map_keys_map_assign_of_mem m key v hk]
    exact h
  · unfold map_assign
    rw [if_neg hk]
    simp only [map_keys, List.map_append, List.map_cons, List.map_nil]
    exact List.Nodup.append h (List.nodup_singleton _) (by simpa [map_keys] using hk)

theorem map_keys_map_erase_nodup {β : Type} (m : List (Nat × β)) (key : Nat)
    (h : (map_keys m).Nodup) : (map_keys (map_erase m key)).Nodup := by
  unfold map_erase map_keys
  exact List.Nodup.sublist (List.Sublist.map _ (List.filter_sublist _)) h

theorem eq_singleton_of_nodup {α : Type} (l : List α) (a : α) (hn : l.Nodup)
    (hall : ∀ x ∈ l, x = a) (ha : a ∈ l) : l = [a] := by
  match l, hn, hall, ha with
  | [b], _, hall, _ => rw [hall b (by simp)]
  | b :: b2 :: t, hn, hall, _ =>
    have h1 : b = a := hall b (by simp)
    have h2 : b2 = a := hall b2 (by simp)
    rw [h1, h2] at hn
    simp at hn

/-- When the interest stored under `id` covers a location and is not the only interest
looked up for it, an interest stored under another id covers the location as well. -/
theorem exists_other_covering (c : Client) (id : Nat) (i : Interest) (z : Nat)
    (hn : (map_keys c.m_interests).Nodup) (hmem : (id, i) ∈ c.m_interests) (hz : z ∈ i.zones)
    (hl : lookup_interests c i.parent z ≠ [i]) :
    ∃ e ∈ c.m_interests, e.1 ≠ id ∧ e.2.parent = i.parent ∧ z ∈ e.2.zones := by
  by_contra hno
  simp only [not_exists, not_and] at hno
  apply hl
  have hnd : c.m_interests.Nodup := by
    unfold map_keys at hn
    exact List.Nodup.of_map _ hn
  have hfilter : c.m_interests.filter (fun e => decide (i.parent = e.2.parent ∧ z ∈ e.2.zones))
      = [(id, i)] := by
    apply eq_singleton_of_nodup _ _ (List.Nodup.filter _ hnd)
    · intro e he
      simp only [List.mem_filter, decide_eq_true_eq] at he
      have hkey : e.1 = id := by
        by_contra hne
        exact hno e he.1 hne he.2.1.symm he.2.2
      exact eq_of_mem_of_key_eq _ hn e (id, i) he.1 hmem hkey
    · exact List.mem_filter.2 ⟨hmem, by simp [hz]⟩
  unfold lookup_interests
  rw [hfilter]
  rfl

theorem covered_of_interests (c d : Client) (ch : Nat) (h : d.m_interests = c.m_interests)
    (hc : covered c ch) : covered d ch := by
  unfold covered at hc ⊢
  rw [h]
  exact hc

theorem SubscriptionInv_of_bookkeeping (base : List Nat) (c d : Client)
    (hb : bookkeeping d = bookkeeping c) (h : SubscriptionInv base c) :
    SubscriptionInv base d := by
  simp only [bookkeeping, Prod.mk.injEq] at hb
  unfold SubscriptionInv
  rw [hb.1, hb.2.1]
  refine ⟨h.1, fun ch hch => ?_⟩
  rcases h.2 ch hch with hbase | hcov
  · exact Or.inl hbase
  · exact Or.inr (covered_of_interests c d ch hb.1 hcov)

theorem remove_interest_SubscriptionInv (k : Config) (base : List Nat) (c : Client) (id : Nat)
    (i : Interest) (context : Nat) (hf : map_find c.m_interests id = some i)
    (hI : InterestInv c) (hS : SubscriptionInv base c) :
    SubscriptionInv base (remove_interest k c i context) := by
  have hmem := map_find_mem _ _ _ hf
  have hid : i.id = id := (hI (id, i) hmem).1
  rw [remove_interest_eq]
  refine ⟨map_keys_map_erase_nodup _ _ hS.1, ?_⟩
  intro ch hch
  simp only [List.mem_filter, decide_eq_true_eq, List.mem_map, not_exists, not_and] at hch
  obtain ⟨hsub, hnk⟩ := hch
  rcases hS.2 ch hsub with hbase | ⟨e, he, z, hz, hce⟩
  · exact Or.inl hbase
  · refine Or.inr ?_
    by_cases hkey : e.1 = id
    · have hee : e = (id, i) := eq_of_mem_of_key_eq _ hS.1 e (id, i) he hmem hkey
      subst hee
      have hnot : z ∉ remove_interest_killed_zones c i := fun hk => hnk z hk hce.symm
      rw [mem_remove_interest_killed_zones c id i z hf] at hnot
      have hl : lookup_interests c i.parent z ≠ [i] := fun h => hnot ⟨hz, h⟩
      obtain ⟨e2, he2, hne2, hp2, hz2⟩ := exists_other_covering c id i z hS.1 hmem hz hl
      refine ⟨e2, ?_, z, hz2, ?_⟩
      · simp only [map_erase, List.mem_filter, decide_eq_true_eq]
        exact ⟨he2, by rw [hid]; exact hne2⟩
      · rw [hce, hp2]
    · refine ⟨e, ?_, z, hz, hce⟩
      simp only [map_erase, List.mem_filter, decide_eq_true_eq]
      exact ⟨he, by rw [hid]; exact hkey⟩
/-- After the `close_zones` of an alteration every channel that is still subscribed is in
`base` or is covered by the interests as they are once the new interest is stored. -/
theorem add_interest_closed_covered (k : Config) (base : List Nat) (c : Client) (i : Interest)
    (hS : SubscriptionInv base c) (ch : Nat)
    (hch : ch ∈ (add_interest_closed k c i).subscriptions) :
    ch ∈ base ∨ ∃ e ∈ map_assign c.m_interests i.id i, ∃ z ∈ e.2.zones,
      ch = LOCATION2CHANNEL e.2.parent z := by
  have hkeep : ∀ e ∈ c.m_interests, e.1 ≠ i.id → ∀ z ∈ e.2.zones,
      ch = LOCATION2CHANNEL e.2.parent z →
      ∃ e ∈ map_assign c.m_interests i.id i, ∃ z ∈ e.2.zones,
        ch = LOCATION2CHANNEL e.2.parent z :=
    fun e he hne z hz hce => ⟨e, mem_map_assign_of_ne _ _ _ e he hne, z, hz, hce⟩
  unfold add_interest_closed at hch
  cases hf : map_find c.m_interests i.id with
  | none =>
    simp only [hf] at hch
    rcases hS.2 ch hch with hbase | ⟨e, he, z, hz, hce⟩
    · exact Or.inl hbase
    · refine Or.inr (hkeep e he ?_ z hz hce)
      intro hkey
      have := (map_find_eq_none c.m_interests i.id).1 hf
      exact this ((mem_map_keys _ _).2 ⟨e, he, hkey⟩)
  | some old =>
    simp only [hf] at hch
    rw [close_zones_eq] at hch
    simp only [List.mem_filter, decide_eq_true_eq, List.mem_map, not_exists, not_and] at hch
    obtain ⟨hsub, hnk⟩ := hch
    have hmem := map_find_mem _ _ _ hf
    rcases hS.2 ch hsub with hbase | ⟨e, he, z, hz, hce⟩
    · exact Or.inl hbase
    · refine Or.inr ?_
      by_cases hkey : e.1 = i.id
      · have hee : e = (i.id, old) := eq_of_mem_of_key_eq _ hS.1 e (i.id, old) he hmem hkey
        subst hee
        have hnot : z ∉ add_interest_killed_zones c i old := fun hk => hnk z hk hce.symm
        rw [mem_add_interest_killed_zones c i old z hf] at hnot
        by_cases hl : lookup_interests c old.parent z = [old]
        · have hnew : i.parent = old.parent ∧ z ∈ i.zones := by
            by_contra hcon
            apply hnot
            refine ⟨hz, hl, ?_⟩
            by_cases hp : i.parent = old.parent
            · exact Or.inr (fun hzi => hcon ⟨hp, hzi⟩)
            · exact Or.inl hp
          exact ⟨(i.id, i), mem_map_assign_self _ _ _, z, hnew.2, by rw [hce, hnew.1]⟩
        · obtain ⟨e2, he2, hne2, hp2, hz2⟩ :=
            exists_other_covering c i.id old z hS.1 hmem hz hl
          exact hkeep e2 he2 hne2 z hz2 (by rw [hce, hp2])
      · exact hkeep e he hkey z hz hce

theorem add_interest_SubscriptionInv (k : Config) (base : List Nat) (c : Client) (i : Interest)
    (context : Nat) (hS : SubscriptionInv base c) :
    SubscriptionInv base (add_interest k c i context) := by
  have hint : (add_interest k c i context).m_interests = map_assign c.m_interests i.id i := by
    rw [add_interest_closed_eq]
    split <;> rfl
  refine ⟨by rw [hint]; exact map_keys_map_assign_nodup _ _ _ hS.1, ?_⟩
  intro ch hch
  unfold covered
  rw [hint]
  rw [add_interest_closed_eq] at hch
  split at hch
  · exact add_interest_closed_covered k base c i hS ch hch
  · simp only [mem_foldl_set_insert, List.mem_map] at hch
    rcases hch with hch | ⟨z, hz, rfl⟩
    · exact add_interest_closed_covered k base c i hS ch hch
    · exact Or.inr ⟨(i.id, i), mem_map_assign_self _ _ _, z,
        ((mem_add_interest_new_zones c i z).1 hz).1, rfl⟩

theorem handle_client_add_interest_SubscriptionInv (k : Config) (base : List Nat) (c : Client)
    (dgi : DatagramIterator) (multiple : Bool) (hS : SubscriptionInv base c) :
    SubscriptionInv base (handle_client_add_interest k c dgi multiple).1 := by
  unfold handle_client_add_interest
  repeat' split
  all_goals first
    | exact hS
    | exact add_interest_SubscriptionInv k base c _ _ hS

theorem send_disconnect_SubscriptionInv (k : Config) (base : List Nat) (c : Client)
    (reason : Nat) (text : List Nat) (security : Bool) (hS : SubscriptionInv base c) :
    SubscriptionInv base (send_disconnect k c reason text security) :=
  SubscriptionInv_of_bookkeeping base c _ (by simp [bookkeeping]) hS

theorem handle_client_remove_interest_SubscriptionInv (k : Config) (base : List Nat)
    (c : Client) (dgi : DatagramIterator) (hI : InterestInv c) (hS : SubscriptionInv base c) :
    SubscriptionInv base (handle_client_remove_interest k c dgi).1 := by
  unfold handle_client_remove_interest
  cases h1 : read_uint32 dgi with
  | none => exact hS
  | some p1 =>
    obtain ⟨context, dgi1⟩ := p1
    dsimp only
    cases h2 : read_uint16 dgi1 with
    | none => exact hS
    | some p2 =>
      obtain ⟨id, dgi2⟩ := p2
      dsimp only
      cases hf : map_find c.m_interests id with
      | none => exact send_disconnect_SubscriptionInv k base c _ _ _ hS
      | some i => exact remove_interest_SubscriptionInv k base c id i context hf hI hS

theorem network_datagram_SubscriptionInv (k : Config) (base : List Nat) (c : Client)
    (dg : Datagram) (hI : InterestInv c) (hS : SubscriptionInv base c) :
    SubscriptionInv base (network_datagram k c dg) := by
  have hr : SubscriptionInv base (client_handler k c dg).1 := by
    unfold client_handler
    split_ifs
    · exact SubscriptionInv_of_bookkeeping base c _ (handle_pre_hello_bookkeeping k c dg) hS
    · unfold handle_pre_auth
      repeat' split
      · exact hS
      · exact SubscriptionInv_of_bookkeeping base c _
          (handle_client_object_update_field_bookkeeping k c _) hS
      · exact send_disconnect_SubscriptionInv k base c _ _ _ hS
    · unfold handle_authenticated
      repeat' split
      · exact hS
      · exact SubscriptionInv_of_bookkeeping base c _
          (handle_client_object_update_field_bookkeeping k c _) hS
      · exact SubscriptionInv_of_bookkeeping base c _
          (handle_client_object_location_bookkeeping k c _) hS
      · exact handle_client_add_interest_SubscriptionInv k base c _ _ hS
      · exact handle_client_add_interest_SubscriptionInv k base c _ _ hS
      · exact handle_client_remove_interest_SubscriptionInv k base c _ hI hS
      · exact send_disconnect_SubscriptionInv k base c _ _ _ hS
    · exact hS
  rw [network_datagram_eq]
  split
  · exact send_disconnect_SubscriptionInv k base _ _ _ _ hr
  · split
    · exact send_disconnect_SubscriptionInv k base _ _ _ _ hr
    · exact hr

/-- Both invariants hold after every sequence of client datagrams. -/
theorem network_datagrams_inv (k : Config) (base : List Nat) (dgs : List Datagram)
    (c : Client) (hI : InterestInv c) (hS : SubscriptionInv base c) :
    InterestInv (network_datagrams k c dgs) ∧
      SubscriptionInv base (network_datagrams k c dgs) := by
  induction dgs generalizing c with
  | nil => exact ⟨hI, hS⟩
  | cons dg rest ih =>
    simp only [network_datagrams, List.foldl_cons]
    exact ih (network_datagram k c dg) (network_datagram_InterestInv k c dg hI)
      (network_datagram_SubscriptionInv k base c dg hI hS)
theorem add_interest_subscription_kept (k : Config) (c : Client) (i : Interest)
    (context ch : Nat) (h : ch ∈ c.subscriptions) :
    ch ∈ (add_interest k c i context).subscriptions ∨ covered c ch := by
  by_cases hk : ∃ old, map_find c.m_interests i.id = some old ∧
      ∃ z ∈ add_interest_killed_zones c i old, ch = LOCATION2CHANNEL old.parent z
  · obtain ⟨old, hf, z, hz, hce⟩ := hk
    exact Or.inr ⟨(i.id, old), map_find_mem _ _ _ hf, z, List.mem_of_mem_filter hz, hce⟩
  · refine Or.inl (add_interest_subscriptions_of_closed k c i context ch
      (add_interest_closed_subscriptions k c i ch h ?_))
    intro old hf z hz hce
    exact hk ⟨old, hf, z, hz, hce⟩

/-- A client datagram unsubscribes a channel only if it is the location channel of a zone
of a stored interest. -/
theorem network_datagram_subscription_kept (k : Config) (c : Client) (dg : Datagram) (ch : Nat)
    (h : ch ∈ c.subscriptions) :
    ch ∈ (network_datagram k c dg).subscriptions ∨ covered c ch := by
  have hsame : ∀ d : Client, bookkeeping d = bookkeeping c →
      ch ∈ d.subscriptions ∨ covered c ch := by
    intro d hb
    simp only [bookkeeping, Prod.mk.injEq] at hb
    rw [hb.2.1]
    exact Or.inl h
  have hadd : ∀ dgi multiple,
      ch ∈ (handle_client_add_interest k c dgi multiple).1.subscriptions ∨ covered c ch := by
    intro dgi multiple
    unfold handle_client_add_interest
    repeat' split
    all_goals first
      | exact Or.inl h
      | exact add_interest_subscription_kept k c _ _ ch h
  have hrem : ∀ dgi,
      ch ∈ (handle_client_remove_interest k c dgi).1.subscriptions ∨ covered c ch := by
    intro dgi
    unfold handle_client_remove_interest
    cases h1 : read_uint32 dgi with
    | none => exact Or.inl h
    | some p1 =>
      obtain ⟨context, dgi1⟩ := p1
      dsimp only
      cases h2 : read_uint16 dgi1 with
      | none => exact Or.inl h
      | some p2 =>
        obtain ⟨id, dgi2⟩ := p2
        dsimp only
        cases hf : map_find c.m_interests id with
        | none => exact hsame _ (by simp [bookkeeping])
        | some i =>
          dsimp only
          rw [remove_interest_eq]
          by_cases hk : ∃ z ∈ remove_interest_killed_zones c i,
              ch = LOCATION2CHANNEL i.parent z
          · obtain ⟨z, hz, hce⟩ := hk
            exact Or.inr ⟨(id, i), map_find_mem _ _ _ hf, z, List.mem_of_mem_filter hz, hce⟩
          · refine Or.inl ?_
            simp only [List.mem_filter, decide_eq_true_eq, List.mem_map, not_exists, not_and]
            exact ⟨h, fun z hz hce => hk ⟨z, hz, hce.symm⟩⟩
  have hr : ch ∈ (client_handler k c dg).1.subscriptions ∨ covered c ch := by
    unfold client_handler
    split_ifs
    · exact hsame _ (handle_pre_hello_bookkeeping k c dg)
    · unfold handle_pre_auth
      repeat' split
      · exact Or.inl h
      · exact hsame _ (handle_client_object_update_field_bookkeeping k c _)
      · exact hsame _ (by simp [bookkeeping])
    · unfold handle_authenticated
      repeat' split
      · exact Or.inl h
      · exact hsame _ (handle_client_object_update_field_bookkeeping k c _)
      · exact hsame _ (handle_client_object_location_bookkeeping k c _)
      · exact hadd _ _
      · exact hadd _ _
      · exact hrem _
      · exact hsame _ (by simp [bookkeeping])
    · exact Or.inl h
  rw [network_datagram_eq]
  split
  · rw [send_disconnect_subscriptions]
    exact hr
  · split
    · rw [send_disconnect_subscriptions]
      exact hr
    · exact hr

/-- A channel that was subscribed at the start is subscribed after a sequence of client
datagrams, unless at some point of the sequence it was the location channel of a zone of
a stored interest. -/
theorem network_datagrams_subscription_kept (k : Config) (dgs : List Datagram) (c : Client)
    (ch : Nat) (h : ch ∈ c.subscriptions) :
    ch ∈ (network_datagrams k c dgs).subscriptions ∨
      ∃ n, covered (network_datagrams k c (dgs.take n)) ch := by
  induction dgs generalizing c with
  | nil => exact Or.inl h
  | cons dg rest ih =>
    rcases network_datagram_subscription_kept k c dg ch h with h1 | h1
    · rcases ih (network_datagram k c dg) h1 with h2 | ⟨n, h2⟩
      · exact Or.inl h2
      · exact Or.inr ⟨n + 1, h2⟩
    · exact Or.inr ⟨0, h1⟩
/-- C22: for every session that starts with no interests, in particular an ESTABLISHED one
whose subscriptions are its identity and broadcast channels, and every sequence of client
datagrams, in particular of `CLIENT_ADD_INTEREST`, `CLIENT_ADD_INTEREST_MULTIPLE` and
`CLIENT_REMOVE_INTEREST`: after the sequence (hence after each datagram) the location
channel of every zone of every stored interest is subscribed, every subscribed channel
was subscribed at the start or is such a location channel, so a channel that was not
subscribed at the start is subscribed if and only if a stored interest covers it; and a
channel subscribed at the start is still subscribed unless it was itself the location
channel of a zone of a stored interest at some point of the sequence. -/
theorem C22_location_subscriptions (k : Config) (c : Client) (dgs : List Datagram)
    (hint : c.m_interests = []) :
    (∀ ch, covered (network_datagrams k c dgs) ch →
      ch ∈ (network_datagrams k c dgs).subscriptions) ∧
    (∀ ch ∈ (network_datagrams k c dgs).subscriptions,
      ch ∈ c.subscriptions ∨ covered (network_datagrams k c dgs) ch) ∧
    (∀ ch, ch ∉ c.subscriptions →
      (ch ∈ (network_datagrams k c dgs).subscriptions ↔
        covered (network_datagrams k c dgs) ch)) ∧
    (∀ ch ∈ c.subscriptions, ch ∈ (network_datagrams k c dgs).subscriptions ∨
      ∃ n, covered (network_datagrams k c (dgs.take n)) ch) := by
  have hI : InterestInv c := by
    intro e he
    rw [hint] at he
    simp at he
  have hS : SubscriptionInv c.subscriptions c := by
    refine ⟨by rw [hint]; simp [map_keys], fun ch hch => Or.inl hch⟩
  obtain ⟨hI2, hS2⟩ := network_datagrams_inv k c.subscriptions dgs c hI hS
  have h1 : ∀ ch, covered (network_datagrams k c dgs) ch →
      ch ∈ (network_datagrams k c dgs).subscriptions := by
    rintro ch ⟨e, he, z, hz, rfl⟩
    exact ((hI2 e he).2 z hz).2
  refine ⟨h1, hS2.2, ?_, ?_⟩
  · intro ch hch
    constructor
    · intro hsub
      rcases hS2.2 ch hsub with h | h
      · exact absurd h hch
      · exact h
    · exact h1 ch
  · exact fun ch hch => network_datagrams_subscription_kept k dgs c ch hch

/-- C22 at a concrete input: after the datagrams `exampleInterestDatagrams` the session
`exampleEstablished` holds interest 1 on zone 9002 of parent 600 only; the location
channel of `(600, 9002)` is subscribed and those of `(500, 9000)`, `(500, 9001)` and
`(500, 9002)`, which were opened on the way, are not. -/
theorem C22_location_subscriptions_witness :
    (LOCATION2CHANNEL 600 9002 ∈
        (network_datagrams exampleConfig exampleEstablished
          exampleInterestDatagrams).subscriptions ↔
      covered (network_datagrams exampleConfig exampleEstablished exampleInterestDatagrams)
        (LOCATION2CHANNEL 600 9002)) ∧
    (network_datagrams exampleConfig exampleEstablished exampleInterestDatagrams).subscriptions
      = [1000, 4014, LOCATION2CHANNEL 600 9002] ∧
    (network_datagrams exampleConfig exampleEstablished exampleInterestDatagrams).m_interests
      = [(1, ⟨1, 600, [9002]⟩)] :=
  ⟨(C22_location_subscriptions exampleConfig exampleEstablished exampleInterestDatagrams
      (by decide)).2.2.1 (LOCATION2CHANNEL 600 9002) (by decide),
    by decide, by decide⟩

/-! ## C23: the allocated channels of the existing sessions -/

/-- The allocated channel of a constructed session is what `alloc_channel` returned (0 for
a rejected session), and the tracker is the one `alloc_channel` left. -/
theorem construct_allocated (k : Config) (ct : ChannelTracker) (remote local_addr : List Nat) :
    (Client.construct k ct remote local_addr).1.m_allocated_channel = ct.alloc_channel.1 ∧
    (Client.construct k ct remote local_addr).2 = ct.alloc_channel.2 := by
  unfold Client.construct
  dsimp only
  split_ifs with h
  · refine ⟨?_, rfl⟩
    unfold send_disconnect
    dsimp only
    rw [h]
    rfl
  · exact ⟨rfl, rfl⟩

/-- Removing the element at a position gives a permutation of the rest. -/
theorem perm_eraseIdx {α : Type} (l : List α) :
    ∀ (i : Nat) (c : α), l[i]? = some c → l.Perm (c :: l.eraseIdx i) := by
  induction l with
  | nil => intro i c h; simp at h
  | cons x t ih =>
    intro i c h
    cases i with
    | zero =>
      simp at h
      subst h
      simp
    | succ i =>
      simp at h
      simp only [List.eraseIdx_cons_succ]
      exact (List.Perm.cons x (ih i c h)).trans (List.Perm.swap c x _)

/-- The invariant only depends on the counter, the bound and the held channels up to
their order. -/
theorem ChannelInv_of_perm (min max : Nat) (a b : ClientAgent) (h : ChannelInv min max a)
    (hmax : b.m_ct.m_max = a.m_ct.m_max) (hnext : b.m_ct.m_next = a.m_ct.m_next)
    (hperm : (held_channels b).Perm (held_channels a)) : ChannelInv min max b := by
  obtain ⟨h1, h2, h3, h4, h5⟩ := h
  refine ⟨hmax.trans h1, hnext ▸ h2, hnext ▸ h3, (hperm.nodup_iff).2 h4, ?_⟩
  intro ch hch
  rw [hnext]
  exact h5 ch ((hperm.mem_iff).1 hch)

/-- Destroying a session keeps the invariant: its channel moves to the free list. -/
theorem network_disconnect_ChannelInv (min max : Nat) (a : ClientAgent) (index : Nat)
    (h : ChannelInv min max a) : ChannelInv min max (a.network_disconnect index) := by
  unfold ClientAgent.network_disconnect
  cases hc : a.clients[index]? with
  | none => exact h
  | some c =>
    dsimp only
    refine ChannelInv_of_perm min max a _ h rfl rfl ?_
    unfold held_channels
    apply List.Perm.filter
    simp only [Client.destruct, ChannelTracker.free_channel, List.append_assoc,
      List.singleton_append]
    apply List.Perm.append_left
    exact ((perm_eraseIdx a.clients index c hc).map (fun c => c.m_allocated_channel)).symm

/-- Constructing a session keeps the invariant: the channel comes from the counter, which
is above every held channel, or from the free list, or is 0. -/
theorem handle_accept_ChannelInv (k : Config) (min max : Nat) (a : ClientAgent)
    (remote local_addr : List Nat) (hmin : 1 ≤ min) (hmax : max < 18446744073709551615)
    (h : ChannelInv min max a) : ChannelInv min max (a.handle_accept k remote local_addr) := by
  have hheld : held_channels (a.handle_accept k remote local_addr) =
      (a.m_ct.alloc_channel.2.m_unused_channels ++
        (a.clients.map (fun c => c.m_allocated_channel) ++ [a.m_ct.alloc_channel.1])).filter
          (fun ch => ch ≠ 0) := by
    unfold held_channels ClientAgent.handle_accept ClientFactory.create
    simp only [List.map_append, List.map_cons, List.map_nil,
      (construct_allocated k a.m_ct remote local_addr).1,
      (construct_allocated k a.m_ct remote local_addr).2]
  have hct : (a.handle_accept k remote local_addr).m_ct = a.m_ct.alloc_channel.2 :=
    (construct_allocated k a.m_ct remote local_addr).2
  by_cases hle : a.m_ct.m_next ≤ a.m_ct.m_max
  · obtain ⟨h1, h2, h3, h4, h5⟩ := h
    have hmod : (a.m_ct.m_next + 1) % 18446744073709551616 = a.m_ct.m_next + 1 :=
      Nat.mod_eq_of_lt (by omega)
    rw [alloc_channel_of_le a.m_ct hle, hmod] at hheld hct
    have hne : a.m_ct.m_next ≠ 0 := by omega
    have hheld2 : held_channels (a.handle_accept k remote local_addr) =
        held_channels a ++ [a.m_ct.m_next] := by
      rw [hheld]
      unfold held_channels
      simp [List.filter_append, hne]
    refine ⟨by rw [hct]; exact h1, by rw [hct]; dsimp only; omega,
      by rw [hct]; dsimp only; omega, ?_, ?_⟩
    · rw [hheld2]
      refine List.Nodup.append h4 (List.nodup_singleton _) ?_
      intro ch hch hch2
      have := h5 ch hch
      simp at hch2
      omega
    · intro ch hch
      rw [hheld2] at hch
      rw [hct]
      dsimp only
      rcases List.mem_append.1 hch with hch | hch
      · have := h5 ch hch
        omega
      · simp at hch
        omega
  · have hgt : a.m_ct.m_max < a.m_ct.m_next := by omega
    cases hu : a.m_ct.m_unused_channels with
    | nil =>
      have he := (alloc_channel_of_gt a.m_ct hgt).2 hu
      rw [he] at hheld hct
      refine ChannelInv_of_perm min max a _ h (by rw [hct]) (by rw [hct]) ?_
      rw [hheld]
      unfold held_channels
      simp [List.filter_append]
    | cons ch rest =>
      have he := (alloc_channel_of_gt a.m_ct hgt).1 ch rest hu
      rw [he] at hheld hct
      refine ChannelInv_of_perm min max a _ h (by rw [hct]) (by rw [hct]) ?_
      rw [hheld]
      unfold held_channels
      apply List.Perm.filter
      rw [hu]
      dsimp only
      rw [← List.append_assoc]
      exact List.perm_append_singleton ch _

/-- The invariant holds after every history of constructions and destructions. -/
theorem history_ChannelInv (k : Config) (min max : Nat) (hmin : 1 ≤ min)
    (hmax : max < 18446744073709551615) (calls : List AgentCall) :
    ∀ a : ClientAgent, ChannelInv min max a → ChannelInv min max (a.history k calls) := by
  induction calls with
  | nil => intro a h; exact h
  | cons x rest ih =>
    intro a h
    unfold ClientAgent.history
    rw [List.foldl_cons]
    apply ih
    cases x with
    | accept remote local_addr => exact handle_accept_ChannelInv k min max a _ _ hmin hmax h
    | disconnect index => exact network_disconnect_ChannelInv min max a index h

/-- A role that was just constructed satisfies the invariant. -/
theorem construct_ChannelInv (min max : Nat) (h : min ≤ max) :
    ChannelInv min max (ClientAgent.construct min max) := by
  refine ⟨rfl, Nat.le_refl _, ?_, ?_, ?_⟩
  · show min ≤ max + 1
    omega
  · simp [held_channels, ClientAgent.construct, ChannelTracker.mk_range]
  · simp [held_channels, ClientAgent.construct, ChannelTracker.mk_range]

/-- When the non-zero allocated channels of a list of sessions are pairwise different,
two sessions of the list with the same allocated channel have the channel 0. -/
theorem allocated_pairwise (l : List Client)
    (h : ((l.map (fun c => c.m_allocated_channel)).filter (fun ch => ch ≠ 0)).Nodup) :
    l.Pairwise (fun c d => c.m_allocated_channel = d.m_allocated_channel →
      c.m_allocated_channel = 0) := by
  induction l with
  | nil => exact List.Pairwise.nil
  | cons c t ih =>
    rw [List.pairwise_cons]
    by_cases hc : c.m_allocated_channel = 0
    · refine ⟨fun d _ _ => hc, ih ?_⟩
      simpa [List.filter_cons, hc] using h
    · have h2 : (c.m_allocated_channel ::
          (t.map (fun c => c.m_allocated_channel)).filter (fun ch => ch ≠ 0)).Nodup := by
        simpa [List.filter_cons, hc] using h
      rw [List.nodup_cons] at h2
      refine ⟨fun d hd he => ?_, ih h2.2⟩
      exfalso
      apply h2.1
      rw [List.mem_filter]
      refine ⟨List.mem_map.2 ⟨d, hd, he.symm⟩, ?_⟩
      simpa using hc

/-- C23: for every allocator configured with 1 ≤ min ≤ max < 2^64 - 1 and every history
of constructions and destructions of sessions (a destruction hands the allocated channel
of the session, which is 0 for a session rejected at construction, to `free_channel` once
and the session is gone), two sessions that exist at the same time and have the same
allocated channel have the allocated channel 0, and every non-zero allocated channel of
an existing session lies in `[min, max]`. -/
theorem C23_allocated_channels_distinct (k : Config) (min max : Nat) (calls : List AgentCall)
    (h1 : 1 ≤ min) (h2 : min ≤ max) (h3 : max < 18446744073709551615) :
    (∀ (i j : Nat) (c d : Client), i ≠ j →
      ((ClientAgent.construct min max).history k calls).clients[i]? = some c →
      ((ClientAgent.construct min max).history k calls).clients[j]? = some d →
      c.m_allocated_channel = d.m_allocated_channel → c.m_allocated_channel = 0) ∧
    (∀ c ∈ ((ClientAgent.construct min max).history k calls).clients,
      c.m_allocated_channel ≠ 0 → min ≤ c.m_allocated_channel ∧ c.m_allocated_channel ≤ max) := by
  obtain ⟨_, _, hn, hnd, hr⟩ :=
    history_ChannelInv k min max h1 h3 calls _ (construct_ChannelInv min max h2)
  generalize (ClientAgent.construct min max).history k calls = a at hn hnd hr
  unfold held_channels at hnd hr
  constructor
  · rw [List.filter_append] at hnd
    have hp := allocated_pairwise a.clients (List.Nodup.of_append_right hnd)
    rw [List.pairwise_iff_getElem] at hp
    intro i j c d hij hi hj he
    obtain ⟨hi1, hi2⟩ := List.getElem?_eq_some.1 hi
    obtain ⟨hj1, hj2⟩ := List.getElem?_eq_some.1 hj
    rcases Nat.lt_or_gt_of_ne hij with hlt | hlt
    · have := hp i j hi1 hj1 hlt
      rw [hi2, hj2] at this
      exact this he
    · have := hp j i hj1 hi1 hlt
      rw [hi2, hj2] at this
      rw [he]
      exact this he.symm
  · intro c hc hne
    have := hr c.m_allocated_channel (by
      rw [List.mem_filter]
      refine ⟨List.mem_append_right _ (List.mem_map.2 ⟨c, hc, rfl⟩), ?_⟩
      simpa using hne)
    omega

/-- C23 at a concrete input: after `exampleHistory` on the range `[1, 2]` four sessions
exist, with the allocated channels 2, 0, 1 and 0; the sessions at the positions 0 and 2
have different channels, the two rejected ones share the channel 0. -/
theorem C23_allocated_channels_distinct_witness :
    (((ClientAgent.construct 1 2).history exampleConfig exampleHistory).clients.map
      (fun c => c.m_allocated_channel) = [2, 0, 1, 0]) ∧
    (∀ (i j : Nat) (c d : Client), i ≠ j →
      ((ClientAgent.construct 1 2).history exampleConfig exampleHistory).clients[i]? = some c →
      ((ClientAgent.construct 1 2).history exampleConfig exampleHistory).clients[j]? = some d →
      c.m_allocated_channel = d.m_allocated_channel → c.m_allocated_channel = 0) ∧
    (∀ c ∈ ((ClientAgent.construct 1 2).history exampleConfig exampleHistory).clients,
      c.m_allocated_channel ≠ 0 → 1 ≤ c.m_allocated_channel ∧ c.m_allocated_channel ≤ 2) :=
  ⟨by decide,
    C23_allocated_channels_distinct exampleConfig 1 2 exampleHistory (by decide) (by decide)
      (by decide)⟩

/-! ## C21: capacity and the reuse of freed channels -/

/-- A session constructed when `alloc_channel` returns 0 is ejected with the reason
GENERIC and the text "Client capacity reached"; it has no channel and no subscription and
has sent nothing on the bus. -/
theorem construct_of_zero (k : Config) (ct : ChannelTracker) (remote local_addr : List Nat)
    (h : ct.alloc_channel.1 = 0) :
    (Client.construct k ct remote local_addr).1.m_channel = 0 ∧
    (Client.construct k ct remote local_addr).1.m_allocated_channel = 0 ∧
    (Client.construct k ct remote local_addr).1.connected = false ∧
    (Client.construct k ct remote local_addr).1.subscriptions = [] ∧
    (Client.construct k ct remote local_addr).1.md_out = [] ∧
    (Client.construct k ct remote local_addr).1.net_out =
      [add_uint16 k.CLIENT_EJECT ++ add_uint16 k.CLIENT_DISCONNECT_GENERIC ++
        add_string (string_bytes "Client capacity reached")] := by
  unfold Client.construct
  dsimp only
  rw [if_pos h, h]
  exact ⟨rfl, rfl, rfl, rfl, rfl, rfl⟩

/-- A session constructed when `alloc_channel` returns a channel other than 0 has it as
its identity channel and as its allocated channel, is connected, has received nothing,
and is subscribed to that channel and to the broadcast channel. -/
theorem construct_of_ne_zero (k : Config) (ct : ChannelTracker) (remote local_addr : List Nat)
    (h : ct.alloc_channel.1 ≠ 0) :
    (Client.construct k ct remote local_addr).1.m_channel = ct.alloc_channel.1 ∧
    (Client.construct k ct remote local_addr).1.m_allocated_channel = ct.alloc_channel.1 ∧
    (Client.construct k ct remote local_addr).1.connected = true ∧
    (Client.construct k ct remote local_addr).1.subscriptions =
      set_insert [ct.alloc_channel.1] k.BCHAN_CLIENTS ∧
    (Client.construct k ct remote local_addr).1.net_out = [] := by
  unfold Client.construct
  dsimp only
  rw [if_neg h]
  exact ⟨rfl, rfl, rfl, rfl, rfl⟩

/-- The counter of the tracker of a role counts the sessions constructed until it is one
above the maximum, and stays there. -/
theorem history_m_next (k : Config) (max : Nat) (hmax : max < 18446744073709551615)
    (calls : List AgentCall) :
    ∀ a : ClientAgent, a.m_ct.m_max = max → a.m_ct.m_next ≤ max + 1 →
      (a.history k calls).m_ct.m_max = max ∧
      (a.history k calls).m_ct.m_next = Nat.min (a.m_ct.m_next + accept_count calls) (max + 1) := by
  induction calls with
  | nil =>
    intro a h1 h2
    refine ⟨h1, ?_⟩
    show a.m_ct.m_next = Nat.min (a.m_ct.m_next + 0) (max + 1)
    rw [Nat.add_zero]
    exact (Nat.min_eq_left h2).symm
  | cons x rest ih =>
    intro a h1 h2
    unfold ClientAgent.history
    rw [List.foldl_cons]
    cases x with
    | accept remote local_addr =>
      have hct : (a.handle_accept k remote local_addr).m_ct = a.m_ct.alloc_channel.2 :=
        (construct_allocated k a.m_ct remote local_addr).2
      by_cases hle : a.m_ct.m_next ≤ a.m_ct.m_max
      · have hmod : (a.m_ct.m_next + 1) % 18446744073709551616 = a.m_ct.m_next + 1 :=
          Nat.mod_eq_of_lt (by omega)
        rw [alloc_channel_of_le a.m_ct hle, hmod] at hct
        have hn : (a.handle_accept k remote local_addr).m_ct.m_next = a.m_ct.m_next + 1 := by
          rw [hct]
        have hm : (a.handle_accept k remote local_addr).m_ct.m_max = max := by
          rw [hct]; exact h1
        have := ih (a.handle_accept k remote local_addr) hm (by omega)
        refine ⟨this.1, ?_⟩
        have h3 := this.2
        unfold ClientAgent.history at h3
        rw [show ClientAgent.step k a (AgentCall.accept remote local_addr) =
          a.handle_accept k remote local_addr from rfl, h3, hn]
        simp only [accept_count]
        congr 1
        omega
      · have hgt : a.m_ct.m_max < a.m_ct.m_next := by omega
        have hnm : a.m_ct.alloc_channel.2.m_next = a.m_ct.m_next ∧
            a.m_ct.alloc_channel.2.m_max = a.m_ct.m_max := by
          cases hu : a.m_ct.m_unused_channels with
          | nil => rw [(alloc_channel_of_gt a.m_ct hgt).2 hu]; exact ⟨rfl, rfl⟩
          | cons ch r => rw [(alloc_channel_of_gt a.m_ct hgt).1 ch r hu]; exact ⟨rfl, rfl⟩
        have hn : (a.handle_accept k remote local_addr).m_ct.m_next = a.m_ct.m_next := by
          rw [hct]; exact hnm.1
        have hm : (a.handle_accept k remote local_addr).m_ct.m_max = max := by
          rw [hct, hnm.2]; exact h1
        have := ih (a.handle_accept k remote local_addr) hm (by omega)
        refine ⟨this.1, ?_⟩
        have h3 := this.2
        unfold ClientAgent.history at h3
        rw [show ClientAgent.step k a (AgentCall.accept remote local_addr) =
          a.handle_accept k remote local_addr from rfl, h3, hn]
        simp only [accept_count]
        have e1 : a.m_ct.m_next = max + 1 := by omega
        rw [e1]
        simp only [Nat.min_def]
        split_ifs <;> omega
    | disconnect index =>
      have hn : (a.network_disconnect index).m_ct.m_next = a.m_ct.m_next ∧
          (a.network_disconnect index).m_ct.m_max = a.m_ct.m_max := by
        unfold ClientAgent.network_disconnect
        cases a.clients[index]? with
        | none => exact ⟨rfl, rfl⟩
        | some c => exact ⟨rfl, rfl⟩
      have := ih (a.network_disconnect index) (hn.2.trans h1) (by omega)
      refine ⟨this.1, ?_⟩
      have h3 := this.2
      unfold ClientAgent.history at h3
      rw [show ClientAgent.step k a (AgentCall.disconnect index) =
        a.network_disconnect index from rfl, h3, hn.1]
      simp only [accept_count]

/-- C21 fails as stated. On the range `[1, 2]`, after the range is used up, the session
that is destroyed last holds channel 2 and the next session constructed gets channel 1:
after `exampleFifoHistory` the session with channel 2 exists, the counter is above the
maximum and the free list holds channel 1; when that session is destroyed and a
connection accepted, the new session is connected and has channel 1 as its allocated and
its identity channel, and channel 2 stays in the free list. -/
theorem C21_capacity_and_reuse_counterexample :
    ((ClientAgent.construct 1 2).history exampleConfig exampleFifoHistory).clients.map
      (fun c => c.m_allocated_channel) = [2] ∧
    ((ClientAgent.construct 1 2).history exampleConfig exampleFifoHistory).m_ct =
      { m_next := 3, m_max := 2, m_unused_channels := [1] } ∧
    ((((ClientAgent.construct 1 2).history exampleConfig exampleFifoHistory).network_disconnect
      0).handle_accept exampleConfig [] []).clients.map
        (fun c => (c.m_allocated_channel, c.m_channel, c.connected)) = [(1, 1, true)] ∧
    ((((ClientAgent.construct 1 2).history exampleConfig exampleFifoHistory).network_disconnect
      0).handle_accept exampleConfig [] []).m_ct =
      { m_next := 3, m_max := 2, m_unused_channels := [2] } := by
  decide

/-- The destructor of a session that was rejected at its construction hands 0 to
`free_channel`: after `exampleSentinelHistory` on the range `[1, 1]` no session with a
channel exists and channel 1 is in the free list, but the session constructed last took
the 0 that the rejected session left in the list, and was rejected. -/
theorem history_sentinel_freed :
    ((ClientAgent.construct 1 1).history exampleConfig (exampleSentinelHistory.take 4)).m_ct =
      { m_next := 2, m_max := 1, m_unused_channels := [0, 1] } ∧
    ((ClientAgent.construct 1 1).history exampleConfig exampleSentinelHistory).clients.map
      (fun c => (c.m_allocated_channel, c.m_channel, c.connected)) = [(0, 0, false)] ∧
    ((ClientAgent.construct 1 1).history exampleConfig exampleSentinelHistory).m_ct =
      { m_next := 2, m_max := 1, m_unused_channels := [1] } := by
  decide

/-- With the counter above the maximum and an empty free list, the session constructed
next is rejected and the tracker does not change. -/
theorem handle_accept_rejected (k : Config) (a : ClientAgent)
    (hgt : a.m_ct.m_max < a.m_ct.m_next) (hu : a.m_ct.m_unused_channels = [])
    (remote local_addr : List Nat) :
    ∃ c : Client,
      a.handle_accept k remote local_addr = { m_ct := a.m_ct, clients := a.clients ++ [c] } ∧
      c.m_channel = 0 ∧ c.m_allocated_channel = 0 ∧ c.connected = false ∧
      c.subscriptions = [] ∧ c.md_out = [] ∧
      c.net_out = [add_uint16 k.CLIENT_EJECT ++ add_uint16 k.CLIENT_DISCONNECT_GENERIC ++
        add_string (string_bytes "Client capacity reached")] := by
  have he := (alloc_channel_of_gt a.m_ct hgt).2 hu
  have h0 : a.m_ct.alloc_channel.1 = 0 := by rw [he]
  refine ⟨(Client.construct k a.m_ct remote local_addr).1, ?_,
    construct_of_zero k a.m_ct remote local_addr h0⟩
  unfold ClientAgent.handle_accept ClientFactory.create
  rw [(construct_allocated k a.m_ct remote local_addr).2, he]

/-- With the counter above the maximum and a channel other than 0 at the head of the free
list, the session constructed next gets that channel, which leaves the free list. -/
theorem handle_accept_reuses (k : Config) (a : ClientAgent)
    (hgt : a.m_ct.m_max < a.m_ct.m_next) (ch : Nat) (rest : List Nat)
    (hu : a.m_ct.m_unused_channels = ch :: rest) (hne : ch ≠ 0)
    (remote local_addr : List Nat) :
    ∃ c : Client,
      a.handle_accept k remote local_addr =
        { m_ct := { a.m_ct with m_unused_channels := rest }, clients := a.clients ++ [c] } ∧
      c.m_channel = ch ∧ c.m_allocated_channel = ch ∧ c.connected = true ∧
      c.subscriptions = set_insert [ch] k.BCHAN_CLIENTS ∧ c.net_out = [] := by
  have he := (alloc_channel_of_gt a.m_ct hgt).1 ch rest hu
  have h0 : a.m_ct.alloc_channel.1 = ch := by rw [he]
  have hc := construct_of_ne_zero k a.m_ct remote local_addr (by rw [h0]; exact hne)
  rw [h0] at hc
  refine ⟨(Client.construct k a.m_ct remote local_addr).1, ?_, hc⟩
  unfold ClientAgent.handle_accept ClientFactory.create
  rw [(construct_allocated k a.m_ct remote local_addr).2, he]

/-- C21, amended: for every allocator configured with min ≤ max < 2^64 - 1 and every
history of constructions and destructions of sessions in which at least max - min + 1
sessions were constructed, the counter of the tracker is above the maximum. In that
state: when the free list is empty, the session constructed next is ejected with the
reason GENERIC and the text "Client capacity reached", has no channel, subscribes to
nothing, sends nothing on the bus and leaves the tracker as it is; when the head of the
free list is a channel other than 0, the session constructed next is connected, has that
channel as its allocated and its identity channel and is subscribed to it and to the
broadcast channel; so when the free list is empty and a session that holds a channel
other than 0 is destroyed, the session constructed next gets that channel and the free
list is empty again. -/
theorem C21_capacity_and_reuse (k : Config) (min max : Nat) (calls : List AgentCall)
    (a : ClientAgent) (h2 : min ≤ max) (h3 : max < 18446744073709551615)
    (ha : a = (ClientAgent.construct min max).history k calls)
    (hcount : max + 1 - min ≤ accept_count calls) :
    a.m_ct.m_max < a.m_ct.m_next ∧
    (a.m_ct.m_unused_channels = [] → ∀ remote local_addr : List Nat, ∃ c : Client,
      a.handle_accept k remote local_addr = { m_ct := a.m_ct, clients := a.clients ++ [c] } ∧
      c.m_channel = 0 ∧ c.m_allocated_channel = 0 ∧ c.connected = false ∧
      c.subscriptions = [] ∧ c.md_out = [] ∧
      c.net_out = [add_uint16 k.CLIENT_EJECT ++ add_uint16 k.CLIENT_DISCONNECT_GENERIC ++
        add_string (string_bytes "Client capacity reached")]) ∧
    (∀ (ch : Nat) (rest : List Nat), a.m_ct.m_unused_channels = ch :: rest → ch ≠ 0 →
      ∀ remote local_addr : List Nat, ∃ c : Client,
        a.handle_accept k remote local_addr =
          { m_ct := { a.m_ct with m_unused_channels := rest }, clients := a.clients ++ [c] } ∧
        c.m_channel = ch ∧ c.m_allocated_channel = ch ∧ c.connected = true ∧
        c.subscriptions = set_insert [ch] k.BCHAN_CLIENTS ∧ c.net_out = []) ∧
    (a.m_ct.m_unused_channels = [] → ∀ (index : Nat) (s : Client),
      a.clients[index]? = some s → s.m_allocated_channel ≠ 0 →
      ∀ remote local_addr : List Nat, ∃ c : Client,
        (a.network_disconnect index).handle_accept k remote local_addr =
          { m_ct := a.m_ct, clients := a.clients.eraseIdx index ++ [c] } ∧
        c.m_channel = s.m_allocated_channel ∧ c.m_allocated_channel = s.m_allocated_channel ∧
        c.connected = true ∧
        c.subscriptions = set_insert [s.m_allocated_channel] k.BCHAN_CLIENTS ∧
        c.net_out = []) := by
  have hgt : a.m_ct.m_max < a.m_ct.m_next := by
    have h := history_m_next k max h3 calls (ClientAgent.construct min max) rfl
      (by show min ≤ max + 1; omega)
    rw [← ha] at h
    rw [h.1, h.2]
    have e : (ClientAgent.construct min max).m_ct.m_next = min := rfl
    rw [e]
    simp only [Nat.min_def]
    split_ifs <;> omega
  refine ⟨hgt, fun hu remote local_addr => handle_accept_rejected k a hgt hu remote local_addr,
    fun ch rest hu hne remote local_addr =>
      handle_accept_reuses k a hgt ch rest hu hne remote local_addr, ?_⟩
  intro hu index s hs hne remote local_addr
  have hd : a.network_disconnect index =
      { m_ct := s.destruct a.m_ct, clients := a.clients.eraseIdx index } := by
    unfold ClientAgent.network_disconnect
    rw [hs]
  have hu2 : (a.network_disconnect index).m_ct.m_unused_channels =
      s.m_allocated_channel :: [] := by
    rw [hd]
    show a.m_ct.m_unused_channels ++ [s.m_allocated_channel] = _
    rw [hu]
    rfl
  have hgt2 : (a.network_disconnect index).m_ct.m_max < (a.network_disconnect index).m_ct.m_next := by
    rw [hd]
    exact hgt
  obtain ⟨c, hc, hrest⟩ := handle_accept_reuses k (a.network_disconnect index) hgt2
    s.m_allocated_channel [] hu2 hne remote local_addr
  refine ⟨c, ?_, hrest⟩
  rw [hc, hd]
  have e : ({ s.destruct a.m_ct with m_unused_channels := [] } : ChannelTracker) = a.m_ct := by
    cases hm : a.m_ct with
    | mk n m u =>
      rw [hm] at hu
      simp only at hu
      subst hu
      rfl
  simp only [e]

/-- C21, amended, at a concrete input: in `exampleFull` the range `[1, 2]` is used up and
the free list is empty; a connection accepted now is rejected with the frame
CLIENT_EJECT, GENERIC, "Client capacity reached"; when the session with channel 2 is
destroyed first, the session constructed next gets channel 2. -/
theorem C21_capacity_and_reuse_witness :
    exampleFull.m_ct.m_max < exampleFull.m_ct.m_next ∧
    (∃ c : Client,
      exampleFull.handle_accept exampleConfig [] [] =
        { m_ct := exampleFull.m_ct, clients := exampleFull.clients ++ [c] } ∧
      c.m_channel = 0 ∧ c.m_allocated_channel = 0 ∧ c.connected = false ∧
      c.subscriptions = [] ∧ c.md_out = [] ∧
      c.net_out = [add_uint16 exampleConfig.CLIENT_EJECT ++
        add_uint16 exampleConfig.CLIENT_DISCONNECT_GENERIC ++
        add_string (string_bytes "Client capacity reached")]) ∧
    (∃ c : Client,
      (exampleFull.network_disconnect 1).handle_accept exampleConfig [] [] =
        { m_ct := exampleFull.m_ct, clients := exampleFull.clients.eraseIdx 1 ++ [c] } ∧
      c.m_channel = 2 ∧ c.m_allocated_channel = 2 ∧ c.connected = true ∧
      c.subscriptions = set_insert [2] exampleConfig.BCHAN_CLIENTS ∧ c.net_out = []) :=
  ⟨(C21_capacity_and_reuse exampleConfig 1 2 [AgentCall.accept [] [], AgentCall.accept [] []]
      exampleFull (by decide) (by decide) rfl (by decide)).1,
    (C21_capacity_and_reuse exampleConfig 1 2 [AgentCall.accept [] [], AgentCall.accept [] []]
      exampleFull (by decide) (by decide) rfl (by decide)).2.1 (by decide) [] [],
    (C21_capacity_and_reuse exampleConfig 1 2 [AgentCall.accept [] [], AgentCall.accept [] []]
      exampleFull (by decide) (by decide) rfl (by decide)).2.2.2 (by decide) 1
      (Client.construct exampleConfig { m_next := 2, m_max := 2, m_unused_channels := [] }
        [] []).1 (by decide) (by decide) [] []⟩

end Astron
